import Mathlib

/-!
# Smart-OS core: EDF scheduler, semaphores, mutexes, memory pool, message queue, timers

A shallow embedding of `src/core/smart_core.c`, `src/core/smart_sync.c`,
`src/core/smart_mempool.c`, `src/core/smart_msgqueue.c` and
`src/core/smart_timer.c`.

* TCBs live in a memory `Nat → smart_task` (address ↦ object); a task pointer
  is an `Option Nat`, `none` being `NULL`.  The single intrusive link field
  `next` is kept as a pointer, exactly as in the C structure.
* `uint32_t` values are natural numbers; additions and subtractions that can
  wrap are reduced with `wrap32`.
* Every C loop that follows pointers takes a `fuel` argument; a result of
  `none` means that the C function does not return (fuel exhausted on a cyclic
  list, a `NULL` dereference, or the permanent halt of the stack-guard check);
  in the memory pool and the message queue `none` stands for a division by
  zero.
-/

namespace SmartOS

/-! ## Data model (smart_core.h, smart_sync.h) -/

def TASK_STATE_INIT : Nat := 0
def TASK_STATE_READY : Nat := 1
def TASK_STATE_RUNNING : Nat := 2
def TASK_STATE_WAITING : Nat := 3
def TASK_STATE_DELAYED : Nat := 5
def TASK_STATE_SUSPEND : Nat := 4

def STACK_GUARD_PATTERN : Nat := 0xDEADBEEF

/-- Reduction of a natural number to a `uint32_t` value. -/
def wrap32 (x : Nat) : Nat := x % 4294967296

/-- The structure `struct smart_task`.  Pointers to code and to stack memory are
addresses (`0` is `NULL`); `guard_word` is the memory word that `stack_guard`
points to. -/
structure smart_task where
  sp : Nat
  entry : Nat
  parameter : Nat
  stack_addr : Nat
  stack_size : Nat
  stack_guard : Nat
  guard_word : Nat
  deadline : Nat
  period : Nat
  arrival : Nat
  wakeup_time : Nat
  state : Nat
  switch_count : Nat
  min_free_stack : Nat
  exec_start_time : Nat
  last_exec_time : Nat
  avg_exec_time : Nat
  max_exec_time : Nat
  deadline_miss_count : Nat
  next : Option Nat
  deriving DecidableEq, Repr

/-- A zero-initialised TCB (static storage before `smart_task_create`). -/
def smart_task.zero : smart_task :=
  { sp := 0, entry := 0, parameter := 0, stack_addr := 0, stack_size := 0,
    stack_guard := 0, guard_word := 0, deadline := 0, period := 0, arrival := 0,
    wakeup_time := 0, state := 0, switch_count := 0, min_free_stack := 0,
    exec_start_time := 0, last_exec_time := 0, avg_exec_time := 0,
    max_exec_time := 0, deadline_miss_count := 0, next := none }

/-- Write the `next` field of a TCB. -/
def smart_task.setNext (t : smart_task) (n : Option Nat) : smart_task := { t with next := n }

/-- Write the `state` field of a TCB. -/
def smart_task.setState (t : smart_task) (st : Nat) : smart_task := { t with state := st }

/-- Write the `deadline` field of a TCB. -/
def smart_task.setDeadline (t : smart_task) (d : Nat) : smart_task := { t with deadline := d }

/-- Address of the static object `idle_task` of smart_core.c. -/
def idle_task : Nat := 0

/-- The global variables of smart_core.c together with the TCB memory.
`pendsv_pending` records that `trigger_pend_sv` has been called. -/
structure Kernel where
  tasks : Nat → smart_task
  current_task : Option Nat
  next_task : Option Nat
  task_list : Option Nat
  scheduler_started : Bool
  os_tick : Nat
  critical_nesting : Nat
  irq_enabled : Bool
  pendsv_pending : Bool

/-- Replace the TCB memory of a kernel state. -/
def setTasks (k : Kernel) (mem : Nat → smart_task) : Kernel := { k with tasks := mem }

/-- Replace `current_task`: the running task changes (the context switch done
by the PendSV handler, which is assembly code). -/
def setCurrent (k : Kernel) (c : Option Nat) : Kernel := { k with current_task := c }

/-- Store `t` at address `a`. -/
def upd (mem : Nat → smart_task) (a : Nat) (t : smart_task) : Nat → smart_task :=
  fun x => if x = a then t else mem x

inductive smart_sync_status_t where
  | SMART_SYNC_OK
  | SMART_SYNC_TIMEOUT
  | SMART_SYNC_ERROR
  deriving DecidableEq, Repr

open smart_sync_status_t

structure smart_semaphore_t where
  count : Nat
  max_count : Nat
  wait_list : Option Nat
  deriving DecidableEq, Repr

structure smart_mutex_t where
  locked : Nat
  owner : Option Nat
  lock_count : Nat
  original_deadline : Nat
  wait_list : Option Nat
  deriving DecidableEq, Repr

/-! ## smart_core.c -/

def smart_enter_critical (k : Kernel) : Kernel :=
  { k with irq_enabled := false, critical_nesting := wrap32 (k.critical_nesting + 1) }

def smart_exit_critical (k : Kernel) : Kernel :=
  if k.critical_nesting > 0 then
    if k.critical_nesting - 1 = 0 then
      { k with critical_nesting := k.critical_nesting - 1, irq_enabled := true }
    else
      { k with critical_nesting := k.critical_nesting - 1 }
  else k

/-- Function `smart_stack_guard_init`: place the guard word at the 4-aligned
bottom of the stack region. -/
def smart_stack_guard_init (t : smart_task) : smart_task :=
  if t.stack_addr = 0 then t
  else { t with stack_guard := wrap32 (t.stack_addr + 3) / 4 * 4,
                guard_word := STACK_GUARD_PATTERN }

/-- Function `smart_stack_guard_check`: `true` when the check returns, `false`
when it halts the system. -/
def smart_stack_guard_check (mem : Nat → smart_task) (task : Option Nat) : Bool :=
  match task with
  | none => true
  | some a =>
    if (mem a).stack_guard = 0 then true
    else decide ((mem a).guard_word = STACK_GUARD_PATTERN)

def smart_task_update_watermark (t : smart_task) : smart_task :=
  if t.stack_addr = 0 ∨ t.sp = 0 then t
  else if t.sp > t.stack_addr then
    if t.sp - t.stack_addr < t.min_free_stack then
      { t with min_free_stack := t.sp - t.stack_addr }
    else t
  else t

/-- Function `hw_stack_init`: sixteen 32-bit words are pushed below `stack_addr`. -/
def hw_stack_init (stack_addr : Nat) : Nat := wrap32 (stack_addr + 4294967296 - 64)

/-- Function `smart_task_create`; `task` is the address of the TCB. -/
def smart_task_create (k : Kernel) (task entry param stack stack_size period
    relative_deadline : Nat) : Kernel :=
  let k1 := smart_enter_critical k
  let ptr := wrap32 (stack + stack_size) / 8 * 8
  let t : smart_task :=
    { (k1.tasks task) with
      sp := hw_stack_init ptr,
      entry := entry,
      parameter := param,
      stack_addr := stack,
      stack_size := stack_size,
      stack_guard := 0,
      period := period,
      switch_count := 0,
      min_free_stack := stack_size,
      exec_start_time := 0,
      last_exec_time := 0,
      avg_exec_time := 0,
      max_exec_time := 0,
      deadline_miss_count := 0,
      arrival := k1.os_tick,
      wakeup_time := 0,
      deadline := if period > 0 then wrap32 (k1.os_tick + relative_deadline) else 0xFFFFFFFF,
      state := TASK_STATE_READY }
  let t1 := smart_stack_guard_init t
  let t2 := { t1 with next := k1.task_list }
  smart_exit_critical { k1 with tasks := upd k1.tasks task t2, task_list := some task }

/-- Function `smart_os_init` (the software-timer pool it also resets is a separate
object).  `mem` is the TCB memory at boot, `idle_task_entry` the address of the
idle function and `idle_stack` the address of the 256-byte idle stack. -/
def smart_os_init (mem : Nat → smart_task) (idle_task_entry idle_stack : Nat) : Kernel :=
  let k0 : Kernel :=
    { tasks := mem, current_task := none, next_task := none, task_list := none,
      scheduler_started := false, os_tick := 0, critical_nesting := 0,
      irq_enabled := true, pendsv_pending := false }
  let k1 := smart_task_create k0 idle_task idle_task_entry 0 idle_stack 256 0 0xFFFFFFFF
  let t : smart_task := { (k1.tasks idle_task) with state := TASK_STATE_READY }
  { k1 with tasks := upd k1.tasks idle_task t }

/-- The scan loop of `smart_schedule` (lines 266-277): `node`, `best` and
`min_deadline` are the local variables; the result is the final `best`. -/
def schedule_scan (mem : Nat → smart_task) :
    Nat → Option Nat → Option Nat → Nat → Option (Option Nat)
  | _, none, best, _ => some best
  | 0, some _, _, _ => none
  | fuel + 1, some a, best, min_deadline =>
    if (mem a).state = TASK_STATE_READY then
      if (mem a).deadline < min_deadline then
        schedule_scan mem fuel (mem a).next (some a) (mem a).deadline
      else schedule_scan mem fuel (mem a).next best min_deadline
    else schedule_scan mem fuel (mem a).next best min_deadline

/-- Bookkeeping of `smart_schedule` for the outgoing task (lines 303-336). -/
def switch_out_stats (os_tick : Nat) (t : smart_task) : smart_task :=
  let exec_time := wrap32 (os_tick + 4294967296 - t.exec_start_time)
  let t1 := { t with last_exec_time := exec_time }
  let t2 := if exec_time > t1.max_exec_time then { t1 with max_exec_time := exec_time } else t1
  let t3 :=
    if t2.avg_exec_time = 0 then { t2 with avg_exec_time := exec_time }
    else { t2 with avg_exec_time := wrap32 (exec_time + 7 * t2.avg_exec_time) / 8 }
  let t4 :=
    if os_tick > t3.deadline ∧ t3.period > 0 then
      { t3 with deadline_miss_count := wrap32 (t3.deadline_miss_count + 1) }
    else t3
  let t5 := smart_task_update_watermark t4
  { t5 with switch_count := wrap32 (t5.switch_count + 1) }

/-- TCB writes of `smart_schedule` when the selection changes (lines 303-342):
statistics of the outgoing task, then `exec_start_time` of the incoming one. -/
def switch_bookkeeping (mem : Nat → smart_task) (current : Option Nat) (best os_tick : Nat) :
    Nat → smart_task :=
  let mem1 := match current with
    | some c => upd mem c (switch_out_stats os_tick (mem c))
    | none => mem
  upd mem1 best { (mem1 best) with exec_start_time := os_tick }

/-- Function `smart_schedule`. -/
def smart_schedule (fuel : Nat) (k : Kernel) : Option Kernel :=
  match schedule_scan k.tasks fuel k.task_list none 0xFFFFFFFF with
  | none => none
  | some found =>
    let best : Nat := found.getD idle_task
    let k1 := { k with next_task := some best }
    if k1.scheduler_started = false then
      if k1.current_task = none then some { k1 with current_task := some best }
      else some k1
    else if k1.current_task ≠ k1.next_task then
      let mem2 := switch_bookkeeping k1.tasks k1.current_task best k1.os_tick
      if smart_stack_guard_check mem2 k1.current_task = false then none
      else if smart_stack_guard_check mem2 k1.next_task = false then none
      else some { k1 with tasks := mem2, pendsv_pending := true }
    else some k1

def smart_get_current_task (k : Kernel) : Option Nat := k.current_task

/-- The TCB writes of `smart_task_yield` on the current task (lines 356-366). -/
def yield_update (t : smart_task) : smart_task :=
  if t.period > 0 then
    { t with state := TASK_STATE_WAITING,
             arrival := wrap32 (t.arrival + t.period),
             deadline := wrap32 (t.deadline + t.period) }
  else { t with state := TASK_STATE_READY }

/-- Function `smart_task_yield`.  `current_task` is dereferenced without a
check, so a `NULL` current task gives no result. -/
def smart_task_yield (fuel : Nat) (k : Kernel) : Option Kernel :=
  let k1 := smart_enter_critical k
  match k1.current_task with
  | none => none
  | some c =>
    match smart_schedule fuel
        (setTasks k1 (upd k1.tasks c (yield_update (k1.tasks c)))) with
    | none => none
    | some k2 => some (smart_exit_critical k2)

/-- Function `smart_os_start` up to the jump into the first task: the first
`smart_schedule` fixes `current_task`, then `scheduler_started` is set and
`start_first_task` (assembly) resumes that task.  Without a task the function
spins forever. -/
def smart_os_start (fuel : Nat) (k : Kernel) : Option Kernel :=
  match smart_schedule fuel k with
  | none => none
  | some k1 =>
    if k1.current_task ≠ none then some { k1 with scheduler_started := true }
    else none

def smart_get_tick (k : Kernel) : Nat := k.os_tick

/-- Function `smart_delay`. -/
def smart_delay (fuel : Nat) (k : Kernel) (ticks : Nat) : Option Kernel :=
  if ticks = 0 then some k
  else
    let k1 := smart_enter_critical k
    match k1.current_task with
    | some c =>
      let t : smart_task :=
        { (k1.tasks c) with wakeup_time := wrap32 (k1.os_tick + ticks),
                            state := TASK_STATE_DELAYED }
      match smart_schedule fuel (setTasks k1 (upd k1.tasks c t)) with
      | none => none
      | some k2 => some (smart_exit_critical k2)
    | none => some (smart_exit_critical k1)

/-- The task-list scan of `SysTick_Handler` (lines 458-482); the Boolean is
`need_sched`. -/
def tick_scan (os_tick : Nat) :
    Nat → (Nat → smart_task) → Option Nat → Bool → Option ((Nat → smart_task) × Bool)
  | _, mem, none, need_sched => some (mem, need_sched)
  | 0, _, some _, _ => none
  | fuel + 1, mem, some a, need_sched =>
    if (mem a).state = TASK_STATE_WAITING then
      if os_tick ≥ (mem a).arrival then
        tick_scan os_tick fuel (upd mem a { (mem a) with state := TASK_STATE_READY })
          (mem a).next true
      else tick_scan os_tick fuel mem (mem a).next need_sched
    else if (mem a).state = TASK_STATE_DELAYED then
      if os_tick ≥ (mem a).wakeup_time then
        tick_scan os_tick fuel (upd mem a { (mem a) with state := TASK_STATE_READY })
          (mem a).next true
      else tick_scan os_tick fuel mem (mem a).next need_sched
    else tick_scan os_tick fuel mem (mem a).next need_sched

/-- Function `SysTick_Handler`, kernel part: `smart_mempool_tick` and
`smart_timer_tick`, which it calls after the increment, work on the pool
registry and on the timer pool. -/
def SysTick_Handler (fuel : Nat) (k : Kernel) : Option Kernel :=
  let k1 := { k with os_tick := wrap32 (k.os_tick + 1) }
  match tick_scan k1.os_tick fuel k1.tasks k1.task_list false with
  | none => none
  | some (mem, need_sched) =>
    let k2 := setTasks k1 mem
    if need_sched then smart_schedule fuel k2 else some k2

/-! ## smart_sync.c -/

/-- The loop `while (node->next != NULL) node = node->next;`. -/
def wait_list_tail (mem : Nat → smart_task) : Nat → Nat → Option Nat
  | 0, _ => none
  | fuel + 1, node =>
    match (mem node).next with
    | none => some node
    | some n => wait_list_tail mem fuel n

/-- Enqueue `current` at the tail of a wait list (smart_sem_wait lines 47-62,
smart_mutex_lock lines 231-245); the result is the memory and the new head. -/
def wait_list_append (fuel : Nat) (mem : Nat → smart_task) (wait_list : Option Nat)
    (current : Nat) : Option ((Nat → smart_task) × Option Nat) :=
  match wait_list with
  | none => some (upd mem current ((mem current).setNext none), some current)
  | some head =>
    match wait_list_tail mem fuel head with
    | none => none
    | some node =>
      let mem1 := upd mem node ((mem node).setNext (some current))
      some (upd mem1 current ((mem1 current).setNext none), some head)

/-- Function `smart_sem_init`; a `NULL` semaphore pointer is `none`. -/
def smart_sem_init (k : Kernel) (sem : Option smart_semaphore_t)
    (initial_count max_count : Nat) : Kernel × Option smart_semaphore_t :=
  match sem with
  | none => (k, none)
  | some s =>
    if max_count = 0 then (k, some s)
    else
      let k1 := smart_enter_critical k
      (smart_exit_critical k1,
        some { count := if initial_count > max_count then max_count else initial_count,
               max_count := max_count, wait_list := none })

/-- Function `smart_sem_wait`. -/
def smart_sem_wait (fuel : Nat) (k : Kernel) (sem : Option smart_semaphore_t) :
    Option (Kernel × Option smart_semaphore_t × smart_sync_status_t) :=
  match sem with
  | none => some (k, none, SMART_SYNC_ERROR)
  | some s =>
    let k1 := smart_enter_critical k
    if s.count > 0 then
      some (smart_exit_critical k1, some { s with count := s.count - 1 }, SMART_SYNC_OK)
    else
      let enqueued : Option ((Nat → smart_task) × Option Nat) :=
        match smart_get_current_task k1 with
        | some current =>
          wait_list_append fuel
            (upd k1.tasks current ((k1.tasks current).setState TASK_STATE_WAITING))
            s.wait_list current
        | none => some (k1.tasks, s.wait_list)
      match enqueued with
      | none => none
      | some (mem2, wl) =>
        match smart_task_yield fuel (smart_exit_critical (setTasks k1 (mem2))) with
        | none => none
        | some k3 => some (k3, some { s with wait_list := wl }, SMART_SYNC_OK)

/-- Function `smart_sem_try_wait`. -/
def smart_sem_try_wait (k : Kernel) (sem : Option smart_semaphore_t) :
    Kernel × Option smart_semaphore_t × smart_sync_status_t :=
  match sem with
  | none => (k, none, SMART_SYNC_ERROR)
  | some s =>
    let k1 := smart_enter_critical k
    if s.count > 0 then
      (smart_exit_critical k1, some { s with count := s.count - 1 }, SMART_SYNC_OK)
    else (smart_exit_critical k1, some s, SMART_SYNC_TIMEOUT)

/-- Function `smart_sem_post`. -/
def smart_sem_post (fuel : Nat) (k : Kernel) (sem : Option smart_semaphore_t) :
    Option (Kernel × Option smart_semaphore_t × smart_sync_status_t) :=
  match sem with
  | none => some (k, none, SMART_SYNC_ERROR)
  | some s =>
    let k1 := smart_enter_critical k
    match s.wait_list with
    | some task =>
      let s1 := { s with wait_list := (k1.tasks task).next }
      let mem1 := upd k1.tasks task
        (((k1.tasks task).setNext none).setState TASK_STATE_READY)
      match smart_schedule fuel (smart_exit_critical (setTasks k1 (mem1))) with
      | none => none
      | some k3 => some (k3, some s1, SMART_SYNC_OK)
    | none =>
      let s1 := if s.count < s.max_count then { s with count := s.count + 1 } else s
      some (smart_exit_critical k1, some s1, SMART_SYNC_OK)

def smart_sem_get_count (sem : Option smart_semaphore_t) : Nat :=
  match sem with
  | none => 0
  | some s => s.count

/-- Function `smart_mutex_init`. -/
def smart_mutex_init (k : Kernel) (mutex : Option smart_mutex_t) :
    Kernel × Option smart_mutex_t :=
  match mutex with
  | none => (k, none)
  | some _ =>
    (smart_exit_critical (smart_enter_critical k),
      some { locked := 0, owner := none, lock_count := 0, original_deadline := 0,
             wait_list := none })

/-- Deadline donation and blocking of `smart_mutex_lock` (lines 223-229): the
owner inherits the caller's deadline when that is smaller, then the caller is
marked Waiting. -/
def lock_donate (mem : Nat → smart_task) (current owner : Nat) : Nat → smart_task :=
  let mem1 :=
    if (mem current).deadline < (mem owner).deadline then
      upd mem owner ((mem owner).setDeadline (mem current).deadline)
    else mem
  upd mem1 current ((mem1 current).setState TASK_STATE_WAITING)

/-- Function `smart_mutex_lock`.  On the contended path `mutex->owner` is
dereferenced, so a locked mutex with a `NULL` owner gives no result. -/
def smart_mutex_lock (fuel : Nat) (k : Kernel) (mutex : Option smart_mutex_t) :
    Option (Kernel × Option smart_mutex_t × smart_sync_status_t) :=
  match mutex with
  | none => some (k, none, SMART_SYNC_ERROR)
  | some m =>
    match smart_get_current_task k with
    | none => some (k, some m, SMART_SYNC_ERROR)
    | some current =>
      let k1 := smart_enter_critical k
      if m.locked = 0 then
        some (smart_exit_critical k1,
          some { m with locked := 1, owner := some current, lock_count := 1,
                        original_deadline := (k1.tasks current).deadline },
          SMART_SYNC_OK)
      else if m.owner = some current then
        some (smart_exit_critical k1,
          some { m with lock_count := wrap32 (m.lock_count + 1) }, SMART_SYNC_OK)
      else
        match m.owner with
        | none => none
        | some owner =>
          match wait_list_append fuel (lock_donate k1.tasks current owner) m.wait_list
              current with
          | none => none
          | some (mem3, wl) =>
            match smart_task_yield fuel (smart_exit_critical (setTasks k1 mem3)) with
            | none => none
            | some k3 => some (k3, some { m with wait_list := wl }, SMART_SYNC_OK)

/-- Function `smart_mutex_try_lock`. -/
def smart_mutex_try_lock (k : Kernel) (mutex : Option smart_mutex_t) :
    Kernel × Option smart_mutex_t × smart_sync_status_t :=
  match mutex with
  | none => (k, none, SMART_SYNC_ERROR)
  | some m =>
    match smart_get_current_task k with
    | none => (k, some m, SMART_SYNC_ERROR)
    | some current =>
      let k1 := smart_enter_critical k
      if m.locked = 0 then
        (smart_exit_critical k1,
          some { m with locked := 1, owner := some current, lock_count := 1,
                        original_deadline := (k1.tasks current).deadline },
          SMART_SYNC_OK)
      else if m.owner = some current then
        (smart_exit_critical k1,
          some { m with lock_count := wrap32 (m.lock_count + 1) }, SMART_SYNC_OK)
      else (smart_exit_critical k1, some m, SMART_SYNC_TIMEOUT)

/-- The scan of `smart_mutex_unlock` for the waiter with the smallest deadline
(lines 366-375); arguments `node`, `best`, `prev_best`, `prev`; the result is
the final `(best, prev_best)`. -/
def unlock_scan (mem : Nat → smart_task) :
    Nat → Option Nat → Nat → Option Nat → Option Nat → Option (Nat × Option Nat)
  | _, none, best, prev_best, _ => some (best, prev_best)
  | 0, some _, _, _, _ => none
  | fuel + 1, some node, best, prev_best, prev =>
    if (mem node).deadline < (mem best).deadline then
      unlock_scan mem fuel (mem node).next node prev (some node)
    else unlock_scan mem fuel (mem node).next best prev_best (some node)

/-- Removal of `best` from the wait list and its wake-up (smart_mutex_unlock
lines 378-388); the result is the memory and the new list head. -/
def wait_list_unlink (mem : Nat → smart_task) (head best : Nat) (prev_best : Option Nat) :
    (Nat → smart_task) × Option Nat :=
  let unlinked : (Nat → smart_task) × Option Nat :=
    match prev_best with
    | none => (mem, (mem best).next)
    | some pb => (upd mem pb ((mem pb).setNext (mem best).next), some head)
  (upd unlinked.1 best (((unlinked.1 best).setNext none).setState TASK_STATE_READY),
    unlinked.2)

/-- Function `smart_mutex_unlock`. -/
def smart_mutex_unlock (fuel : Nat) (k : Kernel) (mutex : Option smart_mutex_t) :
    Option (Kernel × Option smart_mutex_t × smart_sync_status_t) :=
  match mutex with
  | none => some (k, none, SMART_SYNC_ERROR)
  | some m =>
    match smart_get_current_task k with
    | none => some (k, some m, SMART_SYNC_ERROR)
    | some current =>
      let k1 := smart_enter_critical k
      if m.owner ≠ some current then some (smart_exit_critical k1, some m, SMART_SYNC_ERROR)
      else
        let m1 := { m with lock_count := wrap32 (m.lock_count + 4294967296 - 1) }
        if m1.lock_count > 0 then some (smart_exit_critical k1, some m1, SMART_SYNC_OK)
        else
          let mem1 := upd k1.tasks current
            ((k1.tasks current).setDeadline m1.original_deadline)
          match m1.wait_list with
          | some head =>
            match unlock_scan mem1 fuel (some head) head none none with
            | none => none
            | some (best, prev_best) =>
              let r := wait_list_unlink mem1 head best prev_best
              let m2 := { m1 with wait_list := r.2, owner := some best, lock_count := 1,
                                  original_deadline := (r.1 best).deadline }
              match smart_schedule fuel (smart_exit_critical (setTasks k1 r.1)) with
              | none => none
              | some k3 => some (k3, some m2, SMART_SYNC_OK)
          | none =>
            some (smart_exit_critical (setTasks k1 mem1),
              some { m1 with locked := 0, owner := none }, SMART_SYNC_OK)

def smart_mutex_is_locked (mutex : Option smart_mutex_t) : Nat :=
  match mutex with
  | none => 0
  | some m => m.locked

/-! ## Call sequences -/

/-- The tasks of `ts` call `smart_sem_wait` on the same semaphore one after the
other, each of them being the running task when it calls. -/
def sem_wait_all (fuel : Nat) : List Nat → Kernel → smart_semaphore_t →
    Option (Kernel × smart_semaphore_t)
  | [], k, s => some (k, s)
  | t :: ts, k, s =>
    match smart_sem_wait fuel (setCurrent k (some t)) (some s) with
    | some (k', some s', _) => sem_wait_all fuel ts k' s'
    | _ => none

/-- `n` successive calls of `smart_sem_post` on the same semaphore. -/
def sem_post_n (fuel : Nat) : Nat → Kernel → smart_semaphore_t →
    Option (Kernel × smart_semaphore_t)
  | 0, k, s => some (k, s)
  | n + 1, k, s =>
    match smart_sem_post fuel k (some s) with
    | some (k', some s', _) => sem_post_n fuel n k' s'
    | _ => none

/-- The tasks of `us` call `smart_mutex_lock` on the same mutex one after the
other, each of them being the running task when it calls. -/
def mutex_lock_all (fuel : Nat) : List Nat → Kernel → smart_mutex_t →
    Option (Kernel × smart_mutex_t)
  | [], k, m => some (k, m)
  | u :: us, k, m =>
    match smart_mutex_lock fuel (setCurrent k (some u)) (some m) with
    | some (k', some m', _) => mutex_lock_all fuel us k' m'
    | _ => none

/-- A call on one mutex by the task that is running at that moment. -/
inductive MutexOp where
  | lock (t : Nat)
  | try_lock (t : Nat)
  | unlock (t : Nat)
  deriving DecidableEq, Repr

/-- The calling task of a mutex operation. -/
def MutexOp.caller : MutexOp → Nat
  | .lock t => t
  | .try_lock t => t
  | .unlock t => t

/-- Kernel and mutex together with a history variable: `donations` lists the
deadlines that the callers of a contended `smart_mutex_lock` had at their call,
since the present owner acquired the mutex. -/
structure MutexState where
  k : Kernel
  m : smart_mutex_t
  donations : List Nat

/-- One mutex call.  A call that does not return leaves no new state.  The
history is emptied when ownership starts (lock of a free mutex, final unlock)
and extended by the caller's deadline on a contended lock. -/
def mutexStep (fuel : Nat) (st : MutexState) : MutexOp → MutexState
  | .lock t =>
    match smart_mutex_lock fuel (setCurrent st.k (some t)) (some st.m) with
    | some (k', some m', _) =>
      { k := k', m := m',
        donations :=
          if st.m.locked = 0 then []
          else if st.m.owner = some t then st.donations
          else (st.k.tasks t).deadline :: st.donations }
    | _ => st
  | .try_lock t =>
    match smart_mutex_try_lock (setCurrent st.k (some t)) (some st.m) with
    | (k', some m', _) =>
      { k := k', m := m', donations := if st.m.locked = 0 then [] else st.donations }
    | _ => st
  | .unlock t =>
    match smart_mutex_unlock fuel (setCurrent st.k (some t)) (some st.m) with
    | some (k', some m', _) =>
      { k := k', m := m',
        donations :=
          if st.m.owner = some t ∧ wrap32 (st.m.lock_count + 4294967296 - 1) = 0 then []
          else st.donations }
    | _ => st

/-- The state after `smart_mutex_init` on the mutex object `m0`. -/
def mutexInit (k : Kernel) (m0 : smart_mutex_t) : MutexState :=
  { k := (smart_mutex_init k (some m0)).1,
    m := ((smart_mutex_init k (some m0)).2).getD m0,
    donations := [] }

/-- A sequence of calls on one mutex. -/
def mutexRun (fuel : Nat) : List MutexOp → MutexState → MutexState
  | [], st => st
  | op :: ops, st => mutexRun fuel ops (mutexStep fuel st op)

/-! ## Specification vocabulary -/

/-- Linked list segment: following `next` from the pointer `p` visits exactly
the nodes of `l`, in that order, and then arrives at the pointer `q`. -/
def isSeg (mem : Nat → smart_task) : Option Nat → List Nat → Option Nat → Prop
  | p, [], q => p = q
  | p, a :: l, q => p = some a ∧ isSeg mem (mem a).next l q

instance isSeg.decidable (mem : Nat → smart_task) :
    ∀ (p : Option Nat) (l : List Nat) (q : Option Nat), Decidable (isSeg mem p l q)
  | p, [], q => inferInstanceAs (Decidable (p = q))
  | p, a :: l, q =>
    have := isSeg.decidable mem (mem a).next l q
    inferInstanceAs (Decidable (p = some a ∧ isSeg mem (mem a).next l q))

/-- A `NULL`-terminated linked list: following `next` from `p` visits exactly
the nodes of `l`, in that order, and then reaches `NULL`. -/
def isChain (mem : Nat → smart_task) (p : Option Nat) (l : List Nat) : Prop :=
  isSeg mem p l none

instance isChain.decidable (mem : Nat → smart_task) (p : Option Nat) (l : List Nat) :
    Decidable (isChain mem p l) :=
  isSeg.decidable mem p l none

/-- The fields of a TCB that the bookkeeping of `smart_schedule` never writes. -/
def smart_task.core (t : smart_task) :
    Nat × Nat × Nat × Nat × Nat × Option Nat × Nat × Nat :=
  (t.deadline, t.period, t.arrival, t.wakeup_time, t.state, t.next, t.stack_guard,
    t.guard_word)

/-- The stack guard words of the TCBs at addresses below `N` still hold the
magic pattern. -/
def GuardsIntact (N : Nat) (mem : Nat → smart_task) : Prop :=
  ∀ a < N, smart_stack_guard_check mem (some a) = true

instance GuardsIntact.decidable (N : Nat) (mem : Nat → smart_task) :
    Decidable (GuardsIntact N mem) :=
  inferInstanceAs (Decidable (∀ a < N, smart_stack_guard_check mem (some a) = true))

/-- The deadlines of the TCBs at addresses below `N` are `uint32_t` values. -/
def DeadlinesU32 (N : Nat) (mem : Nat → smart_task) : Prop :=
  ∀ a < N, (mem a).deadline ≤ 0xFFFFFFFF

instance DeadlinesU32.decidable (N : Nat) (mem : Nat → smart_task) :
    Decidable (DeadlinesU32 N mem) :=
  inferInstanceAs (Decidable (∀ a < N, (mem a).deadline ≤ 0xFFFFFFFF))

/-- A task pointer is `NULL` or the address of one of the `N` TCBs. -/
def PtrOk (N : Nat) (p : Option Nat) : Prop := ∀ a, p = some a → a < N

instance PtrOk.decidable (N : Nat) : ∀ p : Option Nat, Decidable (PtrOk N p)
  | none => isTrue (fun _ h => by cases h)
  | some a => if h : a < N then isTrue (fun _ hb => by cases hb; exact h)
              else isFalse (fun hp => h (hp a rfl))

/-- The list of nodes met by following `next` from `p` until `NULL`, when that
takes at most `fuel` steps. -/
def walk (mem : Nat → smart_task) : Nat → Option Nat → Option (List Nat)
  | _, none => some []
  | 0, some _ => none
  | fuel + 1, some a => (walk mem fuel (mem a).next).map (fun l => a :: l)

/-- The `next` fields of the `N` TCBs point to TCBs of the system, and no list
that starts at one of them runs into a cycle. -/
def Acyclic (N : Nat) (mem : Nat → smart_task) : Prop :=
  ∀ a < N, PtrOk N (mem a).next ∧ (walk mem N (some a)).isSome = true

instance Acyclic.decidable (N : Nat) (mem : Nat → smart_task) : Decidable (Acyclic N mem) :=
  inferInstanceAs
    (Decidable (∀ a < N, PtrOk N (mem a).next ∧ (walk mem N (some a)).isSome = true))

/-- Well-formed kernel state over the TCBs at addresses below `N`: the idle
task is one of them, the global pointers are valid, lists are cycle-free and
the stack guards are intact. -/
def KernelOk (N : Nat) (k : Kernel) : Prop :=
  idle_task < N ∧ PtrOk N k.current_task ∧ PtrOk N k.task_list ∧
    Acyclic N k.tasks ∧ GuardsIntact N k.tasks

instance KernelOk.decidable (N : Nat) (k : Kernel) : Decidable (KernelOk N k) :=
  inferInstanceAs (Decidable (idle_task < N ∧ PtrOk N k.current_task ∧
    PtrOk N k.task_list ∧ Acyclic N k.tasks ∧ GuardsIntact N k.tasks))

/-- Invariant of the states reached by calls on one mutex: the kernel is
well-formed, and the mutex is either free without owner or locked with an owner
whose deadline is at most the saved deadline and at most every recorded
donation. -/
def MutexInv (N : Nat) (st : MutexState) : Prop :=
  KernelOk N st.k ∧ PtrOk N st.m.wait_list ∧ st.m.lock_count < 4294967296 ∧
    ((st.m.locked = 0 ∧ st.m.owner = none) ∨
      (st.m.locked ≠ 0 ∧ ∃ O, st.m.owner = some O ∧
        (st.k.tasks O).deadline ≤ st.m.original_deadline ∧
        ∀ d ∈ st.donations, (st.k.tasks O).deadline ≤ d))

/-! ## Concrete systems used as test inputs -/

/-- Boot state: `smart_os_init` on zeroed TCB memory. -/
def bootKernel : Kernel := smart_os_init (fun _ => smart_task.zero) 0x08000100 0x20000000

/-- Scenario 1 of the specification: T1 (period 10, relative deadline 10) at
address 1 and T2 (period 4, relative deadline 4) at address 2. -/
def edfKernel : Kernel :=
  smart_task_create
    (smart_task_create bootKernel 1 0x08000200 0 0x20001000 1024 10 10)
    2 0x08000300 0 0x20002000 1024 4 4

/-- One aperiodic user task (period 0) at address 1 next to the idle task. -/
def aperiodicKernel : Kernel :=
  smart_task_create bootKernel 1 0x08000200 0 0x20001000 1024 0 0

/-- The system of `edfKernel` after `smart_os_start`: T2 (address 2) is running. -/
def startedKernel : Kernel := (smart_os_start 4 edfKernel).getD edfKernel

/-- A semaphore initialised with `smart_sem_init(&sem, 0, 1)`. -/
def emptySem : smart_semaphore_t :=
  ((smart_sem_init startedKernel (some { count := 7, max_count := 7, wait_list := some 9 })
    0 1).2).getD { count := 7, max_count := 7, wait_list := some 9 }

/-- T2 and then T1 have blocked on `emptySem`. -/
def blockedOnSem : Kernel × smart_semaphore_t :=
  (sem_wait_all 4 [2, 1] startedKernel emptySem).getD (startedKernel, emptySem)

/-- Three periodic tasks for the mutex scenarios: L at address 1 (deadline 1000),
H at address 2 (period 50, deadline 100) and X at address 3 (period 50,
deadline 120). -/
def mutexKernel : Kernel :=
  smart_task_create
    (smart_task_create
      (smart_task_create bootKernel 1 0x08000200 0 0x20001000 1024 1000 1000)
      2 0x08000300 0 0x20002000 1024 50 100)
    3 0x08000400 0 0x20003000 1024 50 120

def mutexStarted : Kernel := (smart_os_start 5 mutexKernel).getD mutexKernel

/-- A mutex initialised with `smart_mutex_init`. -/
def freshMutex : smart_mutex_t :=
  ((smart_mutex_init mutexStarted
    (some { locked := 7, owner := some 9, lock_count := 7, original_deadline := 7,
            wait_list := some 9 })).2).getD
    { locked := 7, owner := some 9, lock_count := 7, original_deadline := 7,
      wait_list := some 9 }

/-- Task `t` runs and calls `smart_mutex_lock`. -/
def lockBy (fuel t : Nat) (km : Kernel × smart_mutex_t) : Kernel × smart_mutex_t :=
  match smart_mutex_lock fuel (setCurrent km.1 (some t)) (some km.2) with
  | some (k, some m, _) => (k, m)
  | _ => km

/-- Task `t` runs and calls `smart_mutex_unlock`. -/
def unlockBy (fuel t : Nat) (km : Kernel × smart_mutex_t) : Kernel × smart_mutex_t :=
  match smart_mutex_unlock fuel (setCurrent km.1 (some t)) (some km.2) with
  | some (k, some m, _) => (k, m)
  | _ => km

/-- L holds the mutex. -/
def heldByL : Kernel × smart_mutex_t := lockBy 5 1 (mutexStarted, freshMutex)

/-- H has called lock on the mutex held by L. -/
def contendedByH : Kernel × smart_mutex_t := lockBy 5 2 heldByL

/-- X has called lock as well. -/
def contendedByHX : Kernel × smart_mutex_t := lockBy 5 3 contendedByH

/-- L has unlocked: the mutex is handed over. -/
def handedOver : Kernel × smart_mutex_t := unlockBy 5 1 contendedByHX

/-- Second mutex of the nested scenario: L, holding the first mutex with the
deadline donated by H, locks a second, free mutex. -/
def secondHeldByL : Kernel × smart_mutex_t := lockBy 5 1 (contendedByH.1, freshMutex)

/-- X calls lock on the second mutex and waits for it. -/
def secondContendedByX : Kernel × smart_mutex_t := lockBy 5 3 secondHeldByL

/-- L then unlocks the first mutex (kernel and first mutex). -/
def firstReleasedByL : Kernel × smart_mutex_t :=
  unlockBy 5 1 (secondContendedByX.1, contendedByH.2)

/-- T2 alone has blocked on `emptySem`. -/
def t2Blocked : Kernel × smart_semaphore_t :=
  (sem_wait_all 4 [2] startedKernel emptySem).getD (startedKernel, emptySem)

/-- The aperiodic task of `aperiodicKernel` runs and blocks on `emptySem`. -/
def aperiodicBlocked : Kernel × smart_semaphore_t :=
  (sem_wait_all 3 [1] aperiodicKernel emptySem).getD (aperiodicKernel, emptySem)

/-- `n` runs of the tick handler. -/
def tick_n (fuel : Nat) : Nat → Kernel → Option Kernel
  | 0, k => some k
  | n + 1, k =>
    match SysTick_Handler fuel k with
    | some k' => tick_n fuel n k'
    | none => none

/-! ## smart_mempool.c

Pool objects live in a memory `Nat → smart_mempool_t` (address ↦ object) and a
pool pointer is an `Option Nat`.  Block pointers are addresses (`0` is `NULL`);
`words a` is the pointer-sized word stored at address `a`, which is where a
free block keeps its link.  `uint16_t` fields are reduced with `wrap16`. -/

/-- Reduction of a natural number to a `uint16_t` value. -/
def wrap16 (x : Nat) : Nat := x % 65536

def SMART_MEMPOOL_MAX_POOLS : Nat := 4

inductive smart_mempool_status_t where
  | SMART_MEMPOOL_OK
  | SMART_MEMPOOL_EMPTY
  | SMART_MEMPOOL_BUSY
  | SMART_MEMPOOL_INVALID
  deriving DecidableEq, Repr

open smart_mempool_status_t

structure smart_mempool_t where
  buffer : Nat
  buffer_end : Nat
  block_size : Nat
  block_stride : Nat
  block_count : Nat
  free_count : Nat
  ops_per_tick : Nat
  ops_left : Nat
  free_list : Nat
  min_free_count : Nat
  deriving DecidableEq, Repr

/-- The pool objects, the block memory and the static variables
`pool_registry` and `pool_registry_count` of smart_mempool.c. -/
structure Mempools where
  pools : Nat → smart_mempool_t
  words : Nat → Nat
  pool_registry : Nat → Option Nat
  pool_registry_count : Nat

/-- Store `v` at index `a` of a memory or an array. -/
def updAt {α : Type} (f : Nat → α) (a : Nat) (v : α) : Nat → α :=
  fun x => if x = a then v else f x

/-- Replace the pool object at address `a`. -/
def setPool (s : Mempools) (a : Nat) (p : smart_mempool_t) : Mempools :=
  { s with pools := updAt s.pools a p }

/-- Store the word `v` at address `b`. -/
def setWord (s : Mempools) (b v : Nat) : Mempools :=
  { s with words := updAt s.words b v }

/-- Function `align_up`: `(value + (align - 1u)) & ~(align - 1u)` on `uint32_t`. -/
def align_up (value align : Nat) : Nat :=
  Nat.land (wrap32 (value + wrap32 (align + 4294967295)))
    (4294967295 - wrap32 (align + 4294967295))

/-- Function `smart_mempool_register`, with its return value. -/
def smart_mempool_register (s : Mempools) (pool : Option Nat) : Mempools × Int :=
  if s.pool_registry_count ≥ SMART_MEMPOOL_MAX_POOLS then (s, -1)
  else
    ({ s with pool_registry := updAt s.pool_registry s.pool_registry_count pool,
              pool_registry_count := wrap32 (s.pool_registry_count + 1) }, 0)

/-- Function `smart_mempool_address_valid`; `none` stands for the division by
zero of `% pool->block_stride` when the stride is 0. -/
def smart_mempool_address_valid (s : Mempools) (pool : Option Nat) (block : Nat) :
    Option Bool :=
  match pool with
  | none => some false
  | some a =>
    if block = 0 then some false
    else if block < (s.pools a).buffer ∨ block ≥ (s.pools a).buffer_end then some false
    else if (s.pools a).block_stride = 0 then none
    else if (block - (s.pools a).buffer) % (s.pools a).block_stride ≠ 0 then some false
    else some true

/-- The loop of `smart_mempool_init` that threads the blocks: iteration `i`
stores the address of block `i + 1` (or `NULL` for the last block) in the first
word of block `i`. -/
def init_links (words : Nat → Nat) (buffer stride block_count : Nat) : Nat → Nat :=
  (List.range block_count).foldl
    (fun w i =>
      let current := wrap32 (buffer + wrap32 (i * stride))
      let next := if i + 1 < block_count then wrap32 (current + stride) else 0
      updAt w current next)
    words

/-- Function `smart_mempool_init`. -/
def smart_mempool_init (k : Kernel) (s : Mempools) (pool : Option Nat)
    (buffer block_size block_count ops_per_tick : Nat) : Kernel × Mempools :=
  match pool with
  | none => (k, s)
  | some a =>
    if buffer = 0 ∨ block_size = 0 ∨ block_count = 0 then (k, s)
    else
      let k1 := smart_enter_critical k
      let stride := align_up block_size 4
      let opt := if ops_per_tick = 0 then wrap16 block_count else ops_per_tick
      let p : smart_mempool_t :=
        { buffer := buffer,
          buffer_end := wrap32 (buffer + wrap32 (stride * block_count)),
          block_size := block_size,
          block_stride := stride,
          block_count := wrap16 block_count,
          free_count := wrap16 block_count,
          ops_per_tick := opt,
          ops_left := opt,
          free_list := buffer,
          min_free_count := wrap16 block_count }
      let s1 : Mempools :=
        { s with pools := updAt s.pools a p,
                 words := init_links s.words buffer stride block_count }
      (smart_exit_critical k1, (smart_mempool_register s1 pool).1)

/-- Function `smart_mempool_alloc_try`.  `out_block` is the content of the
location that the argument points to (`none` for a null argument); the result
carries its new content. -/
def smart_mempool_alloc_try (k : Kernel) (s : Mempools) (pool : Option Nat)
    (out_block : Option Nat) : Kernel × Mempools × Option Nat × smart_mempool_status_t :=
  match pool, out_block with
  | some a, some o =>
    let k1 := smart_enter_critical k
    if (s.pools a).ops_left = 0 then
      (smart_exit_critical k1, s, some o, SMART_MEMPOOL_BUSY)
    else if (s.pools a).free_list = 0 then
      (smart_exit_critical k1, s, some o, SMART_MEMPOOL_EMPTY)
    else
      let block := (s.pools a).free_list
      let free_count := wrap16 ((s.pools a).free_count + 65535)
      let p1 : smart_mempool_t :=
        { (s.pools a) with
          free_list := s.words (s.pools a).free_list,
          free_count := free_count,
          min_free_count :=
            if free_count < (s.pools a).min_free_count then free_count
            else (s.pools a).min_free_count,
          ops_left := (s.pools a).ops_left - 1 }
      (smart_exit_critical k1, setPool s a p1, some block, SMART_MEMPOOL_OK)
  | _, _ => (k, s, out_block, SMART_MEMPOOL_INVALID)

/-- Function `smart_mempool_free_try`; `none` when the address check divides by
zero. -/
def smart_mempool_free_try (k : Kernel) (s : Mempools) (pool : Option Nat) (block : Nat) :
    Option (Kernel × Mempools × smart_mempool_status_t) :=
  match pool with
  | none => some (k, s, SMART_MEMPOOL_INVALID)
  | some a =>
    if block = 0 then some (k, s, SMART_MEMPOOL_INVALID)
    else
      let k1 := smart_enter_critical k
      match smart_mempool_address_valid s pool block with
      | none => none
      | some false => some (smart_exit_critical k1, s, SMART_MEMPOOL_INVALID)
      | some true =>
        if (s.pools a).ops_left = 0 then some (smart_exit_critical k1, s, SMART_MEMPOOL_BUSY)
        else
          let s1 := setWord s block (s.pools a).free_list
          let p1 : smart_mempool_t :=
            { (s.pools a) with
              free_list := block,
              free_count := wrap16 ((s.pools a).free_count + 1),
              ops_left := (s.pools a).ops_left - 1 }
          some (smart_exit_critical k1, setPool s1 a p1, SMART_MEMPOOL_OK)

/-- Function `smart_mempool_tick`. -/
def smart_mempool_tick (s : Mempools) : Mempools :=
  (List.range s.pool_registry_count).foldl
    (fun s1 i =>
      match s.pool_registry i with
      | none => s1
      | some a =>
        setPool s1 a { (s1.pools a) with ops_left := (s1.pools a).ops_per_tick })
    s

def smart_mempool_get_free (s : Mempools) (pool : Option Nat) : Nat :=
  match pool with
  | none => 0
  | some a => (s.pools a).free_count

def smart_mempool_get_min_free (s : Mempools) (pool : Option Nat) : Nat :=
  match pool with
  | none => 0
  | some a => (s.pools a).min_free_count

/-! ## Memory pool: call sequences and vocabulary -/

/-- Free list of a pool: following the first words of the blocks from the
pointer `p` visits exactly the blocks of `l`, in that order, and ends at `NULL`. -/
def isFreeList (w : Nat → Nat) : Nat → List Nat → Prop
  | p, [] => p = 0
  | p, b :: l => p = b ∧ b ≠ 0 ∧ isFreeList w (w b) l

instance isFreeList.instDecidable (w : Nat → Nat) :
    (p : Nat) → (l : List Nat) → Decidable (isFreeList w p l)
  | p, [] => inferInstanceAs (Decidable (p = 0))
  | p, b :: l =>
    have := isFreeList.instDecidable w (w b) l
    inferInstanceAs (Decidable (p = b ∧ b ≠ 0 ∧ isFreeList w (w b) l))

/-- The block addresses `buffer + j * stride` for `i ≤ j < i + n`. -/
def poolBlocks (buffer stride i n : Nat) : List Nat :=
  (List.range' i n).map (fun j => buffer + j * stride)

/-- A call on one pool with arbitrary arguments. -/
inductive PoolCall where
  | alloc
  | free (block : Nat)
  deriving DecidableEq, Repr

/-- One call on the pool at address `a`, with its returned status. -/
def poolCall (a : Nat) (ks : Kernel × Mempools) :
    PoolCall → Option (Kernel × Mempools × smart_mempool_status_t)
  | .alloc =>
    some ((smart_mempool_alloc_try ks.1 ks.2 (some a) (some 0)).1,
          (smart_mempool_alloc_try ks.1 ks.2 (some a) (some 0)).2.1,
          (smart_mempool_alloc_try ks.1 ks.2 (some a) (some 0)).2.2.2)
  | .free b => smart_mempool_free_try ks.1 ks.2 (some a) b

/-- A sequence of calls on the pool at address `a` without a tick in between;
the statuses are listed in call order. -/
def poolCalls (a : Nat) : List PoolCall → Kernel × Mempools →
    Option (Kernel × Mempools × List smart_mempool_status_t)
  | [], ks => some (ks.1, ks.2, [])
  | c :: cs, ks =>
    match poolCall a ks c with
    | none => none
    | some r =>
      match poolCalls a cs (r.1, r.2.1) with
      | none => none
      | some r2 => some (r2.1, r2.2.1, r.2.2 :: r2.2.2)

/-- A step of a well-behaved client of one pool: `free i` gives back the `i`-th
block that is outstanding at that moment. -/
inductive PoolOp where
  | alloc
  | free (i : Nat)
  | tick
  deriving DecidableEq, Repr

/-- Kernel and pools together with a history variable: `outstanding` lists the
blocks handed out by `smart_mempool_alloc_try` and not yet given back. -/
structure PoolClient where
  k : Kernel
  s : Mempools
  outstanding : List Nat

/-- One step of a client of the pool at address `a`. -/
def poolStep (a : Nat) (c : PoolClient) : PoolOp → Option PoolClient
  | .alloc =>
    let r := smart_mempool_alloc_try c.k c.s (some a) (some 0)
    some { k := r.1, s := r.2.1,
           outstanding :=
             if r.2.2.2 = SMART_MEMPOOL_OK then r.2.2.1.getD 0 :: c.outstanding
             else c.outstanding }
  | .free i =>
    match c.outstanding[i]? with
    | none => some c
    | some b =>
      match smart_mempool_free_try c.k c.s (some a) b with
      | none => none
      | some r =>
        some { k := r.1, s := r.2.1,
               outstanding :=
                 if r.2.2 = SMART_MEMPOOL_OK then c.outstanding.erase b
                 else c.outstanding }
  | .tick => some { c with s := smart_mempool_tick c.s }

/-- A sequence of client steps. -/
def poolRun (a : Nat) : List PoolOp → PoolClient → Option PoolClient
  | [], c => some c
  | op :: ops, c =>
    match poolStep a c op with
    | none => none
    | some c1 => poolRun a ops c1

/-- The client state right after `smart_mempool_init`. -/
def poolStart (k : Kernel) (s : Mempools) (a buffer block_size block_count
    ops_per_tick : Nat) : PoolClient :=
  { k := (smart_mempool_init k s (some a) buffer block_size block_count ops_per_tick).1,
    s := (smart_mempool_init k s (some a) buffer block_size block_count ops_per_tick).2,
    outstanding := [] }

/-- Well-formedness of the pool at address `a` with respect to the blocks
carved out of `buffer`: the free list and the outstanding blocks together are
exactly the blocks of the pool, each once. -/
def PoolInv (a buffer stride count : Nat) (c : PoolClient) : Prop :=
  (c.s.pools a).buffer = buffer ∧
  (c.s.pools a).buffer_end = buffer + stride * count ∧
  (c.s.pools a).block_stride = stride ∧
  (c.s.pools a).block_count = count ∧
  (c.s.pools a).min_free_count ≤ (c.s.pools a).free_count ∧
  ∃ l, isFreeList c.s.words (c.s.pools a).free_list l ∧
    l.length = (c.s.pools a).free_count ∧
    List.Perm (l ++ c.outstanding) (poolBlocks buffer stride 0 count)

/-- The fields of a pool object that only `smart_mempool_init` writes. -/
def smart_mempool_t.geometry (p : smart_mempool_t) : Nat × Nat × Nat × Nat × Nat × Nat :=
  (p.buffer, p.buffer_end, p.block_size, p.block_stride, p.block_count, p.ops_per_tick)

/-- Static storage of smart_mempool.c before any call. -/
def zeroMempools : Mempools :=
  { pools := fun _ =>
      { buffer := 0, buffer_end := 0, block_size := 0, block_stride := 0, block_count := 0,
        free_count := 0, ops_per_tick := 0, ops_left := 0, free_list := 0,
        min_free_count := 0 },
    words := fun _ => 0,
    pool_registry := fun _ => none,
    pool_registry_count := 0 }

/-- The pool of main.c: 8 blocks of 64 bytes, 2 operations per tick; the pool
object is at address 0 and its buffer at 0x20004000. -/
def telemetryPool : Kernel × Mempools :=
  smart_mempool_init bootKernel zeroMempools (some 0) 0x20004000 64 8 2

/-- Five pools initialised one after the other (pool objects at the addresses
0 to 4); the registry has room for the first four. -/
def fivePools : Kernel × Mempools :=
  let r1 := smart_mempool_init bootKernel zeroMempools (some 0) 0x20004000 64 8 2
  let r2 := smart_mempool_init r1.1 r1.2 (some 1) 0x20004200 64 8 2
  let r3 := smart_mempool_init r2.1 r2.2 (some 2) 0x20004400 64 8 2
  let r4 := smart_mempool_init r3.1 r3.2 (some 3) 0x20004600 64 8 2
  smart_mempool_init r4.1 r4.2 (some 4) 0x20004800 64 8 2

/-- One block has been taken from `telemetryPool`. -/
def telemetryAllocated : Kernel × Mempools × Option Nat × smart_mempool_status_t :=
  smart_mempool_alloc_try telemetryPool.1 telemetryPool.2 (some 0) (some 0)

/-! ## smart_msgqueue.c

A queue object is passed by value (`none` for a null pointer) and returned with
its new content; `slots i` is the record `queue->buffer[i]` of the array that
the queue was initialised with. -/

inductive smart_msgq_status_t where
  | SMART_MSGQ_OK
  | SMART_MSGQ_FULL
  | SMART_MSGQ_EMPTY
  | SMART_MSGQ_INVALID
  deriving DecidableEq, Repr

open smart_msgq_status_t

structure smart_msg_t where
  type : Nat
  data : Nat
  ptr : Nat
  deriving DecidableEq, Repr

structure smart_msgqueue_t where
  buffer : Nat
  capacity : Nat
  count : Nat
  head : Nat
  tail : Nat
  dropped : Nat
  deriving DecidableEq, Repr

/-- The call `memset(buffer, 0, n)` on an array of records of three 32-bit
words: the words that lie within the first `n` bytes are cleared. -/
def memset_msgs (slots : Nat → smart_msg_t) (n : Nat) : Nat → smart_msg_t :=
  fun i =>
    { type := if 12 * i + 4 ≤ n then 0 else (slots i).type,
      data := if 12 * i + 8 ≤ n then 0 else (slots i).data,
      ptr := if 12 * i + 12 ≤ n then 0 else (slots i).ptr }

/-- Function `smart_msgqueue_init`; `buffer` is the address of the record array
and `slots` its content. -/
def smart_msgqueue_init (k : Kernel) (queue : Option smart_msgqueue_t)
    (slots : Nat → smart_msg_t) (buffer capacity : Nat) :
    Kernel × Option smart_msgqueue_t × (Nat → smart_msg_t) :=
  match queue with
  | none => (k, none, slots)
  | some q =>
    if buffer = 0 ∨ capacity = 0 then (k, some q, slots)
    else
      let k1 := smart_enter_critical k
      (smart_exit_critical k1,
       some { buffer := buffer, capacity := capacity, count := 0, head := 0, tail := 0,
              dropped := 0 },
       memset_msgs slots (wrap32 (12 * capacity)))

/-- Function `smart_msgqueue_send`. -/
def smart_msgqueue_send (k : Kernel) (queue : Option smart_msgqueue_t)
    (slots : Nat → smart_msg_t) (msg : Option smart_msg_t) :
    Kernel × Option smart_msgqueue_t × (Nat → smart_msg_t) × smart_msgq_status_t :=
  match queue, msg with
  | some q, some m =>
    let k1 := smart_enter_critical k
    if q.count ≥ q.capacity then
      (smart_exit_critical k1, some { q with dropped := wrap32 (q.dropped + 1) }, slots,
       SMART_MSGQ_FULL)
    else
      (smart_exit_critical k1,
       some { q with tail := wrap32 (q.tail + 1) % q.capacity, count := wrap32 (q.count + 1) },
       updAt slots q.tail m, SMART_MSGQ_OK)
  | _, _ => (k, queue, slots, SMART_MSGQ_INVALID)

/-- Function `smart_msgqueue_receive`; `msg` is the content of the record that
the argument points to and the result carries its new content.  `none` stands
for the division by zero of `% queue->capacity` when the capacity is 0. -/
def smart_msgqueue_receive (k : Kernel) (queue : Option smart_msgqueue_t)
    (slots : Nat → smart_msg_t) (msg : Option smart_msg_t) :
    Option (Kernel × Option smart_msgqueue_t × Option smart_msg_t × smart_msgq_status_t) :=
  match queue, msg with
  | some q, some m =>
    let k1 := smart_enter_critical k
    if q.count = 0 then some (smart_exit_critical k1, some q, some m, SMART_MSGQ_EMPTY)
    else if q.capacity = 0 then none
    else
      some (smart_exit_critical k1,
        some { q with head := wrap32 (q.head + 1) % q.capacity, count := q.count - 1 },
        some (slots q.head), SMART_MSGQ_OK)
  | _, _ => some (k, queue, msg, SMART_MSGQ_INVALID)

def smart_msgqueue_count (queue : Option smart_msgqueue_t) : Nat :=
  match queue with
  | none => 0
  | some q => q.count

def smart_msgqueue_space (queue : Option smart_msgqueue_t) : Nat :=
  match queue with
  | none => 0
  | some q => wrap32 (q.capacity + 4294967296 - q.count)

def smart_msgqueue_is_empty (queue : Option smart_msgqueue_t) : Nat :=
  match queue with
  | none => 1
  | some q => if q.count = 0 then 1 else 0

def smart_msgqueue_is_full (queue : Option smart_msgqueue_t) : Nat :=
  match queue with
  | none => 1
  | some q => if q.count ≥ q.capacity then 1 else 0

/-! ## Message queue: call sequences and vocabulary -/

/-- A call on one queue. -/
inductive MsgOp where
  | send (m : smart_msg_t)
  | receive
  deriving DecidableEq, Repr

/-- Kernel, queue object and record array of one queue. -/
structure MsgQ where
  k : Kernel
  queue : smart_msgqueue_t
  slots : Nat → smart_msg_t

/-- One call with what the caller observes: the returned status and, for a
successful receive, the record stored through the out pointer. -/
def msgqStep (c : MsgQ) :
    MsgOp → Option (MsgQ × smart_msgq_status_t × Option smart_msg_t)
  | .send m =>
    let r := smart_msgqueue_send c.k (some c.queue) c.slots (some m)
    some ({ k := r.1, queue := r.2.1.getD c.queue, slots := r.2.2.1 }, r.2.2.2, none)
  | .receive =>
    match smart_msgqueue_receive c.k (some c.queue) c.slots
        (some { type := 0, data := 0, ptr := 0 }) with
    | none => none
    | some r =>
      some ({ k := r.1, queue := r.2.1.getD c.queue, slots := c.slots }, r.2.2.2,
        if r.2.2.2 = SMART_MSGQ_OK then r.2.2.1 else none)

/-- A sequence of calls on one queue, with the observations in call order. -/
def msgqRun : List MsgOp → MsgQ →
    Option (MsgQ × List (smart_msgq_status_t × Option smart_msg_t))
  | [], c => some (c, [])
  | op :: ops, c =>
    match msgqStep c op with
    | none => none
    | some r =>
      match msgqRun ops r.1 with
      | none => none
      | some r2 => some (r2.1, r.2 :: r2.2)

/-- The queue right after `smart_msgqueue_init` on the queue object `q0`. -/
def msgqStart (k : Kernel) (q0 : smart_msgqueue_t) (slots : Nat → smart_msg_t)
    (buffer capacity : Nat) : MsgQ :=
  { k := (smart_msgqueue_init k (some q0) slots buffer capacity).1,
    queue := (smart_msgqueue_init k (some q0) slots buffer capacity).2.1.getD q0,
    slots := (smart_msgqueue_init k (some q0) slots buffer capacity).2.2 }

/-- The records held by a queue, oldest first: the `count` slots from `head`
on, modulo the capacity. -/
def queueContents (q : smart_msgqueue_t) (slots : Nat → smart_msg_t) : List smart_msg_t :=
  (List.range q.count).map (fun i => slots ((q.head + i) % q.capacity))

/-- The specification's model of a queue, a FIFO list bounded by `c`: a send
appends unless the list holds `c` records, a receive removes the oldest
record. -/
def fifoStep (c : Nat) (l : List smart_msg_t) :
    MsgOp → List smart_msg_t × smart_msgq_status_t × Option smart_msg_t
  | .send m => if l.length = c then (l, SMART_MSGQ_FULL, none) else (l ++ [m], SMART_MSGQ_OK, none)
  | .receive =>
    match l with
    | [] => ([], SMART_MSGQ_EMPTY, none)
    | m :: rest => (rest, SMART_MSGQ_OK, some m)

/-- A sequence of operations on the bounded FIFO list. -/
def fifoRun (c : Nat) : List MsgOp → List smart_msg_t →
    List smart_msg_t × List (smart_msgq_status_t × Option smart_msg_t)
  | [], l => (l, [])
  | op :: ops, l =>
    ((fifoRun c ops (fifoStep c l op).1).1, (fifoStep c l op).2 :: (fifoRun c ops (fifoStep c l op).1).2)

/-- The ring-buffer invariant of a queue of capacity at least 1. -/
def QueueInv (q : smart_msgqueue_t) : Prop :=
  1 ≤ q.capacity ∧ q.capacity < 4294967296 ∧ q.count ≤ q.capacity ∧ q.head < q.capacity ∧
  q.tail < q.capacity ∧ (q.head + q.count) % q.capacity = q.tail

instance QueueInv.instDecidable (q : smart_msgqueue_t) : Decidable (QueueInv q) := by
  unfold QueueInv; infer_instance

/-- The queue of the shell's message test, with capacity 4 as in scenario 5 of
the specification. -/
def testQueue : MsgQ :=
  msgqStart bootKernel
    { buffer := 0, capacity := 0, count := 7, head := 7, tail := 7, dropped := 7 }
    (fun _ => { type := 9, data := 9, ptr := 9 }) 0x20005000 4

/-- The six records sent in scenario 5. -/
def testMsgs : List smart_msg_t :=
  [{ type := 0x200, data := 0, ptr := 0 }, { type := 0x201, data := 1, ptr := 0 },
   { type := 0x202, data := 2, ptr := 0 }, { type := 0x203, data := 3, ptr := 0 },
   { type := 0x204, data := 4, ptr := 0 }, { type := 0x205, data := 5, ptr := 0 }]

/-! ## smart_timer.c

A timer pointer is the index of a slot of `timer_pool` (`none` for `NULL`); a
callback pointer is an address (`0` for `NULL`).  What a callback does is given
by an interpretation `cb : Callbacks`: `cb f arg` is the effect of calling the
function at address `f` with argument `arg` on the kernel and the timers. -/

def MAX_TIMERS : Nat := 16

def TIMER_ONE_SHOT : Nat := 0
def TIMER_PERIODIC : Nat := 1

def TIMER_STOPPED : Nat := 0
def TIMER_RUNNING : Nat := 1
def TIMER_EXPIRED : Nat := 2

structure smart_timer_t where
  id : Nat
  type : Nat
  state : Nat
  period_ms : Nat
  remaining_ms : Nat
  callback : Nat
  callback_arg : Nat
  next : Option Nat
  deriving DecidableEq, Repr

structure timer_stats_t where
  total_timers : Nat
  active_timers : Nat
  expired_count : Nat
  callback_count : Nat
  max_callback_time_us : Nat
  deriving DecidableEq, Repr

/-- The static variables of smart_timer.c. -/
structure Timers where
  timer_pool : Nat → smart_timer_t
  timer_pool_init : Nat
  active_timer_list : Option Nat
  next_timer_id : Nat
  timer_stats : timer_stats_t

/-- Interpretation of the callback pointers. -/
abbrev Callbacks := Nat → Nat → Kernel × Timers → Kernel × Timers

/-- Replace the timer object in slot `t`. -/
def setTimer (ts : Timers) (t : Nat) (v : smart_timer_t) : Timers :=
  { ts with timer_pool := updAt ts.timer_pool t v }

/-- Write the `state` field of a timer object. -/
def smart_timer_t.setState (v : smart_timer_t) (st : Nat) : smart_timer_t :=
  { v with state := st }

/-- Write the `remaining_ms` field of a timer object. -/
def smart_timer_t.setRemaining (v : smart_timer_t) (r : Nat) : smart_timer_t :=
  { v with remaining_ms := r }

/-- Write the `next` field of a timer object. -/
def smart_timer_t.setNext (v : smart_timer_t) (n : Option Nat) : smart_timer_t :=
  { v with next := n }

/-- Replace `active_timer_list`. -/
def Timers.setActive (ts : Timers) (a : Option Nat) : Timers :=
  { ts with active_timer_list := a }

/-- Replace `timer_stats`. -/
def Timers.setStats (ts : Timers) (st : timer_stats_t) : Timers :=
  { ts with timer_stats := st }

/-- A zeroed timer object. -/
def smart_timer_t.zero : smart_timer_t :=
  { id := 0, type := 0, state := 0, period_ms := 0, remaining_ms := 0, callback := 0,
    callback_arg := 0, next := none }

/-- Function `get_microseconds`. -/
def get_microseconds (k : Kernel) : Nat := wrap32 (smart_get_tick k * 1000)

/-- Function `smart_timer_init` (the message printed on the UART is left out). -/
def smart_timer_init (ts : Timers) : Timers :=
  if ts.timer_pool_init ≠ 0 then ts
  else
    { timer_pool := fun i => if i < MAX_TIMERS then smart_timer_t.zero else ts.timer_pool i,
      timer_pool_init := 1,
      active_timer_list := none,
      next_timer_id := 1,
      timer_stats :=
        { total_timers := 0, active_timers := 0, expired_count := 0, callback_count := 0,
          max_callback_time_us := 0 } }

/-- Function `allocate_timer`: the first slot whose id is 0. -/
def allocate_timer (k : Kernel) (ts : Timers) : Kernel × Timers × Option Nat :=
  let k1 := smart_enter_critical k
  match (List.range MAX_TIMERS).find? (fun i => decide ((ts.timer_pool i).id = 0)) with
  | some i =>
    (smart_exit_critical k1,
     { setTimer ts i { (ts.timer_pool i) with id := ts.next_timer_id } with
       next_timer_id := wrap32 (ts.next_timer_id + 1),
       timer_stats :=
         { ts.timer_stats with total_timers := wrap32 (ts.timer_stats.total_timers + 1) } },
     some i)
  | none => (smart_exit_critical k1, ts, none)

/-- Function `smart_timer_create`. -/
def smart_timer_create (k : Kernel) (ts : Timers) (type period_ms callback arg : Nat) :
    Kernel × Timers × Option Nat :=
  if callback = 0 ∨ period_ms = 0 then (k, ts, none)
  else
    match allocate_timer k ts with
    | (k1, ts1, none) => (k1, ts1, none)
    | (k1, ts1, some t) =>
      (k1,
       setTimer ts1 t
         { (ts1.timer_pool t) with
           type := type, state := TIMER_STOPPED, period_ms := period_ms,
           remaining_ms := period_ms, callback := callback, callback_arg := arg,
           next := none },
       some t)

/-- Function `smart_timer_start`, with its return value. -/
def smart_timer_start (k : Kernel) (ts : Timers) (timer : Option Nat) :
    Kernel × Timers × Int :=
  match timer with
  | none => (k, ts, -1)
  | some t =>
    if (ts.timer_pool t).id = 0 then (k, ts, -1)
    else
      let k1 := smart_enter_critical k
      if (ts.timer_pool t).state = TIMER_RUNNING then (smart_exit_critical k1, ts, 0)
      else
        (smart_exit_critical k1,
         ((setTimer ts t
            ((((ts.timer_pool t).setRemaining (ts.timer_pool t).period_ms).setState
              TIMER_RUNNING).setNext ts.active_timer_list)).setActive (some t)).setStats
           { ts.timer_stats with active_timers := wrap32 (ts.timer_stats.active_timers + 1) },
         0)

/-- The count-down step of `smart_timer_tick` on the timer `t`. -/
def timer_count_down (ts : Timers) (t : Nat) : Timers :=
  if (ts.timer_pool t).remaining_ms > 0 then
    setTimer ts t ((ts.timer_pool t).setRemaining ((ts.timer_pool t).remaining_ms - 1))
  else ts

/-- The expiry branch of `smart_timer_tick` up to the callback: the timer is
marked Expired and unlinked through `prev`. -/
def timer_expire (ts : Timers) (t : Nat) (prev next : Option Nat) : Timers :=
  let ts1 := setTimer ts t ((ts.timer_pool t).setState TIMER_EXPIRED)
  let ts2 := ts1.setStats
    { ts1.timer_stats with expired_count := wrap32 (ts1.timer_stats.expired_count + 1) }
  let ts3 :=
    match prev with
    | some p => setTimer ts2 p ((ts2.timer_pool p).setNext next)
    | none => ts2.setActive next
  ts3.setStats
    { ts3.timer_stats with
      active_timers := wrap32 (4294967295 + ts3.timer_stats.active_timers) }

/-- The callback block of `smart_timer_tick`: the critical section is left,
the callback runs and is timed, the statistics are updated and the critical
section is entered again. -/
def timer_run_callback (cb : Callbacks) (k : Kernel) (ts : Timers) (t : Nat) :
    Kernel × Timers :=
  let k1 := smart_exit_critical k
  let start_time := get_microseconds k1
  let r := cb (ts.timer_pool t).callback (ts.timer_pool t).callback_arg (k1, ts)
  let end_time := get_microseconds r.1
  let callback_time := wrap32 (end_time + 4294967296 - start_time)
  (smart_enter_critical r.1,
   r.2.setStats
     { r.2.timer_stats with
       max_callback_time_us :=
         if callback_time > r.2.timer_stats.max_callback_time_us then callback_time
         else r.2.timer_stats.max_callback_time_us,
       callback_count := wrap32 (r.2.timer_stats.callback_count + 1) })

/-- The periodic branch of `smart_timer_tick`: the timer is re-armed and linked
at the head of the active list. -/
def timer_relink (ts : Timers) (t : Nat) : Timers :=
  ((setTimer ts t
      ((((ts.timer_pool t).setRemaining (ts.timer_pool t).period_ms).setState
        TIMER_RUNNING).setNext ts.active_timer_list)).setActive (some t)).setStats
    { ts.timer_stats with active_timers := wrap32 (ts.timer_stats.active_timers + 1) }

/-- The end of the expiry branch: a periodic timer is re-linked, any other
timer keeps the state Expired and gets a null link. -/
def timer_rearm (ts : Timers) (t : Nat) : Timers :=
  if (ts.timer_pool t).type = TIMER_PERIODIC then timer_relink ts t
  else setTimer ts t ((ts.timer_pool t).setNext none)

/-- The whole expiry branch of `smart_timer_tick` for the timer `t`, with
`prev` and `next` as the loop holds them. -/
def timer_fire (cb : Callbacks) (k : Kernel) (ts : Timers) (t : Nat) (prev next : Option Nat) :
    Kernel × Timers :=
  let ts2 := timer_expire ts t prev next
  let r := if (ts2.timer_pool t).callback ≠ 0 then timer_run_callback cb k ts2 t else (k, ts2)
  (r.1, timer_rearm r.2 t)

/-- The `while (timer)` loop of `smart_timer_tick`. -/
def timer_tick_loop (cb : Callbacks) : Nat → Kernel → Timers → Option Nat → Option Nat →
    Option (Kernel × Timers)
  | _, k, ts, none, _ => some (k, ts)
  | 0, _, _, some _, _ => none
  | fuel + 1, k, ts, some t, prev =>
    if ((timer_count_down ts t).timer_pool t).remaining_ms = 0 then
      timer_tick_loop cb fuel
        (timer_fire cb k (timer_count_down ts t) t prev (ts.timer_pool t).next).1
        (timer_fire cb k (timer_count_down ts t) t prev (ts.timer_pool t).next).2
        (ts.timer_pool t).next prev
    else timer_tick_loop cb fuel k (timer_count_down ts t) (ts.timer_pool t).next (some t)

/-- Function `smart_timer_tick`. -/
def smart_timer_tick (cb : Callbacks) (fuel : Nat) (k : Kernel) (ts : Timers) :
    Option (Kernel × Timers) :=
  if ts.timer_pool_init = 0 then some (k, ts)
  else
    match timer_tick_loop cb fuel (smart_enter_critical k) ts ts.active_timer_list none with
    | none => none
    | some r => some (smart_exit_critical r.1, r.2)

/-! ## Timers: call sequences and vocabulary -/

/-- `n` successive runs of `smart_timer_tick`. -/
def timer_ticks (cb : Callbacks) (fuel : Nat) : Nat → Kernel × Timers →
    Option (Kernel × Timers)
  | 0, s => some s
  | n + 1, s =>
    match timer_ticks cb fuel n s with
    | none => none
    | some s1 => smart_timer_tick cb fuel s1.1 s1.2

/-- Active list: following `next` from the pointer `p` visits exactly the
timers of `l`, in that order, and ends at `NULL`. -/
def isTimerList (pool : Nat → smart_timer_t) : Option Nat → List Nat → Prop
  | p, [] => p = none
  | p, t :: l => p = some t ∧ isTimerList pool (pool t).next l

instance isTimerList.instDecidable (pool : Nat → smart_timer_t) :
    (p : Option Nat) → (l : List Nat) → Decidable (isTimerList pool p l)
  | p, [] => inferInstanceAs (Decidable (p = none))
  | p, t :: l =>
    have := isTimerList.instDecidable pool (pool t).next l
    inferInstanceAs (Decidable (p = some t ∧ isTimerList pool (pool t).next l))

/-- The periodic timer `t` of period `p` is running, alone on the active list,
with `r` ticks remaining. -/
def LoneTimer (ts : Timers) (t p r : Nat) : Prop :=
  ts.timer_pool_init ≠ 0 ∧ ts.active_timer_list = some t ∧ (ts.timer_pool t).next = none ∧
  (ts.timer_pool t).type = TIMER_PERIODIC ∧ (ts.timer_pool t).state = TIMER_RUNNING ∧
  (ts.timer_pool t).callback ≠ 0 ∧ (ts.timer_pool t).period_ms = p ∧
  (ts.timer_pool t).remaining_ms = r

instance LoneTimer.instDecidable (ts : Timers) (t p r : Nat) : Decidable (LoneTimer ts t p r) := by
  unfold LoneTimer; infer_instance

/-- Static storage of smart_timer.c before any call. -/
def zeroTimers : Timers :=
  { timer_pool := fun _ => smart_timer_t.zero,
    timer_pool_init := 0,
    active_timer_list := none,
    next_timer_id := 1,
    timer_stats :=
      { total_timers := 0, active_timers := 0, expired_count := 0, callback_count := 0,
        max_callback_time_us := 0 } }

/-- Callbacks that change neither the kernel nor the timers. -/
def quietCallbacks : Callbacks := fun _ _ w => w

/-- The timers after `smart_timer_init` at boot. -/
def timerBoot : Kernel × Timers := (bootKernel, smart_timer_init zeroTimers)

/-- Create a timer and start it. -/
def createStarted (s : Kernel × Timers) (type period_ms callback arg : Nat) :
    Kernel × Timers :=
  ((smart_timer_start (smart_timer_create s.1 s.2 type period_ms callback arg).1
      (smart_timer_create s.1 s.2 type period_ms callback arg).2.1
      (smart_timer_create s.1 s.2 type period_ms callback arg).2.2).1,
   (smart_timer_start (smart_timer_create s.1 s.2 type period_ms callback arg).1
      (smart_timer_create s.1 s.2 type period_ms callback arg).2.1
      (smart_timer_create s.1 s.2 type period_ms callback arg).2.2).2.1)

/-- Scenario 3 of the specification: one periodic timer of period 3 (slot 0),
started at tick 0. -/
def loneStarted : Kernel × Timers := createStarted timerBoot TIMER_PERIODIC 3 0x08001000 0

/-- Two periodic timers of period 2: slot 0 started first, then slot 1. -/
def twoStarted : Kernel × Timers :=
  createStarted (createStarted timerBoot TIMER_PERIODIC 2 0x08001000 0)
    TIMER_PERIODIC 2 0x08001000 1

/-- The timers of the shell command `timer test` with all periods divided by
500: one-shot timers of 2, 4 and 6 ticks (slots 0, 1, 2) and a periodic timer of
1 tick (slot 3), started in that order. -/
def shellTimers : Kernel × Timers :=
  createStarted
    (createStarted
      (createStarted (createStarted timerBoot TIMER_ONE_SHOT 2 0x08001000 1)
        TIMER_ONE_SHOT 4 0x08001000 2)
      TIMER_ONE_SHOT 6 0x08001000 3)
    TIMER_PERIODIC 1 0x08002000 4

/-- The periodic timer of `loneStarted` before its start. -/
def loneCreated : Kernel × Timers × Option Nat :=
  smart_timer_create timerBoot.1 timerBoot.2 TIMER_PERIODIC 3 0x08001000 0

/-! ## Kernel calls, the tick handler with its services, timer bookkeeping -/

/-- The recurrence of the specification continued from the average `a`:
each further sample `s` gives `floor((s + 7 * a) / 8)`. -/
def ema_continue (a : Nat) : List Nat → Nat
  | [] => a
  | s :: l => ema_continue ((s + 7 * a) / 8) l

/-- The average of the specification for the samples `s_1 .. s_k`: the first
sample seeds it, every later one goes through the recurrence. -/
def ema_recurrence : List Nat → Nat
  | [] => 0
  | s :: l => ema_continue s l

/-- T2 of `startedKernel` yields in the tick in which it was started (tick 0)
and T1 is switched in. -/
def emaFirstYield : Kernel :=
  setCurrent ((smart_task_yield 4 startedKernel).getD startedKernel) (some 1)

/-- Four ticks later T2 is released and switched in again. -/
def emaReleased : Kernel :=
  setCurrent ((tick_n 4 4 emaFirstYield).getD emaFirstYield) (some 2)

/-- T2 runs for eight ticks and yields at tick 12. -/
def emaSecondYield : Kernel :=
  (smart_task_yield 4 ((tick_n 4 8 emaReleased).getD emaReleased)).getD emaReleased

/-- The period and the deadline-miss count of a TCB. -/
def smart_task.miss (t : smart_task) : Nat × Nat := (t.period, t.deadline_miss_count)

/-- Between the states `k` and `k'` no period has changed, and a deadline-miss
count has changed only for the task that was running in `k` with the scheduler
started, if that task is periodic, and then by one. -/
def MissStep (k k' : Kernel) : Prop :=
  ∀ a, (k'.tasks a).period = (k.tasks a).period ∧
    ((k'.tasks a).deadline_miss_count = (k.tasks a).deadline_miss_count ∨
      (k.scheduler_started = true ∧ k.current_task = some a ∧ (k.tasks a).period > 0 ∧
        (k'.tasks a).deadline_miss_count = wrap32 ((k.tasks a).deadline_miss_count + 1)))

/-- One call of a kernel service that makes no task Ready, or one context
switch, takes the kernel from `k` to `k'`. -/
inductive PlainCall (fuel : Nat) : Kernel → Kernel → Prop
  | schedule (k k' : Kernel) (h : smart_schedule fuel k = some k') : PlainCall fuel k k'
  | start (k k' : Kernel) (h : smart_os_start fuel k = some k') : PlainCall fuel k k'
  | yield (k k' : Kernel) (h : smart_task_yield fuel k = some k') : PlainCall fuel k k'
  | delay (k k' : Kernel) (ticks : Nat) (h : smart_delay fuel k ticks = some k') :
      PlainCall fuel k k'
  | switch (k : Kernel) (c : Option Nat) : PlainCall fuel k (setCurrent k c)
  | sem_init (k : Kernel) (sem : Option smart_semaphore_t) (i m : Nat) :
      PlainCall fuel k (smart_sem_init k sem i m).1
  | sem_wait (k : Kernel) (sem : Option smart_semaphore_t)
      (r : Kernel × Option smart_semaphore_t × smart_sync_status_t)
      (h : smart_sem_wait fuel k sem = some r) : PlainCall fuel k r.1
  | sem_try_wait (k : Kernel) (sem : Option smart_semaphore_t) :
      PlainCall fuel k (smart_sem_try_wait k sem).1
  | mutex_init (k : Kernel) (mutex : Option smart_mutex_t) :
      PlainCall fuel k (smart_mutex_init k mutex).1
  | mutex_lock (k : Kernel) (mutex : Option smart_mutex_t)
      (r : Kernel × Option smart_mutex_t × smart_sync_status_t)
      (h : smart_mutex_lock fuel k mutex = some r) : PlainCall fuel k r.1
  | mutex_try_lock (k : Kernel) (mutex : Option smart_mutex_t) :
      PlainCall fuel k (smart_mutex_try_lock k mutex).1

/-- One run of the tick handler, one `smart_sem_post` or one
`smart_mutex_unlock` takes the kernel from `k` to `k'`: the operations that
make tasks Ready. -/
inductive WakeCall (fuel : Nat) : Kernel → Kernel → Prop
  | tick (k k' : Kernel) (h : SysTick_Handler fuel k = some k') : WakeCall fuel k k'
  | sem_post (k : Kernel) (sem : Option smart_semaphore_t)
      (r : Kernel × Option smart_semaphore_t × smart_sync_status_t)
      (h : smart_sem_post fuel k sem = some r) : WakeCall fuel k r.1
  | mutex_unlock (k : Kernel) (mutex : Option smart_mutex_t)
      (r : Kernel × Option smart_mutex_t × smart_sync_status_t)
      (h : smart_mutex_unlock fuel k mutex = some r) : WakeCall fuel k r.1

/-- One kernel call other than `smart_task_create`, one run of the tick handler
or one context switch. -/
def KernelCall (fuel : Nat) (k k' : Kernel) : Prop :=
  PlainCall fuel k k' ∨ WakeCall fuel k k'

/-- The two-task system at tick 11: T2 yielded at tick 0, T1 has been running
since and is past its deadline 10, T2 was released at tick 4. -/
def lateKernel : Kernel := (tick_n 4 11 emaFirstYield).getD emaFirstYield

/-- The wake-up scan of `SysTick_Handler` and the scheduler call that follows it
(lines 457-487), at the tick already stored in `os_tick`. -/
def tick_wakeups (fuel : Nat) (k : Kernel) : Option Kernel :=
  match tick_scan k.os_tick fuel k.tasks k.task_list false with
  | none => none
  | some (mem, need_sched) =>
    let k2 := setTasks k mem
    if need_sched then smart_schedule fuel k2 else some k2

/-- The release condition of the tick handler at tick `now`: the task is Waiting
and its arrival has been reached, or Delayed and its wake-up time has been
reached. -/
def due (now : Nat) (t : smart_task) : Bool :=
  (decide (t.state = TASK_STATE_WAITING) && decide (t.arrival ≤ now)) ||
  (decide (t.state = TASK_STATE_DELAYED) && decide (t.wakeup_time ≤ now))

/-- The search `while (prev && prev->next != timer) prev = prev->next;` of
`smart_timer_stop` and `free_timer`; the result is the final `prev`. -/
def timer_find_prev (pool : Nat → smart_timer_t) (timer : Nat) :
    Nat → Option Nat → Option (Option Nat)
  | _, none => some none
  | 0, some _ => none
  | fuel + 1, some p =>
    if (pool p).next ≠ some timer then timer_find_prev pool timer fuel (pool p).next
    else some (some p)

/-- Removal of `timer` from the active list as `smart_timer_stop` and
`free_timer` do it. -/
def timer_unlink (fuel : Nat) (ts : Timers) (timer : Nat) : Option Timers :=
  if ts.active_timer_list = some timer then
    some (ts.setActive (ts.timer_pool timer).next)
  else
    match timer_find_prev ts.timer_pool timer fuel ts.active_timer_list with
    | none => none
    | some none => some ts
    | some (some p) =>
      some (setTimer ts p ((ts.timer_pool p).setNext (ts.timer_pool timer).next))

/-- Function `smart_timer_stop`, with its return value. -/
def smart_timer_stop (fuel : Nat) (k : Kernel) (ts : Timers) (timer : Option Nat) :
    Option (Kernel × Timers × Int) :=
  match timer with
  | none => some (k, ts, -1)
  | some t =>
    if (ts.timer_pool t).id = 0 then some (k, ts, -1)
    else
      let k1 := smart_enter_critical k
      if (ts.timer_pool t).state ≠ TIMER_RUNNING then some (smart_exit_critical k1, ts, 0)
      else
        match timer_unlink fuel ts t with
        | none => none
        | some ts1 =>
          let ts2 := setTimer ts1 t (((ts1.timer_pool t).setState TIMER_STOPPED).setNext none)
          some (smart_exit_critical k1,
            ts2.setStats
              { ts2.timer_stats with
                active_timers := wrap32 (4294967295 + ts2.timer_stats.active_timers) },
            0)

/-- Callbacks for the self-stopping timer: the function at 0x08003000 calls
`smart_timer_stop` on the handle it gets as argument, every other callback
changes nothing. -/
def stopSelfCallbacks : Callbacks := fun f arg w =>
  if f = 0x08003000 then
    match smart_timer_stop 16 w.1 w.2 (some arg) with
    | some r => (r.1, r.2.1)
    | none => w
  else w

/-- One periodic timer of period 2 in slot 0 whose callback stops the timer it
is given, which is the timer itself; created and started at boot. -/
def selfStopStarted : Kernel × Timers :=
  createStarted timerBoot TIMER_PERIODIC 2 0x08003000 0

/-- The state of `selfStopStarted` in which the callback runs during the second
tick: the timer has been counted down to 0, marked and unlinked. -/
def selfStopExpiring : Kernel × Timers :=
  match timer_ticks stopSelfCallbacks 16 1 selfStopStarted with
  | some s => (smart_exit_critical (smart_enter_critical s.1),
      timer_expire (timer_count_down s.2 0) 0 none none)
  | none => selfStopStarted

/-- The result of `n` ticks from `selfStopStarted`. -/
def selfStopAfter (n : Nat) : Kernel × Timers :=
  (timer_ticks stopSelfCallbacks 16 n selfStopStarted).getD selfStopStarted

/-- The timers of `selfStopStarted` after a `smart_timer_stop` call from a task
before the first tick. -/
def stoppedEarly : Kernel × Timers :=
  match smart_timer_stop 16 selfStopStarted.1 selfStopStarted.2 (some 0) with
  | some r => (r.1, r.2.1)
  | none => selfStopStarted

/-- Segment of the active list: following `next` from the pointer `p` visits
exactly the timers of `l`, in that order, and arrives at the pointer `q`. -/
def isTimerSeg (pool : Nat → smart_timer_t) : Option Nat → List Nat → Option Nat → Prop
  | p, [], q => p = q
  | p, t :: l, q => p = some t ∧ isTimerSeg pool (pool t).next l q

/-- The callback invocations of the loop of `smart_timer_tick`: the timers
whose callback it runs, in the order in which it runs them. -/
def timer_tick_calls (cb : Callbacks) : Nat → Kernel → Timers → Option Nat → Option Nat →
    List Nat
  | _, _, _, none, _ => []
  | 0, _, _, some _, _ => []
  | fuel + 1, k, ts, some t, prev =>
    if ((timer_count_down ts t).timer_pool t).remaining_ms = 0 then
      (if ((timer_expire (timer_count_down ts t) t prev
            (ts.timer_pool t).next).timer_pool t).callback ≠ 0 then [t] else []) ++
        timer_tick_calls cb fuel
          (timer_fire cb k (timer_count_down ts t) t prev (ts.timer_pool t).next).1
          (timer_fire cb k (timer_count_down ts t) t prev (ts.timer_pool t).next).2
          (ts.timer_pool t).next prev
    else timer_tick_calls cb fuel k (timer_count_down ts t) (ts.timer_pool t).next (some t)

/-- The callback invocations of one run of `smart_timer_tick`. -/
def smart_timer_calls (cb : Callbacks) (fuel : Nat) (k : Kernel) (ts : Timers) : List Nat :=
  if ts.timer_pool_init = 0 then []
  else timer_tick_calls cb fuel (smart_enter_critical k) ts ts.active_timer_list none

/-- The callback invocations of tick number `n + 1` counted from the state `s`. -/
def calls_in_tick (cb : Callbacks) (fuel : Nat) (s : Kernel × Timers) (n : Nat) : List Nat :=
  match timer_ticks cb fuel n s with
  | some s1 => smart_timer_calls cb fuel s1.1 s1.2
  | none => []

/-- The fields other than `next` that one tick leaves in an active timer: an
expiring timer is re-armed when periodic and left Expired otherwise, any other
timer has one tick less remaining. -/
def timer_tick_record (v : smart_timer_t) : smart_timer_t :=
  if v.remaining_ms ≤ 1 then
    if v.type = TIMER_PERIODIC then (v.setRemaining v.period_ms).setState TIMER_RUNNING
    else (v.setRemaining 0).setState TIMER_EXPIRED
  else v.setRemaining (v.remaining_ms - 1)

/-- State of a one-shot timer `x` that was started with period `p`, `n` ticks
after its start: before the `p`-th tick it is Running on the active list with
`p - n` ticks remaining, from the `p`-th tick on it is Expired and off the
list. -/
def OneShotAfter (ts : Timers) (L : List Nat) (x p n : Nat) : Prop :=
  ts.timer_pool_init ≠ 0 ∧ isTimerList ts.timer_pool ts.active_timer_list L ∧
  (ts.timer_pool x).type ≠ TIMER_PERIODIC ∧
  (n < p → x ∈ L ∧ (ts.timer_pool x).remaining_ms = p - n ∧
    (ts.timer_pool x).state = TIMER_RUNNING) ∧
  (p ≤ n → x ∉ L ∧ (ts.timer_pool x).remaining_ms = 0 ∧
    (ts.timer_pool x).state = TIMER_EXPIRED)

/-- A periodic timer of period 1 (slot 0) is running and a one-shot timer of
period 3 (slot 1) has been created. -/
def oneShotCreated : Kernel × Timers × Option Nat :=
  smart_timer_create (createStarted timerBoot TIMER_PERIODIC 1 0x08002000 4).1
    (createStarted timerBoot TIMER_PERIODIC 1 0x08002000 4).2 TIMER_ONE_SHOT 3 0x08001000 1

/-- Function `SysTick_Handler` with the services it calls after the increment:
`smart_mempool_tick` on the pool registry, `smart_timer_tick` on the timers
(with the callbacks it runs), then the wake-up scan and the scheduler call. -/
def SysTick_Handler_full (cb : Callbacks) (fuel : Nat) (k : Kernel) (mp : Mempools)
    (ts : Timers) : Option (Kernel × Mempools × Timers) :=
  let k1 := { k with os_tick := wrap32 (k.os_tick + 1) }
  let mp1 := smart_mempool_tick mp
  match smart_timer_tick cb fuel k1 ts with
  | none => none
  | some r =>
    match tick_wakeups fuel r.1 with
    | none => none
    | some k3 => some (k3, mp1, r.2)

/-- The two-task system at tick 50 with T2 running. -/
def delayKernel : Kernel := { startedKernel with os_tick := 50 }

/-- One call of `smart_sem_wait`, `smart_sem_try_wait` or `smart_sem_post` on a
semaphore takes kernel and semaphore from the first pair to the second. -/
inductive SemCall (fuel : Nat) : Kernel × smart_semaphore_t → Kernel × smart_semaphore_t → Prop
  | wait (k k' : Kernel) (s s' : smart_semaphore_t) (r : smart_sync_status_t)
      (h : smart_sem_wait fuel k (some s) = some (k', some s', r)) : SemCall fuel (k, s) (k', s')
  | try_wait (k k' : Kernel) (s s' : smart_semaphore_t) (r : smart_sync_status_t)
      (h : smart_sem_try_wait k (some s) = (k', some s', r)) : SemCall fuel (k, s) (k', s')
  | post (k k' : Kernel) (s s' : smart_semaphore_t) (r : smart_sync_status_t)
      (h : smart_sem_post fuel k (some s) = some (k', some s', r)) : SemCall fuel (k, s) (k', s')
  | switch (k : Kernel) (s : smart_semaphore_t) (c : Option Nat) :
      SemCall fuel (k, s) (setCurrent k c, s)

/-- A semaphore set up by `smart_sem_init(&sem, 5, 5)`: the count is at its
maximum and nobody waits. -/
def fullSem : smart_semaphore_t :=
  ((smart_sem_init startedKernel (some emptySem) 5 5).2).getD emptySem

/-- The running task calls `smart_mutex_lock` `n` times in a row; `none` when a
call does not return OK. -/
def mutex_lock_times (fuel : Nat) : Nat → Kernel → smart_mutex_t →
    Option (Kernel × smart_mutex_t)
  | 0, k, m => some (k, m)
  | n + 1, k, m =>
    match smart_mutex_lock fuel k (some m) with
    | some (k', some m', smart_sync_status_t.SMART_SYNC_OK) => mutex_lock_times fuel n k' m'
    | _ => none

/-- The running task calls `smart_mutex_unlock` `n` times in a row; `none` when
a call does not return OK. -/
def mutex_unlock_times (fuel : Nat) : Nat → Kernel → smart_mutex_t →
    Option (Kernel × smart_mutex_t)
  | 0, k, m => some (k, m)
  | n + 1, k, m =>
    match smart_mutex_unlock fuel k (some m) with
    | some (k', some m', smart_sync_status_t.SMART_SYNC_OK) => mutex_unlock_times fuel n k' m'
    | _ => none

/-- One call of the pool interface, on any pool and with any arguments; a
`smart_mempool_free_try` that divides by zero makes no step. -/
inductive MempoolCall : Kernel × Mempools → Kernel × Mempools → Prop
  | init (k : Kernel) (s : Mempools) (pool : Option Nat)
      (buffer block_size block_count ops_per_tick : Nat) :
      MempoolCall (k, s) (smart_mempool_init k s pool buffer block_size block_count ops_per_tick)
  | alloc (k : Kernel) (s : Mempools) (pool out_block : Option Nat) :
      MempoolCall (k, s) ((smart_mempool_alloc_try k s pool out_block).1,
        (smart_mempool_alloc_try k s pool out_block).2.1)
  | free (k : Kernel) (s : Mempools) (pool : Option Nat) (block : Nat)
      (r : Kernel × Mempools × smart_mempool_status_t)
      (h : smart_mempool_free_try k s pool block = some r) : MempoolCall (k, s) (r.1, r.2.1)
  | tick (k : Kernel) (s : Mempools) : MempoolCall (k, s) (k, smart_mempool_tick s)

/-- The pool at address `a` has an entry in `pool_registry`. -/
def Registered (a : Nat) (s : Mempools) : Prop :=
  ∃ i, i < s.pool_registry_count ∧ s.pool_registry i = some a

/-- A fifth pool has been initialised after four others and two blocks have
been taken from it. -/
def fifthPoolDrained : Kernel × Mempools :=
  let r1 := smart_mempool_alloc_try fivePools.1 fivePools.2 (some 4) (some 0)
  let r2 := smart_mempool_alloc_try r1.1 r1.2.1 (some 4) (some 0)
  (r2.1, r2.2.1)

/-- Function `smart_timer_reset`, with its return value. -/
def smart_timer_reset (k : Kernel) (ts : Timers) (timer : Option Nat) :
    Kernel × Timers × Int :=
  match timer with
  | none => (k, ts, -1)
  | some t =>
    if (ts.timer_pool t).id = 0 then (k, ts, -1)
    else
      (smart_exit_critical (smart_enter_critical k),
       setTimer ts t
         (((ts.timer_pool t).setRemaining (ts.timer_pool t).period_ms).setState TIMER_STOPPED),
       0)

/-- The state `s` after `smart_timer_reset` on `timer`. -/
def resetIn (s : Kernel × Timers) (timer : Option Nat) : Kernel × Timers :=
  ((smart_timer_reset s.1 s.2 timer).1, (smart_timer_reset s.1 s.2 timer).2.1)

/-- The state `s` after `smart_timer_start` on `timer`. -/
def startIn (s : Kernel × Timers) (timer : Option Nat) : Kernel × Timers :=
  ((smart_timer_start s.1 s.2 timer).1, (smart_timer_start s.1 s.2 timer).2.1)

/-- Timer 0 of `loneStarted` has been reset: it is Stopped. -/
def loneReset : Kernel × Timers := resetIn loneStarted (some 0)

/-- The reset timer has been started again. -/
def loneRestarted : Kernel × Timers := startIn loneReset (some 0)

/-- One tick after `loneStarted`: timer 0 is Running with 2 of 3 ticks left. -/
def loneTicked : Kernel × Timers :=
  (smart_timer_tick quietCallbacks 4 loneStarted.1 loneStarted.2).getD loneStarted

/-- Callbacks that count: the function at 0x08004000 adds 1 to the `parameter`
word of the TCB that its argument points to, every other callback changes
nothing. -/
def countingCallbacks : Callbacks := fun f arg w =>
  if f = 0x08004000 then
    (setTasks w.1 (upd w.1.tasks arg
      { (w.1.tasks arg) with parameter := (w.1.tasks arg).parameter + 1 }), w.2)
  else w

/-- A periodic timer of period 1 (slot 0) is running and a one-shot timer of
period 3 with the counting callback on TCB 7 (slot 1) has been created. -/
def countedCreated : Kernel × Timers × Option Nat :=
  smart_timer_create (createStarted timerBoot TIMER_PERIODIC 1 0x08002000 4).1
    (createStarted timerBoot TIMER_PERIODIC 1 0x08002000 4).2 TIMER_ONE_SHOT 3 0x08004000 7

/-- The one-shot timer of `countedCreated` has been started. -/
def countedStarted : Kernel × Timers :=
  ((smart_timer_start countedCreated.1 countedCreated.2.1 (some 1)).1,
   (smart_timer_start countedCreated.1 countedCreated.2.1 (some 1)).2.1)

/-- A lone one-shot timer of period 3 (slot 0), started at boot. -/
def oneShotLone : Kernel × Timers := createStarted timerBoot TIMER_ONE_SHOT 3 0x08001000 0

/-- One tick after `oneShotLone`, then `smart_timer_start` on the Running
timer. -/
def oneShotRestarted : Kernel × Timers :=
  startIn ((smart_timer_tick quietCallbacks 4 oneShotLone.1 oneShotLone.2).getD oneShotLone)
    (some 0)

/-- The timer of `oneShotLone` is reset and started again. -/
def oneShotResetStarted : Kernel × Timers := startIn (resetIn oneShotLone (some 0)) (some 0)

/-- A one-shot timer of period 2 (slot 1) is created and started while the
active list is the cycle of `loneRestarted`. -/
def oneShotBehindCycle : Kernel × Timers :=
  createStarted loneRestarted TIMER_ONE_SHOT 2 0x08001000 1

/-- A one-shot timer of period 2 (slot 1) is created and started behind the
running timer of `loneStarted`; then the timer in slot 0 is reset and started
again. -/
def oneShotThenCycle : Kernel × Timers :=
  startIn (resetIn (createStarted loneStarted TIMER_ONE_SHOT 2 0x08001000 1) (some 0)) (some 0)

/-- A one-shot timer of period 3 created and started without
`smart_timer_init`. -/
def oneShotUninit : Kernel × Timers :=
  createStarted (bootKernel, zeroTimers) TIMER_ONE_SHOT 3 0x08001000 0

/-- Three one-shot timers started in the order of their slots: slot 0 with
period 1, slot 1 with period 1 and the callback that stops the timer in slot 2,
slot 2 with period 5.  The active list is slot 2, slot 1, slot 0. -/
def stopperScene : Kernel × Timers :=
  createStarted
    (createStarted (createStarted timerBoot TIMER_ONE_SHOT 1 0x08001000 0)
      TIMER_ONE_SHOT 1 0x08003000 2)
    TIMER_ONE_SHOT 5 0x08001000 0

/-- T1 of `emaFirstYield` calls `smart_delay(6)` at tick 0. -/
def t1Delayed : Kernel := (smart_delay 4 emaFirstYield 6).getD emaFirstYield

/-- Four ticks later T2 is released, runs and blocks on `emptySem`. -/
def t1DelayedCutOff : Kernel × smart_semaphore_t :=
  (sem_wait_all 4 [2] ((tick_n 4 4 t1Delayed).getD t1Delayed) emptySem).getD
    (t1Delayed, emptySem)

/-- T1 of `emaFirstYield` yields at tick 0 and is Waiting for its arrival at
tick 10; at tick 4 T2 is released, runs and blocks on `emptySem`. -/
def t1WaitingCutOff : Kernel × smart_semaphore_t :=
  (sem_wait_all 4 [2]
    ((tick_n 4 4 ((smart_task_yield 4 emaFirstYield).getD emaFirstYield)).getD emaFirstYield)
    emptySem).getD (emaFirstYield, emptySem)

/-! ## Basic lemmas -/

@[simp] theorem smart_task.setNext_deadline (t : smart_task) (v : Option Nat) :
    (t.setNext v).deadline = t.deadline := rfl
@[simp] theorem smart_task.setNext_period (t : smart_task) (v : Option Nat) :
    (t.setNext v).period = t.period := rfl
@[simp] theorem smart_task.setNext_arrival (t : smart_task) (v : Option Nat) :
    (t.setNext v).arrival = t.arrival := rfl
@[simp] theorem smart_task.setNext_wakeup_time (t : smart_task) (v : Option Nat) :
    (t.setNext v).wakeup_time = t.wakeup_time := rfl
@[simp] theorem smart_task.setNext_state (t : smart_task) (v : Option Nat) :
    (t.setNext v).state = t.state := rfl
@[simp] theorem smart_task.setNext_next (t : smart_task) (v : Option Nat) :
    (t.setNext v).next = v := rfl
@[simp] theorem smart_task.setNext_stack_guard (t : smart_task) (v : Option Nat) :
    (t.setNext v).stack_guard = t.stack_guard := rfl
@[simp] theorem smart_task.setNext_guard_word (t : smart_task) (v : Option Nat) :
    (t.setNext v).guard_word = t.guard_word := rfl
@[simp] theorem smart_task.setState_deadline (t : smart_task) (v : Nat) :
    (t.setState v).deadline = t.deadline := rfl
@[simp] theorem smart_task.setState_period (t : smart_task) (v : Nat) :
    (t.setState v).period = t.period := rfl
@[simp] theorem smart_task.setState_arrival (t : smart_task) (v : Nat) :
    (t.setState v).arrival = t.arrival := rfl
@[simp] theorem smart_task.setState_wakeup_time (t : smart_task) (v : Nat) :
    (t.setState v).wakeup_time = t.wakeup_time := rfl
@[simp] theorem smart_task.setState_state (t : smart_task) (v : Nat) :
    (t.setState v).state = v := rfl
@[simp] theorem smart_task.setState_next (t : smart_task) (v : Nat) :
    (t.setState v).next = t.next := rfl
@[simp] theorem smart_task.setState_stack_guard (t : smart_task) (v : Nat) :
    (t.setState v).stack_guard = t.stack_guard := rfl
@[simp] theorem smart_task.setState_guard_word (t : smart_task) (v : Nat) :
    (t.setState v).guard_word = t.guard_word := rfl
@[simp] theorem smart_task.setDeadline_deadline (t : smart_task) (v : Nat) :
    (t.setDeadline v).deadline = v := rfl
@[simp] theorem smart_task.setDeadline_period (t : smart_task) (v : Nat) :
    (t.setDeadline v).period = t.period := rfl
@[simp] theorem smart_task.setDeadline_arrival (t : smart_task) (v : Nat) :
    (t.setDeadline v).arrival = t.arrival := rfl
@[simp] theorem smart_task.setDeadline_wakeup_time (t : smart_task) (v : Nat) :
    (t.setDeadline v).wakeup_time = t.wakeup_time := rfl
@[simp] theorem smart_task.setDeadline_state (t : smart_task) (v : Nat) :
    (t.setDeadline v).state = t.state := rfl
@[simp] theorem smart_task.setDeadline_next (t : smart_task) (v : Nat) :
    (t.setDeadline v).next = t.next := rfl
@[simp] theorem smart_task.setDeadline_stack_guard (t : smart_task) (v : Nat) :
    (t.setDeadline v).stack_guard = t.stack_guard := rfl
@[simp] theorem smart_task.setDeadline_guard_word (t : smart_task) (v : Nat) :
    (t.setDeadline v).guard_word = t.guard_word := rfl

@[simp] theorem smart_task.setNext_self (t : smart_task) : t.setNext t.next = t := rfl
@[simp] theorem smart_task.setNext_setNext (t : smart_task) (a b : Option Nat) :
    (t.setNext a).setNext b = t.setNext b := rfl

@[simp] theorem upd_same (mem : Nat → smart_task) (a : Nat) (t : smart_task) :
    upd mem a t a = t := by simp [upd]

theorem upd_other (mem : Nat → smart_task) (a : Nat) (t : smart_task) (x : Nat)
    (h : x ≠ a) : upd mem a t x = mem x := by simp [upd, h]

theorem switch_out_stats_core (tick : Nat) (t : smart_task) :
    (switch_out_stats tick t).core = t.core := by
  unfold switch_out_stats smart_task_update_watermark smart_task.core
  simp only []
  split_ifs <;> rfl

theorem isChain_nil (mem : Nat → smart_task) (p : Option Nat) :
    isChain mem p [] ↔ p = none := Iff.rfl

theorem isChain_cons (mem : Nat → smart_task) (p : Option Nat) (a : Nat) (l : List Nat) :
    isChain mem p (a :: l) ↔ p = some a ∧ isChain mem (mem a).next l := Iff.rfl

theorem isSeg_congr (mem mem' : Nat → smart_task) (q : Option Nat) :
    ∀ (l : List Nat) (p : Option Nat), (∀ a ∈ l, (mem' a).next = (mem a).next) →
      isSeg mem p l q → isSeg mem' p l q
  | [], _, _, hc => hc
  | a :: l, _, h, hc =>
    ⟨hc.1, by
      rw [h a (List.mem_cons_self _ _)]
      exact isSeg_congr mem mem' q l _ (fun x hx => h x (List.mem_cons_of_mem _ hx)) hc.2⟩

theorem isChain_congr (mem mem' : Nat → smart_task)
    (h : ∀ a, (mem' a).next = (mem a).next) (l : List Nat) (p : Option Nat)
    (hc : isChain mem p l) : isChain mem' p l :=
  isSeg_congr mem mem' none l p (fun a _ => h a) hc

theorem isSeg_upd_notin (mem : Nat → smart_task) (a : Nat) (t : smart_task)
    (q : Option Nat) (l : List Nat) (p : Option Nat) (hn : a ∉ l)
    (hc : isSeg mem p l q) : isSeg (upd mem a t) p l q := by
  refine isSeg_congr mem _ q l p ?_ hc
  intro x hx
  rw [upd_other mem a t x (fun h => hn (h ▸ hx))]

theorem isSeg_append (mem : Nat → smart_task) (q : Option Nat) :
    ∀ (l1 l2 : List Nat) (p : Option Nat),
      isSeg mem p (l1 ++ l2) q ↔ ∃ r, isSeg mem p l1 r ∧ isSeg mem r l2 q
  | [], l2, p => by
    constructor
    · intro h; exact ⟨p, rfl, h⟩
    · rintro ⟨r, h1, h2⟩
      have : p = r := h1
      subst this; exact h2
  | a :: l1, l2, p => by
    constructor
    · intro h
      obtain ⟨hp, hrest⟩ := h
      obtain ⟨r, h1, h2⟩ := (isSeg_append mem q l1 l2 _).mp hrest
      exact ⟨r, ⟨hp, h1⟩, h2⟩
    · rintro ⟨r, ⟨hp, h1⟩, h2⟩
      exact ⟨hp, (isSeg_append mem q l1 l2 _).mpr ⟨r, h1, h2⟩⟩

theorem isChain_unique (mem : Nat → smart_task) :
    ∀ (l1 l2 : List Nat) (p : Option Nat), isChain mem p l1 → isChain mem p l2 → l1 = l2
  | [], [], _, _, _ => rfl
  | [], b :: l2, p, h1, h2 => by
    have e1 : p = none := h1
    have e2 : p = some b := h2.1
    rw [e1] at e2; cases e2
  | a :: l1, [], p, h1, h2 => by
    have e1 : p = none := h2
    have e2 : p = some a := h1.1
    rw [e1] at e2; cases e2
  | a :: l1, b :: l2, p, h1, h2 => by
    have e1 : p = some a := h1.1
    have e2 : p = some b := h2.1
    rw [e1] at e2
    cases e2
    rw [isChain_unique mem l1 l2 _ h1.2 h2.2]

theorem isChain_nodup (mem : Nat → smart_task) :
    ∀ (l : List Nat) (p : Option Nat), isChain mem p l → l.Nodup
  | [], _, _ => List.nodup_nil
  | a :: l, p, h => by
    refine List.nodup_cons.mpr ⟨?_, isChain_nodup mem l _ h.2⟩
    intro ha
    obtain ⟨l1, l2, hl⟩ := List.append_of_mem ha
    have h2 : isChain mem (mem a).next (l1 ++ a :: l2) := hl ▸ h.2
    obtain ⟨r, -, hr⟩ := (isSeg_append mem none l1 (a :: l2) _).mp h2
    have hr1 : r = some a := hr.1
    have h3 : isChain mem (some a) (a :: l2) := hr1 ▸ hr
    have h4 : isChain mem (some a) (a :: l) := ⟨rfl, h.2⟩
    have h5 := isChain_unique mem _ _ _ h3 h4
    have h6 : l2.length = l.length := by
      have := congrArg List.length h5
      simpa using this
    have h7 := congrArg List.length hl
    simp at h7
    omega

theorem wait_list_tail_spec (mem : Nat → smart_task) :
    ∀ (l : List Nat) (fuel head : Nat), isChain mem (some head) l → l.length ≤ fuel →
      ∃ pre t, l = pre ++ [t] ∧ wait_list_tail mem fuel head = some t
  | [], _, _, h, _ => by cases h
  | a :: l, fuel, head, h, hlen => by
    have ha : head = a := Option.some.inj h.1
    subst ha
    cases fuel with
    | zero => simp at hlen
    | succ fuel =>
      have hlen' : l.length ≤ fuel := by simpa using hlen
      cases hn : (mem head).next with
      | none =>
        have hl : isChain mem none l := hn ▸ h.2
        cases l with
        | nil => exact ⟨[], head, rfl, by simp [wait_list_tail, hn]⟩
        | cons b l => cases hl.1
      | some n =>
        have hl : isChain mem (some n) l := hn ▸ h.2
        obtain ⟨pre, t, hpre, ht⟩ := wait_list_tail_spec mem l fuel n hl hlen'
        exact ⟨head :: pre, t, by rw [hpre]; rfl, by simp [wait_list_tail, hn, ht]⟩

/-- Appending to a wait list: on a terminated list that does not contain
`current`, the enqueue code returns, the list becomes `l ++ [current]`, and
only `next` fields of the old tail and of `current` are written. -/
theorem wait_list_append_spec (mem : Nat → smart_task) (l : List Nat) (fuel : Nat)
    (wl : Option Nat) (c : Nat) (hc : isChain mem wl l) (hlen : l.length ≤ fuel)
    (hn : c ∉ l) :
    ∃ mem' wl', wait_list_append fuel mem wl c = some (mem', wl') ∧
      isChain mem' wl' (l ++ [c]) ∧
      (∀ a, mem' a = (mem a).setNext (mem' a).next) ∧
      (∀ a, a ≠ c → a ≠ l.getLast?.getD c → mem' a = mem a) := by
  cases wl with
  | none =>
    cases l with
    | nil =>
      refine ⟨_, _, rfl, (isChain_cons _ _ _ _).mpr ⟨rfl, ?_⟩, ?_, ?_⟩
      · simp only [upd_same]
        exact (isChain_nil _ _).mpr rfl
      · intro a
        by_cases ha : a = c
        · subst ha; simp
        · simp [upd_other _ _ _ _ ha]
      · intro a ha _
        exact upd_other _ _ _ _ ha
    | cons b l => cases hc.1
  | some head =>
    obtain ⟨pre, t, hpre, ht⟩ := wait_list_tail_spec mem l fuel head hc hlen
    subst hpre
    have hct : c ≠ t := fun h => hn (by simp [h])
    have hcp : c ∉ pre := fun h => hn (by simp [h])
    have hnd := isChain_nodup mem _ _ hc
    have htp : t ∉ pre := by
      intro h
      rw [List.nodup_append] at hnd
      exact hnd.2.2 h (List.mem_singleton_self t)
    obtain ⟨r, hseg, hlast⟩ := (isSeg_append mem none pre [t] _).mp hc
    have happ : wait_list_append fuel mem (some head) c =
        some (upd (upd mem t ((mem t).setNext (some c))) c
          ((upd mem t ((mem t).setNext (some c)) c).setNext none), some head) := by
      simp only [wait_list_append, ht]
    refine ⟨_, _, happ, ?_, ?_, ?_⟩
    · rw [List.append_assoc]
      refine (isSeg_append _ none pre ([t] ++ [c]) _).mpr ⟨r, ?_, ?_⟩
      · exact isSeg_upd_notin _ _ _ _ _ _ hcp (isSeg_upd_notin _ _ _ _ _ _ htp hseg)
      · refine ⟨hlast.1, ?_, ?_⟩
        · rw [upd_other _ _ _ _ (Ne.symm hct)]; simp
        · simp
          rfl
    · intro a
      by_cases ha : a = c
      · subst ha; simp [upd_other _ _ _ _ hct]
      · rw [upd_other _ _ _ _ ha]
        by_cases hat : a = t
        · subst hat; simp
        · rw [upd_other _ _ _ _ hat]; rfl
    · intro a ha hat
      have hat' : a ≠ t := by simpa using hat
      rw [upd_other _ _ _ _ ha, upd_other _ _ _ _ hat']

theorem walk_spec (mem : Nat → smart_task) :
    ∀ (fuel : Nat) (p : Option Nat) (l : List Nat), walk mem fuel p = some l →
      isChain mem p l ∧ l.length ≤ fuel
  | fuel, none, l, h => by
    have hl : l = [] := by cases fuel <;> simpa [walk] using h.symm
    subst hl
    exact ⟨rfl, Nat.zero_le _⟩
  | 0, some a, l, h => by simp [walk] at h
  | fuel + 1, some a, l, h => by
    simp only [walk, Option.map_eq_some'] at h
    obtain ⟨l', hl', rfl⟩ := h
    obtain ⟨h1, h2⟩ := walk_spec mem fuel _ l' hl'
    exact ⟨⟨rfl, h1⟩, by simpa using h2⟩

theorem walk_of_chain (mem : Nat → smart_task) :
    ∀ (l : List Nat) (fuel : Nat) (p : Option Nat), isChain mem p l → l.length ≤ fuel →
      walk mem fuel p = some l
  | [], fuel, p, h, _ => by
    have hp : p = none := h
    subst hp
    cases fuel <;> rfl
  | a :: l, fuel, p, h, hlen => by
    have hp : p = some a := h.1
    subst hp
    cases fuel with
    | zero => simp at hlen
    | succ fuel =>
      have := walk_of_chain mem l fuel _ h.2 (by simpa using hlen)
      simp [walk, this]

theorem chain_bounded (N : Nat) (mem : Nat → smart_task)
    (hp : ∀ a < N, PtrOk N (mem a).next) :
    ∀ (l : List Nat) (p : Option Nat), PtrOk N p → isChain mem p l → ∀ x ∈ l, x < N
  | [], _, _, _ => by simp
  | a :: l, p, hpp, h => by
    have ha : a < N := hpp a h.1
    intro x hx
    rcases List.mem_cons.mp hx with rfl | hx
    · exact ha
    · exact chain_bounded N mem hp l _ (hp a ha) h.2 x hx

theorem nodup_bounded_length (N : Nat) (l : List Nat) (hnd : l.Nodup)
    (hb : ∀ x ∈ l, x < N) : l.length ≤ N := by
  have h1 : l.toFinset ⊆ Finset.range N := by
    intro x hx
    exact Finset.mem_range.mpr (hb x (List.mem_toFinset.mp hx))
  have h2 := Finset.card_le_card h1
  rw [List.toFinset_card_of_nodup hnd, Finset.card_range] at h2
  exact h2

theorem Acyclic_ptr (N : Nat) (mem : Nat → smart_task) (h : Acyclic N mem) :
    ∀ a < N, PtrOk N (mem a).next := fun a ha => (h a ha).1

/-- In a cycle-free memory every valid pointer heads a terminated list of at
most `N` valid nodes. -/
theorem Acyclic_chain (N : Nat) (mem : Nat → smart_task) (h : Acyclic N mem)
    (p : Option Nat) (hp : PtrOk N p) :
    ∃ l, isChain mem p l ∧ l.length ≤ N ∧ ∀ x ∈ l, x < N := by
  cases p with
  | none => exact ⟨[], rfl, Nat.zero_le _, by simp⟩
  | some a =>
    have ha : a < N := hp a rfl
    obtain ⟨l, hl⟩ := Option.isSome_iff_exists.mp (h a ha).2
    obtain ⟨h1, h2⟩ := walk_spec mem N _ l hl
    exact ⟨l, h1, h2, chain_bounded N mem (Acyclic_ptr N mem h) l _ hp h1⟩

theorem Acyclic_intro (N : Nat) (mem : Nat → smart_task)
    (hp : ∀ a < N, PtrOk N (mem a).next)
    (hc : ∀ a < N, ∃ l, isChain mem (some a) l) : Acyclic N mem := by
  intro a ha
  refine ⟨hp a ha, ?_⟩
  obtain ⟨l, hl⟩ := hc a ha
  have hb := chain_bounded N mem hp l _ (fun b hb => by cases hb; exact ha) hl
  have hlen := nodup_bounded_length N l (isChain_nodup mem l _ hl) hb
  rw [walk_of_chain mem l N _ hl hlen]
  rfl

theorem Acyclic_congr (N : Nat) (mem mem' : Nat → smart_task)
    (hn : ∀ a, (mem' a).next = (mem a).next) (h : Acyclic N mem) : Acyclic N mem' := by
  refine Acyclic_intro N mem' (fun a ha => by rw [hn a]; exact (h a ha).1) ?_
  intro a ha
  obtain ⟨l, hl, -⟩ := Acyclic_chain N mem h (some a) (fun b hb => by cases hb; exact ha)
  exact ⟨l, isChain_congr mem mem' hn l _ hl⟩

/-- Writing `NULL` into a `next` field keeps the memory cycle-free. -/
theorem Acyclic_cut (N : Nat) (mem : Nat → smart_task) (c : Nat) (t : smart_task)
    (ht : t.next = none) (h : Acyclic N mem) : Acyclic N (upd mem c t) := by
  refine Acyclic_intro N _ ?_ ?_
  · intro a ha
    by_cases hac : a = c
    · subst hac; rw [upd_same, ht]; intro b hb; cases hb
    · rw [upd_other _ _ _ _ hac]; exact (h a ha).1
  · intro a ha
    obtain ⟨l, hl, -⟩ := Acyclic_chain N mem h (some a) (fun b hb => by cases hb; exact ha)
    by_cases hc : c ∈ l
    · obtain ⟨l1, l2, hl12, hnot⟩ := List.eq_append_cons_of_mem hc
      subst hl12
      obtain ⟨r, h1, h2⟩ := (isSeg_append mem none l1 (c :: l2) _).mp hl
      refine ⟨l1 ++ [c], (isSeg_append _ none l1 [c] _).mpr
        ⟨r, isSeg_upd_notin _ _ _ _ _ _ hnot h1, h2.1, ?_⟩⟩
      rw [upd_same, ht]
      rfl
    · exact ⟨l, isSeg_upd_notin _ _ _ _ _ _ hc hl⟩

/-- Redirecting the `next` field of `x` to `y` keeps the memory cycle-free when
the list headed by `y` does not contain `x`. -/
theorem Acyclic_link (N : Nat) (mem : Nat → smart_task) (x : Nat) (t : smart_task)
    (y : Option Nat) (ly : List Nat) (ht : t.next = y) (hy : PtrOk N y)
    (hly : isChain mem y ly) (hx : x ∉ ly) (h : Acyclic N mem) :
    Acyclic N (upd mem x t) := by
  refine Acyclic_intro N _ ?_ ?_
  · intro a ha
    by_cases hax : a = x
    · subst hax; rw [upd_same, ht]; exact hy
    · rw [upd_other _ _ _ _ hax]; exact (h a ha).1
  · intro a ha
    obtain ⟨l, hl, -⟩ := Acyclic_chain N mem h (some a) (fun b hb => by cases hb; exact ha)
    by_cases hc : x ∈ l
    · obtain ⟨l1, l2, hl12, hnot⟩ := List.eq_append_cons_of_mem hc
      subst hl12
      obtain ⟨r, h1, h2⟩ := (isSeg_append mem none l1 (x :: l2) _).mp hl
      refine ⟨l1 ++ x :: ly, (isSeg_append _ none l1 (x :: ly) _).mpr
        ⟨r, isSeg_upd_notin _ _ _ _ _ _ hnot h1, h2.1, ?_⟩⟩
      rw [upd_same, ht]
      exact isSeg_upd_notin _ _ _ _ _ _ hx hly
    · exact ⟨l, isSeg_upd_notin _ _ _ _ _ _ hc hl⟩

theorem schedule_scan_spec (mem : Nat → smart_task) :
    ∀ (l : List Nat) (fuel : Nat) (p best : Option Nat) (md : Nat),
      isChain mem p l → l.length ≤ fuel →
      ∃ r md', schedule_scan mem fuel p best md = some r ∧ md' ≤ md ∧
        (∀ x ∈ l, (mem x).state = TASK_STATE_READY → md' ≤ (mem x).deadline) ∧
        ((r = best ∧ md' = md) ∨
          ∃ b ∈ l, r = some b ∧ md' = (mem b).deadline ∧
            (mem b).state = TASK_STATE_READY ∧ (mem b).deadline < md) := by
  intro l
  induction l with
  | nil =>
    intro fuel p best md hc _
    have hp : p = none := hc
    subst hp
    exact ⟨best, md, by cases fuel <;> rfl, le_refl _, by simp, Or.inl ⟨rfl, rfl⟩⟩
  | cons a l ih =>
    intro fuel p best md hc hlen
    obtain ⟨hp, hrest⟩ := hc
    subst hp
    cases fuel with
    | zero => simp at hlen
    | succ fuel =>
      have hlen' : l.length ≤ fuel := by simpa using hlen
      by_cases hready : (mem a).state = TASK_STATE_READY
      · by_cases hlt : (mem a).deadline < md
        · obtain ⟨r, md', hr, hle, hall, hres⟩ :=
            ih fuel (mem a).next (some a) (mem a).deadline hrest hlen'
          refine ⟨r, md', by simp [schedule_scan, hready, hlt, hr], by omega, ?_, ?_⟩
          · intro x hx hxr
            rcases List.mem_cons.mp hx with rfl | hx
            · exact hle
            · exact hall x hx hxr
          · rcases hres with ⟨h1, h2⟩ | ⟨b, hb, h1, h2, h3, h4⟩
            · exact Or.inr ⟨a, List.mem_cons_self _ _, h1, h2, hready, hlt⟩
            · exact Or.inr ⟨b, List.mem_cons_of_mem _ hb, h1, h2, h3, by omega⟩
        · obtain ⟨r, md', hr, hle, hall, hres⟩ :=
            ih fuel (mem a).next best md hrest hlen'
          refine ⟨r, md', by simp [schedule_scan, hready, hlt, hr], hle, ?_, ?_⟩
          · intro x hx hxr
            rcases List.mem_cons.mp hx with rfl | hx
            · omega
            · exact hall x hx hxr
          · rcases hres with ⟨h1, h2⟩ | ⟨b, hb, h1, h2, h3, h4⟩
            · exact Or.inl ⟨h1, h2⟩
            · exact Or.inr ⟨b, List.mem_cons_of_mem _ hb, h1, h2, h3, h4⟩
      · obtain ⟨r, md', hr, hle, hall, hres⟩ :=
          ih fuel (mem a).next best md hrest hlen'
        refine ⟨r, md', by simp [schedule_scan, hready, hr], hle, ?_, ?_⟩
        · intro x hx hxr
          rcases List.mem_cons.mp hx with rfl | hx
          · exact absurd hxr hready
          · exact hall x hx hxr
        · rcases hres with ⟨h1, h2⟩ | ⟨b, hb, h1, h2, h3, h4⟩
          · exact Or.inl ⟨h1, h2⟩
          · exact Or.inr ⟨b, List.mem_cons_of_mem _ hb, h1, h2, h3, h4⟩

theorem upd_core (mem : Nat → smart_task) (a : Nat) (t : smart_task)
    (h : t.core = (mem a).core) (x : Nat) : (upd mem a t x).core = (mem x).core := by
  by_cases hx : x = a
  · subst hx; simpa using h
  · rw [upd_other mem a t x hx]

theorem guard_check_congr (mem mem' : Nat → smart_task)
    (h : ∀ a, (mem' a).core = (mem a).core) (p : Option Nat) :
    smart_stack_guard_check mem' p = smart_stack_guard_check mem p := by
  cases p with
  | none => rfl
  | some a =>
    have h2 := h a
    simp only [smart_task.core, Prod.mk.injEq] at h2
    obtain ⟨-, -, -, -, -, -, h7, h8⟩ := h2
    simp only [smart_stack_guard_check]
    rw [h7, h8]

theorem GuardsIntact_of_core (N : Nat) (mem mem' : Nat → smart_task)
    (h : ∀ a, (mem' a).core = (mem a).core) (hg : GuardsIntact N mem) : GuardsIntact N mem' :=
  fun a ha => (guard_check_congr mem mem' h (some a)).trans (hg a ha)

theorem guard_check_ok (N : Nat) (mem : Nat → smart_task) (hg : GuardsIntact N mem)
    (p : Option Nat) (hp : PtrOk N p) : smart_stack_guard_check mem p = true := by
  cases p with
  | none => rfl
  | some a => exact hg a (hp a rfl)

theorem switch_bookkeeping_core (mem : Nat → smart_task) (current : Option Nat)
    (best tick : Nat) (a : Nat) :
    (switch_bookkeeping mem current best tick a).core = (mem a).core := by
  unfold switch_bookkeeping
  refine (upd_core _ _ _ (by rfl) a).trans ?_
  cases current with
  | none => rfl
  | some c => exact upd_core _ _ _ (switch_out_stats_core _ _) a

theorem schedule_scan_found (mem : Nat → smart_task) (l : List Nat) (fuel : Nat)
    (p : Option Nat) (hc : isChain mem p l) (hlen : l.length ≤ fuel) :
    ∃ found, schedule_scan mem fuel p none 0xFFFFFFFF = some found ∧
      (∀ b, found = some b → b ∈ l) := by
  obtain ⟨r, md', hr, -, -, hres⟩ := schedule_scan_spec mem l fuel p none 0xFFFFFFFF hc hlen
  refine ⟨r, hr, ?_⟩
  intro b hb
  rcases hres with ⟨h1, -⟩ | ⟨b', hb', h1, -⟩
  · rw [h1] at hb; cases hb
  · rw [h1] at hb; cases hb; exact hb'

/-- Effect of `smart_schedule` on a terminated task list with intact guards: it
returns, `next_task` is the task found by the scan (the idle task when the scan
finds none), and only bookkeeping fields of TCBs are written. -/
theorem smart_schedule_spec (N fuel : Nat) (k : Kernel) (l : List Nat)
    (hc : isChain k.tasks k.task_list l) (hlen : l.length ≤ fuel)
    (hN : idle_task < N) (hl : ∀ x ∈ l, x < N) (hcur : PtrOk N k.current_task)
    (hg : GuardsIntact N k.tasks) :
    ∃ k' found, schedule_scan k.tasks fuel k.task_list none 0xFFFFFFFF = some found ∧
      smart_schedule fuel k = some k' ∧
      k'.next_task = some (found.getD idle_task) ∧
      (∀ a, (k'.tasks a).core = (k.tasks a).core) ∧
      k'.task_list = k.task_list ∧ k'.os_tick = k.os_tick ∧
      k'.scheduler_started = k.scheduler_started ∧
      k'.critical_nesting = k.critical_nesting ∧ k'.irq_enabled = k.irq_enabled ∧
      (k.current_task ≠ none → k'.current_task = k.current_task) ∧
      PtrOk N k'.current_task := by
  obtain ⟨found, hscan, hfound⟩ := schedule_scan_found k.tasks l fuel k.task_list hc hlen
  have hbest : found.getD idle_task < N := by
    cases found with
    | none => exact hN
    | some b => exact hl b (hfound b rfl)
  have hbestp : PtrOk N (some (found.getD idle_task)) := fun a ha => by cases ha; exact hbest
  unfold smart_schedule
  simp only [hscan]
  by_cases hs : k.scheduler_started = false
  · simp only [hs, if_true]
    by_cases hcur0 : k.current_task = none
    · simp only [hcur0, if_true]
      exact ⟨_, found, rfl, rfl, rfl, fun _ => rfl, rfl, rfl, hs.symm ▸ rfl, rfl, rfl,
        fun h => absurd rfl h, hbestp⟩
    · simp only [hcur0, if_false]
      exact ⟨_, found, rfl, rfl, rfl, fun _ => rfl, rfl, rfl, hs.symm ▸ rfl, rfl, rfl,
        fun _ => rfl, hcur⟩
  · simp only [hs, if_false]
    by_cases hne : k.current_task ≠ some (found.getD idle_task)
    · rw [if_pos hne]
      have hcore2 := switch_bookkeeping_core k.tasks k.current_task (found.getD idle_task) k.os_tick
      have hg2 := GuardsIntact_of_core N k.tasks _ hcore2 hg
      have h1 := guard_check_ok N _ hg2 k.current_task hcur
      have h2 := guard_check_ok N _ hg2 (some (found.getD idle_task)) hbestp
      simp only [h1, h2]
      exact ⟨_, found, rfl, rfl, rfl, hcore2, rfl, rfl, rfl, rfl, rfl, fun _ => rfl, hcur⟩
    · rw [if_neg hne]
      exact ⟨_, found, rfl, rfl, rfl, fun _ => rfl, rfl, rfl, rfl, rfl, rfl, fun _ => rfl, hcur⟩

theorem smart_task.core_inj {t t' : smart_task} (h : t.core = t'.core) :
    t.deadline = t'.deadline ∧ t.period = t'.period ∧ t.arrival = t'.arrival ∧
      t.wakeup_time = t'.wakeup_time ∧ t.state = t'.state ∧ t.next = t'.next ∧
      t.stack_guard = t'.stack_guard ∧ t.guard_word = t'.guard_word := by
  simpa only [smart_task.core, Prod.mk.injEq] using h

@[simp] theorem smart_enter_critical_tasks (k : Kernel) :
    (smart_enter_critical k).tasks = k.tasks := rfl
@[simp] theorem smart_enter_critical_current_task (k : Kernel) :
    (smart_enter_critical k).current_task = k.current_task := rfl
@[simp] theorem smart_enter_critical_task_list (k : Kernel) :
    (smart_enter_critical k).task_list = k.task_list := rfl
@[simp] theorem smart_enter_critical_os_tick (k : Kernel) :
    (smart_enter_critical k).os_tick = k.os_tick := rfl
@[simp] theorem smart_enter_critical_scheduler_started (k : Kernel) :
    (smart_enter_critical k).scheduler_started = k.scheduler_started := rfl
@[simp] theorem smart_exit_critical_tasks (k : Kernel) :
    (smart_exit_critical k).tasks = k.tasks := by
  unfold smart_exit_critical; split_ifs <;> rfl
@[simp] theorem smart_exit_critical_current_task (k : Kernel) :
    (smart_exit_critical k).current_task = k.current_task := by
  unfold smart_exit_critical; split_ifs <;> rfl
@[simp] theorem smart_exit_critical_task_list (k : Kernel) :
    (smart_exit_critical k).task_list = k.task_list := by
  unfold smart_exit_critical; split_ifs <;> rfl
@[simp] theorem smart_exit_critical_os_tick (k : Kernel) :
    (smart_exit_critical k).os_tick = k.os_tick := by
  unfold smart_exit_critical; split_ifs <;> rfl
@[simp] theorem smart_exit_critical_scheduler_started (k : Kernel) :
    (smart_exit_critical k).scheduler_started = k.scheduler_started := by
  unfold smart_exit_critical; split_ifs <;> rfl

@[simp] theorem setTasks_tasks (k : Kernel) (mem : Nat → smart_task) :
    (setTasks k mem).tasks = mem := rfl
@[simp] theorem setTasks_current_task (k : Kernel) (mem : Nat → smart_task) :
    (setTasks k mem).current_task = k.current_task := rfl
@[simp] theorem setTasks_task_list (k : Kernel) (mem : Nat → smart_task) :
    (setTasks k mem).task_list = k.task_list := rfl
@[simp] theorem setTasks_os_tick (k : Kernel) (mem : Nat → smart_task) :
    (setTasks k mem).os_tick = k.os_tick := rfl
@[simp] theorem setTasks_scheduler_started (k : Kernel) (mem : Nat → smart_task) :
    (setTasks k mem).scheduler_started = k.scheduler_started := rfl
@[simp] theorem setCurrent_tasks (k : Kernel) (c : Option Nat) :
    (setCurrent k c).tasks = k.tasks := rfl
@[simp] theorem setCurrent_current_task (k : Kernel) (c : Option Nat) :
    (setCurrent k c).current_task = c := rfl
@[simp] theorem setCurrent_task_list (k : Kernel) (c : Option Nat) :
    (setCurrent k c).task_list = k.task_list := rfl
@[simp] theorem setCurrent_os_tick (k : Kernel) (c : Option Nat) :
    (setCurrent k c).os_tick = k.os_tick := rfl

theorem KernelOk_of_eq (N : Nat) (k k' : Kernel) (h1 : k'.tasks = k.tasks)
    (h2 : k'.current_task = k.current_task) (h3 : k'.task_list = k.task_list)
    (hk : KernelOk N k) : KernelOk N k' := by
  unfold KernelOk at *
  rw [h1, h2, h3]
  exact hk

theorem KernelOk_exit (N : Nat) (k : Kernel) (hk : KernelOk N k) :
    KernelOk N (smart_exit_critical k) :=
  KernelOk_of_eq N k _ (by simp) (by simp) (by simp) hk

theorem KernelOk_enter (N : Nat) (k : Kernel) (hk : KernelOk N k) :
    KernelOk N (smart_enter_critical k) :=
  KernelOk_of_eq N k _ rfl rfl rfl hk

/-- On a well-formed kernel `smart_schedule` returns a well-formed kernel and
writes only bookkeeping fields. -/
theorem smart_schedule_ok (N fuel : Nat) (k : Kernel) (hk : KernelOk N k) (hf : N ≤ fuel) :
    ∃ k', smart_schedule fuel k = some k' ∧ KernelOk N k' ∧
      (∀ a, (k'.tasks a).core = (k.tasks a).core) ∧
      k'.task_list = k.task_list ∧ k'.os_tick = k.os_tick ∧
      k'.scheduler_started = k.scheduler_started ∧
      (k.current_task ≠ none → k'.current_task = k.current_task) := by
  obtain ⟨hidle, hcur, hlist, hac, hg⟩ := hk
  obtain ⟨l, hl, hlen, hb⟩ := Acyclic_chain N k.tasks hac k.task_list hlist
  obtain ⟨k', found, -, hk', -, hcore, htl, htick, hst, -, -, hcur', hptr⟩ :=
    smart_schedule_spec N fuel k l hl (le_trans hlen hf) hidle hb hcur hg
  refine ⟨k', hk', ⟨hidle, hptr, htl ▸ hlist, ?_, ?_⟩, hcore, htl, htick, hst, hcur'⟩
  · exact Acyclic_congr N k.tasks k'.tasks (fun a => (smart_task.core_inj (hcore a)).2.2.2.2.2.1) hac
  · exact GuardsIntact_of_core N k.tasks k'.tasks hcore hg

theorem yield_update_frame (t : smart_task) :
    (yield_update t).next = t.next ∧ (yield_update t).stack_guard = t.stack_guard ∧
      (yield_update t).guard_word = t.guard_word ∧ (yield_update t).period = t.period ∧
      (yield_update t).wakeup_time = t.wakeup_time := by
  unfold yield_update
  split_ifs <;> exact ⟨rfl, rfl, rfl, rfl, rfl⟩

/-- A memory update that keeps `next` and the guard fields of the written TCB
keeps a kernel well-formed. -/
theorem KernelOk_upd (N : Nat) (k : Kernel) (c : Nat) (t : smart_task)
    (h1 : t.next = (k.tasks c).next) (h2 : t.stack_guard = (k.tasks c).stack_guard)
    (h3 : t.guard_word = (k.tasks c).guard_word) (hk : KernelOk N k) :
    KernelOk N (setTasks k (upd k.tasks c t)) := by
  obtain ⟨hidle, hcur, hlist, hac, hg⟩ := hk
  refine ⟨hidle, hcur, hlist, ?_, ?_⟩
  · refine Acyclic_congr N k.tasks _ ?_ hac
    intro a
    by_cases ha : a = c
    · subst ha; simpa using h1
    · simp [upd_other _ _ _ _ ha]
  · intro a ha
    have := hg a ha
    by_cases hac : a = c
    · subst hac
      simp only [smart_stack_guard_check, setTasks_tasks, upd_same, h2, h3] at this ⊢
      exact this
    · simp only [smart_stack_guard_check, setTasks_tasks, upd_other _ _ _ _ hac] at this ⊢
      exact this

/-- On a well-formed kernel with a current task `smart_task_yield` returns; the
current task gets the yield update and nothing else changes in the scheduling
fields of any task. -/
theorem smart_task_yield_eq (fuel : Nat) (k : Kernel) (c : Nat)
    (hc : k.current_task = some c) :
    smart_task_yield fuel k =
      (smart_schedule fuel (setTasks (smart_enter_critical k)
        (upd k.tasks c (yield_update (k.tasks c))))).map smart_exit_critical := by
  unfold smart_task_yield
  simp only [smart_enter_critical_current_task, hc, smart_enter_critical_tasks]
  cases smart_schedule fuel (setTasks (smart_enter_critical k)
    (upd k.tasks c (yield_update (k.tasks c)))) <;> rfl

theorem smart_task_yield_ok (N fuel : Nat) (k : Kernel) (c : Nat) (hk : KernelOk N k)
    (hf : N ≤ fuel) (hc : k.current_task = some c) :
    ∃ k', smart_task_yield fuel k = some k' ∧ KernelOk N k' ∧
      (∀ a, (k'.tasks a).core = (upd k.tasks c (yield_update (k.tasks c)) a).core) ∧
      k'.task_list = k.task_list ∧ k'.os_tick = k.os_tick ∧
      k'.current_task = some c ∧ k'.scheduler_started = k.scheduler_started := by
  have hfr := yield_update_frame (k.tasks c)
  have hk1 : KernelOk N (setTasks (smart_enter_critical k)
      (upd k.tasks c (yield_update (k.tasks c)))) :=
    KernelOk_upd N (smart_enter_critical k) c _ hfr.1 hfr.2.1 hfr.2.2.1 (KernelOk_enter N k hk)
  obtain ⟨k2, hk2, hok2, hcore, htl, htick, hst, hcur⟩ := smart_schedule_ok N fuel _ hk1 hf
  refine ⟨smart_exit_critical k2, ?_, KernelOk_exit N k2 hok2, ?_, ?_, ?_, ?_, ?_⟩
  · rw [smart_task_yield_eq fuel k c hc, hk2]; rfl
  · intro a; simpa using hcore a
  · simpa using htl
  · simpa using htick
  · have := hcur (by simp [hc])
    simpa [hc] using this
  · simpa using hst

/-- Replacing the memory by a cycle-free one with the same guard fields keeps
a kernel well-formed. -/
theorem KernelOk_setTasks (N : Nat) (k : Kernel) (mem' : Nat → smart_task)
    (hac : Acyclic N mem')
    (hgf : ∀ a, (mem' a).stack_guard = (k.tasks a).stack_guard ∧
      (mem' a).guard_word = (k.tasks a).guard_word)
    (hk : KernelOk N k) : KernelOk N (setTasks k mem') := by
  obtain ⟨hidle, hcur, hlist, -, hg⟩ := hk
  refine ⟨hidle, hcur, hlist, hac, ?_⟩
  intro a ha
  have := hg a ha
  simp only [smart_stack_guard_check, setTasks_tasks, (hgf a).1, (hgf a).2] at this ⊢
  exact this

theorem smart_sem_post_eq_wake (fuel : Nat) (k : Kernel) (s : smart_semaphore_t) (h : Nat)
    (hwl : s.wait_list = some h) :
    smart_sem_post fuel k (some s) =
      (smart_schedule fuel (smart_exit_critical (setTasks (smart_enter_critical k)
        (upd k.tasks h (((k.tasks h).setNext none).setState TASK_STATE_READY))))).map
        (fun k3 => (k3, some { s with wait_list := (k.tasks h).next }, SMART_SYNC_OK)) := by
  unfold smart_sem_post
  simp only [hwl, smart_enter_critical_tasks]
  cases smart_schedule fuel (smart_exit_critical (setTasks (smart_enter_critical k)
    (upd k.tasks h (((k.tasks h).setNext none).setState TASK_STATE_READY)))) <;> rfl

/-- Effect of `smart_sem_post` on a well-formed kernel. -/
theorem smart_sem_post_ok (N fuel : Nat) (k : Kernel) (s : smart_semaphore_t)
    (l : List Nat) (hk : KernelOk N k) (hf : N ≤ fuel)
    (hl : isChain k.tasks s.wait_list l) (hcnt : s.count ≤ s.max_count) :
    ∃ k' s', smart_sem_post fuel k (some s) = some (k', some s', SMART_SYNC_OK) ∧
      KernelOk N k' ∧ s'.max_count = s.max_count ∧
      (∀ h rest, l = h :: rest →
        isChain k'.tasks s'.wait_list rest ∧ h ∉ rest ∧
        (k'.tasks h).state = TASK_STATE_READY ∧ s'.count = s.count ∧
        (∀ a, a ≠ h → (k'.tasks a).core = (k.tasks a).core)) ∧
      (l = [] → s'.wait_list = none ∧ s'.count = min (s.count + 1) s.max_count ∧
        k'.tasks = k.tasks) := by
  cases l with
  | nil =>
    have hwl : s.wait_list = none := hl
    refine ⟨smart_exit_critical (smart_enter_critical k),
      if s.count < s.max_count then { s with count := s.count + 1 } else s, ?_,
      KernelOk_exit N _ (KernelOk_enter N k hk), ?_, ?_, ?_⟩
    · unfold smart_sem_post
      simp only [hwl]
    · split_ifs <;> rfl
    · intro h rest hcontra; cases hcontra
    · intro _
      refine ⟨?_, ?_, by simp⟩
      · split_ifs <;> exact hwl
      · split_ifs with hlt
        · simp only []; omega
        · omega
  | cons h rest =>
    have hwl : s.wait_list = some h := hl.1
    have hrest : isChain k.tasks (k.tasks h).next rest := hl.2
    have hnd := isChain_nodup k.tasks _ _ hl
    have hnot : h ∉ rest := (List.nodup_cons.mp hnd).1
    have hk1 : KernelOk N (smart_exit_critical (setTasks (smart_enter_critical k)
        (upd k.tasks h (((k.tasks h).setNext none).setState TASK_STATE_READY)))) := by
      refine KernelOk_exit N _ (KernelOk_setTasks N _ _ ?_ ?_ (KernelOk_enter N k hk))
      · exact Acyclic_cut N k.tasks h _ rfl hk.2.2.2.1
      · intro a
        by_cases ha : a = h
        · subst ha; simp
        · simp [upd_other _ _ _ _ ha]
    obtain ⟨k3, hk3, hok3, hcore, -⟩ := smart_schedule_ok N fuel _ hk1 hf
    refine ⟨k3, { s with wait_list := (k.tasks h).next }, ?_, hok3, rfl, ?_, ?_⟩
    · rw [smart_sem_post_eq_wake fuel k s h hwl, hk3]; rfl
    · intro h' rest' heq
      cases heq
      have hcore' : ∀ a, (k3.tasks a).core =
          (upd k.tasks h (((k.tasks h).setNext none).setState TASK_STATE_READY) a).core := by
        intro a; simpa using hcore a
      refine ⟨?_, hnot, ?_, rfl, ?_⟩
      · refine isChain_congr _ k3.tasks
          (fun a => (smart_task.core_inj (hcore' a)).2.2.2.2.2.1) rest _ ?_
        exact isSeg_upd_notin _ _ _ _ _ _ hnot hrest
      · rw [(smart_task.core_inj (hcore' h)).2.2.2.2.1]; simp
      · intro a ha
        rw [hcore' a, upd_other _ _ _ _ ha]
    · intro hcontra; cases hcontra

/-- The enqueue code returns on every cycle-free memory and keeps it
cycle-free, whether or not `c` is already queued. -/
theorem wait_list_append_ok (N fuel : Nat) (mem : Nat → smart_task) (wl : Option Nat)
    (c : Nat) (hac : Acyclic N mem) (hwl : PtrOk N wl) (hc : c < N) (hf : N ≤ fuel) :
    ∃ mem' wl', wait_list_append fuel mem wl c = some (mem', wl') ∧ Acyclic N mem' ∧
      PtrOk N wl' ∧ (∀ a, mem' a = (mem a).setNext (mem' a).next) := by
  have hcp : PtrOk N (some c) := fun b hb => by cases hb; exact hc
  have hcut := Acyclic_cut N mem c ((mem c).setNext none) rfl hac
  cases wl with
  | none =>
    refine ⟨_, _, rfl, hcut, hcp, ?_⟩
    intro a
    by_cases ha : a = c
    · subst ha; simp
    · simp [upd_other _ _ _ _ ha]
  | some head =>
    obtain ⟨l, hl, hlen, -⟩ := Acyclic_chain N mem hac (some head) hwl
    obtain ⟨pre, t, -, ht⟩ := wait_list_tail_spec mem l fuel head hl (le_trans hlen hf)
    have happ : wait_list_append fuel mem (some head) c =
        some (upd (upd mem t ((mem t).setNext (some c))) c
          ((upd mem t ((mem t).setNext (some c)) c).setNext none), some head) := by
      simp only [wait_list_append, ht]
    refine ⟨_, _, happ, ?_, hwl, ?_⟩
    · by_cases hct : c = t
      · subst hct
        refine Acyclic_congr N _ _ ?_ hcut
        intro a
        by_cases ha : a = c
        · subst ha; simp
        · simp [upd_other _ _ _ _ ha]
      · have hlink := Acyclic_link N (upd mem c ((mem c).setNext none)) t
          ((upd mem c ((mem c).setNext none) t).setNext (some c))
          (some c) [c] rfl hcp ⟨rfl, by rw [upd_same]; rfl⟩
          (by simpa using Ne.symm hct) hcut
        refine Acyclic_congr N _ _ ?_ hlink
        intro a
        by_cases ha : a = c
        · subst ha
          simp [upd_other _ _ _ _ hct]
        · rw [upd_other _ _ _ _ ha]
          by_cases hat : a = t
          · subst hat; simp
          · rw [upd_other _ _ _ _ hat, upd_other _ _ _ _ hat, upd_other _ _ _ _ ha]
    · intro a
      by_cases ha : a = c
      · subst ha
        by_cases hat : a = t
        · subst hat; simp
        · simp [upd_other _ _ _ _ hat]
      · rw [upd_other _ _ _ _ ha]
        by_cases hat : a = t
        · subst hat; simp
        · rw [upd_other _ _ _ _ hat]; rfl

/-- Effect of a blocking `smart_sem_wait` (count 0) by the running task `c`. -/
theorem smart_sem_wait_block_ok (N fuel : Nat) (k : Kernel) (s : smart_semaphore_t)
    (c : Nat) (l : List Nat) (hk : KernelOk N k) (hf : N ≤ fuel)
    (hc : k.current_task = some c) (hcnt : s.count = 0) (hwl : PtrOk N s.wait_list)
    (hl : isChain k.tasks s.wait_list l) (hn : c ∉ l) :
    ∃ k' s', smart_sem_wait fuel k (some s) = some (k', some s', SMART_SYNC_OK) ∧
      KernelOk N k' ∧ PtrOk N s'.wait_list ∧ isChain k'.tasks s'.wait_list (l ++ [c]) ∧
      s'.count = 0 ∧ s'.max_count = s.max_count ∧
      (k'.tasks c).state =
        (if (k.tasks c).period > 0 then TASK_STATE_WAITING else TASK_STATE_READY) ∧
      (∀ a, a ≠ c → (k'.tasks a).deadline = (k.tasks a).deadline ∧
        (k'.tasks a).state = (k.tasks a).state) := by
  have hcN : c < N := hk.2.1 c hc
  have hac1 : Acyclic N (upd k.tasks c ((k.tasks c).setState TASK_STATE_WAITING)) := by
    refine Acyclic_congr N k.tasks _ ?_ hk.2.2.2.1
    intro a
    by_cases ha : a = c
    · subst ha; simp
    · rw [upd_other _ _ _ _ ha]
  have hl1 : isChain (upd k.tasks c ((k.tasks c).setState TASK_STATE_WAITING))
      s.wait_list l := isSeg_upd_notin _ _ _ _ _ _ hn hl
  obtain ⟨l', hl', hlen', -⟩ := Acyclic_chain N _ hac1 s.wait_list hwl
  have hll : l' = l := isChain_unique _ _ _ _ hl' hl1
  subst hll
  obtain ⟨mem2, wl2, happ, hac2, hwl2, hfr2⟩ :=
    wait_list_append_ok N fuel _ s.wait_list c hac1 hwl hcN hf
  obtain ⟨mem2', wl2', happ', hch2, -, -⟩ :=
    wait_list_append_spec _ l' fuel s.wait_list c hl1 (le_trans hlen' hf) hn
  rw [happ] at happ'
  cases happ'
  have hgf : ∀ a, (mem2 a).stack_guard = (k.tasks a).stack_guard ∧
      (mem2 a).guard_word = (k.tasks a).guard_word ∧
      (mem2 a).deadline = (k.tasks a).deadline ∧ (mem2 a).period = (k.tasks a).period ∧
      (mem2 a).state = (if a = c then TASK_STATE_WAITING else (k.tasks a).state) := by
    intro a
    rw [hfr2 a]
    by_cases ha : a = c
    · subst ha; simp
    · simp [upd_other _ _ _ _ ha, ha]
  have hk2 : KernelOk N (smart_exit_critical (setTasks (smart_enter_critical k) mem2)) :=
    KernelOk_exit N _ (KernelOk_setTasks N _ _ hac2 (fun a => ⟨(hgf a).1, (hgf a).2.1⟩)
      (KernelOk_enter N k hk))
  obtain ⟨k3, hy, hok3, hcore3, -⟩ :=
    smart_task_yield_ok N fuel _ c hk2 hf (by simpa using hc)
  have hcore3' : ∀ a, (k3.tasks a).core = (upd mem2 c (yield_update (mem2 c)) a).core := by
    intro a; simpa using hcore3 a
  refine ⟨k3, { s with wait_list := wl2 }, ?_, hok3, hwl2, ?_, hcnt, rfl, ?_, ?_⟩
  · unfold smart_sem_wait
    simp only [hcnt, gt_iff_lt, lt_irrefl, if_false, smart_get_current_task,
      smart_enter_critical_current_task, hc, smart_enter_critical_tasks, happ, hy]
  · refine isChain_congr mem2 k3.tasks ?_ _ _ hch2
    intro a
    rw [(smart_task.core_inj (hcore3' a)).2.2.2.2.2.1]
    by_cases ha : a = c
    · subst ha; rw [upd_same]; exact (yield_update_frame _).1
    · rw [upd_other _ _ _ _ ha]
  · rw [(smart_task.core_inj (hcore3' c)).2.2.2.2.1, upd_same]
    unfold yield_update
    rw [(hgf c).2.2.2.1]
    split_ifs <;> rfl
  · intro a ha
    have h := smart_task.core_inj (hcore3' a)
    rw [upd_other _ _ _ _ ha] at h
    rw [h.1, h.2.2.2.2.1, (hgf a).2.2.1, (hgf a).2.2.2.2, if_neg ha]
    exact ⟨rfl, rfl⟩

theorem KernelOk_setCurrent (N : Nat) (k : Kernel) (c : Nat) (hc : c < N)
    (hk : KernelOk N k) : KernelOk N (setCurrent k (some c)) :=
  ⟨hk.1, fun b hb => by cases hb; exact hc, hk.2.2.1, hk.2.2.2.1, hk.2.2.2.2⟩

theorem sem_wait_all_ok (N fuel : Nat) (hf : N ≤ fuel) :
    ∀ (ts : List Nat) (k : Kernel) (s : smart_semaphore_t) (l0 : List Nat),
      KernelOk N k → s.count = 0 → PtrOk N s.wait_list →
      isChain k.tasks s.wait_list l0 → (l0 ++ ts).Nodup → (∀ t ∈ ts, t < N) →
      ∃ k1 s1, sem_wait_all fuel ts k s = some (k1, s1) ∧ KernelOk N k1 ∧
        isChain k1.tasks s1.wait_list (l0 ++ ts) ∧ s1.count = 0 ∧
        s1.max_count = s.max_count
  | [], k, s, l0, hk, hcnt, _, hl, _, _ =>
    ⟨k, s, rfl, hk, by simpa using hl, hcnt, rfl⟩
  | t :: ts, k, s, l0, hk, hcnt, hwl, hl, hnd, hb => by
    have htN : t < N := hb t (List.mem_cons_self _ _)
    have htl : t ∉ l0 := by
      intro h
      exact (List.nodup_append.mp hnd).2.2 h (List.mem_cons_self _ _)
    obtain ⟨k', s', hw, hk', hwl', hl', hcnt', hmax', -⟩ :=
      smart_sem_wait_block_ok N fuel (setCurrent k (some t)) s t l0
        (KernelOk_setCurrent N k t htN hk) hf rfl hcnt hwl hl htl
    obtain ⟨k1, s1, h1, hk1, hl1, hc1, hm1⟩ :=
      sem_wait_all_ok N fuel hf ts k' s' (l0 ++ [t]) hk' hcnt' hwl' hl'
        (by simpa using hnd) (fun x hx => hb x (List.mem_cons_of_mem _ hx))
    refine ⟨k1, s1, ?_, hk1, by simpa using hl1, hc1, hm1.trans hmax'⟩
    simp only [sem_wait_all, hw, h1]

theorem sem_post_n_ok (N fuel : Nat) (hf : N ≤ fuel) :
    ∀ (i : Nat) (ts : List Nat) (k : Kernel) (s : smart_semaphore_t),
      KernelOk N k → isChain k.tasks s.wait_list ts → s.count ≤ s.max_count →
      i ≤ ts.length →
      ∃ k2 s2, sem_post_n fuel i k s = some (k2, s2) ∧ KernelOk N k2 ∧
        isChain k2.tasks s2.wait_list (ts.drop i) ∧ s2.count ≤ s2.max_count
  | 0, ts, k, s, hk, hl, hcnt, _ => ⟨k, s, rfl, hk, by simpa using hl, hcnt⟩
  | i + 1, [], k, s, _, _, _, hi => by simp at hi
  | i + 1, h :: rest, k, s, hk, hl, hcnt, hi => by
    obtain ⟨k', s', hp, hk', hmax, hcons, -⟩ :=
      smart_sem_post_ok N fuel k s (h :: rest) hk hf hl hcnt
    obtain ⟨hl', -, -, hc', -⟩ := hcons h rest rfl
    obtain ⟨k2, s2, h2, hk2, hl2, hc2⟩ :=
      sem_post_n_ok N fuel hf i rest k' s' hk' hl' (by rw [hc', hmax]; exact hcnt)
        (by simpa using hi)
    exact ⟨k2, s2, by simp only [sem_post_n, hp, h2], hk2, by simpa using hl2, hc2⟩

theorem unlock_scan_inv (mem : Nat → smart_task) :
    ∀ (rest : List Nat) (fuel : Nat) (node : Option Nat) (pre : List Nat) (best : Nat)
      (post : List Nat) (prev : Option Nat),
      isChain mem node rest → rest.length ≤ fuel →
      (∀ x ∈ pre, (mem best).deadline < (mem x).deadline) →
      (∀ x ∈ post, (mem best).deadline ≤ (mem x).deadline) →
      prev = (pre ++ best :: post).getLast? →
      ∃ pre' best' post', pre ++ best :: post ++ rest = pre' ++ best' :: post' ∧
        unlock_scan mem fuel node best pre.getLast? prev = some (best', pre'.getLast?) ∧
        (∀ x ∈ pre', (mem best').deadline < (mem x).deadline) ∧
        (∀ x ∈ post', (mem best').deadline ≤ (mem x).deadline)
  | [], fuel, node, pre, best, post, prev, hc, _, h1, h2, _ => by
    have hn : node = none := hc
    subst hn
    exact ⟨pre, best, post, by simp, by cases fuel <;> rfl, h1, h2⟩
  | n :: rest, fuel, node, pre, best, post, prev, hc, hlen, h1, h2, hprev => by
    have hn : node = some n := hc.1
    subst hn
    cases fuel with
    | zero => simp at hlen
    | succ fuel =>
      have hlen' : rest.length ≤ fuel := by simpa using hlen
      by_cases hlt : (mem n).deadline < (mem best).deadline
      · obtain ⟨pre', best', post', heq, hs, h3, h4⟩ :=
          unlock_scan_inv mem rest fuel (mem n).next (pre ++ best :: post) n [] (some n)
            hc.2 hlen'
            (by
              intro x hx
              rcases List.mem_append.mp hx with hx | hx
              · exact lt_trans hlt (h1 x hx)
              · rcases List.mem_cons.mp hx with rfl | hx
                · exact hlt
                · exact lt_of_lt_of_le hlt (h2 x hx))
            (by simp) (List.getLast?_concat _).symm
        refine ⟨pre', best', post', ?_, ?_, h3, h4⟩
        · rw [← heq]; simp
        · simp only [unlock_scan, hlt, if_true]
          rw [hprev]
          exact hs
      · obtain ⟨pre', best', post', heq, hs, h3, h4⟩ :=
          unlock_scan_inv mem rest fuel (mem n).next pre best (post ++ [n]) (some n)
            hc.2 hlen' h1
            (by
              intro x hx
              rcases List.mem_append.mp hx with hx | hx
              · exact h2 x hx
              · rw [List.mem_singleton.mp hx]; exact Nat.le_of_not_lt hlt)
            (by
              rw [show pre ++ best :: (post ++ [n]) = (pre ++ best :: post) ++ [n] by simp]
              exact (List.getLast?_concat _).symm)
        refine ⟨pre', best', post', ?_, ?_, h3, h4⟩
        · rw [← heq]; simp
        · simp only [unlock_scan, hlt, if_false]
          exact hs

/-- The scan of `smart_mutex_unlock` returns the first waiter of minimal
deadline together with its predecessor on the list. -/
theorem unlock_scan_spec (mem : Nat → smart_task) (L : List Nat) (fuel head : Nat)
    (hL : isChain mem (some head) L) (hlen : L.length ≤ fuel) :
    ∃ pre best post, L = pre ++ best :: post ∧
      unlock_scan mem fuel (some head) head none none = some (best, pre.getLast?) ∧
      (∀ x ∈ pre, (mem best).deadline < (mem x).deadline) ∧
      (∀ x ∈ post, (mem best).deadline ≤ (mem x).deadline) := by
  cases L with
  | nil => cases hL
  | cons a rest =>
    have ha : head = a := Option.some.inj hL.1
    subst ha
    cases fuel with
    | zero => simp at hlen
    | succ fuel =>
      obtain ⟨pre', best', post', heq, hs, h3, h4⟩ :=
        unlock_scan_inv mem rest fuel (mem head).next [] head [] (some head) hL.2
          (by simpa using hlen) (by simp) (by simp) (by simp)
      refine ⟨pre', best', post', by simpa using heq, ?_, h3, h4⟩
      simp only [unlock_scan, lt_irrefl, if_false]
      exact hs

theorem lock_donate_fields (mem : Nat → smart_task) (T O : Nat) (hne : O ≠ T) (a : Nat) :
    (lock_donate mem T O a).next = (mem a).next ∧
    (lock_donate mem T O a).stack_guard = (mem a).stack_guard ∧
    (lock_donate mem T O a).guard_word = (mem a).guard_word ∧
    (lock_donate mem T O a).period = (mem a).period ∧
    (lock_donate mem T O a).deadline =
      (if a = O then min (mem O).deadline (mem T).deadline else (mem a).deadline) ∧
    (lock_donate mem T O a).state =
      (if a = T then TASK_STATE_WAITING else (mem a).state) := by
  unfold lock_donate
  by_cases hlt : (mem T).deadline < (mem O).deadline
  · simp only [hlt, if_true]
    by_cases haT : a = T
    · subst haT
      have haO : a ≠ O := Ne.symm hne
      simp [upd_other _ _ _ _ haO, haO]
    · rw [upd_other _ _ _ _ haT]
      by_cases haO : a = O
      · subst haO
        simp [haT, Nat.min_eq_right (Nat.le_of_lt hlt)]
      · simp [upd_other _ _ _ _ haO, haT, haO]
  · simp only [hlt, if_false]
    by_cases haT : a = T
    · subst haT
      have haO : a ≠ O := Ne.symm hne
      simp [haO]
    · rw [upd_other _ _ _ _ haT]
      by_cases haO : a = O
      · subst haO
        simp [haT, Nat.min_eq_left (Nat.le_of_not_lt hlt)]
      · simp [haT, haO]

/-- Effect of a contended `smart_mutex_lock`: task `T` calls it on a mutex held
by another task `O`. -/
theorem smart_mutex_lock_contended_ok (N fuel : Nat) (k : Kernel) (m : smart_mutex_t)
    (T O : Nat) (hk : KernelOk N k) (hf : N ≤ fuel) (hc : k.current_task = some T)
    (hlocked : m.locked ≠ 0) (hown : m.owner = some O) (hne : O ≠ T)
    (hwl : PtrOk N m.wait_list) :
    ∃ k' m', smart_mutex_lock fuel k (some m) = some (k', some m', SMART_SYNC_OK) ∧
      KernelOk N k' ∧ PtrOk N m'.wait_list ∧
      m'.locked = m.locked ∧ m'.owner = m.owner ∧ m'.lock_count = m.lock_count ∧
      m'.original_deadline = m.original_deadline ∧
      (k'.tasks O).deadline = min (k.tasks O).deadline (k.tasks T).deadline ∧
      (k'.tasks T).deadline = (yield_update (k.tasks T)).deadline ∧
      (∀ a, a ≠ O → a ≠ T → (k'.tasks a).deadline = (k.tasks a).deadline ∧
        (k'.tasks a).state = (k.tasks a).state) ∧
      (∀ l, isChain k.tasks m.wait_list l → T ∉ l →
        isChain k'.tasks m'.wait_list (l ++ [T])) := by
  have hTN : T < N := hk.2.1 T hc
  have hfld := lock_donate_fields k.tasks T O hne
  have hac1 : Acyclic N (lock_donate k.tasks T O) :=
    Acyclic_congr N k.tasks _ (fun a => (hfld a).1) hk.2.2.2.1
  obtain ⟨mem3, wl3, happ, hac3, hwl3, hfr3⟩ :=
    wait_list_append_ok N fuel _ m.wait_list T hac1 hwl hTN hf
  have hfld3 : ∀ a, (mem3 a).stack_guard = (k.tasks a).stack_guard ∧
      (mem3 a).guard_word = (k.tasks a).guard_word ∧
      (mem3 a).period = (k.tasks a).period ∧
      (mem3 a).deadline =
        (if a = O then min (k.tasks O).deadline (k.tasks T).deadline
          else (k.tasks a).deadline) ∧
      (mem3 a).state = (if a = T then TASK_STATE_WAITING else (k.tasks a).state) := by
    intro a
    rw [hfr3 a]
    simp only [smart_task.setNext_stack_guard, smart_task.setNext_guard_word,
      smart_task.setNext_period, smart_task.setNext_deadline, smart_task.setNext_state]
    exact ⟨(hfld a).2.1, (hfld a).2.2.1, (hfld a).2.2.2.1, (hfld a).2.2.2.2.1,
      (hfld a).2.2.2.2.2⟩
  have hk2 : KernelOk N (smart_exit_critical (setTasks (smart_enter_critical k) mem3)) :=
    KernelOk_exit N _ (KernelOk_setTasks N _ _ hac3 (fun a => ⟨(hfld3 a).1, (hfld3 a).2.1⟩)
      (KernelOk_enter N k hk))
  obtain ⟨k3, hy, hok3, hcore3, -⟩ :=
    smart_task_yield_ok N fuel _ T hk2 hf (by simpa using hc)
  have hcore3' : ∀ a, (k3.tasks a).core = (upd mem3 T (yield_update (mem3 T)) a).core := by
    intro a; simpa using hcore3 a
  refine ⟨k3, { m with wait_list := wl3 }, ?_, hok3, hwl3, rfl, rfl, rfl, rfl, ?_, ?_, ?_, ?_⟩
  · unfold smart_mutex_lock
    have hOT : ¬ (some O = some T) := fun h => hne (Option.some.inj h)
    simp only [smart_get_current_task, hc, hlocked, if_false, hown, hOT,
      smart_enter_critical_tasks, happ, hy]
  · rw [(smart_task.core_inj (hcore3' O)).1, upd_other _ _ _ _ hne, (hfld3 O).2.2.2.1,
      if_pos rfl]
  · rw [(smart_task.core_inj (hcore3' T)).1, upd_same]
    unfold yield_update
    have hd : (mem3 T).deadline = (k.tasks T).deadline := by
      rw [(hfld3 T).2.2.2.1, if_neg (Ne.symm hne)]
    rw [(hfld3 T).2.2.1]
    split_ifs <;> simp [hd]
  · intro a haO haT
    have h := smart_task.core_inj (hcore3' a)
    rw [upd_other _ _ _ _ haT] at h
    rw [h.1, h.2.2.2.2.1, (hfld3 a).2.2.2.1, (hfld3 a).2.2.2.2, if_neg haO, if_neg haT]
    exact ⟨rfl, rfl⟩
  · intro l hl hTl
    have hl1 : isChain (lock_donate k.tasks T O) m.wait_list l :=
      isChain_congr k.tasks _ (fun a => (hfld a).1) l _ hl
    obtain ⟨l', hl', hlen', -⟩ := Acyclic_chain N _ hac1 m.wait_list hwl
    have hll : l' = l := isChain_unique _ _ _ _ hl' hl1
    subst hll
    obtain ⟨mem3', wl3', happ', hch, -, -⟩ :=
      wait_list_append_spec _ l' fuel m.wait_list T hl1 (le_trans hlen' hf) hTl
    rw [happ] at happ'
    cases happ'
    refine isChain_congr mem3 k3.tasks ?_ _ _ hch
    intro a
    rw [(smart_task.core_inj (hcore3' a)).2.2.2.2.2.1]
    by_cases ha : a = T
    · subst ha; rw [upd_same]; exact (yield_update_frame _).1
    · rw [upd_other _ _ _ _ ha]

/-- Unlinking the waiter `W` from the wait list `pre ++ W :: post`, given its
predecessor: the list becomes `pre ++ post`, `W` becomes Ready, and only `next`
fields and the state of `W` are written. -/
theorem wait_list_unlink_ok (N : Nat) (mem : Nat → smart_task) (head : Nat)
    (pre : List Nat) (W : Nat) (post : List Nat) (hac : Acyclic N mem)
    (hp : PtrOk N (some head)) (hL : isChain mem (some head) (pre ++ W :: post)) :
    Acyclic N (wait_list_unlink mem head W pre.getLast?).1 ∧
    PtrOk N (wait_list_unlink mem head W pre.getLast?).2 ∧
    isChain (wait_list_unlink mem head W pre.getLast?).1
      (wait_list_unlink mem head W pre.getLast?).2 (pre ++ post) ∧
    W < N ∧
    (∀ a, ((wait_list_unlink mem head W pre.getLast?).1 a).deadline = (mem a).deadline ∧
      ((wait_list_unlink mem head W pre.getLast?).1 a).stack_guard = (mem a).stack_guard ∧
      ((wait_list_unlink mem head W pre.getLast?).1 a).guard_word = (mem a).guard_word ∧
      ((wait_list_unlink mem head W pre.getLast?).1 a).state =
        (if a = W then TASK_STATE_READY else (mem a).state)) := by
  have hnd := isChain_nodup mem _ _ hL
  have hb := chain_bounded N mem (Acyclic_ptr N mem hac) _ _ hp hL
  have hWN : W < N := hb W (by simp)
  have hWpre : W ∉ pre := by
    intro h
    exact (List.nodup_append.mp hnd).2.2 h (List.mem_cons_self _ _)
  have hWpost : W ∉ post := (List.nodup_cons.mp (List.nodup_append.mp hnd).2.1).1
  obtain ⟨r1, hseg1, hseg2⟩ := (isSeg_append mem none pre (W :: post) _).mp hL
  have hr1 : r1 = some W := hseg2.1
  subst hr1
  have hpost : isChain mem (mem W).next post := hseg2.2
  have hnextW : PtrOk N (mem W).next := Acyclic_ptr N mem hac W hWN
  rcases List.eq_nil_or_concat pre with hnil | ⟨pre0, pb, hcat⟩
  · subst hnil
    have hhead : some head = some W := hseg1
    simp only [List.getLast?_nil, wait_list_unlink, List.nil_append]
    refine ⟨Acyclic_cut N mem W _ (by simp) hac, hnextW, ?_, hWN, ?_⟩
    · exact isSeg_upd_notin _ _ _ _ _ _ hWpost hpost
    · intro a
      by_cases ha : a = W
      · subst ha; simp
      · simp [upd_other _ _ _ _ ha, ha]
  · rw [List.concat_eq_append] at hcat
    subst hcat
    have hpbW : pb ≠ W := by
      intro h
      exact hWpre (by simp [h])
    have hpbpost : pb ∉ post := by
      intro h
      exact (List.nodup_append.mp hnd).2.2 (by simp : pb ∈ pre0 ++ [pb])
        (List.mem_cons_of_mem _ h)
    have hpbpre0 : pb ∉ pre0 := by
      have h1 := (List.nodup_append.mp hnd).1
      intro h
      exact (List.nodup_append.mp h1).2.2 h (List.mem_singleton_self pb)
    obtain ⟨r0, hseg0, hsegpb⟩ := (isSeg_append mem (some W) pre0 [pb] _).mp hseg1
    have hr0 : r0 = some pb := hsegpb.1
    subst hr0
    have hac1 : Acyclic N (upd mem pb ((mem pb).setNext (mem W).next)) :=
      Acyclic_link N mem pb _ (mem W).next post (by simp) hnextW hpost hpbpost hac
    have hch1 : isChain (upd mem pb ((mem pb).setNext (mem W).next)) (some head)
        (pre0 ++ pb :: post) := by
      refine (isSeg_append _ none pre0 (pb :: post) _).mpr
        ⟨some pb, isSeg_upd_notin _ _ _ _ _ _ hpbpre0 hseg0, rfl, ?_⟩
      rw [upd_same]
      exact isSeg_upd_notin _ _ _ _ _ _ hpbpost hpost
    have hWl : W ∉ pre0 ++ pb :: post := by
      intro h
      rcases List.mem_append.mp h with h | h
      · exact hWpre (by simp [h])
      · rcases List.mem_cons.mp h with h | h
        · exact hpbW h.symm
        · exact hWpost h
    simp only [List.getLast?_concat, wait_list_unlink, List.append_assoc, List.singleton_append]
    refine ⟨Acyclic_cut N _ W _ (by simp) hac1, hp, ?_, hWN, ?_⟩
    · exact isSeg_upd_notin _ _ _ _ _ _ hWl hch1
    · intro a
      by_cases ha : a = W
      · subst ha; simp [upd_other _ _ _ _ (Ne.symm hpbW)]
      · rw [upd_other _ _ _ _ ha]
        by_cases hapb : a = pb
        · subst hapb; simp [ha]
        · simp [upd_other _ _ _ _ hapb, ha]

theorem wrap32_unlock_last : wrap32 (1 + 4294967296 - 1) = 0 := by decide

/-- Effect of the final `smart_mutex_unlock` (depth 1) by the owner `O`. -/
theorem smart_mutex_unlock_final_ok (N fuel : Nat) (k : Kernel) (m : smart_mutex_t)
    (O : Nat) (l : List Nat) (hk : KernelOk N k) (hf : N ≤ fuel)
    (hc : k.current_task = some O) (hown : m.owner = some O) (hcount : m.lock_count = 1)
    (hwl : PtrOk N m.wait_list) (hl : isChain k.tasks m.wait_list l) :
    ∃ k' m', smart_mutex_unlock fuel k (some m) = some (k', some m', SMART_SYNC_OK) ∧
      KernelOk N k' ∧ PtrOk N m'.wait_list ∧
      (∀ a, (k'.tasks a).deadline =
        (if a = O then m.original_deadline else (k.tasks a).deadline)) ∧
      (l = [] → m'.locked = 0 ∧ m'.owner = none ∧ m'.wait_list = none ∧
        m'.lock_count = 0 ∧ ∀ a, (k'.tasks a).state = (k.tasks a).state) ∧
      (l ≠ [] → ∃ pre W post, l = pre ++ W :: post ∧
        (∀ x ∈ pre, (k'.tasks W).deadline < (k'.tasks x).deadline) ∧
        (∀ x ∈ post, (k'.tasks W).deadline ≤ (k'.tasks x).deadline) ∧
        isChain k'.tasks m'.wait_list (pre ++ post) ∧
        (k'.tasks W).state = TASK_STATE_READY ∧
        (∀ a, a ≠ W → (k'.tasks a).state = (k.tasks a).state) ∧
        m'.owner = some W ∧ m'.lock_count = 1 ∧
        m'.original_deadline = (k'.tasks W).deadline ∧ m'.locked = m.locked) := by
  have hfld : ∀ a, (upd k.tasks O ((k.tasks O).setDeadline m.original_deadline) a).next =
        (k.tasks a).next ∧
      (upd k.tasks O ((k.tasks O).setDeadline m.original_deadline) a).stack_guard =
        (k.tasks a).stack_guard ∧
      (upd k.tasks O ((k.tasks O).setDeadline m.original_deadline) a).guard_word =
        (k.tasks a).guard_word ∧
      (upd k.tasks O ((k.tasks O).setDeadline m.original_deadline) a).state =
        (k.tasks a).state ∧
      (upd k.tasks O ((k.tasks O).setDeadline m.original_deadline) a).deadline =
        (if a = O then m.original_deadline else (k.tasks a).deadline) := by
    intro a
    by_cases ha : a = O
    · subst ha; simp
    · simp [upd_other _ _ _ _ ha, ha]
  have hac1 : Acyclic N (upd k.tasks O ((k.tasks O).setDeadline m.original_deadline)) :=
    Acyclic_congr N k.tasks _ (fun a => (hfld a).1) hk.2.2.2.1
  have hl1 : isChain (upd k.tasks O ((k.tasks O).setDeadline m.original_deadline))
      m.wait_list l := isChain_congr k.tasks _ (fun a => (hfld a).1) l _ hl
  have hOO : ¬ (some O ≠ some O) := fun h => h rfl
  cases hwlc : m.wait_list with
  | none =>
    have hlnil : l = [] := by
      rw [hwlc] at hl
      cases l with
      | nil => rfl
      | cons b l => cases hl.1
    refine ⟨smart_exit_critical (setTasks (smart_enter_critical k)
        (upd k.tasks O ((k.tasks O).setDeadline m.original_deadline))),
      { m with lock_count := 0, locked := 0, owner := none }, ?_, ?_, ?_, ?_, ?_, ?_⟩
    · unfold smart_mutex_unlock
      simp only [smart_get_current_task, hc, hown, hOO, if_false, hcount,
        wrap32_unlock_last, gt_iff_lt, lt_irrefl, hwlc, smart_enter_critical_tasks]
    · exact KernelOk_exit N _ (KernelOk_setTasks N _ _ hac1
        (fun a => ⟨(hfld a).2.1, (hfld a).2.2.1⟩) (KernelOk_enter N k hk))
    · rw [hwlc]; intro b hb; cases hb
    · intro a; simpa using (hfld a).2.2.2.2
    · intro _
      exact ⟨rfl, rfl, hwlc, rfl, fun a => by simpa using (hfld a).2.2.2.1⟩
    · intro hne; exact absurd hlnil hne
  | some head =>
    rw [hwlc] at hl1 hwl
    obtain ⟨l', hl', hlen', -⟩ := Acyclic_chain N _ hac1 (some head) hwl
    have hll : l' = l := isChain_unique _ _ _ _ hl' hl1
    subst hll
    obtain ⟨pre, W, post, hsplit, hs, hmin1, hmin2⟩ :=
      unlock_scan_spec _ l' fuel head hl1 (le_trans hlen' hf)
    subst hsplit
    obtain ⟨hacr, hpr, hchr, hWN, hfr⟩ :=
      wait_list_unlink_ok N _ head pre W post hac1 hwl hl1
    have hk2 : KernelOk N (smart_exit_critical (setTasks (smart_enter_critical k)
        (wait_list_unlink (upd k.tasks O ((k.tasks O).setDeadline m.original_deadline))
          head W pre.getLast?).1)) :=
      KernelOk_exit N _ (KernelOk_setTasks N _ _ hacr
        (fun a => ⟨(hfr a).2.1.trans (hfld a).2.1, (hfr a).2.2.1.trans (hfld a).2.2.1⟩)
        (KernelOk_enter N k hk))
    obtain ⟨k3, hk3, hok3, hcore3, -⟩ := smart_schedule_ok N fuel _ hk2 hf
    have hcore3' : ∀ a, (k3.tasks a).core =
        ((wait_list_unlink (upd k.tasks O ((k.tasks O).setDeadline m.original_deadline))
          head W pre.getLast?).1 a).core := by
      intro a; simpa using hcore3 a
    have hdl : ∀ a, (k3.tasks a).deadline =
        (upd k.tasks O ((k.tasks O).setDeadline m.original_deadline) a).deadline := by
      intro a
      rw [(smart_task.core_inj (hcore3' a)).1, (hfr a).1]
    refine ⟨k3, ⟨m.locked, some W, 1,
        ((wait_list_unlink (upd k.tasks O ((k.tasks O).setDeadline m.original_deadline))
          head W pre.getLast?).1 W).deadline,
        (wait_list_unlink (upd k.tasks O ((k.tasks O).setDeadline m.original_deadline))
          head W pre.getLast?).2⟩, ?_, hok3, hpr, ?_, ?_, ?_⟩
    · unfold smart_mutex_unlock
      simp only [smart_get_current_task, hc, hown, hOO, if_false, hcount,
        wrap32_unlock_last, gt_iff_lt, lt_irrefl, hwlc, smart_enter_critical_tasks, hs, hk3]
    · intro a
      rw [hdl a, (hfld a).2.2.2.2]
    · intro hnil
      exact absurd hnil (by simp)
    · intro _
      refine ⟨pre, W, post, rfl, ?_, ?_, ?_, ?_, ?_, rfl, rfl, ?_, rfl⟩
      · intro x hx
        rw [hdl W, hdl x]
        exact hmin1 x hx
      · intro x hx
        rw [hdl W, hdl x]
        exact hmin2 x hx
      · exact isChain_congr _ k3.tasks
          (fun a => (smart_task.core_inj (hcore3' a)).2.2.2.2.2.1) _ _ hchr
      · rw [(smart_task.core_inj (hcore3' W)).2.2.2.2.1, (hfr W).2.2.2, if_pos rfl]
      · intro a ha
        rw [(smart_task.core_inj (hcore3' a)).2.2.2.2.1, (hfr a).2.2.2, if_neg ha,
          (hfld a).2.2.2.1]
      · show _ = (k3.tasks W).deadline
        rw [(smart_task.core_inj (hcore3' W)).1]

/-- Locking an unlocked mutex: the caller becomes the owner at depth 1 and its
current deadline is saved. -/
theorem smart_mutex_lock_free_ok (fuel : Nat) (k : Kernel) (m : smart_mutex_t) (T : Nat)
    (hc : k.current_task = some T) (hfree : m.locked = 0) :
    smart_mutex_lock fuel k (some m) =
      some (smart_exit_critical (smart_enter_critical k),
        some ⟨1, some T, 1, (k.tasks T).deadline, m.wait_list⟩, SMART_SYNC_OK) := by
  unfold smart_mutex_lock
  simp only [smart_get_current_task, hc, hfree, if_true, smart_enter_critical_tasks]

theorem mutex_lock_all_ok (N fuel : Nat) (hf : N ≤ fuel) (T d0 : Nat) :
    ∀ (us : List Nat) (k : Kernel) (m : smart_mutex_t),
      KernelOk N k → m.locked ≠ 0 → m.owner = some T → m.lock_count = 1 →
      m.original_deadline = d0 → PtrOk N m.wait_list → (∀ u ∈ us, u < N ∧ u ≠ T) →
      ∃ k2 m2, mutex_lock_all fuel us k m = some (k2, m2) ∧ KernelOk N k2 ∧
        m2.locked ≠ 0 ∧ m2.owner = some T ∧ m2.lock_count = 1 ∧
        m2.original_deadline = d0 ∧ PtrOk N m2.wait_list ∧
        (k2.tasks T).deadline ≤ (k.tasks T).deadline
  | [], k, m, hk, h1, h2, h3, h4, h5, _ => ⟨k, m, rfl, hk, h1, h2, h3, h4, h5, le_refl _⟩
  | u :: us, k, m, hk, h1, h2, h3, h4, h5, hus => by
    obtain ⟨huN, huT⟩ := hus u (List.mem_cons_self _ _)
    obtain ⟨k', m', hlock, hk', hwl', e1, e2, e3, e4, hdl, -⟩ :=
      smart_mutex_lock_contended_ok N fuel (setCurrent k (some u)) m u T
        (KernelOk_setCurrent N k u huN hk) hf rfl h1 h2 (Ne.symm huT) h5
    obtain ⟨k2, m2, hrun, hk2, g1, g2, g3, g4, g5, g6⟩ :=
      mutex_lock_all_ok N fuel hf T d0 us k' m' hk' (e1 ▸ h1) (e2.trans h2) (e3.trans h3)
        (e4.trans h4) hwl' (fun x hx => hus x (List.mem_cons_of_mem _ hx))
    refine ⟨k2, m2, ?_, hk2, g1, g2, g3, g4, g5, ?_⟩
    · simp only [mutex_lock_all, hlock, hrun]
    · have : (k'.tasks T).deadline ≤ (k.tasks T).deadline := by
        rw [hdl]
        exact Nat.min_le_left _ _
      exact le_trans g6 this

theorem smart_mutex_lock_recursive_eq (fuel : Nat) (k : Kernel) (m : smart_mutex_t)
    (t : Nat) (hc : k.current_task = some t) (hl : m.locked ≠ 0) (ho : m.owner = some t) :
    smart_mutex_lock fuel k (some m) =
      some (smart_exit_critical (smart_enter_critical k),
        some ⟨m.locked, m.owner, wrap32 (m.lock_count + 1), m.original_deadline, m.wait_list⟩,
        SMART_SYNC_OK) := by
  unfold smart_mutex_lock
  simp only [smart_get_current_task, hc, hl, if_false, ho, if_true]

theorem smart_mutex_try_lock_free_eq (k : Kernel) (m : smart_mutex_t) (t : Nat)
    (hc : k.current_task = some t) (hfree : m.locked = 0) :
    smart_mutex_try_lock k (some m) =
      (smart_exit_critical (smart_enter_critical k),
        some ⟨1, some t, 1, (k.tasks t).deadline, m.wait_list⟩, SMART_SYNC_OK) := by
  unfold smart_mutex_try_lock
  simp only [smart_get_current_task, hc, hfree, if_true, smart_enter_critical_tasks]

theorem smart_mutex_try_lock_recursive_eq (k : Kernel) (m : smart_mutex_t) (t : Nat)
    (hc : k.current_task = some t) (hl : m.locked ≠ 0) (ho : m.owner = some t) :
    smart_mutex_try_lock k (some m) =
      (smart_exit_critical (smart_enter_critical k),
        some ⟨m.locked, m.owner, wrap32 (m.lock_count + 1), m.original_deadline, m.wait_list⟩,
        SMART_SYNC_OK) := by
  unfold smart_mutex_try_lock
  simp only [smart_get_current_task, hc, hl, if_false, ho, if_true]

theorem smart_mutex_try_lock_busy_eq (k : Kernel) (m : smart_mutex_t) (t : Nat)
    (hc : k.current_task = some t) (hl : m.locked ≠ 0) (ho : m.owner ≠ some t) :
    smart_mutex_try_lock k (some m) =
      (smart_exit_critical (smart_enter_critical k), some m, SMART_SYNC_TIMEOUT) := by
  unfold smart_mutex_try_lock
  simp only [smart_get_current_task, hc, hl, if_false, ho]

theorem smart_mutex_unlock_not_owner_eq (fuel : Nat) (k : Kernel) (m : smart_mutex_t)
    (t : Nat) (hc : k.current_task = some t) (ho : m.owner ≠ some t) :
    smart_mutex_unlock fuel k (some m) =
      some (smart_exit_critical (smart_enter_critical k), some m, SMART_SYNC_ERROR) := by
  unfold smart_mutex_unlock
  simp only [smart_get_current_task, hc, ho, ne_eq, not_false_eq_true, if_true]

theorem smart_mutex_unlock_partial_eq (fuel : Nat) (k : Kernel) (m : smart_mutex_t)
    (t : Nat) (hc : k.current_task = some t) (ho : m.owner = some t)
    (hlc : wrap32 (m.lock_count + 4294967296 - 1) ≠ 0) :
    smart_mutex_unlock fuel k (some m) =
      some (smart_exit_critical (smart_enter_critical k),
        some ⟨m.locked, m.owner, wrap32 (m.lock_count + 4294967296 - 1),
          m.original_deadline, m.wait_list⟩, SMART_SYNC_OK) := by
  have hOO : ¬ (some t ≠ some t) := fun h => h rfl
  unfold smart_mutex_unlock
  simp only [smart_get_current_task, hc, ho, hOO, if_false, gt_iff_lt,
    Nat.pos_of_ne_zero hlc, if_true]

theorem wrap32_lt (x : Nat) : wrap32 x < 4294967296 := Nat.mod_lt _ (by decide)

theorem wrap32_pred_eq_zero (x : Nat) (hx : x < 4294967296)
    (h : wrap32 (x + 4294967296 - 1) = 0) : x = 1 := by
  unfold wrap32 at h
  omega

theorem KernelOk_critical_setCurrent (N : Nat) (k : Kernel) (t : Nat) (ht : t < N)
    (hk : KernelOk N k) :
    KernelOk N (smart_exit_critical (smart_enter_critical (setCurrent k (some t)))) :=
  KernelOk_exit N _ (KernelOk_enter N _ (KernelOk_setCurrent N k t ht hk))

/-- Every mutex call keeps the single-mutex invariant. -/
theorem mutexStep_inv (N fuel : Nat) (hf : N ≤ fuel) (st : MutexState) (op : MutexOp)
    (hcaller : op.caller < N) (hinv : MutexInv N st) : MutexInv N (mutexStep fuel st op) := by
  obtain ⟨hk, hwl, hlc, hown⟩ := hinv
  cases op with
  | lock t =>
    have ht : t < N := hcaller
    rcases hown with ⟨hfree, -⟩ | ⟨hlocked, O, hO, hdl, hdon⟩
    · have heq := smart_mutex_lock_free_ok fuel (setCurrent st.k (some t)) st.m t rfl hfree
      simp only [mutexStep, heq, hfree, if_true]
      refine ⟨KernelOk_critical_setCurrent N st.k t ht hk, hwl,
        (by norm_num : (1 : Nat) < 4294967296), Or.inr ⟨Nat.one_ne_zero, t, rfl, ?_, ?_⟩⟩
      · simp
      · intro d hd; cases hd
    · by_cases hOt : O = t
      · subst hOt
        have heq := smart_mutex_lock_recursive_eq fuel (setCurrent st.k (some O)) st.m O rfl
          hlocked hO
        simp only [mutexStep, heq, hlocked, if_false, hO, if_true]
        refine ⟨KernelOk_critical_setCurrent N st.k O ht hk, hwl, wrap32_lt _,
          Or.inr ⟨hlocked, O, rfl, ?_, ?_⟩⟩
        · simpa using hdl
        · intro d hd; simpa using hdon d hd
      · obtain ⟨k', m', heq, hk', hwl', e1, e2, e3, e4, hmin, -⟩ :=
          smart_mutex_lock_contended_ok N fuel (setCurrent st.k (some t)) st.m t O
            (KernelOk_setCurrent N st.k t ht hk) hf rfl hlocked hO hOt hwl
        have hne : ¬ (some O = some t) := fun h => hOt (Option.some.inj h)
        simp only [mutexStep, heq, hlocked, if_false, hO, hne]
        have hmin' : (k'.tasks O).deadline =
            min (st.k.tasks O).deadline (st.k.tasks t).deadline := by simpa using hmin
        refine ⟨hk', hwl', by rw [e3]; exact hlc,
          Or.inr ⟨by rw [e1]; exact hlocked, O, by rw [e2]; exact hO, ?_, ?_⟩⟩
        · rw [hmin', e4]
          exact le_trans (Nat.min_le_left _ _) hdl
        · intro d hd
          rw [hmin']
          rcases List.mem_cons.mp hd with rfl | hd
          · exact Nat.min_le_right _ _
          · exact le_trans (Nat.min_le_left _ _) (hdon d hd)
  | try_lock t =>
    have ht : t < N := hcaller
    rcases hown with ⟨hfree, -⟩ | ⟨hlocked, O, hO, hdl, hdon⟩
    · have heq := smart_mutex_try_lock_free_eq (setCurrent st.k (some t)) st.m t rfl hfree
      simp only [mutexStep, heq, hfree, if_true]
      refine ⟨KernelOk_critical_setCurrent N st.k t ht hk, hwl,
        (by norm_num : (1 : Nat) < 4294967296), Or.inr ⟨Nat.one_ne_zero, t, rfl, ?_, ?_⟩⟩
      · simp
      · intro d hd; cases hd
    · by_cases hOt : O = t
      · subst hOt
        have heq := smart_mutex_try_lock_recursive_eq (setCurrent st.k (some O)) st.m O rfl
          hlocked hO
        simp only [mutexStep, heq, hlocked, if_false]
        refine ⟨KernelOk_critical_setCurrent N st.k O ht hk, hwl, wrap32_lt _,
          Or.inr ⟨hlocked, O, hO, ?_, ?_⟩⟩
        · simpa using hdl
        · intro d hd; simpa using hdon d hd
      · have hne : st.m.owner ≠ some t := by
          rw [hO]; exact fun h => hOt (Option.some.inj h)
        have heq := smart_mutex_try_lock_busy_eq (setCurrent st.k (some t)) st.m t rfl
          hlocked hne
        simp only [mutexStep, heq, hlocked, if_false]
        refine ⟨KernelOk_critical_setCurrent N st.k t ht hk, hwl, hlc,
          Or.inr ⟨hlocked, O, hO, ?_, ?_⟩⟩
        · simpa using hdl
        · intro d hd; simpa using hdon d hd
  | unlock t =>
    have ht : t < N := hcaller
    by_cases hot : st.m.owner = some t
    · rcases hown with ⟨-, hnone⟩ | ⟨hlocked, O, hO, hdl, hdon⟩
      · rw [hnone] at hot; cases hot
      · have hOt : O = t := Option.some.inj (hO.symm.trans hot)
        subst hOt
        by_cases hz : wrap32 (st.m.lock_count + 4294967296 - 1) = 0
        · have hone := wrap32_pred_eq_zero _ hlc hz
          obtain ⟨l, hl, -⟩ := Acyclic_chain N st.k.tasks hk.2.2.2.1 st.m.wait_list hwl
          obtain ⟨k', m', heq, hk', hwl', -, hnil, hcons⟩ :=
            smart_mutex_unlock_final_ok N fuel (setCurrent st.k (some O)) st.m O l
              (KernelOk_setCurrent N st.k O ht hk) hf rfl hO hone hwl hl
          simp only [mutexStep, heq, hO, hz, and_self, if_true]
          by_cases hl0 : l = []
          · obtain ⟨g1, g2, -, g3, -⟩ := hnil hl0
            exact ⟨hk', hwl', by rw [g3]; decide, Or.inl ⟨g1, g2⟩⟩
          · obtain ⟨pre, W, post, -, -, -, -, -, -, g1, g2, g3, g4⟩ := hcons hl0
            refine ⟨hk', hwl', by rw [g2]; decide,
              Or.inr ⟨by rw [g4]; exact hlocked, W, g1, by rw [g3], ?_⟩⟩
            intro d hd; cases hd
        · have heq := smart_mutex_unlock_partial_eq fuel (setCurrent st.k (some O)) st.m O rfl
            hO hz
          simp only [mutexStep, heq, hO, hz, and_false, if_false]
          refine ⟨KernelOk_critical_setCurrent N st.k O ht hk, hwl, wrap32_lt _,
            Or.inr ⟨hlocked, O, rfl, ?_, ?_⟩⟩
          · simpa using hdl
          · intro d hd; simpa using hdon d hd
    · have heq := smart_mutex_unlock_not_owner_eq fuel (setCurrent st.k (some t)) st.m t rfl hot
      simp only [mutexStep, heq, hot, false_and, if_false]
      refine ⟨KernelOk_critical_setCurrent N st.k t ht hk, hwl, hlc, ?_⟩
      rcases hown with h | ⟨hlocked, O, hO, hdl, hdon⟩
      · exact Or.inl h
      · refine Or.inr ⟨hlocked, O, hO, ?_, ?_⟩
        · simpa using hdl
        · intro d hd; simpa using hdon d hd

theorem mutexInit_inv (N : Nat) (k : Kernel) (m0 : smart_mutex_t) (hk : KernelOk N k) :
    MutexInv N (mutexInit k m0) := by
  refine ⟨KernelOk_exit N _ (KernelOk_enter N k hk), ?_, ?_, Or.inl ⟨rfl, rfl⟩⟩
  · intro b hb
    cases hb
  · show (0 : Nat) < 4294967296
    norm_num

theorem mutexRun_inv (N fuel : Nat) (hf : N ≤ fuel) :
    ∀ (ops : List MutexOp) (st : MutexState), (∀ op ∈ ops, op.caller < N) →
      MutexInv N st → MutexInv N (mutexRun fuel ops st)
  | [], _, _, h => h
  | op :: ops, st, hops, h =>
    mutexRun_inv N fuel hf ops _ (fun o ho => hops o (List.mem_cons_of_mem _ ho))
      (mutexStep_inv N fuel hf st op (hops op (List.mem_cons_self _ _)) h)

/-! ## Scheduler theorems -/

/-- C1: on a terminated task list, `smart_schedule` returns with `next_task`
set to a task whose deadline is at most that of every Ready task on the list
(or that task is the idle task), and to the idle task when no listed task is
Ready. -/
theorem smart_schedule_selects_earliest_deadline (N fuel : Nat) (k : Kernel) (l : List Nat)
    (hc : isChain k.tasks k.task_list l) (hlen : l.length ≤ fuel)
    (hN : idle_task < N) (hl : ∀ x ∈ l, x < N) (hcur : PtrOk N k.current_task)
    (hg : GuardsIntact N k.tasks) (hd : DeadlinesU32 N k.tasks) :
    ∃ k' n, smart_schedule fuel k = some k' ∧ k'.next_task = some n ∧
      isChain k'.tasks k'.task_list l ∧
      (∀ B ∈ l, (k'.tasks B).state = TASK_STATE_READY →
        (k'.tasks n).deadline ≤ (k'.tasks B).deadline ∨ B = idle_task) ∧
      ((∀ B ∈ l, (k'.tasks B).state ≠ TASK_STATE_READY) → n = idle_task) := by
  obtain ⟨k', found, hscan, hk', hnext, hcore, hlist, -⟩ :=
    smart_schedule_spec N fuel k l hc hlen hN hl hcur hg
  obtain ⟨r, md', hr, -, hall, hres⟩ :=
    schedule_scan_spec k.tasks l fuel k.task_list none 0xFFFFFFFF hc hlen
  have hrf : r = found := by
    rw [hscan] at hr
    exact (Option.some.inj hr).symm
  subst hrf
  have hfield : ∀ a, (k'.tasks a).deadline = (k.tasks a).deadline ∧
      (k'.tasks a).state = (k.tasks a).state ∧ (k'.tasks a).next = (k.tasks a).next := by
    intro a
    have h := hcore a
    simp only [smart_task.core, Prod.mk.injEq] at h
    exact ⟨h.1, h.2.2.2.2.1, h.2.2.2.2.2.1⟩
  refine ⟨k', r.getD idle_task, hk', hnext, ?_, ?_, ?_⟩
  · rw [hlist]
    exact isChain_congr k.tasks k'.tasks (fun a => (hfield a).2.2) l _ hc
  · intro B hB hready
    left
    rw [(hfield B).2.1] at hready
    rw [(hfield B).1, (hfield _).1]
    have hB' := hall B hB hready
    rcases hres with ⟨h1, h2⟩ | ⟨b, -, h1, h2, -, -⟩
    · subst h1
      have := hd idle_task hN
      simp only [Option.getD_none]
      omega
    · subst h1
      simp only [Option.getD_some]
      omega
  · intro hnone
    rcases hres with ⟨h1, -⟩ | ⟨b, hb, -, -, h3, -⟩
    · subst h1; rfl
    · exact absurd ((hfield b).2.1.trans h3) (hnone b hb)

theorem smart_schedule_selects_earliest_deadline_witness :
    ∃ k' n, smart_schedule 4 edfKernel = some k' ∧ k'.next_task = some n ∧
      isChain k'.tasks k'.task_list [2, 1, 0] ∧
      (∀ B ∈ [2, 1, 0], (k'.tasks B).state = TASK_STATE_READY →
        (k'.tasks n).deadline ≤ (k'.tasks B).deadline ∨ B = idle_task) ∧
      ((∀ B ∈ [2, 1, 0], (k'.tasks B).state ≠ TASK_STATE_READY) → n = idle_task) :=
  smart_schedule_selects_earliest_deadline 3 4 edfKernel [2, 1, 0] (by decide) (by decide)
    (by decide) (by decide) (by decide) (by decide) (by decide)

/-- C2: with only an aperiodic user task (period 0, deadline 0xFFFFFFFF) and the
idle task Ready, `smart_schedule` selects the idle task: the strict comparison
against the initial `min_deadline = 0xFFFFFFFF` never accepts the user task. -/
theorem smart_schedule_skips_aperiodic_task :
    (aperiodicKernel.tasks 1).state = TASK_STATE_READY ∧
    (aperiodicKernel.tasks 1).period = 0 ∧
    (aperiodicKernel.tasks 1).deadline = 0xFFFFFFFF ∧
    isChain aperiodicKernel.tasks aperiodicKernel.task_list [1, idle_task] ∧
    (smart_schedule 3 aperiodicKernel).map (fun k => k.next_task) = some (some idle_task) := by
  decide


/-! ## Semaphore theorems -/

/-- C9: `smart_sem_post` returns OK; on a non-empty wait list it removes exactly
the head, makes it Ready and leaves `count` (and every other task) alone; on an
empty wait list it sets `count` to `min (count + 1) max_count`. -/
theorem smart_sem_post_spec (N fuel : Nat) (k : Kernel) (s : smart_semaphore_t)
    (l : List Nat) (hk : KernelOk N k) (hf : N ≤ fuel)
    (hl : isChain k.tasks s.wait_list l) (hcnt : s.count ≤ s.max_count) :
    ∃ k' s', smart_sem_post fuel k (some s) = some (k', some s', SMART_SYNC_OK) ∧
      s'.max_count = s.max_count ∧
      (∀ h rest, l = h :: rest →
        isChain k'.tasks s'.wait_list rest ∧ h ∉ rest ∧
        (k'.tasks h).state = TASK_STATE_READY ∧ s'.count = s.count ∧
        (∀ a, a ≠ h → (k'.tasks a).core = (k.tasks a).core)) ∧
      (l = [] → s'.wait_list = none ∧ s'.count = min (s.count + 1) s.max_count ∧
        k'.tasks = k.tasks) := by
  obtain ⟨k', s', h1, -, h2, h3, h4⟩ := smart_sem_post_ok N fuel k s l hk hf hl hcnt
  exact ⟨k', s', h1, h2, h3, h4⟩

/-- C10: when the distinct tasks `ts` block on a semaphore (count 0, empty wait
list) in that order, the wait list holds them in that order, and after `i`
further posts the next post dequeues and readies `ts[i]`, whatever the
deadlines are. -/
theorem semaphore_wait_list_is_fifo (N fuel : Nat) (k : Kernel) (s : smart_semaphore_t)
    (ts : List Nat) (hk : KernelOk N k) (hf : N ≤ fuel) (hcnt : s.count = 0)
    (hempty : s.wait_list = none) (hnd : ts.Nodup) (hb : ∀ t ∈ ts, t < N) :
    ∃ k1 s1, sem_wait_all fuel ts k s = some (k1, s1) ∧
      isChain k1.tasks s1.wait_list ts ∧
      ∀ (i : Nat) (hi : i < ts.length), ∃ k2 s2 k3 s3,
        sem_post_n fuel i k1 s1 = some (k2, s2) ∧
        isChain k2.tasks s2.wait_list (ts.drop i) ∧
        smart_sem_post fuel k2 (some s2) = some (k3, some s3, SMART_SYNC_OK) ∧
        (k3.tasks ts[i]).state = TASK_STATE_READY ∧
        isChain k3.tasks s3.wait_list (ts.drop (i + 1)) := by
  obtain ⟨k1, s1, h1, hk1, hl1, hc1, -⟩ :=
    sem_wait_all_ok N fuel hf ts k s [] hk hcnt (by rw [hempty]; intro b hb; cases hb)
      (by rw [hempty]; rfl) (by simpa using hnd) hb
  have hl1' : isChain k1.tasks s1.wait_list ts := by simpa using hl1
  refine ⟨k1, s1, h1, hl1', ?_⟩
  intro i hi
  obtain ⟨k2, s2, h2, hk2, hl2, hc2⟩ :=
    sem_post_n_ok N fuel hf i ts k1 s1 hk1 hl1' (by rw [hc1]; exact Nat.zero_le _)
      (Nat.le_of_lt hi)
  obtain ⟨k3, s3, h3, -, -, hcons, -⟩ :=
    smart_sem_post_ok N fuel k2 s2 (ts.drop i) hk2 hf hl2 hc2
  obtain ⟨hl3, -, hst, -, -⟩ := hcons ts[i] (ts.drop (i + 1)) (List.drop_eq_getElem_cons hi)
  exact ⟨k2, s2, k3, s3, h2, hl2, h3, hst, hl3⟩

theorem smart_sem_post_spec_witness :
    KernelOk 3 blockedOnSem.1 ∧ isChain blockedOnSem.1.tasks blockedOnSem.2.wait_list [2, 1] ∧
    ∃ k' s', smart_sem_post 4 blockedOnSem.1 (some blockedOnSem.2) =
        some (k', some s', SMART_SYNC_OK) ∧
      isChain k'.tasks s'.wait_list [1] ∧ (k'.tasks 2).state = TASK_STATE_READY ∧
      s'.count = blockedOnSem.2.count := by
  obtain ⟨k', s', h1, -, h3, -⟩ :=
    smart_sem_post_spec 3 4 blockedOnSem.1 blockedOnSem.2 [2, 1] (by decide) (by decide)
      (by decide) (by decide)
  obtain ⟨h4, -, h5, h6, -⟩ := h3 2 [1] rfl
  exact ⟨by decide, by decide, k', s', h1, h4, h5, h6⟩

theorem semaphore_wait_list_is_fifo_witness :
    KernelOk 3 startedKernel ∧ emptySem.count = 0 ∧ emptySem.wait_list = none ∧
    ∃ k1 s1, sem_wait_all 4 [2, 1] startedKernel emptySem = some (k1, s1) ∧
      isChain k1.tasks s1.wait_list [2, 1] ∧
      ∃ k2 s2 k3 s3, sem_post_n 4 1 k1 s1 = some (k2, s2) ∧
        smart_sem_post 4 k2 (some s2) = some (k3, some s3, SMART_SYNC_OK) ∧
        (k3.tasks 1).state = TASK_STATE_READY ∧ isChain k3.tasks s3.wait_list [] := by
  obtain ⟨k1, s1, h1, h2, h3⟩ :=
    semaphore_wait_list_is_fifo 3 4 startedKernel emptySem [2, 1] (by decide) (by decide)
      (by decide) (by decide) (by decide) (by decide)
  obtain ⟨k2, s2, k3, s3, h4, -, h5, h6, h7⟩ := h3 1 (by decide)
  exact ⟨by decide, by decide, by decide, k1, s1, h1, h2, k2, s2, k3, s3, h4, h5, h6, h7⟩

/-! ## Mutex theorems -/

/-- C3: a contended `smart_mutex_lock` by task `T` on a mutex held by `O`
returns OK, lowers the deadline of `O` to the minimum of its deadline and that
of `T`, appends `T` at the tail of the wait list and leaves the locked flag,
owner, depth and saved deadline of the mutex unchanged. -/
theorem contended_lock_donates_and_enqueues (N fuel : Nat) (k : Kernel) (m : smart_mutex_t)
    (T O : Nat) (l : List Nat) (hk : KernelOk N k) (hf : N ≤ fuel)
    (hc : k.current_task = some T) (hlocked : m.locked ≠ 0) (hown : m.owner = some O)
    (hne : O ≠ T) (hwl : PtrOk N m.wait_list) (hl : isChain k.tasks m.wait_list l)
    (hTl : T ∉ l) :
    ∃ k' m', smart_mutex_lock fuel k (some m) = some (k', some m', SMART_SYNC_OK) ∧
      (k'.tasks O).deadline = min (k.tasks O).deadline (k.tasks T).deadline ∧
      isChain k'.tasks m'.wait_list (l ++ [T]) ∧
      m'.locked = m.locked ∧ m'.owner = m.owner ∧ m'.lock_count = m.lock_count ∧
      m'.original_deadline = m.original_deadline := by
  obtain ⟨k', m', h1, -, -, h2, h3, h4, h5, h6, -, -, h7⟩ :=
    smart_mutex_lock_contended_ok N fuel k m T O hk hf hc hlocked hown hne hwl
  exact ⟨k', m', h1, h6, h7 l hl hTl, h2, h3, h4, h5⟩

theorem contended_lock_donates_and_enqueues_witness :
    (heldByL.1.tasks 1).deadline = 1000 ∧ (heldByL.1.tasks 2).deadline = 100 ∧
    heldByL.2.owner = some 1 ∧
    ∃ k' m', smart_mutex_lock 5 (setCurrent heldByL.1 (some 2)) (some heldByL.2) =
        some (k', some m', SMART_SYNC_OK) ∧
      (k'.tasks 1).deadline = 100 ∧ isChain k'.tasks m'.wait_list [2] ∧
      m'.owner = some 1 ∧ m'.original_deadline = 1000 := by
  obtain ⟨k', m', h1, h2, h3, -, h5, -, h7⟩ :=
    contended_lock_donates_and_enqueues 4 5 (setCurrent heldByL.1 (some 2)) heldByL.2 2 1 []
      (by decide) (by decide) (by decide) (by decide) (by decide) (by decide) (by decide)
      (by decide) (by decide)
  refine ⟨by decide, by decide, by decide, k', m', h1, ?_, h3, h5, h7⟩
  rw [h2]
  decide

/-- C4: the final `smart_mutex_unlock` by the owner hands a mutex with waiters
over to the first waiter of minimal deadline, which leaves the wait list and
becomes Ready while the other waiters keep their order, and unlocks a mutex
without waiters. -/
theorem smart_mutex_unlock_hands_over (N fuel : Nat) (k : Kernel) (m : smart_mutex_t)
    (O : Nat) (l : List Nat) (hk : KernelOk N k) (hf : N ≤ fuel)
    (hc : k.current_task = some O) (hlocked : m.locked ≠ 0) (hown : m.owner = some O)
    (hcount : m.lock_count = 1) (hwl : PtrOk N m.wait_list)
    (hl : isChain k.tasks m.wait_list l) (hOl : O ∉ l) :
    ∃ k' m', smart_mutex_unlock fuel k (some m) = some (k', some m', SMART_SYNC_OK) ∧
      (l = [] → m'.locked = 0 ∧ m'.owner = none) ∧
      (l ≠ [] → ∃ pre W post, l = pre ++ W :: post ∧
        (∀ x ∈ pre, (k.tasks W).deadline < (k.tasks x).deadline) ∧
        (∀ x ∈ post, (k.tasks W).deadline ≤ (k.tasks x).deadline) ∧
        isChain k'.tasks m'.wait_list (pre ++ post) ∧
        (k'.tasks W).state = TASK_STATE_READY ∧
        m'.owner = some W ∧ m'.lock_count = 1 ∧
        m'.original_deadline = (k.tasks W).deadline ∧ m'.locked ≠ 0) := by
  obtain ⟨k', m', h1, -, -, hdl, hnil, hcons⟩ :=
    smart_mutex_unlock_final_ok N fuel k m O l hk hf hc hown hcount hwl hl
  refine ⟨k', m', h1, fun h => ⟨(hnil h).1, (hnil h).2.1⟩, ?_⟩
  intro hne
  obtain ⟨pre, W, post, hsplit, hm1, hm2, hch, hst, -, ho, hcnt, horig, hlk⟩ := hcons hne
  have hd : ∀ x ∈ l, (k'.tasks x).deadline = (k.tasks x).deadline := by
    intro x hx
    have hxO : x ≠ O := fun h => hOl (by rw [← h]; exact hx)
    rw [hdl x, if_neg hxO]
  have hW : W ∈ l := by rw [hsplit]; simp
  refine ⟨pre, W, post, hsplit, ?_, ?_, hch, hst, ho, hcnt, ?_, ?_⟩
  · intro x hx
    rw [← hd W hW, ← hd x (by rw [hsplit]; simp [hx])]
    exact hm1 x hx
  · intro x hx
    rw [← hd W hW, ← hd x (by rw [hsplit]; simp [hx])]
    exact hm2 x hx
  · rw [horig, hd W hW]
  · rw [hlk]; exact hlocked

theorem smart_mutex_unlock_hands_over_witness :
    isChain contendedByHX.1.tasks contendedByHX.2.wait_list [2, 3] ∧
    (contendedByHX.1.tasks 2).deadline = 150 ∧ (contendedByHX.1.tasks 3).deadline = 170 ∧
    ∃ k' m', smart_mutex_unlock 5 (setCurrent contendedByHX.1 (some 1))
        (some contendedByHX.2) = some (k', some m', SMART_SYNC_OK) ∧
      ∃ pre W post, [2, 3] = pre ++ W :: post ∧
        isChain k'.tasks m'.wait_list (pre ++ post) ∧
        (k'.tasks W).state = TASK_STATE_READY ∧ m'.owner = some W ∧
        m'.original_deadline = ((setCurrent contendedByHX.1 (some 1)).tasks W).deadline := by
  obtain ⟨k', m', h1, -, h3⟩ :=
    smart_mutex_unlock_hands_over 4 5 (setCurrent contendedByHX.1 (some 1))
      contendedByHX.2 1 [2, 3] (by decide) (by decide) (by decide) (by decide) (by decide)
      (by decide) (by decide) (by decide) (by decide)
  obtain ⟨pre, W, post, hs, -, -, hch, hst, ho, -, horig, -⟩ := h3 (by decide)
  exact ⟨by decide, by decide, by decide, k', m', h1, pre, W, post, hs, hch, hst, ho, horig⟩

/-- C5: when task `T` locks an unlocked mutex, other tasks then call lock on it
(donating their deadlines), and `T` unlocks it, every call returns OK and the
deadline of `T` after the unlock is its deadline at the moment of the lock. -/
theorem mutex_lock_unlock_restores_deadline (N fuel : Nat) (k : Kernel) (m : smart_mutex_t)
    (T : Nat) (us : List Nat) (hk : KernelOk N k) (hf : N ≤ fuel) (hT : T < N)
    (hfree : m.locked = 0) (hwl : PtrOk N m.wait_list)
    (hus : ∀ u ∈ us, u < N ∧ u ≠ T) :
    ∃ k1 m1 k2 m2 k3 m3,
      smart_mutex_lock fuel (setCurrent k (some T)) (some m) =
        some (k1, some m1, SMART_SYNC_OK) ∧
      mutex_lock_all fuel us k1 m1 = some (k2, m2) ∧
      smart_mutex_unlock fuel (setCurrent k2 (some T)) (some m2) =
        some (k3, some m3, SMART_SYNC_OK) ∧
      (k2.tasks T).deadline ≤ (k.tasks T).deadline ∧
      (k3.tasks T).deadline = (k.tasks T).deadline := by
  have hkT := KernelOk_setCurrent N k T hT hk
  have hlock := smart_mutex_lock_free_ok fuel (setCurrent k (some T)) m T rfl hfree
  have hk1 : KernelOk N (smart_exit_critical (smart_enter_critical (setCurrent k (some T)))) :=
    KernelOk_exit N _ (KernelOk_enter N _ hkT)
  obtain ⟨k2, m2, hrun, hk2, g1, g2, g3, g4, g5, g6⟩ :=
    mutex_lock_all_ok N fuel hf T (k.tasks T).deadline us _
      ⟨1, some T, 1, (k.tasks T).deadline, m.wait_list⟩ hk1 Nat.one_ne_zero rfl rfl rfl hwl hus
  obtain ⟨l, hl, -⟩ := Acyclic_chain N k2.tasks hk2.2.2.2.1 m2.wait_list g5
  obtain ⟨k3, m3, hunlock, -, -, hdl, -⟩ :=
    smart_mutex_unlock_final_ok N fuel (setCurrent k2 (some T)) m2 T l
      (KernelOk_setCurrent N k2 T hT hk2) hf rfl g2 g3 g5 hl
  refine ⟨_, _, k2, m2, k3, m3, hlock, hrun, hunlock, ?_, ?_⟩
  · simpa using g6
  · rw [hdl T, if_pos rfl, g4]

theorem mutex_lock_unlock_restores_deadline_witness :
    (mutexStarted.tasks 1).deadline = 1000 ∧ (contendedByHX.1.tasks 1).deadline = 100 ∧
    ∃ k1 m1 k2 m2 k3 m3,
      smart_mutex_lock 5 (setCurrent mutexStarted (some 1)) (some freshMutex) =
        some (k1, some m1, SMART_SYNC_OK) ∧
      mutex_lock_all 5 [2, 3] k1 m1 = some (k2, m2) ∧
      smart_mutex_unlock 5 (setCurrent k2 (some 1)) (some m2) =
        some (k3, some m3, SMART_SYNC_OK) ∧
      (k3.tasks 1).deadline = 1000 := by
  obtain ⟨k1, m1, k2, m2, k3, m3, h1, h2, h3, -, h5⟩ :=
    mutex_lock_unlock_restores_deadline 4 5 mutexStarted freshMutex 1 [2, 3] (by decide)
      (by decide) (by decide) (by decide) (by decide) (by decide)
  exact ⟨by decide, by decide, k1, m1, k2, m2, k3, m3, h1, h2, h3, h5.trans (by decide)⟩

/-- C6 (as amended): in every state reached from `smart_mutex_init` by lock,
try_lock and unlock calls on one mutex, a locked mutex has an owner whose
deadline is at most the saved `original_deadline` and at most the deadline that
each caller of a contended lock had at its call since that owner acquired the
mutex. -/
theorem mutex_owner_deadline_bounded (N fuel : Nat) (k : Kernel) (m0 : smart_mutex_t)
    (ops : List MutexOp) (hk : KernelOk N k) (hf : N ≤ fuel)
    (hops : ∀ op ∈ ops, op.caller < N)
    (hlocked : (mutexRun fuel ops (mutexInit k m0)).m.locked ≠ 0) :
    ∃ O, (mutexRun fuel ops (mutexInit k m0)).m.owner = some O ∧
      ((mutexRun fuel ops (mutexInit k m0)).k.tasks O).deadline ≤
        (mutexRun fuel ops (mutexInit k m0)).m.original_deadline ∧
      ∀ d ∈ (mutexRun fuel ops (mutexInit k m0)).donations,
        ((mutexRun fuel ops (mutexInit k m0)).k.tasks O).deadline ≤ d := by
  obtain ⟨-, -, -, hown⟩ := mutexRun_inv N fuel hf ops _ hops (mutexInit_inv N k m0 hk)
  rcases hown with ⟨h0, -⟩ | ⟨-, O, h1, h2, h3⟩
  · exact absurd h0 hlocked
  · exact ⟨O, h1, h2, h3⟩

theorem mutex_owner_deadline_bounded_witness :
    (mutexRun 5 [.lock 1, .lock 2, .lock 3] (mutexInit mutexStarted freshMutex)).donations =
      [120, 100] ∧
    (mutexRun 5 [.lock 1, .lock 2, .lock 3] (mutexInit mutexStarted freshMutex)).m.original_deadline
      = 1000 ∧
    ∃ O, (mutexRun 5 [.lock 1, .lock 2, .lock 3] (mutexInit mutexStarted freshMutex)).m.owner =
        some O ∧
      ((mutexRun 5 [.lock 1, .lock 2, .lock 3] (mutexInit mutexStarted freshMutex)).k.tasks
        O).deadline ≤ 100 := by
  obtain ⟨O, h1, -, h3⟩ :=
    mutex_owner_deadline_bounded 4 5 mutexStarted freshMutex [.lock 1, .lock 2, .lock 3]
      (by decide) (by decide) (by decide) (by decide)
  refine ⟨by decide, by decide, O, h1, h3 100 ?_⟩
  have hd : (mutexRun 5 [.lock 1, .lock 2, .lock 3]
      (mutexInit mutexStarted freshMutex)).donations = [120, 100] := by decide
  rw [hd]
  decide

/-- C6 (counterexample): L locks a first mutex, H (deadline 100) calls lock on
it so that L inherits deadline 100, L locks a second, free mutex (which saves
100), X (deadline 120) calls lock on the second mutex and waits, and L unlocks
the first mutex, which restores its deadline 1000: the second mutex is still
locked by L with X waiting, and the deadline of L exceeds both the saved
`original_deadline` 100 and the deadline 120 that X had when it called lock. -/
theorem mutex_owner_deadline_above_saved_deadline :
    (heldByL.1.tasks 1).deadline = 1000 ∧ (contendedByH.1.tasks 1).deadline = 100 ∧
    (secondHeldByL.1.tasks 3).deadline = 120 ∧
    secondContendedByX.2.locked = 1 ∧ secondContendedByX.2.owner = some 1 ∧
    secondContendedByX.2.original_deadline = 100 ∧
    isChain firstReleasedByL.1.tasks secondContendedByX.2.wait_list [3] ∧
    firstReleasedByL.2.owner = some 2 ∧
    (firstReleasedByL.1.tasks 1).deadline = 1000 ∧
    ¬ ((firstReleasedByL.1.tasks 1).deadline ≤ secondContendedByX.2.original_deadline) ∧
    ¬ ((firstReleasedByL.1.tasks 1).deadline ≤ (secondHeldByL.1.tasks 3).deadline) := by
  decide

/-- The hand-over after a contended lock by periodic tasks: L locks, H (deadline
100) and X (deadline 120) call lock, L unlocks.  The yield call inside
`smart_mutex_lock` has moved the deadlines of H and X to 150 and 170, so the
mutex passes to H at deadline 150 while X, which called lock at deadline 120,
still waits. -/
theorem mutex_handover_after_yield_bump :
    (heldByL.1.tasks 2).deadline = 100 ∧ (contendedByH.1.tasks 3).deadline = 120 ∧
    (contendedByHX.1.tasks 1).deadline = 100 ∧
    isChain contendedByHX.1.tasks contendedByHX.2.wait_list [2, 3] ∧
    handedOver.2.locked = 1 ∧ handedOver.2.owner = some 2 ∧
    handedOver.2.original_deadline = 150 ∧
    isChain handedOver.1.tasks handedOver.2.wait_list [3] ∧
    (handedOver.1.tasks 2).deadline = 150 ∧
    ¬ ((handedOver.1.tasks 2).deadline ≤ (contendedByH.1.tasks 3).deadline) := by
  decide

/-- C7: a periodic task that blocks in `smart_sem_wait` is made Ready by the
tick handler at its next arrival time while it is still on the wait list (no
post has happened); an aperiodic caller is Ready and queued as soon as
`smart_sem_wait` has finished. -/
theorem sem_waiter_ready_while_queued :
    (sem_wait_all 4 [2] startedKernel emptySem).isSome = true ∧
    (t2Blocked.1.tasks 2).period = 4 ∧
    (t2Blocked.1.tasks 2).state = TASK_STATE_WAITING ∧
    isChain t2Blocked.1.tasks t2Blocked.2.wait_list [2] ∧
    (tick_n 4 3 t2Blocked.1).map (fun k => (k.tasks 2).state) = some TASK_STATE_WAITING ∧
    (tick_n 4 4 t2Blocked.1).map (fun k => (k.tasks 2).state) = some TASK_STATE_READY ∧
    (tick_n 4 4 t2Blocked.1).map
      (fun k => decide (isChain k.tasks t2Blocked.2.wait_list [2])) = some true ∧
    (sem_wait_all 3 [1] aperiodicKernel emptySem).isSome = true ∧
    (aperiodicBlocked.1.tasks 1).period = 0 ∧
    (aperiodicBlocked.1.tasks 1).state = TASK_STATE_READY ∧
    isChain aperiodicBlocked.1.tasks aperiodicBlocked.2.wait_list [1] := by
  decide

/-- C8: before T2 blocks in `smart_sem_wait` the global task list is T2, T1,
idle; afterwards only T2 is reachable from `task_list`, because the enqueue
code writes `NULL` into the `next` field that also links the task list. -/
theorem sem_wait_truncates_task_list :
    isChain startedKernel.tasks startedKernel.task_list [2, 1, idle_task] ∧
    startedKernel.current_task = some 2 ∧
    (sem_wait_all 4 [2] startedKernel emptySem).isSome = true ∧
    isChain t2Blocked.1.tasks t2Blocked.1.task_list [2] ∧
    ¬ (∃ l, 1 ∈ l ∧ isChain t2Blocked.1.tasks t2Blocked.1.task_list l) := by
  refine ⟨by decide, by decide, by decide, by decide, ?_⟩
  rintro ⟨l, hmem, hl⟩
  have h2 : isChain t2Blocked.1.tasks t2Blocked.1.task_list [2] := by decide
  rw [isChain_unique _ _ _ _ hl h2] at hmem
  simp at hmem

/-! ## Memory pool lemmas -/

@[simp] theorem updAt_same {α : Type} (f : Nat → α) (a : Nat) (v : α) :
    updAt f a v a = v := by simp [updAt]

theorem updAt_other {α : Type} (f : Nat → α) (a x : Nat) (v : α) (h : x ≠ a) :
    updAt f a v x = f x := by simp [updAt, h]

theorem updAt_self {α : Type} (f : Nat → α) (a : Nat) : updAt f a (f a) = f := by
  funext x
  by_cases h : x = a
  · subst h; simp
  · simp [updAt, h]

theorem land_mask (x : Nat) (hx : x < 4294967296) : Nat.land x 4294967292 = x / 4 * 4 := by
  show x &&& 4294967292 = x / 4 * 4
  apply Nat.eq_of_testBit_eq
  intro i
  rw [Nat.testBit_and]
  have h2 : x / 4 * 4 = (x >>> 2) <<< 2 := by
    rw [Nat.shiftLeft_eq, Nat.shiftRight_eq_div_pow]
  rw [h2, Nat.testBit_shiftLeft, Nat.testBit_shiftRight]
  by_cases hi : i < 32
  · interval_cases i <;> simp [Nat.testBit]
  · have hlt : x < 2 ^ i := lt_of_lt_of_le hx
      (by rw [show (4294967296 : Nat) = 2 ^ 32 by norm_num]
          exact Nat.pow_le_pow_right (by norm_num) (by omega))
    have hi2 : 2 + (i - 2) = i := by omega
    simp [Nat.testBit_eq_false_of_lt hlt, hi2]

/-- With alignment 4, `align_up` rounds up to a multiple of 4 (modulo 2^32). -/
theorem align_up_four (v : Nat) : align_up v 4 = wrap32 (v + 3) / 4 * 4 := by
  unfold align_up
  have : wrap32 (4 + 4294967295) = 3 := by decide
  rw [this]
  exact land_mask _ (Nat.mod_lt _ (by norm_num))

theorem align_up_four_ge (v : Nat) (h0 : 0 < v) (h : v ≤ 4294967292) :
    align_up v 4 % 4 = 0 ∧ v ≤ align_up v 4 ∧ align_up v 4 < v + 4 ∧ 4 ≤ align_up v 4 := by
  rw [align_up_four]
  have hw : wrap32 (v + 3) = v + 3 := Nat.mod_eq_of_lt (by omega)
  rw [hw]
  omega

theorem isFreeList_unique (w : Nat → Nat) : ∀ (l1 l2 : List Nat) (p : Nat),
    isFreeList w p l1 → isFreeList w p l2 → l1 = l2
  | [], [], _, _, _ => rfl
  | [], b :: l2, p, h1, h2 => by
    have h1' : p = 0 := h1
    exact absurd (h2.1 ▸ h1') h2.2.1
  | b :: l1, [], p, h1, h2 => by
    have h2' : p = 0 := h2
    exact absurd (h1.1 ▸ h2') h1.2.1
  | b :: l1, c :: l2, p, h1, h2 => by
    have hb : b = c := h1.1.symm.trans h2.1
    subst hb
    rw [isFreeList_unique w l1 l2 (w b) h1.2.2 h2.2.2]

theorem isFreeList_congr (w w2 : Nat → Nat) : ∀ (l : List Nat) (p : Nat),
    (∀ b ∈ l, w2 b = w b) → isFreeList w p l → isFreeList w2 p l
  | [], _, _, h => h
  | b :: l, p, hw, h => by
    refine ⟨h.1, h.2.1, ?_⟩
    rw [hw b (List.mem_cons_self _ _)]
    exact isFreeList_congr w w2 l (w b) (fun x hx => hw x (List.mem_cons_of_mem _ hx)) h.2.2

theorem isFreeList_ne_nil (w : Nat → Nat) (p : Nat) (l : List Nat) (hp : p ≠ 0)
    (h : isFreeList w p l) : ∃ l1, l = p :: l1 ∧ isFreeList w (w p) l1 := by
  cases l with
  | nil => exact absurd h hp
  | cons b l1 =>
    obtain ⟨h1, _, h3⟩ := h
    subst h1
    exact ⟨l1, rfl, h3⟩

theorem smart_mempool_alloc_try_null (k : Kernel) (s : Mempools) (pool out_block : Option Nat)
    (h : pool = none ∨ out_block = none) :
    smart_mempool_alloc_try k s pool out_block = (k, s, out_block, SMART_MEMPOOL_INVALID) := by
  cases pool <;> cases out_block <;> simp_all [smart_mempool_alloc_try]

theorem smart_mempool_alloc_try_busy (k : Kernel) (s : Mempools) (a o : Nat)
    (h : (s.pools a).ops_left = 0) :
    smart_mempool_alloc_try k s (some a) (some o) =
      (smart_exit_critical (smart_enter_critical k), s, some o, SMART_MEMPOOL_BUSY) := by
  simp [smart_mempool_alloc_try, h]

theorem smart_mempool_alloc_try_empty (k : Kernel) (s : Mempools) (a o : Nat)
    (h : (s.pools a).ops_left ≠ 0) (hf : (s.pools a).free_list = 0) :
    smart_mempool_alloc_try k s (some a) (some o) =
      (smart_exit_critical (smart_enter_critical k), s, some o, SMART_MEMPOOL_EMPTY) := by
  simp [smart_mempool_alloc_try, h, hf]

theorem smart_mempool_alloc_try_take (k : Kernel) (s : Mempools) (a o : Nat)
    (h : (s.pools a).ops_left ≠ 0) (hf : (s.pools a).free_list ≠ 0) :
    smart_mempool_alloc_try k s (some a) (some o) =
      (smart_exit_critical (smart_enter_critical k),
       setPool s a
        { (s.pools a) with
          free_list := s.words (s.pools a).free_list,
          free_count := wrap16 ((s.pools a).free_count + 65535),
          min_free_count :=
            if wrap16 ((s.pools a).free_count + 65535) < (s.pools a).min_free_count then
              wrap16 ((s.pools a).free_count + 65535)
            else (s.pools a).min_free_count,
          ops_left := (s.pools a).ops_left - 1 },
       some (s.pools a).free_list, SMART_MEMPOOL_OK) := by
  simp [smart_mempool_alloc_try, h, hf]

@[simp] theorem setPool_pools_same (s : Mempools) (a : Nat) (p : smart_mempool_t) :
    (setPool s a p).pools a = p := by simp [setPool]

theorem setPool_pools_other (s : Mempools) (a x : Nat) (p : smart_mempool_t) (h : x ≠ a) :
    (setPool s a p).pools x = s.pools x := by simp [setPool, updAt, h]

@[simp] theorem setPool_words (s : Mempools) (a : Nat) (p : smart_mempool_t) :
    (setPool s a p).words = s.words := rfl

@[simp] theorem setPool_registry (s : Mempools) (a : Nat) (p : smart_mempool_t) :
    (setPool s a p).pool_registry = s.pool_registry := rfl

@[simp] theorem setPool_registry_count (s : Mempools) (a : Nat) (p : smart_mempool_t) :
    (setPool s a p).pool_registry_count = s.pool_registry_count := rfl

@[simp] theorem setWord_pools (s : Mempools) (b v : Nat) : (setWord s b v).pools = s.pools := rfl

@[simp] theorem setWord_words (s : Mempools) (b v : Nat) :
    (setWord s b v).words = updAt s.words b v := rfl

@[simp] theorem setWord_registry (s : Mempools) (b v : Nat) :
    (setWord s b v).pool_registry = s.pool_registry := rfl

@[simp] theorem setWord_registry_count (s : Mempools) (b v : Nat) :
    (setWord s b v).pool_registry_count = s.pool_registry_count := rfl

theorem wrap16_pred (n : Nat) (h0 : 0 < n) (h : n < 65536) : wrap16 (n + 65535) = n - 1 := by
  unfold wrap16; omega

theorem wrap16_succ (n : Nat) (h : n < 65535) : wrap16 (n + 1) = n + 1 := by
  unfold wrap16; omega

theorem wrap16_pred_succ (n : Nat) (h : n < 65536) : wrap16 (wrap16 (n + 65535) + 1) = n := by
  unfold wrap16; omega

/-- All outcomes of `smart_mempool_alloc_try`. -/
theorem smart_mempool_alloc_try_ok (k : Kernel) (s : Mempools) (pool out_block : Option Nat)
    (r : Kernel × Mempools × Option Nat × smart_mempool_status_t)
    (hr : smart_mempool_alloc_try k s pool out_block = r) :
    (r.2.2.2 = SMART_MEMPOOL_INVALID ↔ pool = none ∨ out_block = none) ∧
    (∀ a o, pool = some a → out_block = some o →
      (r.2.2.2 = SMART_MEMPOOL_BUSY ↔ (s.pools a).ops_left = 0) ∧
      ((s.pools a).ops_left ≠ 0 →
        (r.2.2.2 = SMART_MEMPOOL_EMPTY ↔ (s.pools a).free_list = 0)) ∧
      ((s.pools a).ops_left ≠ 0 → (s.pools a).free_list ≠ 0 →
        r.2.2.2 = SMART_MEMPOOL_OK ∧
        r.2.2.1 = some (s.pools a).free_list ∧
        (r.2.1.pools a).free_list = s.words (s.pools a).free_list ∧
        (r.2.1.pools a).free_count = wrap16 ((s.pools a).free_count + 65535) ∧
        (0 < (s.pools a).free_count → (s.pools a).free_count < 65536 →
          (r.2.1.pools a).free_count + 1 = (s.pools a).free_count) ∧
        (r.2.1.pools a).ops_left + 1 = (s.pools a).ops_left ∧
        (r.2.1.pools a).min_free_count =
          min (s.pools a).min_free_count (r.2.1.pools a).free_count ∧
        (r.2.1.pools a).buffer = (s.pools a).buffer ∧
        (r.2.1.pools a).buffer_end = (s.pools a).buffer_end ∧
        (r.2.1.pools a).block_size = (s.pools a).block_size ∧
        (r.2.1.pools a).block_stride = (s.pools a).block_stride ∧
        (r.2.1.pools a).block_count = (s.pools a).block_count ∧
        (r.2.1.pools a).ops_per_tick = (s.pools a).ops_per_tick ∧
        r.2.1.words = s.words ∧
        (∀ x, x ≠ a → r.2.1.pools x = s.pools x))) ∧
    (r.2.2.2 ≠ SMART_MEMPOOL_OK → r.2.1 = s ∧ r.2.2.1 = out_block) := by
  subst hr
  refine ⟨?_, ?_, ?_⟩
  · constructor
    · intro h
      cases pool with
      | none => exact Or.inl rfl
      | some a =>
        cases out_block with
        | none => exact Or.inr rfl
        | some o =>
          exfalso
          by_cases h1 : (s.pools a).ops_left = 0
          · rw [smart_mempool_alloc_try_busy k s a o h1] at h; simp at h
          · by_cases h2 : (s.pools a).free_list = 0
            · rw [smart_mempool_alloc_try_empty k s a o h1 h2] at h; simp at h
            · rw [smart_mempool_alloc_try_take k s a o h1 h2] at h; simp at h
    · intro h
      rw [smart_mempool_alloc_try_null k s pool out_block h]
  · intro a o hp ho
    subst hp; subst ho
    refine ⟨?_, ?_, ?_⟩
    · by_cases h1 : (s.pools a).ops_left = 0
      · rw [smart_mempool_alloc_try_busy k s a o h1]; simp [h1]
      · by_cases h2 : (s.pools a).free_list = 0
        · rw [smart_mempool_alloc_try_empty k s a o h1 h2]; simp [h1]
        · rw [smart_mempool_alloc_try_take k s a o h1 h2]; simp [h1]
    · intro h1
      by_cases h2 : (s.pools a).free_list = 0
      · rw [smart_mempool_alloc_try_empty k s a o h1 h2]; simp [h2]
      · rw [smart_mempool_alloc_try_take k s a o h1 h2]; simp [h2]
    · intro h1 h2
      rw [smart_mempool_alloc_try_take k s a o h1 h2]
      refine ⟨rfl, rfl, by simp, by simp, ?_, ?_, ?_, by simp, by simp, by simp, by simp,
        by simp, by simp, rfl, ?_⟩
      · intro h0 hlt
        simp only [setPool_pools_same]
        rw [wrap16_pred _ h0 hlt]; omega
      · simp only [setPool_pools_same]; omega
      · simp only [setPool_pools_same]
        split_ifs with hlt
        · exact (min_eq_right (le_of_lt hlt)).symm
        · exact (min_eq_left (not_lt.mp hlt)).symm
      · intro x hx
        exact setPool_pools_other _ _ _ _ hx
  · intro hne
    cases pool with
    | none => rw [smart_mempool_alloc_try_null k s none out_block (Or.inl rfl)]; exact ⟨rfl, rfl⟩
    | some a =>
      cases out_block with
      | none => rw [smart_mempool_alloc_try_null k s _ none (Or.inr rfl)]; exact ⟨rfl, rfl⟩
      | some o =>
        by_cases h1 : (s.pools a).ops_left = 0
        · rw [smart_mempool_alloc_try_busy k s a o h1]; exact ⟨rfl, rfl⟩
        · by_cases h2 : (s.pools a).free_list = 0
          · rw [smart_mempool_alloc_try_empty k s a o h1 h2]; exact ⟨rfl, rfl⟩
          · rw [smart_mempool_alloc_try_take k s a o h1 h2] at hne
            exact absurd rfl hne

theorem smart_mempool_address_valid_eq (s : Mempools) (a block : Nat)
    (hs : (s.pools a).block_stride ≠ 0) :
    smart_mempool_address_valid s (some a) block =
      some (decide (block ≠ 0 ∧ (s.pools a).buffer ≤ block ∧ block < (s.pools a).buffer_end ∧
        (block - (s.pools a).buffer) % (s.pools a).block_stride = 0)) := by
  unfold smart_mempool_address_valid
  show (if block = 0 then some false
      else if block < (s.pools a).buffer ∨ block ≥ (s.pools a).buffer_end then some false
      else if (s.pools a).block_stride = 0 then none
      else if (block - (s.pools a).buffer) % (s.pools a).block_stride ≠ 0 then some false
      else some true) = _
  by_cases h0 : block = 0
  · simp [h0]
  · by_cases h1 : block < (s.pools a).buffer ∨ block ≥ (s.pools a).buffer_end
    · rw [if_neg h0, if_pos h1]
      congr 1
      symm
      rw [decide_eq_false_iff_not]
      intro h
      rcases h1 with h1 | h1 <;> omega
    · rw [if_neg h0, if_neg h1, if_neg hs]
      have h2 : (s.pools a).buffer ≤ block ∧ block < (s.pools a).buffer_end := by
        constructor <;> by_contra hc <;> exact h1 (by omega)
      by_cases h3 : (block - (s.pools a).buffer) % (s.pools a).block_stride = 0
      · simp [h0, h2.1, h2.2, h3]
      · simp [h0, h2.1, h2.2, h3]

theorem smart_mempool_free_try_null (k : Kernel) (s : Mempools) (pool : Option Nat)
    (block : Nat) (h : pool = none ∨ block = 0) :
    smart_mempool_free_try k s pool block = some (k, s, SMART_MEMPOOL_INVALID) := by
  cases pool with
  | none => rfl
  | some a =>
    rcases h with h | h
    · exact absurd h (by simp)
    · simp [smart_mempool_free_try, h]

theorem smart_mempool_free_try_invalid (k : Kernel) (s : Mempools) (a block : Nat)
    (h0 : block ≠ 0) (hv : smart_mempool_address_valid s (some a) block = some false) :
    smart_mempool_free_try k s (some a) block =
      some (smart_exit_critical (smart_enter_critical k), s, SMART_MEMPOOL_INVALID) := by
  simp [smart_mempool_free_try, h0, hv]

theorem smart_mempool_free_try_busy (k : Kernel) (s : Mempools) (a block : Nat)
    (h0 : block ≠ 0) (hv : smart_mempool_address_valid s (some a) block = some true)
    (h : (s.pools a).ops_left = 0) :
    smart_mempool_free_try k s (some a) block =
      some (smart_exit_critical (smart_enter_critical k), s, SMART_MEMPOOL_BUSY) := by
  simp [smart_mempool_free_try, h0, hv, h]

theorem smart_mempool_free_try_give (k : Kernel) (s : Mempools) (a block : Nat)
    (h0 : block ≠ 0) (hv : smart_mempool_address_valid s (some a) block = some true)
    (h : (s.pools a).ops_left ≠ 0) :
    smart_mempool_free_try k s (some a) block =
      some (smart_exit_critical (smart_enter_critical k),
        setPool (setWord s block (s.pools a).free_list) a
          { (s.pools a) with
            free_list := block,
            free_count := wrap16 ((s.pools a).free_count + 1),
            ops_left := (s.pools a).ops_left - 1 },
        SMART_MEMPOOL_OK) := by
  simp [smart_mempool_free_try, h0, hv, h]

theorem valid_ne_zero (s : Mempools) (a block : Nat)
    (hv : smart_mempool_address_valid s (some a) block = some true) : block ≠ 0 := by
  intro h0
  simp [smart_mempool_address_valid, h0] at hv

/-- All outcomes of `smart_mempool_free_try` on a pool whose stride is not 0. -/
theorem smart_mempool_free_try_ok (k : Kernel) (s : Mempools) (a block : Nat)
    (hs : (s.pools a).block_stride ≠ 0) :
    ∃ r, smart_mempool_free_try k s (some a) block = some r ∧
      (r.2.2 = SMART_MEMPOOL_INVALID ↔
        block = 0 ∨ block < (s.pools a).buffer ∨ (s.pools a).buffer_end ≤ block ∨
          (block - (s.pools a).buffer) % (s.pools a).block_stride ≠ 0) ∧
      (r.2.2 ≠ SMART_MEMPOOL_INVALID →
        (r.2.2 = SMART_MEMPOOL_BUSY ↔ (s.pools a).ops_left = 0)) ∧
      (r.2.2 ≠ SMART_MEMPOOL_INVALID → (s.pools a).ops_left ≠ 0 →
        r.2.2 = SMART_MEMPOOL_OK ∧
        (r.2.1.pools a).free_list = block ∧
        r.2.1.words block = (s.pools a).free_list ∧
        (r.2.1.pools a).free_count = wrap16 ((s.pools a).free_count + 1) ∧
        ((s.pools a).free_count < 65535 →
          (r.2.1.pools a).free_count = (s.pools a).free_count + 1) ∧
        (r.2.1.pools a).ops_left + 1 = (s.pools a).ops_left ∧
        (r.2.1.pools a).min_free_count = (s.pools a).min_free_count ∧
        (r.2.1.pools a).buffer = (s.pools a).buffer ∧
        (r.2.1.pools a).buffer_end = (s.pools a).buffer_end ∧
        (r.2.1.pools a).block_size = (s.pools a).block_size ∧
        (r.2.1.pools a).block_stride = (s.pools a).block_stride ∧
        (r.2.1.pools a).block_count = (s.pools a).block_count ∧
        (r.2.1.pools a).ops_per_tick = (s.pools a).ops_per_tick ∧
        (∀ x, x ≠ block → r.2.1.words x = s.words x) ∧
        (∀ x, x ≠ a → r.2.1.pools x = s.pools x)) ∧
      (r.2.2 = SMART_MEMPOOL_INVALID ∨ r.2.2 = SMART_MEMPOOL_BUSY → r.2.1 = s) := by
  by_cases h0 : block = 0
  · refine ⟨_, smart_mempool_free_try_null k s _ block (Or.inr h0), ?_, ?_, ?_, ?_⟩
    · simp [h0]
    · intro h; exact absurd rfl h
    · intro h; exact absurd rfl h
    · intro _; rfl
  · have hv := smart_mempool_address_valid_eq s a block hs
    by_cases hc : block ≠ 0 ∧ (s.pools a).buffer ≤ block ∧ block < (s.pools a).buffer_end ∧
        (block - (s.pools a).buffer) % (s.pools a).block_stride = 0
    · rw [decide_eq_true hc] at hv
      have hnot : ¬ (block = 0 ∨ block < (s.pools a).buffer ∨ (s.pools a).buffer_end ≤ block ∨
          (block - (s.pools a).buffer) % (s.pools a).block_stride ≠ 0) := by
        intro h
        rcases h with h | h | h | h
        · exact h0 h
        · omega
        · omega
        · exact h hc.2.2.2
      by_cases h1 : (s.pools a).ops_left = 0
      · refine ⟨_, smart_mempool_free_try_busy k s a block h0 hv h1, ?_, ?_, ?_, ?_⟩
        · simp only [hnot, iff_false]; simp
        · intro _; simp [h1]
        · intro _ h; exact absurd h1 h
        · intro _; rfl
      · refine ⟨_, smart_mempool_free_try_give k s a block h0 hv h1, ?_, ?_, ?_, ?_⟩
        · simp only [hnot, iff_false]; simp
        · intro _; simp [h1]
        · intro _ _
          refine ⟨rfl, by simp, by simp, by simp, ?_, ?_, by simp, by simp, by simp, by simp,
            by simp, by simp, by simp, ?_, ?_⟩
          · intro hlt
            simp only [setPool_pools_same]
            exact wrap16_succ _ hlt
          · simp only [setPool_pools_same]; omega
          · intro x hx
            simp [updAt_other _ _ _ _ hx]
          · intro x hx
            rw [setPool_pools_other _ _ _ _ hx]; rfl
        · intro h
          rcases h with h | h <;> simp at h
    · rw [decide_eq_false hc] at hv
      have hyes : block = 0 ∨ block < (s.pools a).buffer ∨ (s.pools a).buffer_end ≤ block ∨
          (block - (s.pools a).buffer) % (s.pools a).block_stride ≠ 0 := by
        by_contra hn
        push_neg at hn
        exact hc ⟨hn.1, hn.2.1, hn.2.2.1, hn.2.2.2⟩
      refine ⟨_, smart_mempool_free_try_invalid k s a block h0 hv, ?_, ?_, ?_, ?_⟩
      · simp only [hyes, iff_true]
      · intro h; exact absurd rfl h
      · intro h; exact absurd rfl h
      · intro _; rfl

/-- An allocation followed by the release of the block just obtained. -/
theorem alloc_free_roundtrip_ok (k : Kernel) (s : Mempools) (a o : Nat)
    (hf : (s.pools a).free_list ≠ 0) (hops : 2 ≤ (s.pools a).ops_left)
    (hfc : (s.pools a).free_count < 65536)
    (hv : smart_mempool_address_valid s (some a) (s.pools a).free_list = some true) :
    (smart_mempool_alloc_try k s (some a) (some o)).2.2.2 = SMART_MEMPOOL_OK ∧
    (smart_mempool_alloc_try k s (some a) (some o)).2.2.1 = some (s.pools a).free_list ∧
    ∃ k2 s2,
      smart_mempool_free_try (smart_mempool_alloc_try k s (some a) (some o)).1
        (smart_mempool_alloc_try k s (some a) (some o)).2.1 (some a) (s.pools a).free_list =
        some (k2, s2, SMART_MEMPOOL_OK) ∧
      s2.words = s.words ∧
      (s2.pools a).free_list = (s.pools a).free_list ∧
      (s2.pools a).free_count = (s.pools a).free_count ∧
      (s2.pools a).ops_left + 2 = (s.pools a).ops_left ∧
      (s2.pools a).min_free_count ≤ (s.pools a).min_free_count ∧
      s2.pools a =
        { (s.pools a) with
          ops_left := (s2.pools a).ops_left, min_free_count := (s2.pools a).min_free_count } ∧
      (∀ x, x ≠ a → s2.pools x = s.pools x) ∧
      s2.pool_registry = s.pool_registry ∧
      s2.pool_registry_count = s.pool_registry_count := by
  have h1 : (s.pools a).ops_left ≠ 0 := by omega
  rw [smart_mempool_alloc_try_take k s a o h1 hf]
  refine ⟨rfl, rfl, ?_⟩
  have hv2 : smart_mempool_address_valid
      (setPool s a
        { (s.pools a) with
          free_list := s.words (s.pools a).free_list,
          free_count := wrap16 ((s.pools a).free_count + 65535),
          min_free_count :=
            if wrap16 ((s.pools a).free_count + 65535) < (s.pools a).min_free_count then
              wrap16 ((s.pools a).free_count + 65535)
            else (s.pools a).min_free_count,
          ops_left := (s.pools a).ops_left - 1 }) (some a) (s.pools a).free_list = some true := by
    rw [← hv]
    simp [smart_mempool_address_valid]
  have h2 : ((setPool s a
        { (s.pools a) with
          free_list := s.words (s.pools a).free_list,
          free_count := wrap16 ((s.pools a).free_count + 65535),
          min_free_count :=
            if wrap16 ((s.pools a).free_count + 65535) < (s.pools a).min_free_count then
              wrap16 ((s.pools a).free_count + 65535)
            else (s.pools a).min_free_count,
          ops_left := (s.pools a).ops_left - 1 }).pools a).ops_left ≠ 0 := by
    simp only [setPool_pools_same]; omega
  refine ⟨_, _, smart_mempool_free_try_give _ _ a _ hf hv2 h2, ?_, ?_, ?_, ?_, ?_, ?_, ?_, rfl, rfl⟩
  · simp [updAt_self]
  · simp
  · simp [wrap16_pred_succ _ hfc]
  · simp only [setPool_pools_same]; omega
  · simp only [setPool_pools_same]
    split_ifs with hlt
    · exact le_of_lt hlt
    · exact le_refl _
  · simp [wrap16_pred_succ _ hfc]
  · intro x hx
    rw [setPool_pools_other _ _ _ _ hx]
    simp only [setWord_pools]
    exact setPool_pools_other _ _ _ _ hx

theorem smart_mempool_register_pools (s : Mempools) (pool : Option Nat) :
    (smart_mempool_register s pool).1.pools = s.pools ∧
    (smart_mempool_register s pool).1.words = s.words := by
  unfold smart_mempool_register
  split_ifs <;> exact ⟨rfl, rfl⟩

theorem smart_mempool_register_entry (s : Mempools) (a : Nat)
    (h : s.pool_registry_count < 4) :
    ∃ i, i < (smart_mempool_register s (some a)).1.pool_registry_count ∧
      (smart_mempool_register s (some a)).1.pool_registry i = some a := by
  unfold smart_mempool_register SMART_MEMPOOL_MAX_POOLS
  rw [if_neg (by omega)]
  refine ⟨s.pool_registry_count, ?_, by simp⟩
  show s.pool_registry_count < wrap32 (s.pool_registry_count + 1)
  unfold wrap32; omega

/-- The pool object and the block memory written by `smart_mempool_init`. -/
theorem smart_mempool_init_eq (k : Kernel) (s : Mempools) (a buffer block_size block_count
    ops_per_tick : Nat) (hb : buffer ≠ 0) (hsz : block_size ≠ 0) (hc : block_count ≠ 0) :
    (smart_mempool_init k s (some a) buffer block_size block_count ops_per_tick).2.pools a =
      { buffer := buffer,
        buffer_end := wrap32 (buffer + wrap32 (align_up block_size 4 * block_count)),
        block_size := block_size,
        block_stride := align_up block_size 4,
        block_count := wrap16 block_count,
        free_count := wrap16 block_count,
        ops_per_tick := if ops_per_tick = 0 then wrap16 block_count else ops_per_tick,
        ops_left := if ops_per_tick = 0 then wrap16 block_count else ops_per_tick,
        free_list := buffer,
        min_free_count := wrap16 block_count } ∧
    (smart_mempool_init k s (some a) buffer block_size block_count ops_per_tick).2.words =
      init_links s.words buffer (align_up block_size 4) block_count := by
  unfold smart_mempool_init
  simp only [hb, hsz, hc, or_self, if_false]
  constructor
  · rw [(smart_mempool_register_pools _ _).1]; simp
  · rw [(smart_mempool_register_pools _ _).2]

theorem smart_mempool_init_registered (k : Kernel) (s : Mempools) (a buffer block_size
    block_count ops_per_tick : Nat) (hb : buffer ≠ 0) (hsz : block_size ≠ 0)
    (hc : block_count ≠ 0) (hr : s.pool_registry_count < 4) :
    ∃ i, i < (smart_mempool_init k s (some a) buffer block_size block_count
        ops_per_tick).2.pool_registry_count ∧
      (smart_mempool_init k s (some a) buffer block_size block_count
        ops_per_tick).2.pool_registry i = some a := by
  unfold smart_mempool_init
  simp only [hb, hsz, hc, or_self, if_false]
  exact smart_mempool_register_entry _ a hr

theorem init_links_spec (words : Nat → Nat) (buffer stride count : Nat)
    (hs : 0 < stride) (hfit : buffer + stride * count < 4294967296) :
    ∀ m, m ≤ count →
      (∀ i, i < m →
        (List.range m).foldl
          (fun w i =>
            let current := wrap32 (buffer + wrap32 (i * stride))
            let next := if i + 1 < count then wrap32 (current + stride) else 0
            updAt w current next) words (buffer + i * stride) =
          if i + 1 < count then buffer + (i + 1) * stride else 0) ∧
      (∀ x, (∀ i, i < m → x ≠ buffer + i * stride) →
        (List.range m).foldl
          (fun w i =>
            let current := wrap32 (buffer + wrap32 (i * stride))
            let next := if i + 1 < count then wrap32 (current + stride) else 0
            updAt w current next) words x = words x) := by
  intro m
  induction m with
  | zero =>
    intro _
    exact ⟨fun i hi => absurd hi (Nat.not_lt_zero _), fun x _ => rfl⟩
  | succ m ih =>
    intro hm
    obtain ⟨ih1, ih2⟩ := ih (by omega)
    have hmul : m * stride + stride ≤ stride * count := by
      have := Nat.mul_le_mul_left stride hm
      rw [Nat.mul_succ, Nat.mul_comm stride m] at this
      exact this
    have hcur : wrap32 (buffer + wrap32 (m * stride)) = buffer + m * stride := by
      have hm1 : m * stride % 4294967296 = m * stride := Nat.mod_eq_of_lt (by omega)
      unfold wrap32
      rw [hm1, Nat.mod_eq_of_lt (by omega)]
    have hnext : m + 1 < count → wrap32 (buffer + m * stride + stride) =
        buffer + (m + 1) * stride := by
      intro hlt
      have h2 : (m + 1) * stride + stride ≤ stride * count := by
        have := Nat.mul_le_mul_left stride (Nat.succ_le_of_lt hlt)
        rw [Nat.mul_succ, Nat.mul_comm stride (m + 1)] at this
        exact this
      unfold wrap32
      rw [Nat.mod_eq_of_lt (by omega), Nat.succ_mul]
      omega
    rw [List.range_succ, List.foldl_append]
    simp only [List.foldl_cons, List.foldl_nil]
    rw [hcur]
    constructor
    · intro i hi
      by_cases him : i = m
      · subst him
        rw [updAt_same]
        by_cases hlt : i + 1 < count
        · rw [if_pos hlt, if_pos hlt, hnext hlt]
        · rw [if_neg hlt, if_neg hlt]
      · have hne : buffer + i * stride ≠ buffer + m * stride := by
          intro h
          have h3 : i * stride = m * stride := by omega
          exact him (Nat.eq_of_mul_eq_mul_right hs h3)
        rw [updAt_other _ _ _ _ hne]
        exact ih1 i (by omega)
    · intro x hx
      rw [updAt_other _ _ _ _ (hx m (by omega))]
      exact ih2 x (fun i hi => hx i (by omega))

theorem poolBlocks_succ (buffer stride i n : Nat) :
    poolBlocks buffer stride i (n + 1) =
      (buffer + i * stride) :: poolBlocks buffer stride (i + 1) n := by
  simp [poolBlocks, List.range'_succ]

theorem mem_poolBlocks (buffer stride count b : Nat) :
    b ∈ poolBlocks buffer stride 0 count ↔ ∃ j, j < count ∧ b = buffer + j * stride := by
  simp only [poolBlocks, List.mem_map, List.mem_range'_1]
  constructor
  · rintro ⟨j, ⟨_, hj⟩, rfl⟩
    exact ⟨j, by omega, rfl⟩
  · rintro ⟨j, hj, rfl⟩
    exact ⟨j, ⟨by omega, by omega⟩, rfl⟩

theorem poolBlocks_nodup (buffer stride count : Nat) (hs : 0 < stride) :
    (poolBlocks buffer stride 0 count).Nodup := by
  unfold poolBlocks
  apply List.Nodup.map
  · intro i j h
    have h3 : i * stride = j * stride := by
      have h' : buffer + i * stride = buffer + j * stride := h
      omega
    exact Nat.eq_of_mul_eq_mul_right hs h3
  · exact List.nodup_range' _ _

theorem poolBlocks_length (buffer stride i n : Nat) :
    (poolBlocks buffer stride i n).length = n := by
  simp [poolBlocks]

theorem isFreeList_of_links (w : Nat → Nat) (buffer stride count : Nat) (hb : buffer ≠ 0)
    (hw : ∀ i, i < count →
      w (buffer + i * stride) = if i + 1 < count then buffer + (i + 1) * stride else 0) :
    ∀ n i, i + n = count →
      isFreeList w (if n = 0 then 0 else buffer + i * stride) (poolBlocks buffer stride i n) := by
  intro n
  induction n with
  | zero => intro i _; simp [poolBlocks, isFreeList]
  | succ n ih =>
    intro i hi
    rw [poolBlocks_succ, if_neg (Nat.succ_ne_zero n)]
    refine ⟨rfl, by omega, ?_⟩
    rw [hw i (by omega)]
    have := ih (i + 1) (by omega)
    by_cases hn : n = 0
    · rw [if_pos hn] at this
      rw [if_neg (by omega)]
      exact this
    · rw [if_neg hn] at this
      rw [if_pos (by omega)]
      exact this

/-- After `smart_mempool_init` the free list consists of the blocks of the
pool in increasing address order. -/
theorem smart_mempool_init_free_list (k : Kernel) (s : Mempools) (a buffer block_size
    block_count ops_per_tick : Nat) (hb : buffer ≠ 0) (hsz : block_size ≠ 0)
    (hc : block_count ≠ 0) (hstr : 0 < align_up block_size 4)
    (hfit : buffer + align_up block_size 4 * block_count < 4294967296) :
    isFreeList
      (smart_mempool_init k s (some a) buffer block_size block_count ops_per_tick).2.words
      ((smart_mempool_init k s (some a) buffer block_size block_count
        ops_per_tick).2.pools a).free_list
      (poolBlocks buffer (align_up block_size 4) 0 block_count) := by
  obtain ⟨hp, hw⟩ := smart_mempool_init_eq k s a buffer block_size block_count ops_per_tick
    hb hsz hc
  rw [hp, hw]
  have hl := (init_links_spec s.words buffer (align_up block_size 4) block_count hstr hfit
    block_count (le_refl _)).1
  have := isFreeList_of_links (init_links s.words buffer (align_up block_size 4) block_count)
    buffer (align_up block_size 4) block_count hb hl block_count 0 (by omega)
  rw [if_neg hc] at this
  simpa using this

/-- Function `smart_mempool_tick` refills the registered pools and changes
nothing else. -/
theorem smart_mempool_tick_fold (s : Mempools) : ∀ n,
    ((List.range n).foldl
      (fun s1 i =>
        match s.pool_registry i with
        | none => s1
        | some a =>
          setPool s1 a { (s1.pools a) with ops_left := (s1.pools a).ops_per_tick }) s).words =
        s.words ∧
    ∀ a,
      (((List.range n).foldl
        (fun s1 i =>
          match s.pool_registry i with
          | none => s1
          | some a =>
            setPool s1 a { (s1.pools a) with ops_left := (s1.pools a).ops_per_tick })
        s).pools a = s.pools a ∨
       ((List.range n).foldl
        (fun s1 i =>
          match s.pool_registry i with
          | none => s1
          | some a =>
            setPool s1 a { (s1.pools a) with ops_left := (s1.pools a).ops_per_tick })
        s).pools a = { (s.pools a) with ops_left := (s.pools a).ops_per_tick }) ∧
      ((∃ i, i < n ∧ s.pool_registry i = some a) →
       ((List.range n).foldl
        (fun s1 i =>
          match s.pool_registry i with
          | none => s1
          | some a =>
            setPool s1 a { (s1.pools a) with ops_left := (s1.pools a).ops_per_tick })
        s).pools a = { (s.pools a) with ops_left := (s.pools a).ops_per_tick }) := by
  intro n
  induction n with
  | zero =>
    refine ⟨rfl, fun a => ⟨Or.inl rfl, ?_⟩⟩
    rintro ⟨i, hi, _⟩
    exact absurd hi (Nat.not_lt_zero _)
  | succ n ih =>
    rw [List.range_succ, List.foldl_append]
    simp only [List.foldl_cons, List.foldl_nil]
    obtain ⟨ihw, ihp⟩ := ih
    cases hreg : s.pool_registry n with
    | none =>
      refine ⟨ihw, fun a => ⟨(ihp a).1, ?_⟩⟩
      rintro ⟨i, hi, hia⟩
      have hin : i ≠ n := by
        intro h; rw [h, hreg] at hia; exact absurd hia (by simp)
      exact (ihp a).2 ⟨i, by omega, hia⟩
    | some a1 =>
      refine ⟨by simp only [setPool_words]; exact ihw, fun a => ?_⟩
      by_cases ha : a = a1
      · subst ha
        have hnew : (setPool
            ((List.range n).foldl
              (fun s1 i =>
                match s.pool_registry i with
                | none => s1
                | some a =>
                  setPool s1 a { (s1.pools a) with ops_left := (s1.pools a).ops_per_tick })
              s) a
            { (((List.range n).foldl
              (fun s1 i =>
                match s.pool_registry i with
                | none => s1
                | some a =>
                  setPool s1 a { (s1.pools a) with ops_left := (s1.pools a).ops_per_tick })
              s).pools a) with
              ops_left := (((List.range n).foldl
              (fun s1 i =>
                match s.pool_registry i with
                | none => s1
                | some a =>
                  setPool s1 a { (s1.pools a) with ops_left := (s1.pools a).ops_per_tick })
              s).pools a).ops_per_tick }).pools a =
            { (s.pools a) with ops_left := (s.pools a).ops_per_tick } := by
          rw [setPool_pools_same]
          rcases (ihp a).1 with h | h <;> rw [h]
        exact ⟨Or.inr hnew, fun _ => hnew⟩
      · rw [setPool_pools_other _ _ _ _ ha]
        refine ⟨(ihp a).1, ?_⟩
        rintro ⟨i, hi, hia⟩
        have hin : i ≠ n := by
          intro h; rw [h, hreg] at hia
          exact ha (Option.some.inj hia).symm
        exact (ihp a).2 ⟨i, by omega, hia⟩

theorem smart_mempool_tick_registry (s : Mempools) : ∀ n,
    ((List.range n).foldl
      (fun s1 i =>
        match s.pool_registry i with
        | none => s1
        | some a =>
          setPool s1 a { (s1.pools a) with ops_left := (s1.pools a).ops_per_tick })
      s).pool_registry = s.pool_registry ∧
    ((List.range n).foldl
      (fun s1 i =>
        match s.pool_registry i with
        | none => s1
        | some a =>
          setPool s1 a { (s1.pools a) with ops_left := (s1.pools a).ops_per_tick })
      s).pool_registry_count = s.pool_registry_count := by
  intro n
  induction n with
  | zero => exact ⟨rfl, rfl⟩
  | succ n ih =>
    rw [List.range_succ, List.foldl_append]
    simp only [List.foldl_cons, List.foldl_nil]
    cases hreg : s.pool_registry n with
    | none => exact ih
    | some a1 => exact ih

theorem smart_mempool_tick_ok (s : Mempools) :
    (smart_mempool_tick s).words = s.words ∧
    (smart_mempool_tick s).pool_registry = s.pool_registry ∧
    (smart_mempool_tick s).pool_registry_count = s.pool_registry_count ∧
    ∀ a,
      ((smart_mempool_tick s).pools a = s.pools a ∨
        (smart_mempool_tick s).pools a =
          { (s.pools a) with ops_left := (s.pools a).ops_per_tick }) ∧
      ((∃ i, i < s.pool_registry_count ∧ s.pool_registry i = some a) →
        (smart_mempool_tick s).pools a =
          { (s.pools a) with ops_left := (s.pools a).ops_per_tick }) :=
  ⟨(smart_mempool_tick_fold s s.pool_registry_count).1,
   (smart_mempool_tick_registry s s.pool_registry_count).1,
   (smart_mempool_tick_registry s s.pool_registry_count).2,
   (smart_mempool_tick_fold s s.pool_registry_count).2⟩

theorem address_valid_geometry (s s2 : Mempools) (a b : Nat)
    (h : (s2.pools a).geometry = (s.pools a).geometry) :
    smart_mempool_address_valid s2 (some a) b = smart_mempool_address_valid s (some a) b := by
  simp only [smart_mempool_t.geometry, Prod.mk.injEq] at h
  obtain ⟨h1, h2, _, h4, _, _⟩ := h
  simp only [smart_mempool_address_valid, h1, h2, h4]

/-- One call on a pool: it returns, it only uses budget when it returns OK,
and without budget it returns Busy, or Invalid for an invalid address. -/
theorem poolCall_step (a : Nat) (ks : Kernel × Mempools) (c : PoolCall)
    (hs : (ks.2.pools a).block_stride ≠ 0) :
    ∃ r, poolCall a ks c = some r ∧
      (r.2.1.pools a).geometry = (ks.2.pools a).geometry ∧
      r.2.1.pool_registry = ks.2.pool_registry ∧
      r.2.1.pool_registry_count = ks.2.pool_registry_count ∧
      ((r.2.2 = SMART_MEMPOOL_OK ∧ (r.2.1.pools a).ops_left + 1 = (ks.2.pools a).ops_left) ∨
        (r.2.2 ≠ SMART_MEMPOOL_OK ∧ r.2.1 = ks.2)) ∧
      ((ks.2.pools a).ops_left = 0 →
        r.2.2 = SMART_MEMPOOL_BUSY ∨
        (r.2.2 = SMART_MEMPOOL_INVALID ∧ ∃ b, c = PoolCall.free b ∧
          smart_mempool_address_valid ks.2 (some a) b = some false)) ∧
      ((ks.2.pools a).ops_left ≠ 0 → r.2.2 ≠ SMART_MEMPOOL_BUSY) := by
  cases c with
  | alloc =>
    refine ⟨_, rfl, ?_⟩
    by_cases h1 : (ks.2.pools a).ops_left = 0
    · rw [smart_mempool_alloc_try_busy _ _ a 0 h1]
      exact ⟨rfl, rfl, rfl, Or.inr ⟨by simp, rfl⟩, fun _ => Or.inl rfl, fun h => absurd h1 h⟩
    · by_cases h2 : (ks.2.pools a).free_list = 0
      · rw [smart_mempool_alloc_try_empty _ _ a 0 h1 h2]
        exact ⟨rfl, rfl, rfl, Or.inr ⟨by simp, rfl⟩, fun h => absurd h h1, fun _ => by simp⟩
      · rw [smart_mempool_alloc_try_take _ _ a 0 h1 h2]
        refine ⟨by simp [smart_mempool_t.geometry], rfl, rfl, Or.inl ⟨rfl, ?_⟩,
          fun h => absurd h h1, fun _ => by simp⟩
        simp only [setPool_pools_same]; omega
  | free b =>
    show ∃ r, smart_mempool_free_try ks.1 ks.2 (some a) b = some r ∧ _
    by_cases h0 : b = 0
    · refine ⟨_, smart_mempool_free_try_null _ _ _ b (Or.inr h0), rfl, rfl, rfl,
        Or.inr ⟨by simp, rfl⟩, fun _ => Or.inr ⟨rfl, b, rfl, ?_⟩, fun _ => by simp⟩
      simp [smart_mempool_address_valid, h0]
    · have hv := smart_mempool_address_valid_eq ks.2 a b hs
      by_cases hc : b ≠ 0 ∧ (ks.2.pools a).buffer ≤ b ∧ b < (ks.2.pools a).buffer_end ∧
          (b - (ks.2.pools a).buffer) % (ks.2.pools a).block_stride = 0
      · rw [decide_eq_true hc] at hv
        by_cases h1 : (ks.2.pools a).ops_left = 0
        · exact ⟨_, smart_mempool_free_try_busy _ _ a b h0 hv h1, rfl, rfl, rfl,
            Or.inr ⟨by simp, rfl⟩, fun _ => Or.inl rfl, fun h => absurd h1 h⟩
        · refine ⟨_, smart_mempool_free_try_give _ _ a b h0 hv h1,
            by simp [smart_mempool_t.geometry], rfl, rfl, Or.inl ⟨rfl, ?_⟩,
            fun h => absurd h h1, fun _ => by simp⟩
          simp only [setPool_pools_same]; omega
      · rw [decide_eq_false hc] at hv
        exact ⟨_, smart_mempool_free_try_invalid _ _ a b h0 hv, rfl, rfl, rfl,
          Or.inr ⟨by simp, rfl⟩, fun _ => Or.inr ⟨rfl, b, rfl, hv⟩, fun _ => by simp⟩

/-- Pacing of a sequence of calls within one tick. -/
theorem poolCalls_pacing (a : Nat) : ∀ (cs : List PoolCall) (ks : Kernel × Mempools),
    (ks.2.pools a).block_stride ≠ 0 →
    ∃ r, poolCalls a cs ks = some r ∧ r.2.2.length = cs.length ∧
      (r.2.1.pools a).geometry = (ks.2.pools a).geometry ∧
      r.2.1.pool_registry = ks.2.pool_registry ∧
      r.2.1.pool_registry_count = ks.2.pool_registry_count ∧
      r.2.2.count SMART_MEMPOOL_OK + (r.2.1.pools a).ops_left = (ks.2.pools a).ops_left ∧
      (∀ j st, (r.2.2.take j).count SMART_MEMPOOL_OK = (ks.2.pools a).ops_left →
        r.2.2[j]? = some st →
        st = SMART_MEMPOOL_BUSY ∨
        (st = SMART_MEMPOOL_INVALID ∧ ∃ b, cs[j]? = some (PoolCall.free b) ∧
          smart_mempool_address_valid ks.2 (some a) b = some false)) ∧
      (∀ j st, (r.2.2.take j).count SMART_MEMPOOL_OK < (ks.2.pools a).ops_left →
        r.2.2[j]? = some st → st ≠ SMART_MEMPOOL_BUSY)
  | [], ks, _ => by
    refine ⟨_, rfl, rfl, rfl, rfl, rfl, by simp, ?_, ?_⟩
    · intro j st _ h
      simp at h
    · intro j st _ h
      simp at h
  | c :: cs, ks, hs => by
    obtain ⟨r1, hr1, hg1, hreg1, hcnt1, hops1, hzero1, hpos1⟩ := poolCall_step a ks c hs
    have hs1 : ((r1.1, r1.2.1).2.pools a).block_stride ≠ 0 := by
      have := hg1
      simp only [smart_mempool_t.geometry, Prod.mk.injEq] at this
      show (r1.2.1.pools a).block_stride ≠ 0
      rw [this.2.2.2.1]; exact hs
    obtain ⟨r2, hr2, hlen2, hg2, hreg2, hcnt2, hops2, hidx2, hlt2⟩ :=
      poolCalls_pacing a cs (r1.1, r1.2.1) hs1
    refine ⟨(r2.1, r2.2.1, r1.2.2 :: r2.2.2), ?_, ?_, ?_, ?_, ?_, ?_, ?_, ?_⟩
    · simp only [poolCalls, hr1, hr2]
    · simp [hlen2]
    · exact hg2.trans hg1
    · exact hreg2.trans hreg1
    · exact hcnt2.trans hcnt1
    · show (r1.2.2 :: r2.2.2).count SMART_MEMPOOL_OK + (r2.2.1.pools a).ops_left = _
      rw [List.count_cons]
      have hops2' : r2.2.2.count SMART_MEMPOOL_OK + (r2.2.1.pools a).ops_left =
          (r1.2.1.pools a).ops_left := hops2
      rcases hops1 with ⟨hok, hdec⟩ | ⟨hne, hsame⟩
      · simp only [hok, beq_self_eq_true, if_true]; omega
      · have : (r1.2.2 == SMART_MEMPOOL_OK) = false := by simpa using hne
        simp only [this]
        rw [hsame] at hops2'
        simpa using hops2'
    · intro j st hcount hget
      cases j with
      | zero =>
        have hst : st = r1.2.2 := by simpa using hget.symm
        have hz : (ks.2.pools a).ops_left = 0 := by simpa using hcount.symm
        subst hst
        rcases hzero1 hz with h | ⟨h, b, hb, hv⟩
        · exact Or.inl h
        · exact Or.inr ⟨h, b, by simp [hb], hv⟩
      | succ j =>
        have hget2 : r2.2.2[j]? = some st := by simpa using hget
        have hcount2 : (r1.2.2 :: r2.2.2.take j).count SMART_MEMPOOL_OK =
            (ks.2.pools a).ops_left := by simpa using hcount
        rw [List.count_cons] at hcount2
        have hvalid : ∀ b, smart_mempool_address_valid r1.2.1 (some a) b =
            smart_mempool_address_valid ks.2 (some a) b :=
          fun b => address_valid_geometry ks.2 r1.2.1 a b hg1
        have key : (r2.2.2.take j).count SMART_MEMPOOL_OK = (r1.2.1.pools a).ops_left := by
          rcases hops1 with ⟨hok, hdec⟩ | ⟨hne, hsame⟩
          · simp only [hok, beq_self_eq_true, if_true] at hcount2; omega
          · have : (r1.2.2 == SMART_MEMPOOL_OK) = false := by simpa using hne
            simp only [this] at hcount2
            rw [hsame]
            simpa using hcount2
        rcases hidx2 j st key hget2 with h | ⟨h, b, hb, hv⟩
        · exact Or.inl h
        · refine Or.inr ⟨h, b, by simpa using hb, ?_⟩
          rw [← hvalid b]; exact hv
    · intro j st hcount hget
      cases j with
      | zero =>
        have hst : st = r1.2.2 := by simpa using hget.symm
        have hz : (ks.2.pools a).ops_left ≠ 0 := by
          have : 0 < (ks.2.pools a).ops_left := by simpa using hcount
          omega
        subst hst
        exact hpos1 hz
      | succ j =>
        have hget2 : r2.2.2[j]? = some st := by simpa using hget
        have hcount2 : (r1.2.2 :: r2.2.2.take j).count SMART_MEMPOOL_OK <
            (ks.2.pools a).ops_left := by simpa using hcount
        rw [List.count_cons] at hcount2
        have key : (r2.2.2.take j).count SMART_MEMPOOL_OK < (r1.2.1.pools a).ops_left := by
          rcases hops1 with ⟨hok, hdec⟩ | ⟨hne, hsame⟩
          · simp only [hok, beq_self_eq_true, if_true] at hcount2; omega
          · have : (r1.2.2 == SMART_MEMPOOL_OK) = false := by simpa using hne
            simp only [this] at hcount2
            rw [hsame]
            simpa using hcount2
        exact hlt2 j st key hget2

theorem PoolInv_block (a buffer stride count : Nat) (c : PoolClient)
    (hinv : PoolInv a buffer stride count c) (b : Nat) (hb : b ∈ c.outstanding) :
    ∃ j, j < count ∧ b = buffer + j * stride := by
  obtain ⟨_, _, _, _, _, l, _, _, hperm⟩ := hinv
  exact (mem_poolBlocks buffer stride count b).mp
    (hperm.subset (List.mem_append_right l hb))

theorem PoolInv_valid (a buffer stride count : Nat) (hs : 0 < stride) (hbuf : buffer ≠ 0)
    (c : PoolClient) (hinv : PoolInv a buffer stride count c) (b : Nat)
    (hb : b ∈ c.outstanding) :
    smart_mempool_address_valid c.s (some a) b = some true := by
  obtain ⟨j, hj, hbj⟩ := PoolInv_block a buffer stride count c hinv b hb
  obtain ⟨h1, h2, h3, _⟩ := hinv
  rw [smart_mempool_address_valid_eq c.s a b (by rw [h3]; omega), h1, h2, h3]
  congr 1
  rw [decide_eq_true_iff]
  have hmul : j * stride + stride ≤ stride * count := by
    have := Nat.mul_le_mul_left stride (Nat.succ_le_of_lt hj)
    rw [Nat.mul_succ, Nat.mul_comm stride j] at this
    exact this
  refine ⟨by omega, by omega, by omega, ?_⟩
  rw [hbj, Nat.add_sub_cancel_left]
  exact Nat.mul_mod_left _ _

/-- Every client step returns and keeps the pool well formed. -/
theorem poolStep_inv (a buffer stride count : Nat) (hs : 0 < stride) (hbuf : buffer ≠ 0)
    (hcnt : count ≤ 65535) (c : PoolClient) (hinv : PoolInv a buffer stride count c)
    (op : PoolOp) :
    ∃ c1, poolStep a c op = some c1 ∧ PoolInv a buffer stride count c1 := by
  have hinv0 := hinv
  obtain ⟨h1, h2, h3, h4, h5, l, hl, hlen, hperm⟩ := hinv
  have htotal : l.length + c.outstanding.length = count := by
    have := hperm.length_eq
    rw [List.length_append, poolBlocks_length] at this
    exact this
  cases op with
  | alloc =>
    refine ⟨_, rfl, ?_⟩
    by_cases ho : (c.s.pools a).ops_left = 0
    · simp only [smart_mempool_alloc_try_busy _ _ a 0 ho]
      exact hinv0
    · by_cases hf : (c.s.pools a).free_list = 0
      · simp only [smart_mempool_alloc_try_empty _ _ a 0 ho hf]
        exact hinv0
      · simp only [smart_mempool_alloc_try_take _ _ a 0 ho hf]
        obtain ⟨l1, hl1, hchain⟩ := isFreeList_ne_nil _ _ _ hf hl
        have hlen1 : l1.length + 1 = (c.s.pools a).free_count := by
          rw [← hlen, hl1]; rfl
        have hw : wrap16 ((c.s.pools a).free_count + 65535) = l1.length := by
          rw [wrap16_pred _ (by omega) (by omega)]; omega
        refine ⟨by simpa using h1, by simpa using h2, by simpa using h3, by simpa using h4,
          ?_, l1, ?_, ?_, ?_⟩
        · simp only [setPool_pools_same, if_true, Option.getD_some]
          split_ifs with hlt
          · exact le_refl _
          · exact not_lt.mp hlt
        · simpa using hchain
        · simp only [setPool_pools_same, if_true]; exact hw.symm
        · simp only [if_true, Option.getD_some]
          rw [hl1] at hperm
          exact (List.perm_middle).trans hperm
  | free i =>
    cases hget : c.outstanding[i]? with
    | none =>
      exact ⟨c, by simp [poolStep, hget], hinv0⟩
    | some b =>
      have hmem : b ∈ c.outstanding := List.getElem?_mem hget
      have hv := PoolInv_valid a buffer stride count hs hbuf c hinv0 b hmem
      have hb0 : b ≠ 0 := valid_ne_zero _ _ _ hv
      have hnodup : (l ++ c.outstanding).Nodup :=
        hperm.nodup_iff.mpr (poolBlocks_nodup buffer stride count hs)
      have hbl : b ∉ l := fun hbl => List.disjoint_of_nodup_append hnodup hbl hmem
      by_cases ho : (c.s.pools a).ops_left = 0
      · refine ⟨⟨smart_exit_critical (smart_enter_critical c.k), c.s, c.outstanding⟩, ?_, hinv0⟩
        simp [poolStep, hget, smart_mempool_free_try_busy _ _ a b hb0 hv ho]
      · refine ⟨⟨smart_exit_critical (smart_enter_critical c.k),
          setPool (setWord c.s b (c.s.pools a).free_list) a
            { (c.s.pools a) with
              free_list := b,
              free_count := wrap16 ((c.s.pools a).free_count + 1),
              ops_left := (c.s.pools a).ops_left - 1 }, c.outstanding.erase b⟩, ?_, ?_⟩
        · simp [poolStep, hget, smart_mempool_free_try_give _ _ a b hb0 hv ho]
        · have hout : 0 < c.outstanding.length := List.length_pos_of_mem hmem
          have hw : wrap16 ((c.s.pools a).free_count + 1) = (c.s.pools a).free_count + 1 :=
            wrap16_succ _ (by omega)
          refine ⟨by simpa using h1, by simpa using h2, by simpa using h3, by simpa using h4,
            ?_, b :: l, ?_, ?_, ?_⟩
          · simp only [setPool_pools_same]; rw [hw]; omega
          · refine ⟨by simp, hb0, ?_⟩
            simp only [setPool_pools_same, setPool_words, setWord_words, updAt_same]
            exact isFreeList_congr _ _ l _
              (fun x hx => updAt_other _ _ _ _ (fun h => hbl (h ▸ hx))) hl
          · simp only [setPool_pools_same]; rw [hw, ← hlen]; rfl
          · show List.Perm (b :: l ++ c.outstanding.erase b) _
            refine List.Perm.trans ?_ hperm
            have h1 : List.Perm (b :: c.outstanding.erase b) c.outstanding :=
              (List.perm_cons_erase hmem).symm
            exact (List.perm_middle.symm).trans (List.Perm.append_left l h1)
  | tick =>
    refine ⟨_, rfl, ?_⟩
    obtain ⟨hw, _, _, hp⟩ := smart_mempool_tick_ok c.s
    rcases (hp a).1 with h | h
    · refine ⟨by rw [h]; exact h1, by rw [h]; exact h2, by rw [h]; exact h3,
        by rw [h]; exact h4, by rw [h]; exact h5, l, ?_, by rw [h]; exact hlen, hperm⟩
      show isFreeList (smart_mempool_tick c.s).words ((smart_mempool_tick c.s).pools a).free_list l
      rw [hw, h]; exact hl
    · refine ⟨by rw [h]; exact h1, by rw [h]; exact h2, by rw [h]; exact h3,
        by rw [h]; exact h4, by rw [h]; exact h5, l, ?_, by rw [h]; exact hlen, hperm⟩
      show isFreeList (smart_mempool_tick c.s).words ((smart_mempool_tick c.s).pools a).free_list l
      rw [hw, h]; exact hl

theorem poolRun_inv (a buffer stride count : Nat) (hs : 0 < stride) (hbuf : buffer ≠ 0)
    (hcnt : count ≤ 65535) : ∀ (ops : List PoolOp) (c : PoolClient),
    PoolInv a buffer stride count c →
    ∃ c1, poolRun a ops c = some c1 ∧ PoolInv a buffer stride count c1
  | [], c, h => ⟨c, rfl, h⟩
  | op :: ops, c, h => by
    obtain ⟨c1, hc1, hinv1⟩ := poolStep_inv a buffer stride count hs hbuf hcnt c h op
    obtain ⟨c2, hc2, hinv2⟩ := poolRun_inv a buffer stride count hs hbuf hcnt ops c1 hinv1
    exact ⟨c2, by simp only [poolRun, hc1, hc2], hinv2⟩

theorem poolStart_inv (k : Kernel) (s : Mempools) (a buffer block_size block_count
    ops_per_tick : Nat) (hbuf : buffer ≠ 0) (hsz : 0 < block_size)
    (hsz2 : block_size ≤ 4294967292) (hc : 0 < block_count) (hc2 : block_count ≤ 65535)
    (hfit : buffer + align_up block_size 4 * block_count < 4294967296) :
    PoolInv a buffer (align_up block_size 4) block_count
      (poolStart k s a buffer block_size block_count ops_per_tick) := by
  have hstr : 0 < align_up block_size 4 := by
    have := (align_up_four_ge block_size hsz hsz2).2.2.2; omega
  have hfl := smart_mempool_init_free_list k s a buffer block_size block_count ops_per_tick
    hbuf (by omega) (by omega) hstr hfit
  obtain ⟨hp, _⟩ := smart_mempool_init_eq k s a buffer block_size block_count ops_per_tick
    hbuf (by omega) (by omega)
  have hw16 : wrap16 block_count = block_count := Nat.mod_eq_of_lt (by omega)
  have hend : wrap32 (buffer + wrap32 (align_up block_size 4 * block_count)) =
      buffer + align_up block_size 4 * block_count := by
    have hm1 : align_up block_size 4 * block_count % 4294967296 =
        align_up block_size 4 * block_count := Nat.mod_eq_of_lt (by omega)
    unfold wrap32
    rw [hm1, Nat.mod_eq_of_lt hfit]
  unfold PoolInv
  show (_ : Prop) ∧ _
  simp only [poolStart]
  rw [hp] at hfl ⊢
  simp only [hw16, hend]
  refine ⟨trivial, trivial, trivial, trivial, le_refl _, _, hfl, poolBlocks_length _ _ _ _, ?_⟩
  simp

/-- Pacing of the pool of scenario 4 (8 blocks, 2 operations per tick). -/
theorem poolCalls_pacing_init (k : Kernel) (s : Mempools) (a buffer block_size : Nat)
    (hbuf : buffer ≠ 0) (hsz : 0 < block_size) (hsz2 : block_size ≤ 4294967292)
    (hreg : s.pool_registry_count < 4) (cs : List PoolCall) :
    ∃ r, poolCalls a cs (smart_mempool_init k s (some a) buffer block_size 8 2) = some r ∧
      r.2.2.length = cs.length ∧
      r.2.2.count SMART_MEMPOOL_OK ≤ 2 ∧
      (∀ j st, (r.2.2.take j).count SMART_MEMPOOL_OK = 2 → r.2.2[j]? = some st →
        st = SMART_MEMPOOL_BUSY ∨
        (st = SMART_MEMPOOL_INVALID ∧ ∃ b, cs[j]? = some (PoolCall.free b) ∧
          smart_mempool_address_valid (smart_mempool_init k s (some a) buffer block_size 8 2).2
            (some a) b = some false)) ∧
      (∀ j st, (r.2.2.take j).count SMART_MEMPOOL_OK < 2 → r.2.2[j]? = some st →
        st ≠ SMART_MEMPOOL_BUSY) ∧
      ((smart_mempool_tick r.2.1).pools a).ops_left = 2 ∧
      (∀ k2 o, (smart_mempool_alloc_try k2 (smart_mempool_tick r.2.1) (some a)
        (some o)).2.2.2 ≠ SMART_MEMPOOL_BUSY) ∧
      (∀ k2 b r2, smart_mempool_free_try k2 (smart_mempool_tick r.2.1) (some a) b = some r2 →
        r2.2.2 ≠ SMART_MEMPOOL_BUSY) := by
  obtain ⟨hp, _⟩ := smart_mempool_init_eq k s a buffer block_size 8 2 hbuf (by omega)
    (by norm_num)
  have hstr : 4 ≤ align_up block_size 4 := (align_up_four_ge block_size hsz hsz2).2.2.2
  have hops : ((smart_mempool_init k s (some a) buffer block_size 8 2).2.pools a).ops_left = 2 := by
    rw [hp]; simp
  have hopt : ((smart_mempool_init k s (some a) buffer block_size 8 2).2.pools a).ops_per_tick
      = 2 := by
    rw [hp]; simp
  have hs0 : ((smart_mempool_init k s (some a) buffer block_size 8 2).2.pools a).block_stride
      ≠ 0 := by
    rw [hp]; show align_up block_size 4 ≠ 0; omega
  obtain ⟨r, hr, hlen, hg, hreg1, hcnt1, hsum, hidx, hlt⟩ :=
    poolCalls_pacing a cs (smart_mempool_init k s (some a) buffer block_size 8 2) hs0
  obtain ⟨i, hi, hia⟩ := smart_mempool_init_registered k s a buffer block_size 8 2 hbuf
    (by omega) (by norm_num) hreg
  have hgeo := hg
  simp only [smart_mempool_t.geometry, Prod.mk.injEq] at hgeo
  have htick : (smart_mempool_tick r.2.1).pools a =
      { (r.2.1.pools a) with ops_left := (r.2.1.pools a).ops_per_tick } :=
    ((smart_mempool_tick_ok r.2.1).2.2.2 a).2 ⟨i, by rw [hcnt1]; exact hi, by rw [hreg1]; exact hia⟩
  have htick2 : ((smart_mempool_tick r.2.1).pools a).ops_left = 2 := by
    rw [htick]; show (r.2.1.pools a).ops_per_tick = 2
    rw [hgeo.2.2.2.2.2]; exact hopt
  refine ⟨r, hr, hlen, by omega, ?_, ?_, htick2, ?_, ?_⟩
  · intro j st h1 h2
    exact hidx j st (by rw [hops]; exact h1) h2
  · intro j st h1 h2
    exact hlt j st (by rw [hops]; exact h1) h2
  · intro k2 o
    have := (smart_mempool_alloc_try_ok k2 (smart_mempool_tick r.2.1) (some a) (some o) _ rfl).2.1
      a o rfl rfl
    intro hb
    have := this.1.mp hb
    omega
  · intro k2 b r2 h2
    have hs2 : ((smart_mempool_tick r.2.1).pools a).block_stride ≠ 0 := by
      rw [htick]; show (r.2.1.pools a).block_stride ≠ 0
      rw [hgeo.2.2.2.1]; exact hs0
    obtain ⟨r3, hr3, hinv, hbusy, _⟩ := smart_mempool_free_try_ok k2 (smart_mempool_tick r.2.1) a b hs2
    rw [hr3] at h2
    cases h2
    intro hb
    have := (hbusy (by rw [hb]; simp)).mp hb
    omega

/-! ## Memory pool theorems -/

/-- C11 (amended): `smart_mempool_alloc_try` returns Invalid iff the pool or the
out pointer is null; otherwise Busy iff `ops_left = 0`; otherwise Empty iff the
free list is empty; otherwise OK, and then the former head of the free list is
stored in `*out_block`, `ops_left` goes down by one, the 16-bit `free_count`
goes down by one modulo `2 ^ 16` (by exactly one when it was above 0) and
`min_free_count` becomes the minimum of its old value and the new `free_count`.
On every other outcome the pools and `*out_block` are unchanged. -/
theorem smart_mempool_alloc_try_outcomes (k : Kernel) (s : Mempools)
    (pool out_block : Option Nat)
    (r : Kernel × Mempools × Option Nat × smart_mempool_status_t)
    (hr : smart_mempool_alloc_try k s pool out_block = r) :
    (r.2.2.2 = SMART_MEMPOOL_INVALID ↔ pool = none ∨ out_block = none) ∧
    (∀ a o, pool = some a → out_block = some o →
      (r.2.2.2 = SMART_MEMPOOL_BUSY ↔ (s.pools a).ops_left = 0) ∧
      ((s.pools a).ops_left ≠ 0 →
        (r.2.2.2 = SMART_MEMPOOL_EMPTY ↔ (s.pools a).free_list = 0)) ∧
      ((s.pools a).ops_left ≠ 0 → (s.pools a).free_list ≠ 0 →
        r.2.2.2 = SMART_MEMPOOL_OK ∧
        r.2.2.1 = some (s.pools a).free_list ∧
        (r.2.1.pools a).free_list = s.words (s.pools a).free_list ∧
        (r.2.1.pools a).free_count = wrap16 ((s.pools a).free_count + 65535) ∧
        (0 < (s.pools a).free_count → (s.pools a).free_count < 65536 →
          (r.2.1.pools a).free_count + 1 = (s.pools a).free_count) ∧
        (r.2.1.pools a).ops_left + 1 = (s.pools a).ops_left ∧
        (r.2.1.pools a).min_free_count =
          min (s.pools a).min_free_count (r.2.1.pools a).free_count ∧
        (r.2.1.pools a).buffer = (s.pools a).buffer ∧
        (r.2.1.pools a).buffer_end = (s.pools a).buffer_end ∧
        (r.2.1.pools a).block_size = (s.pools a).block_size ∧
        (r.2.1.pools a).block_stride = (s.pools a).block_stride ∧
        (r.2.1.pools a).block_count = (s.pools a).block_count ∧
        (r.2.1.pools a).ops_per_tick = (s.pools a).ops_per_tick ∧
        r.2.1.words = s.words ∧
        (∀ x, x ≠ a → r.2.1.pools x = s.pools x))) ∧
    (r.2.2.2 ≠ SMART_MEMPOOL_OK → r.2.1 = s ∧ r.2.2.1 = out_block) :=
  smart_mempool_alloc_try_ok k s pool out_block r hr

theorem smart_mempool_alloc_try_outcomes_witness :
    (telemetryPool.2.pools 0).ops_left ≠ 0 ∧ (telemetryPool.2.pools 0).free_list ≠ 0 ∧
    (smart_mempool_alloc_try telemetryPool.1 telemetryPool.2 (some 0) (some 0)).2.2.2 =
      SMART_MEMPOOL_OK ∧
    (smart_mempool_alloc_try telemetryPool.1 telemetryPool.2 (some 0) (some 0)).2.2.1 =
      some 0x20004000 ∧
    ((smart_mempool_alloc_try telemetryPool.1 telemetryPool.2 (some 0) (some 0)).2.1.pools
      0).free_count + 1 = 8 := by
  obtain ⟨-, h, -⟩ := smart_mempool_alloc_try_outcomes telemetryPool.1 telemetryPool.2
    (some 0) (some 0) _ rfl
  obtain ⟨h1, h2, -, -, h3, -⟩ := (h 0 0 rfl rfl).2.2 (by decide) (by decide)
  exact ⟨by decide, by decide, h1, h2.trans (by decide),
    (h3 (by decide) (by decide)).trans (by decide)⟩

/-- C13 fails as stated: in the pool of scenario 4 a `smart_mempool_free_try` with
a misaligned address returns Invalid and uses no budget, so the third call of a
tick can return OK, and a call after two OK calls can return Invalid instead of
Busy.  Moreover a fifth pool is not registered: after two allocations and a
`smart_mempool_tick` its next allocation still returns Busy. -/
theorem mempool_third_call_not_busy :
    (poolCalls 0 [PoolCall.free 0x20004001, PoolCall.alloc, PoolCall.alloc]
      telemetryPool).map (fun r => r.2.2) =
      some [SMART_MEMPOOL_INVALID, SMART_MEMPOOL_OK, SMART_MEMPOOL_OK] ∧
    (poolCalls 0 [PoolCall.alloc, PoolCall.alloc, PoolCall.free 0x20004001]
      telemetryPool).map (fun r => r.2.2) =
      some [SMART_MEMPOOL_OK, SMART_MEMPOOL_OK, SMART_MEMPOOL_INVALID] ∧
    (poolCalls 4 [PoolCall.alloc, PoolCall.alloc] fivePools).map
      (fun r => (r.2.2,
        (smart_mempool_alloc_try r.1 (smart_mempool_tick r.2.1) (some 4) (some 0)).2.2.2)) =
      some ([SMART_MEMPOOL_OK, SMART_MEMPOOL_OK], SMART_MEMPOOL_BUSY) := by
  decide

/-- C13 (amended): for a pool initialised with `block_count = 8` and
`ops_per_tick = 2` while the registry has room, every sequence of `smart_mempool_alloc_try` and
`smart_mempool_free_try` calls within one tick returns; at most two calls return
OK; a call made after two calls have returned OK returns Busy, or Invalid when it
is a `smart_mempool_free_try` with an invalid block address; no call returns
Busy before two calls have returned OK; and after the next `smart_mempool_tick`
the budget is 2 again, so that no call returns Busy. -/
theorem mempool_pacing_after_two_ok (k : Kernel) (s : Mempools) (a buffer block_size : Nat)
    (hbuf : buffer ≠ 0) (hsz : 0 < block_size) (hsz2 : block_size ≤ 4294967292)
    (hreg : s.pool_registry_count < 4) (cs : List PoolCall) :
    ∃ r, poolCalls a cs (smart_mempool_init k s (some a) buffer block_size 8 2) = some r ∧
      r.2.2.length = cs.length ∧
      r.2.2.count SMART_MEMPOOL_OK ≤ 2 ∧
      (∀ j st, (r.2.2.take j).count SMART_MEMPOOL_OK = 2 → r.2.2[j]? = some st →
        st = SMART_MEMPOOL_BUSY ∨
        (st = SMART_MEMPOOL_INVALID ∧ ∃ b, cs[j]? = some (PoolCall.free b) ∧
          smart_mempool_address_valid (smart_mempool_init k s (some a) buffer block_size 8 2).2
            (some a) b = some false)) ∧
      (∀ j st, (r.2.2.take j).count SMART_MEMPOOL_OK < 2 → r.2.2[j]? = some st →
        st ≠ SMART_MEMPOOL_BUSY) ∧
      ((smart_mempool_tick r.2.1).pools a).ops_left = 2 ∧
      (∀ k2 o, (smart_mempool_alloc_try k2 (smart_mempool_tick r.2.1) (some a)
        (some o)).2.2.2 ≠ SMART_MEMPOOL_BUSY) ∧
      (∀ k2 b r2, smart_mempool_free_try k2 (smart_mempool_tick r.2.1) (some a) b = some r2 →
        r2.2.2 ≠ SMART_MEMPOOL_BUSY) :=
  poolCalls_pacing_init k s a buffer block_size hbuf hsz hsz2 hreg cs

theorem mempool_pacing_after_two_ok_witness :
    zeroMempools.pool_registry_count < 4 ∧
    ∃ r, poolCalls 0 [PoolCall.alloc, PoolCall.free 0x20004000, PoolCall.alloc,
        PoolCall.free 0x20004040] telemetryPool = some r ∧
      r.2.2.count SMART_MEMPOOL_OK ≤ 2 ∧
      ((smart_mempool_tick r.2.1).pools 0).ops_left = 2 := by
  obtain ⟨r, h1, -, h2, -, -, h3, -⟩ :=
    mempool_pacing_after_two_ok bootKernel zeroMempools 0 0x20004000 64 (by decide)
      (by decide) (by decide) (by decide)
      [PoolCall.alloc, PoolCall.free 0x20004000, PoolCall.alloc, PoolCall.free 0x20004040]
  exact ⟨by decide, r, h1, h2, h3⟩

/-- C14 fails as stated: `smart_mempool_init` with `block_count = 65536` threads
65536 blocks on the free list and stores the count in 16 bits, so `free_count`
is 0 while the free list has 65536 blocks. -/
theorem mempool_free_count_truncated :
    ((poolStart bootKernel zeroMempools 0 0x20004000 4 65536 2).s.pools 0).free_count = 0 ∧
    isFreeList (poolStart bootKernel zeroMempools 0 0x20004000 4 65536 2).s.words
      ((poolStart bootKernel zeroMempools 0 0x20004000 4 65536 2).s.pools 0).free_list
      (poolBlocks 0x20004000 4 0 65536) ∧
    (poolBlocks 0x20004000 4 0 65536).length = 65536 ∧
    ¬ ∃ l, isFreeList (poolStart bootKernel zeroMempools 0 0x20004000 4 65536 2).s.words
        ((poolStart bootKernel zeroMempools 0 0x20004000 4 65536 2).s.pools 0).free_list l ∧
      l.length =
        ((poolStart bootKernel zeroMempools 0 0x20004000 4 65536 2).s.pools 0).free_count := by
  have hal : align_up 4 4 = 4 := by decide
  have hfl := smart_mempool_init_free_list bootKernel zeroMempools 0 0x20004000 4 65536 2
    (by decide) (by decide) (by decide) (by decide) (by decide)
  rw [hal] at hfl
  have hfc : ((poolStart bootKernel zeroMempools 0 0x20004000 4 65536 2).s.pools 0).free_count
      = 0 := by
    show ((smart_mempool_init bootKernel zeroMempools (some 0) 0x20004000 4 65536 2).2.pools
      0).free_count = 0
    rw [(smart_mempool_init_eq bootKernel zeroMempools 0 0x20004000 4 65536 2 (by decide)
      (by decide) (by decide)).1]
    decide
  refine ⟨hfc, hfl, poolBlocks_length _ _ _ _, ?_⟩
  rintro ⟨l, hl, hlen⟩
  have := isFreeList_unique _ _ _ _ hl hfl
  rw [this, poolBlocks_length, hfc] at hlen
  exact absurd hlen (by decide)

/-- C14 (amended): for a pool initialised with `1 ≤ block_count ≤ 65535` on a
buffer that fits the 32-bit address space, in every state reached by
`smart_mempool_alloc_try`, by `smart_mempool_free_try` of blocks that are
outstanding and by `smart_mempool_tick`: `free_count` is the length of the free
list, `free_count` plus the number of outstanding blocks is `block_count`, and
`min_free_count ≤ free_count`. -/
theorem mempool_counters_invariant (k : Kernel) (s : Mempools) (a buffer block_size
    block_count ops_per_tick : Nat) (hbuf : buffer ≠ 0) (hsz : 0 < block_size)
    (hsz2 : block_size ≤ 4294967292) (hc : 0 < block_count) (hc2 : block_count ≤ 65535)
    (hfit : buffer + align_up block_size 4 * block_count < 4294967296)
    (ops : List PoolOp) :
    ∃ c, poolRun a ops (poolStart k s a buffer block_size block_count ops_per_tick) = some c ∧
      (∃ l, isFreeList c.s.words (c.s.pools a).free_list l ∧
        l.length = (c.s.pools a).free_count) ∧
      (c.s.pools a).free_count + c.outstanding.length = (c.s.pools a).block_count ∧
      (c.s.pools a).min_free_count ≤ (c.s.pools a).free_count := by
  have hstr : 0 < align_up block_size 4 := by
    have := (align_up_four_ge block_size hsz hsz2).2.2.2; omega
  obtain ⟨c, hc, hinv⟩ := poolRun_inv a buffer (align_up block_size 4) block_count hstr hbuf hc2
    ops _ (poolStart_inv k s a buffer block_size block_count ops_per_tick hbuf hsz hsz2 hc hc2
      hfit)
  obtain ⟨_, _, _, h4, h5, l, hl, hlen, hperm⟩ := hinv
  refine ⟨c, hc, ⟨l, hl, hlen⟩, ?_, h5⟩
  have := hperm.length_eq
  rw [List.length_append, poolBlocks_length] at this
  rw [h4, ← hlen]; exact this

theorem mempool_counters_invariant_witness :
    0x20004000 + align_up 64 4 * 8 < 4294967296 ∧
    ∃ c, poolRun 0 [PoolOp.alloc, PoolOp.alloc, PoolOp.free 1, PoolOp.tick, PoolOp.alloc]
        (poolStart bootKernel zeroMempools 0 0x20004000 64 8 2) = some c ∧
      (c.s.pools 0).free_count + c.outstanding.length = (c.s.pools 0).block_count ∧
      (c.s.pools 0).min_free_count ≤ (c.s.pools 0).free_count := by
  obtain ⟨c, h1, -, h2, h3⟩ :=
    mempool_counters_invariant bootKernel zeroMempools 0 0x20004000 64 8 2 (by decide)
      (by decide) (by decide) (by decide) (by decide) (by decide)
      [PoolOp.alloc, PoolOp.alloc, PoolOp.free 1, PoolOp.tick, PoolOp.alloc]
  exact ⟨by decide, c, h1, h2, h3⟩

/-- C15: on a pool with a non-empty free list whose head is a block of the
pool, and with `ops_left ≥ 2`, `smart_mempool_alloc_try` followed by
`smart_mempool_free_try` of the block obtained both return OK; afterwards the
block memory, the head of the free list (hence the whole free list) and
`free_count` are what they were, `ops_left` is lower by 2, `min_free_count` may
be lower, and nothing else has changed. -/
theorem alloc_then_free_restores_pool (k : Kernel) (s : Mempools) (a o : Nat)
    (hf : (s.pools a).free_list ≠ 0) (hops : 2 ≤ (s.pools a).ops_left)
    (hfc : (s.pools a).free_count < 65536)
    (hv : smart_mempool_address_valid s (some a) (s.pools a).free_list = some true) :
    (smart_mempool_alloc_try k s (some a) (some o)).2.2.2 = SMART_MEMPOOL_OK ∧
    (smart_mempool_alloc_try k s (some a) (some o)).2.2.1 = some (s.pools a).free_list ∧
    ∃ k2 s2,
      smart_mempool_free_try (smart_mempool_alloc_try k s (some a) (some o)).1
        (smart_mempool_alloc_try k s (some a) (some o)).2.1 (some a) (s.pools a).free_list =
        some (k2, s2, SMART_MEMPOOL_OK) ∧
      s2.words = s.words ∧
      (s2.pools a).free_list = (s.pools a).free_list ∧
      (∀ l, isFreeList s.words (s.pools a).free_list l →
        isFreeList s2.words (s2.pools a).free_list l) ∧
      (s2.pools a).free_count = (s.pools a).free_count ∧
      (s2.pools a).ops_left + 2 = (s.pools a).ops_left ∧
      (s2.pools a).min_free_count ≤ (s.pools a).min_free_count ∧
      s2.pools a =
        { (s.pools a) with
          ops_left := (s2.pools a).ops_left, min_free_count := (s2.pools a).min_free_count } ∧
      (∀ x, x ≠ a → s2.pools x = s.pools x) ∧
      s2.pool_registry = s.pool_registry ∧
      s2.pool_registry_count = s.pool_registry_count := by
  obtain ⟨h1, h2, k2, s2, h3, h4, h5, h6⟩ := alloc_free_roundtrip_ok k s a o hf hops hfc hv
  refine ⟨h1, h2, k2, s2, h3, h4, h5, ?_, h6⟩
  intro l hl
  rw [h4, h5]; exact hl

theorem alloc_then_free_restores_pool_witness :
    (telemetryPool.2.pools 0).free_list ≠ 0 ∧ 2 ≤ (telemetryPool.2.pools 0).ops_left ∧
    smart_mempool_address_valid telemetryPool.2 (some 0) (telemetryPool.2.pools 0).free_list =
      some true ∧
    ∃ k2 s2,
      smart_mempool_free_try (smart_mempool_alloc_try bootKernel telemetryPool.2 (some 0)
          (some 0)).1
        (smart_mempool_alloc_try bootKernel telemetryPool.2 (some 0) (some 0)).2.1 (some 0)
        (telemetryPool.2.pools 0).free_list = some (k2, s2, SMART_MEMPOOL_OK) ∧
      s2.words = telemetryPool.2.words ∧
      (s2.pools 0).free_count = (telemetryPool.2.pools 0).free_count ∧
      (s2.pools 0).ops_left + 2 = (telemetryPool.2.pools 0).ops_left := by
  obtain ⟨-, -, k2, s2, h1, h2, -, -, h3, h4, -⟩ :=
    alloc_then_free_restores_pool bootKernel telemetryPool.2 0 0 (by decide) (by decide)
      (by decide) (by decide)
  exact ⟨by decide, by decide, by decide, k2, s2, h1, h2, h3, h4⟩

/-! ## Message queue lemmas -/

theorem smart_msgqueue_init_eq (k : Kernel) (q0 : smart_msgqueue_t)
    (slots : Nat → smart_msg_t) (buffer capacity : Nat) (hb : buffer ≠ 0)
    (hc : capacity ≠ 0) :
    (msgqStart k q0 slots buffer capacity).queue =
      { buffer := buffer, capacity := capacity, count := 0, head := 0, tail := 0,
        dropped := 0 } := by
  simp [msgqStart, smart_msgqueue_init, hb, hc]

theorem msgqStart_inv (k : Kernel) (q0 : smart_msgqueue_t) (slots : Nat → smart_msg_t)
    (buffer capacity : Nat) (hb : buffer ≠ 0) (hc : 1 ≤ capacity)
    (hc2 : capacity < 4294967296) :
    QueueInv (msgqStart k q0 slots buffer capacity).queue ∧
    queueContents (msgqStart k q0 slots buffer capacity).queue
      (msgqStart k q0 slots buffer capacity).slots = [] := by
  rw [smart_msgqueue_init_eq k q0 slots buffer capacity hb (by omega)]
  refine ⟨⟨hc, hc2, Nat.zero_le _, by show 0 < capacity; omega, by show 0 < capacity; omega,
    ?_⟩, rfl⟩
  show (0 + 0) % capacity = 0
  simp

theorem smart_msgqueue_send_full (k : Kernel) (q : smart_msgqueue_t)
    (slots : Nat → smart_msg_t) (m : smart_msg_t) (h : q.capacity ≤ q.count) :
    smart_msgqueue_send k (some q) slots (some m) =
      (smart_exit_critical (smart_enter_critical k),
       some { q with dropped := wrap32 (q.dropped + 1) }, slots, SMART_MSGQ_FULL) := by
  simp [smart_msgqueue_send, h]

theorem smart_msgqueue_send_put (k : Kernel) (q : smart_msgqueue_t)
    (slots : Nat → smart_msg_t) (m : smart_msg_t) (h : q.count < q.capacity) :
    smart_msgqueue_send k (some q) slots (some m) =
      (smart_exit_critical (smart_enter_critical k),
       some { q with tail := wrap32 (q.tail + 1) % q.capacity, count := wrap32 (q.count + 1) },
       updAt slots q.tail m, SMART_MSGQ_OK) := by
  simp [smart_msgqueue_send, Nat.not_le.mpr h]

theorem smart_msgqueue_receive_empty (k : Kernel) (q : smart_msgqueue_t)
    (slots : Nat → smart_msg_t) (m : smart_msg_t) (h : q.count = 0) :
    smart_msgqueue_receive k (some q) slots (some m) =
      some (smart_exit_critical (smart_enter_critical k), some q, some m, SMART_MSGQ_EMPTY) := by
  simp [smart_msgqueue_receive, h]

theorem smart_msgqueue_receive_take (k : Kernel) (q : smart_msgqueue_t)
    (slots : Nat → smart_msg_t) (m : smart_msg_t) (h : q.count ≠ 0) (hc : q.capacity ≠ 0) :
    smart_msgqueue_receive k (some q) slots (some m) =
      some (smart_exit_critical (smart_enter_critical k),
        some { q with head := wrap32 (q.head + 1) % q.capacity, count := q.count - 1 },
        some (slots q.head), SMART_MSGQ_OK) := by
  simp [smart_msgqueue_receive, h, hc]

theorem ring_index_ne (cap head i j : Nat) (hi : i < j) (hj : j < cap) :
    (head + i) % cap ≠ (head + j) % cap := by
  intro h
  have h1 : Nat.ModEq cap (head + i) (head + j) := h
  have h2 : Nat.ModEq cap i j := Nat.ModEq.add_left_cancel' head h1
  have h3 : i % cap = j % cap := h2
  rw [Nat.mod_eq_of_lt (by omega), Nat.mod_eq_of_lt hj] at h3
  omega

/-- A successful send appends the record to the queue contents. -/
theorem send_put_contents (q : smart_msgqueue_t) (slots : Nat → smart_msg_t)
    (m : smart_msg_t) (hinv : QueueInv q) (h : q.count < q.capacity) :
    QueueInv { q with tail := wrap32 (q.tail + 1) % q.capacity, count := wrap32 (q.count + 1) } ∧
    queueContents
      { q with tail := wrap32 (q.tail + 1) % q.capacity, count := wrap32 (q.count + 1) }
      (updAt slots q.tail m) = queueContents q slots ++ [m] := by
  obtain ⟨h1, h2, h3, h4, h5, h6⟩ := hinv
  have hw1 : wrap32 (q.tail + 1) = q.tail + 1 := Nat.mod_eq_of_lt (by omega)
  have hw2 : wrap32 (q.count + 1) = q.count + 1 := Nat.mod_eq_of_lt (by omega)
  rw [hw1, hw2]
  constructor
  · refine ⟨h1, h2, by show q.count + 1 ≤ q.capacity; omega, h4,
      Nat.mod_lt _ (by omega), ?_⟩
    show (q.head + (q.count + 1)) % q.capacity = (q.tail + 1) % q.capacity
    rw [← h6, Nat.mod_add_mod, Nat.add_assoc]
  · unfold queueContents
    show List.map (fun i => updAt slots q.tail m ((q.head + i) % q.capacity))
      (List.range (q.count + 1)) = _
    rw [List.range_succ, List.map_append]
    congr 1
    · apply List.map_congr_left
      intro i hi
      rw [List.mem_range] at hi
      apply updAt_other
      rw [← h6]
      exact ring_index_ne _ _ _ _ hi h
    · simp only [List.map_cons, List.map_nil]
      rw [h6, updAt_same]

/-- A successful receive returns the oldest record and removes it from the
queue contents. -/
theorem receive_take_contents (q : smart_msgqueue_t) (slots : Nat → smart_msg_t)
    (hinv : QueueInv q) (h : q.count ≠ 0) :
    QueueInv { q with head := wrap32 (q.head + 1) % q.capacity, count := q.count - 1 } ∧
    queueContents q slots = slots q.head ::
      queueContents { q with head := wrap32 (q.head + 1) % q.capacity, count := q.count - 1 }
        slots := by
  obtain ⟨h1, h2, h3, h4, h5, h6⟩ := hinv
  have hw1 : wrap32 (q.head + 1) = q.head + 1 := Nat.mod_eq_of_lt (by omega)
  rw [hw1]
  constructor
  · refine ⟨h1, h2, by show q.count - 1 ≤ q.capacity; omega, Nat.mod_lt _ (by omega), h5, ?_⟩
    show ((q.head + 1) % q.capacity + (q.count - 1)) % q.capacity = q.tail
    rw [Nat.mod_add_mod, ← h6]
    congr 1
    omega
  · unfold queueContents
    show _ = slots q.head :: List.map (fun i => slots (((q.head + 1) % q.capacity + i) %
      q.capacity)) (List.range (q.count - 1))
    obtain ⟨n, hn⟩ : ∃ n, q.count = n + 1 := ⟨q.count - 1, by omega⟩
    rw [hn, List.range_succ_eq_map]
    simp only [List.map_cons, List.map_map, Nat.add_zero, Nat.add_sub_cancel]
    congr 1
    · rw [Nat.mod_eq_of_lt h4]
    · apply List.map_congr_left
      intro i _
      show slots ((q.head + (i + 1)) % q.capacity) = _
      rw [Nat.mod_add_mod]
      congr 2
      omega

theorem queueContents_length (q : smart_msgqueue_t) (slots : Nat → smart_msg_t) :
    (queueContents q slots).length = q.count := by
  simp [queueContents]

/-- One call refines one operation of the bounded FIFO list. -/
theorem msgqStep_refines (c : MsgQ) (hinv : QueueInv c.queue) (op : MsgOp) :
    ∃ r, msgqStep c op = some r ∧ QueueInv r.1.queue ∧
      r.1.queue.capacity = c.queue.capacity ∧
      r.2 = (fifoStep c.queue.capacity (queueContents c.queue c.slots) op).2 ∧
      queueContents r.1.queue r.1.slots =
        (fifoStep c.queue.capacity (queueContents c.queue c.slots) op).1 := by
  cases op with
  | send m =>
    refine ⟨_, rfl, ?_⟩
    by_cases hfull : c.queue.capacity ≤ c.queue.count
    · have hcnt : c.queue.count = c.queue.capacity := le_antisymm hinv.2.2.1 hfull
      have hfs : fifoStep c.queue.capacity (queueContents c.queue c.slots) (MsgOp.send m) =
          (queueContents c.queue c.slots, SMART_MSGQ_FULL, none) := by
        simp [fifoStep, queueContents_length, hcnt]
      rw [hfs]
      rw [smart_msgqueue_send_full _ _ _ _ hfull]
      exact ⟨hinv, rfl, rfl, rfl⟩
    · have hlt : c.queue.count < c.queue.capacity := Nat.not_le.mp hfull
      obtain ⟨hi, hcs⟩ := send_put_contents c.queue c.slots m hinv hlt
      have hfs : fifoStep c.queue.capacity (queueContents c.queue c.slots) (MsgOp.send m) =
          (queueContents c.queue c.slots ++ [m], SMART_MSGQ_OK, none) := by
        simp [fifoStep, queueContents_length, Nat.ne_of_lt hlt]
      rw [hfs]
      rw [smart_msgqueue_send_put _ _ _ _ hlt]
      exact ⟨hi, rfl, rfl, hcs⟩
  | receive =>
    by_cases hz : c.queue.count = 0
    · have hnil : queueContents c.queue c.slots = [] := by
        simp [queueContents, hz]
      refine ⟨(⟨smart_exit_critical (smart_enter_critical c.k), c.queue, c.slots⟩,
        SMART_MSGQ_EMPTY, none), ?_, hinv, rfl, ?_, ?_⟩
      · simp [msgqStep, smart_msgqueue_receive_empty _ _ _ _ hz]
      · rw [hnil]; rfl
      · rw [hnil]; rfl
    · have hcap : c.queue.capacity ≠ 0 := by have := hinv.1; omega
      obtain ⟨hi, hcs⟩ := receive_take_contents c.queue c.slots hinv hz
      refine ⟨(⟨smart_exit_critical (smart_enter_critical c.k),
        { c.queue with head := wrap32 (c.queue.head + 1) % c.queue.capacity,
                       count := c.queue.count - 1 }, c.slots⟩,
        SMART_MSGQ_OK, some (c.slots c.queue.head)), ?_, hi, rfl, ?_, ?_⟩
      · simp [msgqStep, smart_msgqueue_receive_take _ _ _ _ hz hcap]
      · rw [hcs]; rfl
      · rw [hcs]; rfl

/-- Every sequence of calls on a well-formed queue returns and is matched,
observation by observation, by the bounded FIFO list. -/
theorem msgqRun_refines : ∀ (ops : List MsgOp) (c : MsgQ), QueueInv c.queue →
    ∃ r, msgqRun ops c = some r ∧ QueueInv r.1.queue ∧
      r.1.queue.capacity = c.queue.capacity ∧
      r.2 = (fifoRun c.queue.capacity ops (queueContents c.queue c.slots)).2 ∧
      queueContents r.1.queue r.1.slots =
        (fifoRun c.queue.capacity ops (queueContents c.queue c.slots)).1
  | [], c, h => ⟨_, rfl, h, rfl, rfl, rfl⟩
  | op :: ops, c, h => by
    obtain ⟨r1, hr1, hi1, hc1, ho1, hq1⟩ := msgqStep_refines c h op
    obtain ⟨r2, hr2, hi2, hc2, ho2, hq2⟩ := msgqRun_refines ops r1.1 hi1
    refine ⟨(r2.1, r1.2 :: r2.2), by simp only [msgqRun, hr1, hr2], hi2, hc2.trans hc1, ?_, ?_⟩
    · simp only [fifoRun]
      rw [ho2, hc1, hq1, ho1]
    · simp only [fifoRun]
      rw [hq2, hc1, hq1]

theorem wrap32_add_wrap32 (a b : Nat) : wrap32 (wrap32 a + b) = wrap32 (a + b) := by
  unfold wrap32; omega

/-- Successive sends without a receive: the first `d = capacity - count` are
accepted, the others are counted in `dropped`. -/
theorem msgqRun_sends : ∀ (ms : List smart_msg_t) (c : MsgQ) (d : Nat), QueueInv c.queue →
    c.queue.dropped < 4294967296 → c.queue.capacity - c.queue.count = d →
    ∃ r, msgqRun (ms.map MsgOp.send) c = some r ∧ QueueInv r.1.queue ∧
      r.2 =
        List.replicate (min ms.length d) (SMART_MSGQ_OK, none) ++
        List.replicate (ms.length - d) (SMART_MSGQ_FULL, none) ∧
      r.1.queue.dropped = wrap32 (c.queue.dropped + (ms.length - d)) ∧
      queueContents r.1.queue r.1.slots = queueContents c.queue c.slots ++ ms.take d
  | [], c, d, h, hd, _ => by
    refine ⟨(c, []), rfl, h, by simp, ?_, by simp⟩
    show c.queue.dropped = wrap32 (c.queue.dropped + (0 - d))
    rw [Nat.zero_sub, Nat.add_zero]
    exact (Nat.mod_eq_of_lt hd).symm
  | m :: ms, c, d, h, hd, hdd => by
    by_cases hfull : c.queue.capacity ≤ c.queue.count
    · have hd0 : d = 0 := by omega
      subst hd0
      obtain ⟨r2, hr2, hi2, ho2, hd2, hq2⟩ := msgqRun_sends ms
        ⟨smart_exit_critical (smart_enter_critical c.k),
          { c.queue with dropped := wrap32 (c.queue.dropped + 1) }, c.slots⟩ 0 h
        (Nat.mod_lt _ (by norm_num)) hdd
      have hd2' : r2.1.queue.dropped = wrap32 (wrap32 (c.queue.dropped + 1) + (ms.length - 0)) :=
        hd2
      have hq2' : queueContents r2.1.queue r2.1.slots =
          queueContents c.queue c.slots ++ ms.take 0 := hq2
      refine ⟨(r2.1, (SMART_MSGQ_FULL, none) :: r2.2), ?_, hi2, ?_, ?_, ?_⟩
      · simp only [List.map_cons, msgqRun, msgqStep, smart_msgqueue_send_full _ _ _ _ hfull,
          Option.getD_some, hr2]
      · show (SMART_MSGQ_FULL, none) :: r2.2 = _
        rw [ho2]
        simp [List.replicate_succ]
      · show r2.1.queue.dropped = wrap32 (c.queue.dropped + (ms.length + 1 - 0))
        rw [hd2', wrap32_add_wrap32]
        congr 1
        omega
      · show queueContents r2.1.queue r2.1.slots = _
        rw [hq2']; simp
    · have hlt : c.queue.count < c.queue.capacity := Nat.not_le.mp hfull
      obtain ⟨hi, hcs⟩ := send_put_contents c.queue c.slots m h hlt
      have hw2 : wrap32 (c.queue.count + 1) = c.queue.count + 1 :=
        Nat.mod_eq_of_lt (by have := h.2.1; omega)
      obtain ⟨d1, hd1⟩ : ∃ d1, d = d1 + 1 := ⟨d - 1, by omega⟩
      subst hd1
      obtain ⟨r2, hr2, hi2, ho2, hd2, hq2⟩ := msgqRun_sends ms
        ⟨smart_exit_critical (smart_enter_critical c.k),
          { c.queue with tail := wrap32 (c.queue.tail + 1) % c.queue.capacity,
                         count := wrap32 (c.queue.count + 1) },
          updAt c.slots c.queue.tail m⟩ d1 hi hd
        (by show c.queue.capacity - wrap32 (c.queue.count + 1) = d1; rw [hw2]; omega)
      have hd2' : r2.1.queue.dropped = wrap32 (c.queue.dropped + (ms.length - d1)) := hd2
      have hq2' : queueContents r2.1.queue r2.1.slots =
          queueContents
            { c.queue with tail := wrap32 (c.queue.tail + 1) % c.queue.capacity,
                           count := wrap32 (c.queue.count + 1) }
            (updAt c.slots c.queue.tail m) ++ ms.take d1 := hq2
      refine ⟨(r2.1, (SMART_MSGQ_OK, none) :: r2.2), ?_, hi2, ?_, ?_, ?_⟩
      · simp only [List.map_cons, msgqRun, msgqStep, smart_msgqueue_send_put _ _ _ _ hlt,
          Option.getD_some, hr2]
      · show (SMART_MSGQ_OK, none) :: r2.2 =
          List.replicate (min (ms.length + 1) (d1 + 1)) _ ++
          List.replicate (ms.length + 1 - (d1 + 1)) _
        rw [ho2, Nat.succ_min_succ, List.replicate_succ, Nat.succ_sub_succ]
        rfl
      · show r2.1.queue.dropped = wrap32 (c.queue.dropped + (ms.length + 1 - (d1 + 1)))
        rw [hd2', Nat.succ_sub_succ]
      · show queueContents r2.1.queue r2.1.slots = _
        rw [hq2', hcs]
        simp

theorem msgqStart_dropped (k : Kernel) (q0 : smart_msgqueue_t) (slots : Nat → smart_msg_t)
    (buffer capacity : Nat) (hb : buffer ≠ 0) (hc : capacity ≠ 0) :
    (msgqStart k q0 slots buffer capacity).queue.dropped = 0 ∧
    (msgqStart k q0 slots buffer capacity).queue.count = 0 ∧
    (msgqStart k q0 slots buffer capacity).queue.capacity = capacity := by
  rw [smart_msgqueue_init_eq k q0 slots buffer capacity hb hc]
  exact ⟨rfl, rfl, rfl⟩

/-- Scenario 5 in general: more sends than the capacity into a fresh queue. -/
theorem msgqueue_overflow_ok (k : Kernel) (q0 : smart_msgqueue_t)
    (slots : Nat → smart_msg_t) (buffer c : Nat) (ms : List smart_msg_t) (m0 : smart_msg_t)
    (hbuf : buffer ≠ 0) (hc : 1 ≤ c) (hc2 : c < 4294967296) (hn : c < ms.length)
    (hd : ms.length - c < 4294967296) :
    ∃ r, msgqRun (ms.map MsgOp.send) (msgqStart k q0 slots buffer c) = some r ∧
      r.2 = List.replicate c (SMART_MSGQ_OK, none) ++
        List.replicate (ms.length - c) (SMART_MSGQ_FULL, none) ∧
      r.1.queue.dropped = ms.length - c ∧
      ∃ r2, smart_msgqueue_receive r.1.k (some r.1.queue) r.1.slots (some m0) = some r2 ∧
        r2.2.2.2 = SMART_MSGQ_OK ∧ r2.2.2.1 = ms.head? := by
  obtain ⟨hinv, hnil⟩ := msgqStart_inv k q0 slots buffer c hbuf hc hc2
  obtain ⟨hd0, hc0, hcap⟩ := msgqStart_dropped k q0 slots buffer c hbuf (by omega)
  obtain ⟨r, hr, hi, ho, hdr, hq⟩ := msgqRun_sends ms (msgqStart k q0 slots buffer c) c hinv
    (by rw [hd0]; norm_num) (by rw [hc0, hcap]; rfl)
  rw [hd0, Nat.zero_add] at hdr
  rw [Nat.min_eq_right (le_of_lt hn)] at ho
  rw [hnil, List.nil_append] at hq
  refine ⟨r, hr, ho, by rw [hdr]; exact Nat.mod_eq_of_lt hd, ?_⟩
  have hcount : r.1.queue.count ≠ 0 := by
    have := queueContents_length r.1.queue r.1.slots
    rw [hq, List.length_take, Nat.min_eq_left (le_of_lt hn)] at this
    omega
  have hcap2 : r.1.queue.capacity ≠ 0 := by have := hi.1; omega
  obtain ⟨_, hcs⟩ := receive_take_contents r.1.queue r.1.slots hi hcount
  refine ⟨_, smart_msgqueue_receive_take _ _ _ m0 hcount hcap2, rfl, ?_⟩
  show some (r.1.slots r.1.queue.head) = ms.head?
  rw [hq] at hcs
  cases ms with
  | nil => exact absurd hn (Nat.not_lt_zero _)
  | cons m ms =>
    obtain ⟨c1, hc1⟩ : ∃ c1, c = c1 + 1 := ⟨c - 1, by omega⟩
    rw [hc1, List.take_succ_cons] at hcs
    rw [List.head?_cons]
    congr 1
    exact (List.cons.inj hcs).1.symm

/-- Outcome Full of `smart_msgqueue_send`. -/
theorem smart_msgqueue_send_full_iff (k : Kernel) (q : smart_msgqueue_t)
    (slots : Nat → smart_msg_t) (m : smart_msg_t) (hq : q.count ≤ q.capacity) :
    ((smart_msgqueue_send k (some q) slots (some m)).2.2.2 = SMART_MSGQ_FULL ↔
      q.count = q.capacity) ∧
    ((smart_msgqueue_send k (some q) slots (some m)).2.2.2 = SMART_MSGQ_FULL →
      (smart_msgqueue_send k (some q) slots (some m)).2.1 =
        some { q with dropped := wrap32 (q.dropped + 1) } ∧
      (smart_msgqueue_send k (some q) slots (some m)).2.2.1 = slots) := by
  by_cases hfull : q.capacity ≤ q.count
  · rw [smart_msgqueue_send_full _ _ _ _ hfull]
    exact ⟨⟨fun _ => le_antisymm hq hfull, fun _ => rfl⟩, fun _ => ⟨rfl, rfl⟩⟩
  · have hlt : q.count < q.capacity := Nat.not_le.mp hfull
    rw [smart_msgqueue_send_put _ _ _ _ hlt]
    refine ⟨⟨fun h => ?_, fun h => ?_⟩, fun h => ?_⟩
    · simp at h
    · omega
    · simp at h

/-- The accessors on a well-formed queue. -/
theorem msgqueue_accessors_ok (q : smart_msgqueue_t) (hinv : QueueInv q) :
    smart_msgqueue_count (some q) + smart_msgqueue_space (some q) = q.capacity ∧
    (smart_msgqueue_is_empty (some q) = 1 ↔ q.count = 0) ∧
    (smart_msgqueue_is_full (some q) = 1 ↔ q.count = q.capacity) := by
  obtain ⟨h1, h2, h3, _⟩ := hinv
  refine ⟨?_, ?_, ?_⟩
  · show q.count + wrap32 (q.capacity + 4294967296 - q.count) = q.capacity
    unfold wrap32; omega
  · show (if q.count = 0 then 1 else 0) = 1 ↔ _
    split_ifs with h <;> simp [h]
  · show (if q.count ≥ q.capacity then 1 else 0) = 1 ↔ _
    split_ifs with h
    · simp; omega
    · simp; omega

/-! ## Message queue theorems -/

/-- C16: a queue initialised with capacity `c ≥ 1` refines the FIFO list bounded
by `c`: for every sequence of sends and receives (ring wrap-around included)
all calls return, the statuses and the received records are those of the list
model (`fifoRun`), and the records held at the end are those of the list; in
particular a send followed by a receive on the fresh queue returns the record
sent, field for field, and a receive on an empty queue returns Empty and leaves
the queue and the caller's record unchanged. -/
theorem msgqueue_refines_bounded_fifo (k : Kernel) (q0 : smart_msgqueue_t)
    (slots : Nat → smart_msg_t) (buffer c : Nat) (hbuf : buffer ≠ 0) (hc : 1 ≤ c)
    (hc2 : c < 4294967296) (ops : List MsgOp) (m : smart_msg_t) :
    (∃ r, msgqRun ops (msgqStart k q0 slots buffer c) = some r ∧
      r.2 = (fifoRun c ops []).2 ∧
      queueContents r.1.queue r.1.slots = (fifoRun c ops []).1 ∧
      (r.1.queue.count = 0 →
        smart_msgqueue_receive r.1.k (some r.1.queue) r.1.slots (some m) =
          some (smart_exit_critical (smart_enter_critical r.1.k), some r.1.queue, some m,
            SMART_MSGQ_EMPTY))) ∧
    (∃ r, msgqRun [MsgOp.send m, MsgOp.receive] (msgqStart k q0 slots buffer c) = some r ∧
      r.2 = [(SMART_MSGQ_OK, none), (SMART_MSGQ_OK, some m)]) := by
  obtain ⟨hinv, hnil⟩ := msgqStart_inv k q0 slots buffer c hbuf hc hc2
  obtain ⟨_, _, hcap⟩ := msgqStart_dropped k q0 slots buffer c hbuf (by omega)
  constructor
  · obtain ⟨r, hr, _, _, ho, hq⟩ := msgqRun_refines ops _ hinv
    rw [hcap, hnil] at ho hq
    exact ⟨r, hr, ho, hq, fun hz => smart_msgqueue_receive_empty _ _ _ _ hz⟩
  · obtain ⟨r, hr, _, _, ho, _⟩ := msgqRun_refines [MsgOp.send m, MsgOp.receive] _ hinv
    rw [hcap, hnil] at ho
    refine ⟨r, hr, ?_⟩
    rw [ho]
    have hne : ¬ (0 = c) := by omega
    simp [fifoRun, fifoStep, hne]

theorem msgqueue_refines_bounded_fifo_witness :
    ∃ r, msgqRun
        [MsgOp.send ⟨1, 10, 0⟩, MsgOp.send ⟨2, 20, 0⟩, MsgOp.send ⟨3, 30, 0⟩, MsgOp.receive,
         MsgOp.receive, MsgOp.send ⟨4, 40, 0⟩, MsgOp.send ⟨5, 50, 0⟩, MsgOp.send ⟨6, 60, 0⟩,
         MsgOp.send ⟨7, 70, 0⟩, MsgOp.receive, MsgOp.receive, MsgOp.receive, MsgOp.receive,
         MsgOp.receive] testQueue = some r ∧
      r.2 =
        [(SMART_MSGQ_OK, none), (SMART_MSGQ_OK, none), (SMART_MSGQ_OK, none),
         (SMART_MSGQ_OK, some ⟨1, 10, 0⟩), (SMART_MSGQ_OK, some ⟨2, 20, 0⟩),
         (SMART_MSGQ_OK, none), (SMART_MSGQ_OK, none), (SMART_MSGQ_OK, none),
         (SMART_MSGQ_FULL, none), (SMART_MSGQ_OK, some ⟨3, 30, 0⟩),
         (SMART_MSGQ_OK, some ⟨4, 40, 0⟩), (SMART_MSGQ_OK, some ⟨5, 50, 0⟩),
         (SMART_MSGQ_OK, some ⟨6, 60, 0⟩), (SMART_MSGQ_EMPTY, none)] := by
  obtain ⟨⟨r, h1, h2, -⟩, -⟩ :=
    msgqueue_refines_bounded_fifo bootKernel
      { buffer := 0, capacity := 0, count := 7, head := 7, tail := 7, dropped := 7 }
      (fun _ => { type := 9, data := 9, ptr := 9 }) 0x20005000 4 (by decide) (by decide)
      (by decide)
      [MsgOp.send ⟨1, 10, 0⟩, MsgOp.send ⟨2, 20, 0⟩, MsgOp.send ⟨3, 30, 0⟩, MsgOp.receive,
       MsgOp.receive, MsgOp.send ⟨4, 40, 0⟩, MsgOp.send ⟨5, 50, 0⟩, MsgOp.send ⟨6, 60, 0⟩,
       MsgOp.send ⟨7, 70, 0⟩, MsgOp.receive, MsgOp.receive, MsgOp.receive, MsgOp.receive,
       MsgOp.receive] ⟨0, 0, 0⟩
  exact ⟨r, h1, h2.trans (by decide)⟩

/-- C17: on a queue with `count ≤ capacity`, `smart_msgqueue_send` returns Full
exactly when `count = capacity`, and then only `dropped` changes (plus one);
hence `n > c` sends into a fresh queue of capacity `c` give `c` results OK
followed by `n - c` results Full, `dropped = n - c`, and the next receive
returns the first record sent. -/
theorem msgqueue_send_full_drops (k : Kernel) (q0 : smart_msgqueue_t)
    (slots : Nat → smart_msg_t) (buffer c : Nat) (ms : List smart_msg_t) (m0 : smart_msg_t)
    (hbuf : buffer ≠ 0) (hc : 1 ≤ c) (hc2 : c < 4294967296) (hn : c < ms.length)
    (hd : ms.length - c < 4294967296) :
    (∀ k1 q sl m, q.count ≤ q.capacity →
      ((smart_msgqueue_send k1 (some q) sl (some m)).2.2.2 = SMART_MSGQ_FULL ↔
        q.count = q.capacity) ∧
      ((smart_msgqueue_send k1 (some q) sl (some m)).2.2.2 = SMART_MSGQ_FULL →
        (smart_msgqueue_send k1 (some q) sl (some m)).2.1 =
          some { q with dropped := wrap32 (q.dropped + 1) } ∧
        (smart_msgqueue_send k1 (some q) sl (some m)).2.2.1 = sl)) ∧
    ∃ r, msgqRun (ms.map MsgOp.send) (msgqStart k q0 slots buffer c) = some r ∧
      r.2 = List.replicate c (SMART_MSGQ_OK, none) ++
        List.replicate (ms.length - c) (SMART_MSGQ_FULL, none) ∧
      r.1.queue.dropped = ms.length - c ∧
      ∃ r2, smart_msgqueue_receive r.1.k (some r.1.queue) r.1.slots (some m0) = some r2 ∧
        r2.2.2.2 = SMART_MSGQ_OK ∧ r2.2.2.1 = ms.head? :=
  ⟨fun k1 q sl m hq => smart_msgqueue_send_full_iff k1 q sl m hq,
   msgqueue_overflow_ok k q0 slots buffer c ms m0 hbuf hc hc2 hn hd⟩

theorem msgqueue_send_full_drops_witness :
    4 < testMsgs.length ∧
    ∃ r, msgqRun (testMsgs.map MsgOp.send) testQueue = some r ∧
      r.2 = [(SMART_MSGQ_OK, none), (SMART_MSGQ_OK, none), (SMART_MSGQ_OK, none),
        (SMART_MSGQ_OK, none), (SMART_MSGQ_FULL, none), (SMART_MSGQ_FULL, none)] ∧
      r.1.queue.dropped = 2 ∧
      ∃ r2, smart_msgqueue_receive r.1.k (some r.1.queue) r.1.slots (some ⟨0, 0, 0⟩) =
          some r2 ∧
        r2.2.2.2 = SMART_MSGQ_OK ∧ r2.2.2.1 = some ⟨0x200, 0, 0⟩ := by
  obtain ⟨-, r, h1, h2, h3, r2, h4, h5, h6⟩ :=
    msgqueue_send_full_drops bootKernel
      { buffer := 0, capacity := 0, count := 7, head := 7, tail := 7, dropped := 7 }
      (fun _ => { type := 9, data := 9, ptr := 9 }) 0x20005000 4 testMsgs ⟨0, 0, 0⟩
      (by decide) (by decide) (by decide) (by decide) (by decide)
  exact ⟨by decide, r, h1, h2, h3, r2, h4, h5, h6⟩

/-- C18: in every state reached from `smart_msgqueue_init` (capacity `c ≥ 1`) by
sends and receives, `count ≤ capacity = c`, `head < c`, `tail < c` and
`(head + count) mod c = tail`; hence count plus space is `c`, `is_empty` holds
iff `count = 0` and `is_full` holds iff `count = c`. -/
theorem msgqueue_ring_invariant (k : Kernel) (q0 : smart_msgqueue_t)
    (slots : Nat → smart_msg_t) (buffer c : Nat) (hbuf : buffer ≠ 0) (hc : 1 ≤ c)
    (hc2 : c < 4294967296) (ops : List MsgOp) :
    ∃ r, msgqRun ops (msgqStart k q0 slots buffer c) = some r ∧
      r.1.queue.capacity = c ∧ r.1.queue.count ≤ c ∧ r.1.queue.head < c ∧
      r.1.queue.tail < c ∧ (r.1.queue.head + r.1.queue.count) % c = r.1.queue.tail ∧
      smart_msgqueue_count (some r.1.queue) + smart_msgqueue_space (some r.1.queue) = c ∧
      (smart_msgqueue_is_empty (some r.1.queue) = 1 ↔ r.1.queue.count = 0) ∧
      (smart_msgqueue_is_full (some r.1.queue) = 1 ↔ r.1.queue.count = c) := by
  obtain ⟨hinv, _⟩ := msgqStart_inv k q0 slots buffer c hbuf hc hc2
  obtain ⟨_, _, hcap⟩ := msgqStart_dropped k q0 slots buffer c hbuf (by omega)
  obtain ⟨r, hr, hi, hcp, _, _⟩ := msgqRun_refines ops _ hinv
  rw [hcap] at hcp
  obtain ⟨ha, hb, hcc⟩ := msgqueue_accessors_ok r.1.queue hi
  obtain ⟨_, _, h3, h4, h5, h6⟩ := hi
  rw [hcp] at h3 h4 h5 h6 ha hcc
  exact ⟨r, hr, hcp, h3, h4, h5, h6, ha, hb, hcc⟩

theorem msgqueue_ring_invariant_witness :
    ∃ r, msgqRun
        [MsgOp.send ⟨1, 10, 0⟩, MsgOp.send ⟨2, 20, 0⟩, MsgOp.send ⟨3, 30, 0⟩, MsgOp.receive,
         MsgOp.receive, MsgOp.send ⟨4, 40, 0⟩, MsgOp.send ⟨5, 50, 0⟩] testQueue = some r ∧
      r.1.queue.capacity = 4 ∧ r.1.queue.count ≤ 4 ∧
      (r.1.queue.head + r.1.queue.count) % 4 = r.1.queue.tail ∧
      smart_msgqueue_count (some r.1.queue) + smart_msgqueue_space (some r.1.queue) = 4 := by
  obtain ⟨r, h1, h2, h3, -, -, h4, h5, -⟩ :=
    msgqueue_ring_invariant bootKernel
      { buffer := 0, capacity := 0, count := 7, head := 7, tail := 7, dropped := 7 }
      (fun _ => { type := 9, data := 9, ptr := 9 }) 0x20005000 4 (by decide) (by decide)
      (by decide)
      [MsgOp.send ⟨1, 10, 0⟩, MsgOp.send ⟨2, 20, 0⟩, MsgOp.send ⟨3, 30, 0⟩, MsgOp.receive,
       MsgOp.receive, MsgOp.send ⟨4, 40, 0⟩, MsgOp.send ⟨5, 50, 0⟩]
  exact ⟨r, h1, h2, h3, h4, h5⟩

/-! ## Timer lemmas -/

theorem timer_tick_loop_none (cb : Callbacks) (fuel : Nat) (k : Kernel) (ts : Timers)
    (prev : Option Nat) : timer_tick_loop cb fuel k ts none prev = some (k, ts) := by
  cases fuel <;> rfl

@[simp] theorem setTimer_pool_same (ts : Timers) (t : Nat) (v : smart_timer_t) :
    (setTimer ts t v).timer_pool t = v := by simp [setTimer]

theorem setTimer_pool_other (ts : Timers) (t x : Nat) (v : smart_timer_t) (h : x ≠ t) :
    (setTimer ts t v).timer_pool x = ts.timer_pool x := by simp [setTimer, updAt, h]

@[simp] theorem setTimer_init (ts : Timers) (t : Nat) (v : smart_timer_t) :
    (setTimer ts t v).timer_pool_init = ts.timer_pool_init := rfl
@[simp] theorem setTimer_active (ts : Timers) (t : Nat) (v : smart_timer_t) :
    (setTimer ts t v).active_timer_list = ts.active_timer_list := rfl
@[simp] theorem setTimer_stats (ts : Timers) (t : Nat) (v : smart_timer_t) :
    (setTimer ts t v).timer_stats = ts.timer_stats := rfl
@[simp] theorem setActive_pool (ts : Timers) (a : Option Nat) :
    (ts.setActive a).timer_pool = ts.timer_pool := rfl
@[simp] theorem setActive_init (ts : Timers) (a : Option Nat) :
    (ts.setActive a).timer_pool_init = ts.timer_pool_init := rfl
@[simp] theorem setActive_active (ts : Timers) (a : Option Nat) :
    (ts.setActive a).active_timer_list = a := rfl
@[simp] theorem setActive_stats (ts : Timers) (a : Option Nat) :
    (ts.setActive a).timer_stats = ts.timer_stats := rfl
@[simp] theorem setStats_pool (ts : Timers) (st : timer_stats_t) :
    (ts.setStats st).timer_pool = ts.timer_pool := rfl
@[simp] theorem setStats_init (ts : Timers) (st : timer_stats_t) :
    (ts.setStats st).timer_pool_init = ts.timer_pool_init := rfl
@[simp] theorem setStats_active (ts : Timers) (st : timer_stats_t) :
    (ts.setStats st).active_timer_list = ts.active_timer_list := rfl
@[simp] theorem setStats_stats (ts : Timers) (st : timer_stats_t) :
    (ts.setStats st).timer_stats = st := rfl

@[simp] theorem timer_setState_fields (v : smart_timer_t) (s : Nat) :
    (v.setState s).state = s ∧ (v.setState s).id = v.id ∧ (v.setState s).type = v.type ∧
    (v.setState s).period_ms = v.period_ms ∧ (v.setState s).remaining_ms = v.remaining_ms ∧
    (v.setState s).callback = v.callback ∧ (v.setState s).callback_arg = v.callback_arg ∧
    (v.setState s).next = v.next := ⟨rfl, rfl, rfl, rfl, rfl, rfl, rfl, rfl⟩

@[simp] theorem timer_setRemaining_fields (v : smart_timer_t) (r : Nat) :
    (v.setRemaining r).remaining_ms = r ∧ (v.setRemaining r).id = v.id ∧
    (v.setRemaining r).type = v.type ∧ (v.setRemaining r).period_ms = v.period_ms ∧
    (v.setRemaining r).state = v.state ∧ (v.setRemaining r).callback = v.callback ∧
    (v.setRemaining r).callback_arg = v.callback_arg ∧ (v.setRemaining r).next = v.next :=
  ⟨rfl, rfl, rfl, rfl, rfl, rfl, rfl, rfl⟩

@[simp] theorem timer_setNext_fields (v : smart_timer_t) (n : Option Nat) :
    (v.setNext n).next = n ∧ (v.setNext n).id = v.id ∧ (v.setNext n).type = v.type ∧
    (v.setNext n).period_ms = v.period_ms ∧ (v.setNext n).remaining_ms = v.remaining_ms ∧
    (v.setNext n).callback = v.callback ∧ (v.setNext n).callback_arg = v.callback_arg ∧
    (v.setNext n).state = v.state := ⟨rfl, rfl, rfl, rfl, rfl, rfl, rfl, rfl⟩

theorem timer_run_callback_untouched (cb : Callbacks) (k : Kernel) (ts : Timers) (t : Nat)
    (hcb : ∀ f a k1 ts1, (cb f a (k1, ts1)).2 = ts1) :
    (timer_run_callback cb k ts t).2.timer_pool = ts.timer_pool ∧
    (timer_run_callback cb k ts t).2.timer_pool_init = ts.timer_pool_init ∧
    (timer_run_callback cb k ts t).2.active_timer_list = ts.active_timer_list ∧
    (timer_run_callback cb k ts t).2.timer_stats.callback_count =
      wrap32 (ts.timer_stats.callback_count + 1) ∧
    (timer_run_callback cb k ts t).2.timer_stats.active_timers =
      ts.timer_stats.active_timers ∧
    (timer_run_callback cb k ts t).2.timer_stats.expired_count =
      ts.timer_stats.expired_count ∧
    (timer_run_callback cb k ts t).2.timer_stats.total_timers =
      ts.timer_stats.total_timers := by
  unfold timer_run_callback
  refine ⟨?_, ?_, ?_, ?_, ?_, ?_, ?_⟩
  · show (cb _ _ (_, ts)).2.timer_pool = _
    rw [hcb]
  · show (cb _ _ (_, ts)).2.timer_pool_init = _
    rw [hcb]
  · show (cb _ _ (_, ts)).2.active_timer_list = _
    rw [hcb]
  · show wrap32 ((cb _ _ (_, ts)).2.timer_stats.callback_count + 1) = _
    rw [hcb]
  · show (cb _ _ (_, ts)).2.timer_stats.active_timers = _
    rw [hcb]
  · show (cb _ _ (_, ts)).2.timer_stats.expired_count = _
    rw [hcb]
  · show (cb _ _ (_, ts)).2.timer_stats.total_timers = _
    rw [hcb]

theorem timer_tick_loop_step (cb : Callbacks) (fuel : Nat) (k : Kernel) (ts : Timers) (t : Nat)
    (prev : Option Nat) :
    timer_tick_loop cb (fuel + 1) k ts (some t) prev =
      if ((timer_count_down ts t).timer_pool t).remaining_ms = 0 then
        timer_tick_loop cb fuel
          (timer_fire cb k (timer_count_down ts t) t prev (ts.timer_pool t).next).1
          (timer_fire cb k (timer_count_down ts t) t prev (ts.timer_pool t).next).2
          (ts.timer_pool t).next prev
      else timer_tick_loop cb fuel k (timer_count_down ts t) (ts.timer_pool t).next (some t) :=
  rfl

/-- C20 fails: two periodic timers of period 2 expire in the same tick.  The
head of the list (slot 1) is re-linked at the head while `prev` is still
`NULL`, and the expiry of the next timer (slot 0) then overwrites
`active_timer_list`: at the end of tick 2 slot 1 is Running with
`remaining = period` but the active list is `[0]`, `active_timers` still says 2,
and over 6 ticks the callbacks run 4 times instead of 6.  In the shell's timer
test (periods divided by 500) the periodic timer (slot 3) is dropped in the same
way at tick 6, when the last one-shot timer expires behind it. -/
theorem periodic_timer_dropped_on_double_expiry :
    isTimerList twoStarted.2.timer_pool twoStarted.2.active_timer_list [1, 0] ∧
    (timer_ticks quietCallbacks 3 1 twoStarted).map
      (fun s => (s.2.timer_stats.expired_count,
        decide (isTimerList s.2.timer_pool s.2.active_timer_list [1, 0]))) =
      some (0, true) ∧
    (timer_ticks quietCallbacks 3 2 twoStarted).map
      (fun s => (s.2.timer_stats.expired_count, (s.2.timer_pool 1).type,
        (s.2.timer_pool 1).state, (s.2.timer_pool 1).remaining_ms,
        decide (isTimerList s.2.timer_pool s.2.active_timer_list [0]),
        s.2.timer_stats.active_timers)) =
      some (2, TIMER_PERIODIC, TIMER_RUNNING, 2, true, 2) ∧
    (timer_ticks quietCallbacks 3 6 twoStarted).map
      (fun s => s.2.timer_stats.callback_count) = some 4 ∧
    (timer_ticks quietCallbacks 5 5 shellTimers).map
      (fun s => decide (isTimerList s.2.timer_pool s.2.active_timer_list [3, 2])) =
      some true ∧
    (timer_ticks quietCallbacks 5 6 shellTimers).map
      (fun s => (s.2.active_timer_list, (s.2.timer_pool 3).type, (s.2.timer_pool 3).state,
        (s.2.timer_pool 3).remaining_ms)) =
      some (none, TIMER_PERIODIC, TIMER_RUNNING, 1) ∧
    (timer_ticks quietCallbacks 5 12 shellTimers).map
      (fun s => s.2.timer_stats.callback_count) = some 9 := by
  decide

/-! ## Semaphore fast paths -/

theorem exit_enter_tasks (k : Kernel) :
    (smart_exit_critical (smart_enter_critical k)).tasks = k.tasks ∧
    (smart_exit_critical (smart_enter_critical k)).task_list = k.task_list ∧
    (smart_exit_critical (smart_enter_critical k)).current_task = k.current_task ∧
    (smart_exit_critical (smart_enter_critical k)).os_tick = k.os_tick := by
  simp

theorem smart_sem_wait_available (fuel : Nat) (k : Kernel) (s : smart_semaphore_t)
    (h : s.count > 0) :
    smart_sem_wait fuel k (some s) =
      some (smart_exit_critical (smart_enter_critical k),
        some { s with count := s.count - 1 }, smart_sync_status_t.SMART_SYNC_OK) := by
  unfold smart_sem_wait
  simp only [h, if_true]

theorem smart_sem_try_wait_available (k : Kernel) (s : smart_semaphore_t)
    (h : s.count > 0) :
    smart_sem_try_wait k (some s) =
      (smart_exit_critical (smart_enter_critical k),
        some { s with count := s.count - 1 }, smart_sync_status_t.SMART_SYNC_OK) := by
  unfold smart_sem_try_wait
  simp only [h, if_true]

theorem smart_sem_try_wait_empty (k : Kernel) (s : smart_semaphore_t)
    (h : s.count = 0) :
    smart_sem_try_wait k (some s) =
      (smart_exit_critical (smart_enter_critical k), some s,
        smart_sync_status_t.SMART_SYNC_TIMEOUT) := by
  unfold smart_sem_try_wait
  simp only [h, gt_iff_lt, lt_irrefl, if_false]

theorem smart_sem_init_two_five (k : Kernel) (s0 : smart_semaphore_t) :
    (smart_sem_init k (some s0) 2 5).2 = some { count := 2, max_count := 5, wait_list := none } := by
  simp [smart_sem_init]

/-- C30: with `count > 0`, `smart_sem_wait` and `smart_sem_try_wait` both return
OK with the count one lower, the same `max_count` and wait list, and the TCB
memory, the task list and the current task as before; with `count = 0`,
`smart_sem_try_wait` returns Timeout with the semaphore and the TCB memory as
before; a semaphore set up by `smart_sem_init(2, 5)` has count 1 after one
wait. -/
theorem sem_wait_takes_available_count (fuel : Nat) (k : Kernel) (s s0 : smart_semaphore_t) :
    (s.count > 0 →
      ∃ k', smart_sem_wait fuel k (some s) =
          some (k', some { count := s.count - 1, max_count := s.max_count,
                           wait_list := s.wait_list }, smart_sync_status_t.SMART_SYNC_OK) ∧
        smart_sem_try_wait k (some s) =
          (k', some { count := s.count - 1, max_count := s.max_count,
                      wait_list := s.wait_list }, smart_sync_status_t.SMART_SYNC_OK) ∧
        k'.tasks = k.tasks ∧ k'.task_list = k.task_list ∧
        k'.current_task = k.current_task) ∧
    (s.count = 0 →
      ∃ k', smart_sem_try_wait k (some s) =
          (k', some s, smart_sync_status_t.SMART_SYNC_TIMEOUT) ∧
        k'.tasks = k.tasks ∧ k'.task_list = k.task_list ∧
        k'.current_task = k.current_task) ∧
    (∃ s1 k1, smart_sem_init k (some s0) 2 5 = (k1, some s1) ∧ s1.count = 2 ∧
      ∃ k2 s2, smart_sem_wait fuel k1 (some s1) =
          some (k2, some s2, smart_sync_status_t.SMART_SYNC_OK) ∧ s2.count = 1 ∧
        k2.tasks = k.tasks) := by
  refine ⟨fun h => ⟨_, smart_sem_wait_available fuel k s h,
      smart_sem_try_wait_available k s h, ?_, ?_, ?_⟩,
    fun h => ⟨_, smart_sem_try_wait_empty k s h, ?_, ?_, ?_⟩, ?_⟩
  any_goals simp
  refine ⟨{ count := 2, max_count := 5, wait_list := none },
    smart_exit_critical (smart_enter_critical k), ?_, rfl, ?_⟩
  · simp [smart_sem_init]
  · refine ⟨_, _, smart_sem_wait_available fuel _ _ (by decide), rfl, ?_⟩
    simp

theorem sem_wait_takes_available_count_witness :
    (∃ k', smart_sem_wait 4 startedKernel (some { count := 2, max_count := 5, wait_list := none }) =
          some (k', some { count := 1, max_count := 5, wait_list := none },
            smart_sync_status_t.SMART_SYNC_OK) ∧
        smart_sem_try_wait startedKernel (some { count := 2, max_count := 5, wait_list := none }) =
          (k', some { count := 1, max_count := 5, wait_list := none },
            smart_sync_status_t.SMART_SYNC_OK) ∧
        k'.tasks = startedKernel.tasks ∧ k'.task_list = startedKernel.task_list ∧
        k'.current_task = startedKernel.current_task) ∧
    (∃ k', smart_sem_try_wait startedKernel (some emptySem) =
          (k', some emptySem, smart_sync_status_t.SMART_SYNC_TIMEOUT) ∧
        k'.tasks = startedKernel.tasks ∧ k'.task_list = startedKernel.task_list ∧
        k'.current_task = startedKernel.current_task) :=
  ⟨(sem_wait_takes_available_count 4 startedKernel
      { count := 2, max_count := 5, wait_list := none } emptySem).1 (by decide),
   (sem_wait_takes_available_count 4 startedKernel emptySem emptySem).2.1 (by decide)⟩

/-! ## Effect of `smart_task_yield` on the release times -/

theorem core_fields (t u : smart_task) (h : t.core = u.core) :
    t.deadline = u.deadline ∧ t.period = u.period ∧ t.arrival = u.arrival ∧
    t.wakeup_time = u.wakeup_time ∧ t.state = u.state ∧ t.next = u.next := by
  unfold smart_task.core at h
  simp only [Prod.mk.injEq] at h
  exact ⟨h.1, h.2.1, h.2.2.1, h.2.2.2.1, h.2.2.2.2.1, h.2.2.2.2.2.1⟩

theorem smart_stack_guard_init_frame (t : smart_task) :
    (smart_stack_guard_init t).state = t.state ∧
    (smart_stack_guard_init t).arrival = t.arrival ∧
    (smart_stack_guard_init t).deadline = t.deadline ∧
    (smart_stack_guard_init t).period = t.period ∧
    (smart_stack_guard_init t).wakeup_time = t.wakeup_time ∧
    (smart_stack_guard_init t).switch_count = t.switch_count ∧
    (smart_stack_guard_init t).min_free_stack = t.min_free_stack ∧
    (smart_stack_guard_init t).exec_start_time = t.exec_start_time ∧
    (smart_stack_guard_init t).last_exec_time = t.last_exec_time ∧
    (smart_stack_guard_init t).avg_exec_time = t.avg_exec_time ∧
    (smart_stack_guard_init t).max_exec_time = t.max_exec_time ∧
    (smart_stack_guard_init t).deadline_miss_count = t.deadline_miss_count := by
  unfold smart_stack_guard_init
  split <;> simp only [and_self]

theorem smart_task_create_tasks (k : Kernel) (task entry param stack stack_size period
    relative_deadline : Nat) :
    ∃ t, (smart_task_create k task entry param stack stack_size period
        relative_deadline).tasks = upd k.tasks task t ∧
      (smart_task_create k task entry param stack stack_size period
        relative_deadline).task_list = some task ∧
      (smart_task_create k task entry param stack stack_size period
        relative_deadline).os_tick = k.os_tick ∧
      (smart_task_create k task entry param stack stack_size period
        relative_deadline).current_task = k.current_task ∧
      t.next = k.task_list ∧
      t.state = TASK_STATE_READY ∧ t.arrival = k.os_tick ∧
      t.deadline = (if period > 0 then wrap32 (k.os_tick + relative_deadline)
        else 0xFFFFFFFF) ∧
      t.period = period ∧ t.wakeup_time = 0 ∧
      t.switch_count = 0 ∧ t.min_free_stack = stack_size ∧ t.exec_start_time = 0 ∧
      t.last_exec_time = 0 ∧ t.avg_exec_time = 0 ∧ t.max_exec_time = 0 ∧
      t.deadline_miss_count = 0 := by
  refine ⟨(smart_task_create k task entry param stack stack_size period
        relative_deadline).tasks task, ?_⟩
  unfold smart_task_create
  simp only [smart_exit_critical_tasks, smart_exit_critical_task_list,
    smart_exit_critical_os_tick, smart_exit_critical_current_task,
    smart_enter_critical_tasks, smart_enter_critical_task_list,
    smart_enter_critical_os_tick, smart_enter_critical_current_task, upd_same,
    smart_stack_guard_init_frame, and_self]

theorem smart_task_create_effect (k : Kernel) (task entry param stack stack_size period
    relative_deadline : Nat) (l : List Nat) (hc : isChain k.tasks k.task_list l)
    (hn : task ∉ l) :
    ∃ k', smart_task_create k task entry param stack stack_size period
        relative_deadline = k' ∧
      (k'.tasks task).state = TASK_STATE_READY ∧
      (k'.tasks task).arrival = k.os_tick ∧
      (period > 0 → (k'.tasks task).deadline = wrap32 (k.os_tick + relative_deadline)) ∧
      (period = 0 → (k'.tasks task).deadline = 0xFFFFFFFF) ∧
      (k'.tasks task).period = period ∧
      (k'.tasks task).switch_count = 0 ∧
      (k'.tasks task).exec_start_time = 0 ∧
      (k'.tasks task).last_exec_time = 0 ∧
      (k'.tasks task).avg_exec_time = 0 ∧
      (k'.tasks task).max_exec_time = 0 ∧
      (k'.tasks task).deadline_miss_count = 0 ∧
      (k'.tasks task).min_free_stack = stack_size ∧
      k'.task_list = some task ∧
      isChain k'.tasks k'.task_list (task :: l) ∧
      (∀ a, a ≠ task → k'.tasks a = k.tasks a) ∧
      k'.os_tick = k.os_tick ∧ k'.current_task = k.current_task := by
  obtain ⟨t, h1, h2, h3, h4, hnext, hst, har, hdl, hp, -, hsw, hmin, hes, hla, hav, hmx, hmi⟩ :=
    smart_task_create_tasks k task entry param stack stack_size period relative_deadline
  refine ⟨_, rfl, ?_⟩
  rw [h1, h2, h3, h4, upd_same]
  refine ⟨hst, har, ?_, ?_, hp, hsw, hes, hla, hav, hmx, hmi, hmin, rfl, ?_, ?_, rfl, rfl⟩
  · intro hpos
    rw [hdl, if_pos hpos]
  · intro hz
    rw [hdl, if_neg (by omega)]
  · refine (isChain_cons _ _ _ _).mpr ⟨rfl, ?_⟩
    rw [upd_same, hnext]
    exact isSeg_upd_notin k.tasks task t none l k.task_list hn hc
  · intro a ha
    exact upd_other _ _ _ _ ha

/-- C27: `smart_task_create` on a TCB that is not yet on the task list sets the
state to Ready, the arrival to the current tick, the deadline to
`os_tick + relative_deadline` (as a `uint32_t`) for `period > 0` and to
0xFFFFFFFF for `period = 0`, zeroes the execution statistics, sets
`min_free_stack` to the stack size, and makes the TCB the head of the task list
with the earlier tasks following in the same order; no other TCB is written. -/
theorem task_create_links_at_head (k : Kernel) (task entry param stack stack_size period
    relative_deadline : Nat) (l : List Nat) (hc : isChain k.tasks k.task_list l)
    (hn : task ∉ l) :
    ∃ k', smart_task_create k task entry param stack stack_size period
        relative_deadline = k' ∧
      (k'.tasks task).state = TASK_STATE_READY ∧
      (k'.tasks task).arrival = k.os_tick ∧
      (period > 0 → (k'.tasks task).deadline = wrap32 (k.os_tick + relative_deadline)) ∧
      (period = 0 → (k'.tasks task).deadline = 0xFFFFFFFF) ∧
      (k'.tasks task).period = period ∧
      (k'.tasks task).switch_count = 0 ∧
      (k'.tasks task).exec_start_time = 0 ∧
      (k'.tasks task).last_exec_time = 0 ∧
      (k'.tasks task).avg_exec_time = 0 ∧
      (k'.tasks task).max_exec_time = 0 ∧
      (k'.tasks task).deadline_miss_count = 0 ∧
      (k'.tasks task).min_free_stack = stack_size ∧
      k'.task_list = some task ∧
      isChain k'.tasks k'.task_list (task :: l) ∧
      (∀ a, a ≠ task → k'.tasks a = k.tasks a) :=
  let ⟨k', h⟩ := smart_task_create_effect k task entry param stack stack_size period
    relative_deadline l hc hn
  ⟨k', h.1, h.2.1, h.2.2.1, h.2.2.2.1, h.2.2.2.2.1, h.2.2.2.2.2.1, h.2.2.2.2.2.2.1,
    h.2.2.2.2.2.2.2.1, h.2.2.2.2.2.2.2.2.1, h.2.2.2.2.2.2.2.2.2.1,
    h.2.2.2.2.2.2.2.2.2.2.1, h.2.2.2.2.2.2.2.2.2.2.2.1, h.2.2.2.2.2.2.2.2.2.2.2.2.1,
    h.2.2.2.2.2.2.2.2.2.2.2.2.2.1, h.2.2.2.2.2.2.2.2.2.2.2.2.2.2.1,
    h.2.2.2.2.2.2.2.2.2.2.2.2.2.2.2.1⟩

theorem task_create_links_at_head_witness :
    ∃ k', smart_task_create edfKernel 3 0x08000400 0 0x20003000 512 20 15 = k' ∧
      (k'.tasks 3).state = TASK_STATE_READY ∧
      (k'.tasks 3).arrival = edfKernel.os_tick ∧
      (20 > 0 → (k'.tasks 3).deadline = wrap32 (edfKernel.os_tick + 15)) ∧
      (20 = 0 → (k'.tasks 3).deadline = 0xFFFFFFFF) ∧
      (k'.tasks 3).period = 20 ∧
      (k'.tasks 3).switch_count = 0 ∧
      (k'.tasks 3).exec_start_time = 0 ∧
      (k'.tasks 3).last_exec_time = 0 ∧
      (k'.tasks 3).avg_exec_time = 0 ∧
      (k'.tasks 3).max_exec_time = 0 ∧
      (k'.tasks 3).deadline_miss_count = 0 ∧
      (k'.tasks 3).min_free_stack = 512 ∧
      k'.task_list = some 3 ∧
      isChain k'.tasks k'.task_list [3, 2, 1, 0] ∧
      (∀ a, a ≠ 3 → k'.tasks a = edfKernel.tasks a) :=
  task_create_links_at_head edfKernel 3 0x08000400 0 0x20003000 512 20 15 [2, 1, 0]
    (by decide) (by decide)

/-- C28: in the two-task system T2 is switched out at tick 0 after 0 ticks and
at tick 12 after 8 ticks; the samples are 0 and 8, for which the recurrence of
the specification gives 1, and `avg_exec_time` is 8: the zero average left by
the first sample is taken for "no sample yet" and the second sample seeds
again. -/
theorem ema_reseeded_after_zero_sample :
    (smart_task_yield 4 startedKernel).isSome = true ∧
    (emaFirstYield.tasks 2).switch_count = 1 ∧
    (emaFirstYield.tasks 2).last_exec_time = 0 ∧
    (emaFirstYield.tasks 2).avg_exec_time = 0 ∧
    (tick_n 4 4 emaFirstYield).isSome = true ∧
    emaReleased.os_tick = 4 ∧ emaReleased.next_task = some 2 ∧
    (emaReleased.tasks 2).exec_start_time = 4 ∧
    (tick_n 4 8 emaReleased).isSome = true ∧
    (smart_task_yield 4 ((tick_n 4 8 emaReleased).getD emaReleased)).isSome = true ∧
    emaSecondYield.os_tick = 12 ∧
    (emaSecondYield.tasks 2).switch_count = 2 ∧
    (emaSecondYield.tasks 2).last_exec_time = 8 ∧
    (emaSecondYield.tasks 2).max_exec_time = 8 ∧
    (emaSecondYield.tasks 2).avg_exec_time = 8 ∧
    ema_recurrence [0, 8] = 1 := by
  decide

/-! ## Deadline-miss counting -/

theorem upd_miss (mem : Nat → smart_task) (a : Nat) (t : smart_task)
    (h : t.miss = (mem a).miss) (x : Nat) : (upd mem a t x).miss = (mem x).miss := by
  by_cases hx : x = a
  · subst hx; rw [upd_same]; exact h
  · rw [upd_other _ _ _ _ hx]

theorem setNext_miss (t : smart_task) (v : Option Nat) : (t.setNext v).miss = t.miss := rfl

theorem setState_miss (t : smart_task) (v : Nat) : (t.setState v).miss = t.miss := rfl

theorem setDeadline_miss (t : smart_task) (v : Nat) : (t.setDeadline v).miss = t.miss := rfl

theorem yield_update_miss (t : smart_task) : (yield_update t).miss = t.miss := by
  unfold yield_update
  split <;> rfl

theorem switch_out_stats_miss (tick : Nat) (t : smart_task) :
    (switch_out_stats tick t).period = t.period ∧
    (switch_out_stats tick t).deadline_miss_count =
      (if tick > t.deadline ∧ t.period > 0 then wrap32 (t.deadline_miss_count + 1)
       else t.deadline_miss_count) := by
  unfold switch_out_stats smart_task_update_watermark
  simp only []
  split_ifs <;> exact ⟨rfl, rfl⟩

/-- Effect of `smart_schedule` on the deadline-miss counts: the task that is
switched out gets one more miss when the tick is beyond its deadline and it is
periodic; every other count, and every period, stays. -/
theorem smart_schedule_miss (fuel : Nat) (k k' : Kernel)
    (h : smart_schedule fuel k = some k') (a : Nat) :
    (k'.tasks a).period = (k.tasks a).period ∧
    ((k.scheduler_started = true ∧ k.current_task = some a ∧ k'.next_task ≠ some a) →
      (k'.tasks a).deadline_miss_count =
        (if k.os_tick > (k.tasks a).deadline ∧ (k.tasks a).period > 0 then
          wrap32 ((k.tasks a).deadline_miss_count + 1)
         else (k.tasks a).deadline_miss_count)) ∧
    (¬ (k.scheduler_started = true ∧ k.current_task = some a ∧ k'.next_task ≠ some a) →
      (k'.tasks a).deadline_miss_count = (k.tasks a).deadline_miss_count) := by
  unfold smart_schedule at h
  cases hscan : schedule_scan k.tasks fuel k.task_list none 0xFFFFFFFF with
  | none => rw [hscan] at h; cases h
  | some found =>
    rw [hscan] at h
    simp only [] at h
    by_cases hs : k.scheduler_started = false
    · simp only [hs, if_true] at h
      have ht : k'.tasks = k.tasks := by
        by_cases hcur0 : k.current_task = none
        · simp only [hcur0, if_true] at h
          rw [← Option.some.inj h]
        · simp only [hcur0, if_false] at h
          rw [← Option.some.inj h]
      rw [ht]
      refine ⟨rfl, ?_, fun _ => rfl⟩
      intro hc
      rw [hs] at hc
      cases hc.1
    · simp only [hs, if_false] at h
      by_cases hne : k.current_task ≠ some (found.getD idle_task)
      · rw [if_pos hne] at h
        by_cases hg1 : smart_stack_guard_check
            (switch_bookkeeping k.tasks k.current_task (found.getD idle_task) k.os_tick)
            k.current_task = false
        · rw [if_pos hg1] at h; cases h
        · rw [if_neg hg1] at h
          by_cases hg2 : smart_stack_guard_check
              (switch_bookkeeping k.tasks k.current_task (found.getD idle_task) k.os_tick)
              (some (found.getD idle_task)) = false
          · rw [if_pos hg2] at h; cases h
          · rw [if_neg hg2] at h
            have ht : k'.tasks =
                switch_bookkeeping k.tasks k.current_task (found.getD idle_task) k.os_tick := by
              rw [← Option.some.inj h]
            have hn : k'.next_task = some (found.getD idle_task) := by
              rw [← Option.some.inj h]
            rw [ht, hn]
            unfold switch_bookkeeping
            by_cases hab : a = found.getD idle_task
            · -- the incoming task: only `exec_start_time` is written
              rw [hab, upd_same]
              simp only []
              cases hcur : k.current_task with
              | none =>
                refine ⟨rfl, ?_, fun _ => rfl⟩
                intro hc
                exact absurd rfl hc.2.2
              | some c =>
                simp only []
                have hcb : found.getD idle_task ≠ c := by
                  intro e
                  apply hne
                  rw [hcur, e]
                rw [upd_other _ _ _ _ hcb]
                refine ⟨rfl, ?_, fun _ => rfl⟩
                intro hc
                exact absurd rfl hc.2.2
            · rw [upd_other _ _ _ _ hab]
              cases hcur : k.current_task with
              | none =>
                refine ⟨rfl, ?_, fun _ => rfl⟩
                intro hc
                cases hc.2.1
              | some c =>
                simp only []
                by_cases hac : a = c
                · subst hac
                  rw [upd_same]
                  have hm := switch_out_stats_miss k.os_tick (k.tasks a)
                  refine ⟨hm.1, fun _ => hm.2, ?_⟩
                  intro hn2
                  exfalso
                  apply hn2
                  refine ⟨by simpa using hs, rfl, ?_⟩
                  intro e
                  apply hab
                  exact (Option.some.inj e).symm
                · rw [upd_other _ _ _ _ hac]
                  refine ⟨rfl, ?_, fun _ => rfl⟩
                  intro hc
                  exact absurd (Option.some.inj hc.2.1).symm hac
      · rw [if_neg hne] at h
        have ht : k'.tasks = k.tasks := by rw [← Option.some.inj h]
        have hn : k'.next_task = some (found.getD idle_task) := by
          rw [← Option.some.inj h]
        rw [ht, hn]
        refine ⟨rfl, ?_, fun _ => rfl⟩
        intro hc
        exfalso
        apply hne
        intro e
        apply hc.2.2
        rw [← e, hc.2.1]

theorem MissStep_of_frame (k k' : Kernel)
    (hm : ∀ a, (k'.tasks a).miss = (k.tasks a).miss) : MissStep k k' := by
  intro a
  have h := hm a
  unfold smart_task.miss at h
  simp only [Prod.mk.injEq] at h
  exact ⟨h.1, Or.inl h.2⟩

theorem MissStep_frame_left (k km k' : Kernel)
    (hm : ∀ a, (km.tasks a).miss = (k.tasks a).miss)
    (hs : km.scheduler_started = k.scheduler_started)
    (hc : km.current_task = k.current_task) (h : MissStep km k') : MissStep k k' := by
  intro a
  have h1 := hm a
  unfold smart_task.miss at h1
  simp only [Prod.mk.injEq] at h1
  obtain ⟨hp, hcnt⟩ := h a
  rw [h1.1, h1.2, hs, hc] at hcnt
  exact ⟨hp.trans h1.1, hcnt⟩

theorem MissStep_frame_right (k km k' : Kernel)
    (hm : k'.tasks = km.tasks) (h : MissStep k km) : MissStep k k' := by
  intro a
  rw [hm]
  exact h a

theorem smart_schedule_MissStep (fuel : Nat) (k k' : Kernel)
    (h : smart_schedule fuel k = some k') : MissStep k k' := by
  intro a
  obtain ⟨hp, h1, h2⟩ := smart_schedule_miss fuel k k' h a
  refine ⟨hp, ?_⟩
  by_cases hc : k.scheduler_started = true ∧ k.current_task = some a ∧ k'.next_task ≠ some a
  · have h3 := h1 hc
    by_cases hd : k.os_tick > (k.tasks a).deadline ∧ (k.tasks a).period > 0
    · rw [if_pos hd] at h3
      exact Or.inr ⟨hc.1, hc.2.1, hd.2, h3⟩
    · rw [if_neg hd] at h3
      exact Or.inl h3
  · exact Or.inl (h2 hc)

theorem smart_task_yield_MissStep (fuel : Nat) (k k' : Kernel)
    (h : smart_task_yield fuel k = some k') : MissStep k k' := by
  unfold smart_task_yield at h
  simp only [smart_enter_critical_current_task, smart_enter_critical_tasks] at h
  cases hc : k.current_task with
  | none => rw [hc] at h; cases h
  | some c =>
    rw [hc] at h
    simp only [] at h
    cases hs : smart_schedule fuel
        (setTasks (smart_enter_critical k) (upd k.tasks c (yield_update (k.tasks c)))) with
    | none => rw [hs] at h; cases h
    | some k2 =>
      rw [hs] at h
      have hk : k' = smart_exit_critical k2 := (Option.some.inj h).symm
      refine MissStep_frame_right k k2 k' (by rw [hk]; simp) ?_
      refine MissStep_frame_left k _ k2 ?_ ?_ ?_ (smart_schedule_MissStep fuel _ k2 hs)
      · intro a
        simp only [setTasks_tasks]
        exact upd_miss _ _ _ (yield_update_miss _) a
      · simp
      · simp

theorem smart_delay_MissStep (fuel : Nat) (k k' : Kernel) (ticks : Nat)
    (h : smart_delay fuel k ticks = some k') : MissStep k k' := by
  unfold smart_delay at h
  by_cases h0 : ticks = 0
  · rw [if_pos h0] at h
    rw [← Option.some.inj h]
    exact MissStep_of_frame k k (fun _ => rfl)
  · rw [if_neg h0] at h
    simp only [smart_enter_critical_current_task, smart_enter_critical_tasks,
      smart_enter_critical_os_tick] at h
    cases hc : k.current_task with
    | none =>
      rw [hc] at h
      rw [← Option.some.inj h]
      exact MissStep_of_frame _ _ (fun a => by simp)
    | some c =>
      rw [hc] at h
      simp only [] at h
      cases hs : smart_schedule fuel (setTasks (smart_enter_critical k) (upd k.tasks c
          { (k.tasks c) with wakeup_time := wrap32 (k.os_tick + ticks),
                             state := TASK_STATE_DELAYED })) with
      | none => rw [hs] at h; cases h
      | some k2 =>
        rw [hs] at h
        have hk : k' = smart_exit_critical k2 := (Option.some.inj h).symm
        refine MissStep_frame_right k k2 k' (by rw [hk]; simp) ?_
        refine MissStep_frame_left k _ k2 ?_ ?_ ?_ (smart_schedule_MissStep fuel _ k2 hs)
        · intro a
          simp only [setTasks_tasks]
          refine upd_miss k.tasks c _ ?_ a
          rfl
        · simp
        · simp

theorem setState_setState (t : smart_task) (x y : Nat) :
    (t.setState x).setState y = t.setState y := rfl

theorem setState_self (t : smart_task) : t.setState t.state = t := rfl

/-- The wake-up scan writes nothing but `state` fields. -/
theorem tick_scan_frame (now : Nat) :
    ∀ (fuel : Nat) (mem : Nat → smart_task) (p : Option Nat) (b : Bool)
      (mem' : Nat → smart_task) (b' : Bool),
      tick_scan now fuel mem p b = some (mem', b') →
      ∀ a, mem' a = (mem a).setState (mem' a).state
  | fuel, mem, none, b, mem', b', h, a => by
    have e : mem' = mem := by
      cases fuel <;> simp only [tick_scan, Option.some.injEq, Prod.mk.injEq] at h <;>
        exact h.1.symm
    rw [e]; rfl
  | 0, mem, some x, b, mem', b', h, a => by simp [tick_scan] at h
  | fuel + 1, mem, some x, b, mem', b', h, a => by
    have hw : ∀ m1 : Nat → smart_task, (∀ y, m1 y = (mem y).setState (m1 y).state) →
        ∀ q c, tick_scan now fuel m1 q c = some (mem', b') →
        mem' a = (mem a).setState (mem' a).state := by
      intro m1 hm1 q c hq
      have h1 := tick_scan_frame now fuel m1 q c mem' b' hq a
      rw [h1, hm1 a]
      rfl
    have hup : ∀ y, upd mem x { (mem x) with state := TASK_STATE_READY } y =
        (mem y).setState (upd mem x { (mem x) with state := TASK_STATE_READY } y).state := by
      intro y
      by_cases hy : y = x
      · subst hy; rw [upd_same]; rfl
      · rw [upd_other _ _ _ _ hy]; rfl
    unfold tick_scan at h
    split_ifs at h
    · exact hw _ hup _ _ h
    · exact hw mem (fun _ => rfl) _ _ h
    · exact hw _ hup _ _ h
    · exact hw mem (fun _ => rfl) _ _ h
    · exact hw mem (fun _ => rfl) _ _ h

theorem SysTick_Handler_MissStep (fuel : Nat) (k k' : Kernel)
    (h : SysTick_Handler fuel k = some k') : MissStep k k' := by
  unfold SysTick_Handler at h
  simp only [] at h
  cases hs : tick_scan (wrap32 (k.os_tick + 1)) fuel k.tasks k.task_list false with
  | none => rw [hs] at h; cases h
  | some r =>
    obtain ⟨mem, b⟩ := r
    rw [hs] at h
    simp only [] at h
    have hfr : ∀ a, (mem a).miss = (k.tasks a).miss := by
      intro a
      rw [tick_scan_frame _ _ _ _ _ _ _ hs a]
      rfl
    cases b with
    | false =>
      simp only [Bool.false_eq_true, if_false] at h
      rw [← Option.some.inj h]
      exact MissStep_of_frame _ _ hfr
    | true =>
      simp only [if_true] at h
      exact MissStep_frame_left k
        (setTasks { k with os_tick := wrap32 (k.os_tick + 1) } mem) k' hfr rfl rfl
        (smart_schedule_MissStep fuel _ k' h)

theorem wait_list_append_miss (fuel : Nat) (mem : Nat → smart_task) (wl : Option Nat)
    (c : Nat) (mem' : Nat → smart_task) (wl' : Option Nat)
    (h : wait_list_append fuel mem wl c = some (mem', wl')) :
    ∀ a, (mem' a).miss = (mem a).miss := by
  unfold wait_list_append at h
  cases wl with
  | none =>
    simp only [Option.some.injEq, Prod.mk.injEq] at h
    intro a
    rw [← h.1]
    exact upd_miss _ _ _ (setNext_miss _ _) a
  | some head =>
    simp only [] at h
    cases ht : wait_list_tail mem fuel head with
    | none => rw [ht] at h; cases h
    | some node =>
      rw [ht] at h
      simp only [Option.some.injEq, Prod.mk.injEq] at h
      intro a
      rw [← h.1]
      exact (upd_miss _ _ _ (setNext_miss _ _) a).trans
        (upd_miss _ _ _ (setNext_miss _ _) a)

theorem lock_donate_miss (mem : Nat → smart_task) (c o : Nat) (a : Nat) :
    (lock_donate mem c o a).miss = (mem a).miss := by
  unfold lock_donate
  refine (upd_miss _ _ _ (setState_miss _ _) a).trans ?_
  split
  · exact upd_miss _ _ _ (setDeadline_miss _ _) a
  · rfl

theorem wait_list_unlink_miss (mem : Nat → smart_task) (head best : Nat)
    (prev_best : Option Nat) (a : Nat) :
    ((wait_list_unlink mem head best prev_best).1 a).miss = (mem a).miss := by
  unfold wait_list_unlink
  refine (upd_miss _ _ _ ((setState_miss _ _).trans (setNext_miss _ _)) a).trans ?_
  cases prev_best with
  | none => rfl
  | some pb => exact upd_miss _ _ _ (setNext_miss _ _) a

theorem exit_enter_MissStep (k : Kernel) :
    MissStep k (smart_exit_critical (smart_enter_critical k)) :=
  MissStep_of_frame _ _ (fun a => by simp)

theorem smart_sem_wait_MissStep (fuel : Nat) (k : Kernel) (sem : Option smart_semaphore_t)
    (r : Kernel × Option smart_semaphore_t × smart_sync_status_t)
    (h : smart_sem_wait fuel k sem = some r) : MissStep k r.1 := by
  unfold smart_sem_wait at h
  cases sem with
  | none =>
    rw [← Option.some.inj h]
    exact MissStep_of_frame _ _ (fun _ => rfl)
  | some s =>
    simp only [] at h
    by_cases hc : s.count > 0
    · rw [if_pos hc] at h
      rw [← Option.some.inj h]
      exact exit_enter_MissStep k
    · rw [if_neg hc] at h
      have key : ∀ mem2 wl, (∀ a, (mem2 a).miss = (k.tasks a).miss) →
          (match smart_task_yield fuel
              (smart_exit_critical (setTasks (smart_enter_critical k) mem2)) with
            | none => none
            | some k3 => some (k3, some { s with wait_list := wl },
                smart_sync_status_t.SMART_SYNC_OK)) = some r → MissStep k r.1 := by
        intro mem2 wl hm hy
        cases hyy : smart_task_yield fuel
            (smart_exit_critical (setTasks (smart_enter_critical k) mem2)) with
        | none => rw [hyy] at hy; cases hy
        | some k3 =>
          rw [hyy] at hy
          rw [← Option.some.inj hy]
          refine MissStep_frame_left k _ k3 ?_ ?_ ?_ (smart_task_yield_MissStep fuel _ k3 hyy)
          · intro a; simpa using hm a
          · simp
          · simp
      unfold smart_get_current_task at h
      simp only [smart_enter_critical_current_task, smart_enter_critical_tasks] at h
      cases hcur : k.current_task with
      | none =>
        rw [hcur] at h
        exact key k.tasks s.wait_list (fun _ => rfl) h
      | some c =>
        rw [hcur] at h
        simp only [] at h
        cases happ : wait_list_append fuel
            (upd k.tasks c ((k.tasks c).setState TASK_STATE_WAITING)) s.wait_list c with
        | none => rw [happ] at h; cases h
        | some p =>
          obtain ⟨mem2, wl⟩ := p
          rw [happ] at h
          refine key mem2 wl ?_ h
          intro a
          exact (wait_list_append_miss _ _ _ _ _ _ happ a).trans
            (upd_miss _ _ _ (setState_miss _ _) a)

theorem smart_sem_try_wait_MissStep (k : Kernel) (sem : Option smart_semaphore_t) :
    MissStep k (smart_sem_try_wait k sem).1 := by
  unfold smart_sem_try_wait
  cases sem with
  | none => exact MissStep_of_frame _ _ (fun _ => rfl)
  | some s =>
    simp only []
    split
    · exact exit_enter_MissStep k
    · exact exit_enter_MissStep k

theorem smart_sem_post_MissStep (fuel : Nat) (k : Kernel) (sem : Option smart_semaphore_t)
    (r : Kernel × Option smart_semaphore_t × smart_sync_status_t)
    (h : smart_sem_post fuel k sem = some r) : MissStep k r.1 := by
  unfold smart_sem_post at h
  cases sem with
  | none =>
    rw [← Option.some.inj h]
    exact MissStep_of_frame _ _ (fun _ => rfl)
  | some s =>
    simp only [smart_enter_critical_tasks] at h
    cases hw : s.wait_list with
    | none =>
      rw [hw] at h
      rw [← Option.some.inj h]
      exact exit_enter_MissStep k
    | some task =>
      rw [hw] at h
      simp only [] at h
      cases hs : smart_schedule fuel (smart_exit_critical (setTasks (smart_enter_critical k)
          (upd k.tasks task (((k.tasks task).setNext none).setState TASK_STATE_READY)))) with
      | none => rw [hs] at h; cases h
      | some k3 =>
        rw [hs] at h
        rw [← Option.some.inj h]
        refine MissStep_frame_left k _ k3 ?_ ?_ ?_ (smart_schedule_MissStep fuel _ k3 hs)
        · intro a
          simp only [smart_exit_critical_tasks, setTasks_tasks]
          exact upd_miss _ _ _ ((setState_miss _ _).trans (setNext_miss _ _)) a
        · simp
        · simp

theorem smart_mutex_lock_MissStep (fuel : Nat) (k : Kernel) (mutex : Option smart_mutex_t)
    (r : Kernel × Option smart_mutex_t × smart_sync_status_t)
    (h : smart_mutex_lock fuel k mutex = some r) : MissStep k r.1 := by
  unfold smart_mutex_lock at h
  cases mutex with
  | none =>
    rw [← Option.some.inj h]
    exact MissStep_of_frame _ _ (fun _ => rfl)
  | some m =>
    simp only [smart_get_current_task] at h
    cases hcur : k.current_task with
    | none =>
      rw [hcur] at h
      rw [← Option.some.inj h]
      exact MissStep_of_frame _ _ (fun _ => rfl)
    | some current =>
      rw [hcur] at h
      simp only [smart_enter_critical_tasks] at h
      by_cases hl : m.locked = 0
      · rw [if_pos hl] at h
        rw [← Option.some.inj h]
        exact exit_enter_MissStep k
      · rw [if_neg hl] at h
        by_cases ho : m.owner = some current
        · rw [if_pos ho] at h
          rw [← Option.some.inj h]
          exact exit_enter_MissStep k
        · rw [if_neg ho] at h
          cases hown : m.owner with
          | none => rw [hown] at h; cases h
          | some owner =>
            rw [hown] at h
            simp only [] at h
            cases happ : wait_list_append fuel (lock_donate k.tasks current owner)
                m.wait_list current with
            | none => rw [happ] at h; cases h
            | some p =>
              obtain ⟨mem3, wl⟩ := p
              rw [happ] at h
              simp only [] at h
              cases hy : smart_task_yield fuel
                  (smart_exit_critical (setTasks (smart_enter_critical k) mem3)) with
              | none => rw [hy] at h; cases h
              | some k3 =>
                rw [hy] at h
                rw [← Option.some.inj h]
                refine MissStep_frame_left k _ k3 ?_ ?_ ?_
                  (smart_task_yield_MissStep fuel _ k3 hy)
                · intro a
                  simp only [smart_exit_critical_tasks, setTasks_tasks]
                  exact (wait_list_append_miss _ _ _ _ _ _ happ a).trans
                    (lock_donate_miss _ _ _ a)
                · simp
                · simp

theorem smart_mutex_try_lock_MissStep (k : Kernel) (mutex : Option smart_mutex_t) :
    MissStep k (smart_mutex_try_lock k mutex).1 := by
  unfold smart_mutex_try_lock
  cases mutex with
  | none => exact MissStep_of_frame _ _ (fun _ => rfl)
  | some m =>
    simp only [smart_get_current_task]
    cases k.current_task with
    | none => exact MissStep_of_frame _ _ (fun _ => rfl)
    | some current =>
      simp only []
      split
      · exact exit_enter_MissStep k
      · split
        · exact exit_enter_MissStep k
        · exact exit_enter_MissStep k

theorem smart_mutex_unlock_MissStep (fuel : Nat) (k : Kernel) (mutex : Option smart_mutex_t)
    (r : Kernel × Option smart_mutex_t × smart_sync_status_t)
    (h : smart_mutex_unlock fuel k mutex = some r) : MissStep k r.1 := by
  unfold smart_mutex_unlock at h
  cases mutex with
  | none =>
    rw [← Option.some.inj h]
    exact MissStep_of_frame _ _ (fun _ => rfl)
  | some m =>
    simp only [smart_get_current_task] at h
    cases hcur : k.current_task with
    | none =>
      rw [hcur] at h
      rw [← Option.some.inj h]
      exact MissStep_of_frame _ _ (fun _ => rfl)
    | some current =>
      rw [hcur] at h
      simp only [smart_enter_critical_tasks] at h
      by_cases ho : m.owner ≠ some current
      · rw [if_pos ho] at h
        rw [← Option.some.inj h]
        exact exit_enter_MissStep k
      · rw [if_neg ho] at h
        by_cases hl : wrap32 (m.lock_count + 4294967296 - 1) > 0
        · rw [if_pos hl] at h
          rw [← Option.some.inj h]
          exact exit_enter_MissStep k
        · rw [if_neg hl] at h
          have hm1 : ∀ a, (upd k.tasks current
              ((k.tasks current).setDeadline m.original_deadline) a).miss = (k.tasks a).miss :=
            fun a => upd_miss _ _ _ (setDeadline_miss _ _) a
          cases hw : m.wait_list with
          | none =>
            rw [hw] at h
            rw [← Option.some.inj h]
            refine MissStep_of_frame _ _ (fun a => ?_)
            simp only [smart_exit_critical_tasks, setTasks_tasks]
            exact hm1 a
          | some head =>
            rw [hw] at h
            simp only [] at h
            cases hsc : unlock_scan (upd k.tasks current
                ((k.tasks current).setDeadline m.original_deadline)) fuel (some head) head
                none none with
            | none => rw [hsc] at h; cases h
            | some p =>
              obtain ⟨best, prev_best⟩ := p
              rw [hsc] at h
              simp only [] at h
              cases hs : smart_schedule fuel (smart_exit_critical
                  (setTasks (smart_enter_critical k) (wait_list_unlink (upd k.tasks current
                    ((k.tasks current).setDeadline m.original_deadline)) head best
                    prev_best).1)) with
              | none => rw [hs] at h; cases h
              | some k3 =>
                rw [hs] at h
                rw [← Option.some.inj h]
                refine MissStep_frame_left k _ k3 ?_ ?_ ?_
                  (smart_schedule_MissStep fuel _ k3 hs)
                · intro a
                  simp only [smart_exit_critical_tasks, setTasks_tasks]
                  exact (wait_list_unlink_miss _ _ _ _ a).trans (hm1 a)
                · simp
                · simp

/-- An aperiodic task without a recorded miss keeps that through a step that
changes the counts as `MissStep` allows. -/
theorem MissStep_aperiodic (k k' : Kernel) (h : MissStep k k') (a : Nat)
    (hq : (k.tasks a).period = 0 → (k.tasks a).deadline_miss_count = 0) :
    (k'.tasks a).period = 0 → (k'.tasks a).deadline_miss_count = 0 := by
  intro hp
  obtain ⟨h1, h2⟩ := h a
  rw [h1] at hp
  rcases h2 with h2 | ⟨-, -, h3, -⟩
  · rw [h2]; exact hq hp
  · omega

theorem smart_task_create_aperiodic (k : Kernel) (task entry param stack stack_size period
    relative_deadline : Nat) (a : Nat)
    (hq : (k.tasks a).period = 0 → (k.tasks a).deadline_miss_count = 0) :
    ((smart_task_create k task entry param stack stack_size period
        relative_deadline).tasks a).period = 0 →
    ((smart_task_create k task entry param stack stack_size period
        relative_deadline).tasks a).deadline_miss_count = 0 := by
  obtain ⟨t, h1, -, -, -, -, -, -, -, -, -, -, -, -, -, -, -, hmi⟩ :=
    smart_task_create_tasks k task entry param stack stack_size period relative_deadline
  rw [h1]
  by_cases ha : a = task
  · subst ha
    rw [upd_same]
    exact fun _ => hmi
  · rw [upd_other _ _ _ _ ha]
    exact hq

theorem smart_os_start_MissStep (fuel : Nat) (k k' : Kernel)
    (h : smart_os_start fuel k = some k') : MissStep k k' := by
  unfold smart_os_start at h
  cases hs : smart_schedule fuel k with
  | none => rw [hs] at h; cases h
  | some k1 =>
    rw [hs] at h
    simp only [] at h
    by_cases hc : k1.current_task ≠ none
    · rw [if_pos hc] at h
      rw [← Option.some.inj h]
      exact MissStep_frame_right k k1 _ rfl (smart_schedule_MissStep fuel k k1 hs)
    · rw [if_neg hc] at h; cases h

theorem smart_sem_init_MissStep (k : Kernel) (sem : Option smart_semaphore_t) (i m : Nat) :
    MissStep k (smart_sem_init k sem i m).1 := by
  unfold smart_sem_init
  cases sem with
  | none => exact MissStep_of_frame _ _ (fun _ => rfl)
  | some s =>
    simp only []
    split
    · exact MissStep_of_frame _ _ (fun _ => rfl)
    · exact exit_enter_MissStep k

theorem smart_mutex_init_MissStep (k : Kernel) (mutex : Option smart_mutex_t) :
    MissStep k (smart_mutex_init k mutex).1 := by
  unfold smart_mutex_init
  cases mutex with
  | none => exact MissStep_of_frame _ _ (fun _ => rfl)
  | some s => exact exit_enter_MissStep k

theorem PlainCall_MissStep (fuel : Nat) :
    ∀ (k k' : Kernel), PlainCall fuel k k' → MissStep k k'
  | _, _, .schedule k k' h => smart_schedule_MissStep fuel k k' h
  | _, _, .start k k' h => smart_os_start_MissStep fuel k k' h
  | _, _, .yield k k' h => smart_task_yield_MissStep fuel k k' h
  | _, _, .delay k k' ticks h => smart_delay_MissStep fuel k k' ticks h
  | _, _, .switch k _ => MissStep_of_frame k _ (fun _ => rfl)
  | _, _, .sem_init k sem i m => smart_sem_init_MissStep k sem i m
  | _, _, .sem_wait k sem r h => smart_sem_wait_MissStep fuel k sem r h
  | _, _, .sem_try_wait k sem => smart_sem_try_wait_MissStep k sem
  | _, _, .mutex_init k mutex => smart_mutex_init_MissStep k mutex
  | _, _, .mutex_lock k mutex r h => smart_mutex_lock_MissStep fuel k mutex r h
  | _, _, .mutex_try_lock k mutex => smart_mutex_try_lock_MissStep k mutex

theorem WakeCall_MissStep (fuel : Nat) :
    ∀ (k k' : Kernel), WakeCall fuel k k' → MissStep k k'
  | _, _, .tick k k' h => SysTick_Handler_MissStep fuel k k' h
  | _, _, .sem_post k sem r h => smart_sem_post_MissStep fuel k sem r h
  | _, _, .mutex_unlock k mutex r h => smart_mutex_unlock_MissStep fuel k mutex r h

theorem KernelCall_MissStep (fuel : Nat) (k k' : Kernel) (h : KernelCall fuel k k') :
    MissStep k k' := by
  rcases h with h | h
  · exact PlainCall_MissStep fuel k k' h
  · exact WakeCall_MissStep fuel k k' h

theorem KernelCalls_aperiodic (fuel : Nat) (k k' : Kernel)
    (h : Relation.ReflTransGen (KernelCall fuel) k k') (a : Nat) :
    (k'.tasks a).period = (k.tasks a).period ∧
    ((k.tasks a).period = 0 →
      (k'.tasks a).deadline_miss_count = (k.tasks a).deadline_miss_count) := by
  induction h with
  | refl => exact ⟨rfl, fun _ => rfl⟩
  | tail _ hstep ih =>
    obtain ⟨h1, h2⟩ := KernelCall_MissStep fuel _ _ hstep a
    refine ⟨h1.trans ih.1, fun hp => ?_⟩
    rcases h2 with h2 | ⟨-, -, h3, -⟩
    · exact h2.trans (ih.2 hp)
    · rw [ih.1] at h3; omega

theorem smart_schedule_miss_ok (N fuel : Nat) (k : Kernel) (hk : KernelOk N k)
    (hf : N ≤ fuel) :
    ∃ k', smart_schedule fuel k = some k' ∧ ∀ a,
      ((k.scheduler_started = true ∧ k.current_task = some a ∧ k'.next_task ≠ some a) →
        (k'.tasks a).deadline_miss_count =
          (if k.os_tick > (k.tasks a).deadline ∧ (k.tasks a).period > 0 then
            wrap32 ((k.tasks a).deadline_miss_count + 1)
           else (k.tasks a).deadline_miss_count)) ∧
      (¬ (k.scheduler_started = true ∧ k.current_task = some a ∧ k'.next_task ≠ some a) →
        (k'.tasks a).deadline_miss_count = (k.tasks a).deadline_miss_count) := by
  obtain ⟨k', h, -⟩ := smart_schedule_ok N fuel k hk hf
  exact ⟨k', h, fun a => (smart_schedule_miss fuel k k' h a).2⟩

/-- C29: `smart_schedule` on a well-formed system returns, and the deadline-miss
count of the task it switches out (the current task of a started scheduler,
when another task is selected) becomes one more (as a `uint32_t`) when
`os_tick > deadline` and `period > 0` and stays otherwise, as does the count of
every task that is not switched out; every other kernel call, tick-handler run
and context switch changes a count only through that rule; a task created by
`smart_task_create` starts with count 0, and through any sequence of calls an
aperiodic task keeps its count. -/
theorem deadline_miss_counted_at_switch_out (N fuel : Nat) (k : Kernel)
    (hk : KernelOk N k) (hf : N ≤ fuel) :
    (∃ k', smart_schedule fuel k = some k' ∧ ∀ a,
      ((k.scheduler_started = true ∧ k.current_task = some a ∧ k'.next_task ≠ some a) →
        (k'.tasks a).deadline_miss_count =
          (if k.os_tick > (k.tasks a).deadline ∧ (k.tasks a).period > 0 then
            wrap32 ((k.tasks a).deadline_miss_count + 1)
           else (k.tasks a).deadline_miss_count)) ∧
      (¬ (k.scheduler_started = true ∧ k.current_task = some a ∧ k'.next_task ≠ some a) →
        (k'.tasks a).deadline_miss_count = (k.tasks a).deadline_miss_count)) ∧
    (∀ k', KernelCall fuel k k' → MissStep k k') ∧
    (∀ task entry param stack stack_size period relative_deadline,
      ((smart_task_create k task entry param stack stack_size period
        relative_deadline).tasks task).deadline_miss_count = 0) ∧
    (∀ k' a, Relation.ReflTransGen (KernelCall fuel) k k' →
      (k.tasks a).period = 0 → (k.tasks a).deadline_miss_count = 0 →
      (k'.tasks a).period = 0 ∧ (k'.tasks a).deadline_miss_count = 0) := by
  refine ⟨smart_schedule_miss_ok N fuel k hk hf, KernelCall_MissStep fuel k, ?_, ?_⟩
  · intro task entry param stack stack_size period relative_deadline
    obtain ⟨t, h1, -, -, -, -, -, -, -, -, -, -, -, -, -, -, -, hmi⟩ :=
      smart_task_create_tasks k task entry param stack stack_size period relative_deadline
    rw [h1, upd_same]
    exact hmi
  · intro k' a hr hp hc
    obtain ⟨h1, h2⟩ := KernelCalls_aperiodic fuel k k' hr a
    exact ⟨h1.trans hp, (h2 hp).trans hc⟩

theorem deadline_miss_counted_at_switch_out_witness :
    ∃ k', smart_schedule 4 lateKernel = some k' ∧ ∀ a,
      ((lateKernel.scheduler_started = true ∧ lateKernel.current_task = some a ∧
          k'.next_task ≠ some a) →
        (k'.tasks a).deadline_miss_count =
          (if lateKernel.os_tick > (lateKernel.tasks a).deadline ∧
              (lateKernel.tasks a).period > 0 then
            wrap32 ((lateKernel.tasks a).deadline_miss_count + 1)
           else (lateKernel.tasks a).deadline_miss_count)) ∧
      (¬ (lateKernel.scheduler_started = true ∧ lateKernel.current_task = some a ∧
          k'.next_task ≠ some a) →
        (k'.tasks a).deadline_miss_count = (lateKernel.tasks a).deadline_miss_count) :=
  (deadline_miss_counted_at_switch_out 3 4 lateKernel (by decide) (by decide)).1

/-! ## The tick handler -/

theorem SysTick_Handler_eq (fuel : Nat) (k : Kernel) :
    SysTick_Handler fuel k = tick_wakeups fuel { k with os_tick := wrap32 (k.os_tick + 1) } :=
  rfl

theorem tick_scan_step_due (now fuel : Nat) (mem : Nat → smart_task) (a : Nat) (b : Bool)
    (h : due now (mem a) = true) :
    tick_scan now (fuel + 1) mem (some a) b =
      tick_scan now fuel (upd mem a ((mem a).setState TASK_STATE_READY)) (mem a).next true := by
  unfold due at h
  simp only [Bool.or_eq_true, Bool.and_eq_true, decide_eq_true_eq] at h
  rw [tick_scan]
  rcases h with ⟨h1, h2⟩ | ⟨h1, h2⟩
  · rw [if_pos h1, if_pos h2]; rfl
  · have h3 : ¬ (mem a).state = TASK_STATE_WAITING := by
      rw [h1]; decide
    rw [if_neg h3, if_pos h1, if_pos h2]; rfl

theorem tick_scan_step_not_due (now fuel : Nat) (mem : Nat → smart_task) (a : Nat) (b : Bool)
    (h : due now (mem a) = false) :
    tick_scan now (fuel + 1) mem (some a) b = tick_scan now fuel mem (mem a).next b := by
  unfold due at h
  simp only [Bool.or_eq_false_iff, Bool.and_eq_false_imp, decide_eq_true_eq,
    decide_eq_false_iff_not] at h
  rw [tick_scan]
  by_cases h1 : (mem a).state = TASK_STATE_WAITING
  · rw [if_pos h1, if_neg (by have := h.1 h1; omega)]
  · rw [if_neg h1]
    by_cases h2 : (mem a).state = TASK_STATE_DELAYED
    · rw [if_pos h2, if_neg (by have := h.2 h2; omega)]
    · rw [if_neg h2]

/-- The wake-up scan over a terminated task list `l`: it returns, every due
task of the list is Ready afterwards, nothing else is written, and the flag is
raised exactly when some task of the list was due. -/
theorem tick_scan_spec (now : Nat) :
    ∀ (l : List Nat) (fuel : Nat) (mem : Nat → smart_task) (p : Option Nat) (b : Bool),
      isChain mem p l → l.length ≤ fuel →
      ∃ mem', tick_scan now fuel mem p b =
          some (mem', b || l.any (fun a => due now (mem a))) ∧
        (∀ a, a ∈ l → due now (mem a) = true →
          mem' a = (mem a).setState TASK_STATE_READY) ∧
        (∀ a, ¬ (a ∈ l ∧ due now (mem a) = true) → mem' a = mem a)
  | [], fuel, mem, p, b, hc, _ => by
    have hp : p = none := hc
    subst hp
    refine ⟨mem, ?_, by simp, fun _ _ => rfl⟩
    cases fuel <;> simp [tick_scan]
  | x :: l, 0, mem, p, b, _, hlen => by simp at hlen
  | x :: l, fuel + 1, mem, p, b, hc, hlen => by
    obtain ⟨hp, hrest⟩ := (isChain_cons mem p x l).mp hc
    subst hp
    have hnd : x ∉ l := (List.nodup_cons.mp (isChain_nodup mem (x :: l) _ hc)).1
    have hlen' : l.length ≤ fuel := by simpa using hlen
    by_cases hd : due now (mem x) = true
    · rw [tick_scan_step_due now fuel mem x b hd]
      have hrest' : isChain (upd mem x ((mem x).setState TASK_STATE_READY)) (mem x).next l :=
        isSeg_upd_notin mem x _ none l _ hnd hrest
      obtain ⟨mem', h1, h2, h3⟩ := tick_scan_spec now l fuel _ _ true hrest' hlen'
      have hsame : ∀ a, a ∈ l → upd mem x ((mem x).setState TASK_STATE_READY) a = mem a := by
        intro a ha
        exact upd_other _ _ _ _ (fun e => hnd (e ▸ ha))
      refine ⟨mem', ?_, ?_, ?_⟩
      · rw [h1]
        simp only [List.any_cons, hd, Bool.true_or, Bool.or_true]
      · intro a ha hda
        rcases List.mem_cons.mp ha with e | ha'
        · subst e
          rw [h3 a (fun hh => hnd hh.1), upd_same]
        · rw [h2 a ha' (by rw [hsame a ha']; exact hda), hsame a ha']
      · intro a hna
        have hax : a ≠ x := fun e => hna ⟨e ▸ List.mem_cons_self _ _, e ▸ hd⟩
        rw [h3 a ?_, upd_other _ _ _ _ hax]
        intro hh
        apply hna
        refine ⟨List.mem_cons_of_mem _ hh.1, ?_⟩
        rw [← hsame a hh.1]; exact hh.2
    · have hd' : due now (mem x) = false := by simpa using hd
      rw [tick_scan_step_not_due now fuel mem x b hd']
      obtain ⟨mem', h1, h2, h3⟩ := tick_scan_spec now l fuel mem _ b hrest hlen'
      refine ⟨mem', ?_, ?_, ?_⟩
      · rw [h1]
        simp only [List.any_cons, hd', Bool.false_or]
      · intro a ha hda
        rcases List.mem_cons.mp ha with e | ha'
        · subst e; rw [hd'] at hda; cases hda
        · exact h2 a ha' hda
      · intro a hna
        apply h3
        intro hh
        exact hna ⟨List.mem_cons_of_mem _ hh.1, hh.2⟩

theorem task_list_chain (N : Nat) (k : Kernel) (hk : KernelOk N k) :
    ∃ l, isChain k.tasks k.task_list l ∧ l.length ≤ N ∧ ∀ x ∈ l, x < N :=
  Acyclic_chain N k.tasks hk.2.2.2.1 k.task_list hk.2.2.1

/-- One run of the wake-up part of the tick handler on a well-formed kernel
with task list `l`. -/
theorem tick_wakeups_spec (N fuel : Nat) (k : Kernel) (l : List Nat)
    (hk : KernelOk N k) (hf : N ≤ fuel) (hl : isChain k.tasks k.task_list l) :
    ∃ k' mem, tick_wakeups fuel k = some k' ∧ KernelOk N k' ∧
      (∀ a, a ∈ l → due k.os_tick (k.tasks a) = true →
        mem a = (k.tasks a).setState TASK_STATE_READY) ∧
      (∀ a, ¬ (a ∈ l ∧ due k.os_tick (k.tasks a) = true) → mem a = k.tasks a) ∧
      (∀ a, (k'.tasks a).core = (mem a).core) ∧
      k'.os_tick = k.os_tick ∧ k'.task_list = k.task_list ∧
      k'.scheduler_started = k.scheduler_started ∧
      (k.current_task ≠ none → k'.current_task = k.current_task) ∧
      (l.any (fun a => due k.os_tick (k.tasks a)) = true →
        smart_schedule fuel (setTasks k mem) = some k') ∧
      (l.any (fun a => due k.os_tick (k.tasks a)) = false → k' = k) := by
  obtain ⟨l0, hl0, hlen0, -⟩ := task_list_chain N k hk
  have hll : l = l0 := isChain_unique k.tasks l l0 _ hl hl0
  subst hll
  obtain ⟨mem, hscan, hdue, hnot⟩ :=
    tick_scan_spec k.os_tick l fuel k.tasks k.task_list false hl (le_trans hlen0 hf)
  have hfr : ∀ a, mem a = (k.tasks a).setState (mem a).state :=
    tick_scan_frame _ _ _ _ _ _ _ hscan
  have hk2 : KernelOk N (setTasks k mem) := by
    refine KernelOk_setTasks N k mem ?_ ?_ hk
    · refine Acyclic_congr N k.tasks mem ?_ hk.2.2.2.1
      intro a; rw [hfr a]; rfl
    · intro a; rw [hfr a]; exact ⟨rfl, rfl⟩
  unfold tick_wakeups
  rw [hscan]
  simp only [Bool.false_or]
  cases hany : l.any (fun a => due k.os_tick (k.tasks a)) with
  | true =>
    simp only [if_true]
    obtain ⟨k', hs, hok, hcore, htl, htick, hst, hcur⟩ :=
      smart_schedule_ok N fuel (setTasks k mem) hk2 hf
    exact ⟨k', mem, hs, hok, hdue, hnot, hcore, htick, htl, hst, hcur, fun _ => hs,
      fun h => by cases h⟩
  | false =>
    simp only [Bool.false_eq_true, if_false]
    have hmem : mem = k.tasks := by
      funext a
      apply hnot
      rintro ⟨ha, hd⟩
      have := List.any_eq_false.mp hany a ha
      exact this hd
    refine ⟨setTasks k mem, mem, rfl, hk2, hdue, hnot, fun _ => rfl, rfl, rfl, rfl,
      fun _ => rfl, fun h => h.elim, fun _ => ?_⟩
    rw [hmem]
    rfl

/-- C21: a periodic timer of period 2 whose callback calls `smart_timer_stop`
on it.  Stopped from a task while Running it leaves the active list and two
ticks invoke no callback; but during its expiry the timer is in state Expired,
so the `smart_timer_stop` call made by the callback returns 0 and changes no
timer field, after the callback the tick handler re-arms the timer and links it
again, and two ticks later the callback is invoked a second time. -/
theorem self_stop_in_callback_ignored :
    ((smart_timer_stop 16 selfStopStarted.1 selfStopStarted.2 (some 0)).map
        (fun r => r.2.2)) = some 0 ∧
    stoppedEarly.2.active_timer_list = none ∧
    (stoppedEarly.2.timer_pool 0).state = TIMER_STOPPED ∧
    ((timer_ticks stopSelfCallbacks 16 2 stoppedEarly).map
        (fun s => s.2.timer_stats.callback_count)) = some 0 ∧
    (selfStopStarted.2.timer_pool 0).type = TIMER_PERIODIC ∧
    (selfStopStarted.2.timer_pool 0).callback = 0x08003000 ∧
    (selfStopStarted.2.timer_pool 0).callback_arg = 0 ∧
    (selfStopStarted.2.timer_pool 0).id ≠ 0 ∧
    (selfStopExpiring.2.timer_pool 0).state = TIMER_EXPIRED ∧
    selfStopExpiring.2.active_timer_list = none ∧
    ((smart_timer_stop 16 selfStopExpiring.1 selfStopExpiring.2 (some 0)).map
        (fun r => (r.2.2, r.2.1.timer_pool 0, r.2.1.active_timer_list))) =
      some (0, selfStopExpiring.2.timer_pool 0, none) ∧
    (timer_ticks stopSelfCallbacks 16 4 selfStopStarted).isSome = true ∧
    (selfStopAfter 2).2.timer_stats.callback_count = 1 ∧
    (selfStopAfter 2).2.active_timer_list = some 0 ∧
    ((selfStopAfter 2).2.timer_pool 0).state = TIMER_RUNNING ∧
    ((selfStopAfter 2).2.timer_pool 0).remaining_ms = 2 ∧
    (selfStopAfter 4).2.timer_stats.callback_count = 2 ∧
    (selfStopAfter 4).2.active_timer_list = some 0 := by
  decide

/-! ## The active timer list -/

theorem isTimerList_iff_seg (pool : Nat → smart_timer_t) :
    ∀ (l : List Nat) (p : Option Nat), isTimerList pool p l ↔ isTimerSeg pool p l none
  | [], _ => Iff.rfl
  | t :: l, _ => by
    constructor
    · intro h; exact ⟨h.1, (isTimerList_iff_seg pool l _).mp h.2⟩
    · intro h; exact ⟨h.1, (isTimerList_iff_seg pool l _).mpr h.2⟩

theorem isTimerSeg_congr (pool pool' : Nat → smart_timer_t) (q : Option Nat) :
    ∀ (l : List Nat) (p : Option Nat), (∀ a ∈ l, (pool' a).next = (pool a).next) →
      isTimerSeg pool p l q → isTimerSeg pool' p l q
  | [], _, _, hc => hc
  | a :: l, _, h, hc =>
    ⟨hc.1, by
      rw [h a (List.mem_cons_self _ _)]
      exact isTimerSeg_congr pool pool' q l _
        (fun x hx => h x (List.mem_cons_of_mem _ hx)) hc.2⟩

theorem isTimerSeg_append (pool : Nat → smart_timer_t) (q : Option Nat) :
    ∀ (l1 l2 : List Nat) (p : Option Nat),
      isTimerSeg pool p (l1 ++ l2) q ↔ ∃ r, isTimerSeg pool p l1 r ∧ isTimerSeg pool r l2 q
  | [], l2, p => by
    constructor
    · intro h; exact ⟨p, rfl, h⟩
    · rintro ⟨r, h1, h2⟩
      have : p = r := h1
      subst this; exact h2
  | a :: l1, l2, p => by
    constructor
    · intro h
      obtain ⟨hp, hrest⟩ := h
      obtain ⟨r, h1, h2⟩ := (isTimerSeg_append pool q l1 l2 _).mp hrest
      exact ⟨r, ⟨hp, h1⟩, h2⟩
    · rintro ⟨r, ⟨hp, h1⟩, h2⟩
      exact ⟨hp, (isTimerSeg_append pool q l1 l2 _).mpr ⟨r, h1, h2⟩⟩

theorem isTimerSeg_unique (pool : Nat → smart_timer_t) :
    ∀ (l1 l2 : List Nat) (p : Option Nat),
      isTimerSeg pool p l1 none → isTimerSeg pool p l2 none → l1 = l2
  | [], [], _, _, _ => rfl
  | [], b :: l2, p, h1, h2 => by
    have e1 : p = none := h1
    have e2 : p = some b := h2.1
    rw [e1] at e2; cases e2
  | a :: l1, [], p, h1, h2 => by
    have e1 : p = none := h2
    have e2 : p = some a := h1.1
    rw [e1] at e2; cases e2
  | a :: l1, b :: l2, p, h1, h2 => by
    have e1 : p = some a := h1.1
    have e2 : p = some b := h2.1
    rw [e1] at e2
    cases e2
    rw [isTimerSeg_unique pool l1 l2 _ h1.2 h2.2]

theorem isTimerSeg_nodup (pool : Nat → smart_timer_t) :
    ∀ (l : List Nat) (p : Option Nat), isTimerSeg pool p l none → l.Nodup
  | [], _, _ => List.nodup_nil
  | a :: l, p, h => by
    refine List.nodup_cons.mpr ⟨?_, isTimerSeg_nodup pool l _ h.2⟩
    intro ha
    obtain ⟨l1, l2, hl⟩ := List.append_of_mem ha
    have h2 : isTimerSeg pool (pool a).next (l1 ++ a :: l2) none := hl ▸ h.2
    obtain ⟨r, -, hr⟩ := (isTimerSeg_append pool none l1 (a :: l2) _).mp h2
    have hr1 : r = some a := hr.1
    have h3 : isTimerSeg pool (some a) (a :: l2) none := hr1 ▸ hr
    have h4 : isTimerSeg pool (some a) (a :: l) none := ⟨rfl, h.2⟩
    have h5 := isTimerSeg_unique pool _ _ _ h3 h4
    have h6 : l2.length = l.length := by
      have := congrArg List.length h5
      simpa using this
    have h7 := congrArg List.length hl
    simp at h7
    omega

theorem isTimerSeg_snoc (pool : Nat → smart_timer_t) (l : List Nat) (p : Option Nat)
    (t : Nat) (q : Option Nat) :
    isTimerSeg pool p (l ++ [t]) q ↔ isTimerSeg pool p l (some t) ∧ (pool t).next = q := by
  rw [isTimerSeg_append]
  constructor
  · rintro ⟨r, h1, h2, h3⟩
    subst h2
    exact ⟨h1, h3⟩
  · rintro ⟨h1, h2⟩
    exact ⟨some t, h1, rfl, h2⟩

/-! ## The expiry branch -/

theorem timer_count_down_pool (ts : Timers) (t : Nat) :
    (timer_count_down ts t).timer_pool =
      updAt ts.timer_pool t
        ((ts.timer_pool t).setRemaining ((ts.timer_pool t).remaining_ms - 1)) ∧
    (timer_count_down ts t).active_timer_list = ts.active_timer_list ∧
    (timer_count_down ts t).timer_pool_init = ts.timer_pool_init := by
  unfold timer_count_down
  by_cases h : (ts.timer_pool t).remaining_ms > 0
  · rw [if_pos h]; exact ⟨rfl, rfl, rfl⟩
  · rw [if_neg h]
    refine ⟨?_, rfl, rfl⟩
    have h0 : (ts.timer_pool t).remaining_ms = 0 := by omega
    funext x
    by_cases hx : x = t
    · subst hx
      rw [updAt_same]
      cases hv : ts.timer_pool x
      rw [hv] at h0
      simp only [smart_timer_t.setRemaining] at h0 ⊢
      simp only [h0]
    · rw [updAt_other _ _ _ _ hx]

theorem timer_expire_fields (ts : Timers) (t : Nat) (prev next : Option Nat) :
    (timer_expire ts t prev next).timer_pool =
      (match prev with
        | some p =>
          updAt (updAt ts.timer_pool t ((ts.timer_pool t).setState TIMER_EXPIRED)) p
            ((updAt ts.timer_pool t ((ts.timer_pool t).setState TIMER_EXPIRED) p).setNext next)
        | none => updAt ts.timer_pool t ((ts.timer_pool t).setState TIMER_EXPIRED)) ∧
    (timer_expire ts t prev next).active_timer_list =
      (match prev with
        | some _ => ts.active_timer_list
        | none => next) ∧
    (timer_expire ts t prev next).timer_pool_init = ts.timer_pool_init := by
  cases prev with
  | none => exact ⟨rfl, rfl, rfl⟩
  | some p => exact ⟨rfl, rfl, rfl⟩

theorem timer_rearm_fields (ts : Timers) (t : Nat) :
    (timer_rearm ts t).timer_pool =
      updAt ts.timer_pool t
        (if (ts.timer_pool t).type = TIMER_PERIODIC then
          (((ts.timer_pool t).setRemaining (ts.timer_pool t).period_ms).setState
            TIMER_RUNNING).setNext ts.active_timer_list
         else (ts.timer_pool t).setNext none) ∧
    (timer_rearm ts t).active_timer_list =
      (if (ts.timer_pool t).type = TIMER_PERIODIC then some t else ts.active_timer_list) ∧
    (timer_rearm ts t).timer_pool_init = ts.timer_pool_init := by
  unfold timer_rearm
  by_cases h : (ts.timer_pool t).type = TIMER_PERIODIC
  · simp only [if_pos h]
    exact ⟨rfl, rfl, rfl⟩
  · simp only [if_neg h]
    exact ⟨rfl, rfl, rfl⟩

/-- The timers after the expiry branch when the callback leaves them alone. -/
theorem timer_fire_fields (cb : Callbacks) (k : Kernel) (ts : Timers) (t : Nat)
    (prev next : Option Nat) (hcb : ∀ f a k1 ts1, (cb f a (k1, ts1)).2 = ts1) :
    (timer_fire cb k ts t prev next).2.timer_pool =
      (timer_rearm (timer_expire ts t prev next) t).timer_pool ∧
    (timer_fire cb k ts t prev next).2.active_timer_list =
      (timer_rearm (timer_expire ts t prev next) t).active_timer_list ∧
    (timer_fire cb k ts t prev next).2.timer_pool_init = ts.timer_pool_init := by
  have hE := timer_expire_fields ts t prev next
  have hR : ∀ R : Timers, R.timer_pool = (timer_expire ts t prev next).timer_pool →
      R.active_timer_list = (timer_expire ts t prev next).active_timer_list →
      R.timer_pool_init = (timer_expire ts t prev next).timer_pool_init →
      (timer_rearm R t).timer_pool =
        (timer_rearm (timer_expire ts t prev next) t).timer_pool ∧
      (timer_rearm R t).active_timer_list =
        (timer_rearm (timer_expire ts t prev next) t).active_timer_list ∧
      (timer_rearm R t).timer_pool_init = ts.timer_pool_init := by
    intro R h1 h2 h3
    obtain ⟨a1, a2, a3⟩ := timer_rearm_fields R t
    obtain ⟨b1, b2, _⟩ := timer_rearm_fields (timer_expire ts t prev next) t
    rw [a1, a2, a3, b1, b2, h1, h2, h3]
    exact ⟨rfl, rfl, hE.2.2⟩
  unfold timer_fire
  by_cases hc : ((timer_expire ts t prev next).timer_pool t).callback ≠ 0
  · simp only [if_pos hc]
    obtain ⟨r1, r2, r3, -⟩ :=
      timer_run_callback_untouched cb k (timer_expire ts t prev next) t hcb
    exact hR _ r1 r3 r2
  · simp only [if_neg hc]
    exact ⟨trivial, trivial, (hR _ rfl rfl rfl).2.2⟩

theorem isTimerSeg_updAt_notin (pool : Nat → smart_timer_t) (a : Nat) (v : smart_timer_t)
    (q : Option Nat) (l : List Nat) (p : Option Nat) (hn : a ∉ l)
    (hc : isTimerSeg pool p l q) : isTimerSeg (updAt pool a v) p l q := by
  refine isTimerSeg_congr pool _ q l p ?_ hc
  intro x hx
  rw [updAt_other pool a x v (fun h => hn (h ▸ hx))]

/-- The expiry branch keeps the list structure: with the active list split
into `H ++ V`, then the expiring timer `t`, then `S`, and `prev` the last timer
of `V`, the list afterwards is `H2 ++ V` followed by `S`, where `H2` holds
timers of `H` and possibly `t`. -/
theorem timer_fire_chain (cb : Callbacks) (k : Kernel) (ts : Timers) (t : Nat)
    (prev : Option Nat) (H V S : List Nat)
    (hcb : ∀ f a k1 ts1, (cb f a (k1, ts1)).2 = ts1)
    (hA : isTimerSeg ts.timer_pool ts.active_timer_list (H ++ V) (some t))
    (hS : isTimerSeg ts.timer_pool (ts.timer_pool t).next S none)
    (hprev : prev = V.getLast?) :
    ∃ H2, isTimerSeg (timer_fire cb k ts t prev (ts.timer_pool t).next).2.timer_pool
        (timer_fire cb k ts t prev (ts.timer_pool t).next).2.active_timer_list (H2 ++ V)
        (ts.timer_pool t).next ∧
      isTimerSeg (timer_fire cb k ts t prev (ts.timer_pool t).next).2.timer_pool
        (ts.timer_pool t).next S none ∧
      (∀ y ∈ H2, (y = t ∧ (ts.timer_pool t).type = TIMER_PERIODIC) ∨ y ∈ H) ∧
      ((timer_fire cb k ts t prev (ts.timer_pool t).next).2.timer_pool t).setNext none =
        (if (ts.timer_pool t).type = TIMER_PERIODIC then
          ((ts.timer_pool t).setRemaining (ts.timer_pool t).period_ms).setState TIMER_RUNNING
         else (ts.timer_pool t).setState TIMER_EXPIRED).setNext none ∧
      (∀ x, x ≠ t →
        ((timer_fire cb k ts t prev (ts.timer_pool t).next).2.timer_pool x).setNext none =
          (ts.timer_pool x).setNext none) ∧
      (∀ x, x ∈ S →
        (timer_fire cb k ts t prev (ts.timer_pool t).next).2.timer_pool x = ts.timer_pool x) ∧
      (timer_fire cb k ts t prev (ts.timer_pool t).next).2.timer_pool_init =
        ts.timer_pool_init ∧
      (timer_expire ts t prev (ts.timer_pool t).next).timer_pool t =
        (ts.timer_pool t).setState TIMER_EXPIRED := by
  -- the whole list and its distinctness
  have hfull : isTimerSeg ts.timer_pool ts.active_timer_list ((H ++ V) ++ (t :: S)) none :=
    (isTimerSeg_append _ _ _ _ _).mpr ⟨some t, hA, rfl, hS⟩
  have hnd := isTimerSeg_nodup _ _ _ hfull
  have hndHV : (H ++ V).Nodup := (List.nodup_append.mp hnd).1
  have hdisj := (List.nodup_append.mp hnd).2.2
  have htHV : t ∉ H ++ V := fun h => hdisj h (List.mem_cons_self _ _) 
  have htS : t ∉ S := (List.nodup_cons.mp (List.nodup_append.mp hnd).2.1).1
  have hSHV : ∀ x ∈ S, x ∉ H ++ V := fun x hx h => hdisj h (List.mem_cons_of_mem _ hx)
  obtain ⟨f1, f2, f3⟩ := timer_fire_fields cb k ts t prev (ts.timer_pool t).next hcb
  obtain ⟨e1, e2, -⟩ := timer_expire_fields ts t prev (ts.timer_pool t).next
  obtain ⟨r1, r2, -⟩ := timer_rearm_fields (timer_expire ts t prev (ts.timer_pool t).next) t
  rw [f1, f2, f3, r1, r2]
  -- the list after the unlink step
  have hE : ∃ Hm, isTimerSeg (timer_expire ts t prev (ts.timer_pool t).next).timer_pool
        (timer_expire ts t prev (ts.timer_pool t).next).active_timer_list (Hm ++ V)
        (ts.timer_pool t).next ∧
      isTimerSeg (timer_expire ts t prev (ts.timer_pool t).next).timer_pool
        (ts.timer_pool t).next S none ∧
      (∀ y ∈ Hm, y ∈ H) ∧
      (timer_expire ts t prev (ts.timer_pool t).next).timer_pool t =
        (ts.timer_pool t).setState TIMER_EXPIRED ∧
      (∀ x, x ≠ t →
        ((timer_expire ts t prev (ts.timer_pool t).next).timer_pool x).setNext none =
          (ts.timer_pool x).setNext none) ∧
      (∀ x, x ∈ S →
        (timer_expire ts t prev (ts.timer_pool t).next).timer_pool x = ts.timer_pool x) := by
    rw [e1, e2]
    rcases List.eq_nil_or_concat V with hV | ⟨V0, p, hV⟩
    · subst hV
      have hp : prev = none := by simpa using hprev
      subst hp
      refine ⟨[], rfl, ?_, by simp, ?_, ?_, ?_⟩
      · exact isTimerSeg_updAt_notin _ _ _ _ _ _ htS hS
      · simp only []; rw [updAt_same]
      · intro x hx; simp only []; rw [updAt_other _ _ _ _ hx]
      · intro x hx
        simp only []
        rw [updAt_other _ _ _ _ (fun e : x = t => htS (e ▸ hx))]
    · rw [List.concat_eq_append] at hV
      subst hV
      have hp : prev = some p := by simpa using hprev
      subst hp
      have hpt : p ≠ t := by
        intro e
        apply htHV
        rw [← e]
        simp
      have hA' : isTimerSeg ts.timer_pool ts.active_timer_list ((H ++ V0) ++ [p]) (some t) := by
        rw [List.append_assoc]; exact hA
      obtain ⟨hA1, hA2⟩ := (isTimerSeg_snoc _ _ _ _ _).mp hA'
      have hndp : p ∉ H ++ V0 := by
        have : ((H ++ V0) ++ [p]).Nodup := by rw [List.append_assoc]; exact hndHV
        have h2 := (List.nodup_append.mp this).2.2
        intro hmem
        exact h2 hmem (List.mem_singleton_self p)
      have htHV0 : t ∉ H ++ V0 := by
        intro h
        apply htHV
        rw [← List.append_assoc]
        exact List.mem_append_left _ h
      have hpS : p ∉ S := by
        intro h
        apply hSHV p h
        simp
      simp only []
      refine ⟨H, ?_, ?_, fun _ h => h, ?_, ?_, ?_⟩
      · rw [← List.append_assoc]
        refine (isTimerSeg_snoc _ _ _ _ _).mpr ⟨?_, ?_⟩
        · exact isTimerSeg_updAt_notin _ _ _ _ _ _ hndp
            (isTimerSeg_updAt_notin _ _ _ _ _ _ htHV0 hA1)
        · rw [updAt_same]; rfl
      · exact isTimerSeg_updAt_notin _ _ _ _ _ _ hpS
          (isTimerSeg_updAt_notin _ _ _ _ _ _ htS hS)
      · rw [updAt_other _ _ _ _ hpt.symm, updAt_same]
      · intro x hx
        by_cases hxp : x = p
        · subst hxp
          rw [updAt_same, updAt_other _ _ _ _ hx]
          rfl
        · rw [updAt_other _ _ _ _ hxp, updAt_other _ _ _ _ hx]
      · intro x hx
        rw [updAt_other _ _ _ _ (fun e : x = p => hpS (e ▸ hx)),
          updAt_other _ _ _ _ (fun e : x = t => htS (e ▸ hx))]
  obtain ⟨Hm, c1, c2, c3, c4, c5, c6⟩ := hE
  have htHm : t ∉ Hm ++ V := by
    intro h
    rcases List.mem_append.mp h with h | h
    · exact htHV (List.mem_append_left _ (c3 t h))
    · exact htHV (List.mem_append_right _ h)
  have htype : ((timer_expire ts t prev (ts.timer_pool t).next).timer_pool t).type =
      (ts.timer_pool t).type := by rw [c4]; rfl
  rw [htype]
  by_cases hper : (ts.timer_pool t).type = TIMER_PERIODIC
  · simp only [if_pos hper]
    refine ⟨t :: Hm, ?_, ?_, ?_, ?_, ?_, ?_, trivial, c4⟩
    · refine ⟨rfl, ?_⟩
      rw [updAt_same]
      exact isTimerSeg_updAt_notin _ _ _ _ _ _ htHm c1
    · exact isTimerSeg_updAt_notin _ _ _ _ _ _ htS c2
    · intro y hy
      rcases List.mem_cons.mp hy with e | h
      · exact Or.inl ⟨e, hper⟩
      · exact Or.inr (c3 y h)
    · rw [updAt_same, c4]; rfl
    · intro x hx
      rw [updAt_other _ _ _ _ hx]
      exact c5 x hx
    · intro x hx
      rw [updAt_other _ _ _ _ (fun e : x = t => htS (e ▸ hx))]
      exact c6 x hx
  · simp only [if_neg hper]
    refine ⟨Hm, ?_, ?_, ?_, ?_, ?_, ?_, trivial, c4⟩
    · exact isTimerSeg_updAt_notin _ _ _ _ _ _ htHm c1
    · exact isTimerSeg_updAt_notin _ _ _ _ _ _ htS c2
    · intro y hy
      exact Or.inr (c3 y hy)
    · rw [updAt_same, c4]; rfl
    · intro x hx
      rw [updAt_other _ _ _ _ hx]
      exact c5 x hx
    · intro x hx
      rw [updAt_other _ _ _ _ (fun e : x = t => htS (e ▸ hx))]
      exact c6 x hx

theorem timer_tick_calls_none (cb : Callbacks) (fuel : Nat) (k : Kernel) (ts : Timers)
    (prev : Option Nat) : timer_tick_calls cb fuel k ts none prev = [] := by
  cases fuel <;> rfl

theorem timer_tick_calls_step (cb : Callbacks) (fuel : Nat) (k : Kernel) (ts : Timers)
    (t : Nat) (prev : Option Nat) :
    timer_tick_calls cb (fuel + 1) k ts (some t) prev =
      if ((timer_count_down ts t).timer_pool t).remaining_ms = 0 then
        (if ((timer_expire (timer_count_down ts t) t prev
              (ts.timer_pool t).next).timer_pool t).callback ≠ 0 then [t] else []) ++
          timer_tick_calls cb fuel
            (timer_fire cb k (timer_count_down ts t) t prev (ts.timer_pool t).next).1
            (timer_fire cb k (timer_count_down ts t) t prev (ts.timer_pool t).next).2
            (ts.timer_pool t).next prev
      else timer_tick_calls cb fuel k (timer_count_down ts t) (ts.timer_pool t).next (some t) :=
  rfl

theorem timer_record_eq_of_next (v w : smart_timer_t) (h : v.setNext none = w.setNext none) :
    v.id = w.id ∧ v.type = w.type ∧ v.state = w.state ∧ v.period_ms = w.period_ms ∧
    v.remaining_ms = w.remaining_ms ∧ v.callback = w.callback ∧
    v.callback_arg = w.callback_arg := by
  cases v; cases w
  simp only [smart_timer_t.setNext, smart_timer_t.mk.injEq] at h
  simp only []
  tauto

/-- The loop of `smart_timer_tick`, started in the middle of the active list:
`H ++ V` has been passed, `prev` is the last timer of `V`, and `S` is still to
be visited.  With callbacks that leave the timers alone the loop returns; the
timers of `S` with at most one tick remaining expire, in order; the list
afterwards is `V`, then the timers of `S` that did not expire, behind a prefix
of re-linked periodic timers; and every timer of `S` has the fields of
`timer_tick_record`, every other timer its fields of before (`next` apart). -/
theorem timer_tick_loop_spec (cb : Callbacks)
    (hcb : ∀ f a k1 ts1, (cb f a (k1, ts1)).2 = ts1) :
    ∀ (S : List Nat) (fuel : Nat) (k : Kernel) (ts : Timers) (H V : List Nat)
      (cur prev : Option Nat),
      isTimerSeg ts.timer_pool ts.active_timer_list (H ++ V) cur →
      isTimerSeg ts.timer_pool cur S none →
      prev = V.getLast? →
      S.length ≤ fuel →
      ∃ k' ts' H',
        timer_tick_loop cb fuel k ts cur prev = some (k', ts') ∧
        timer_tick_calls cb fuel k ts cur prev =
          S.filter (fun x => decide ((ts.timer_pool x).remaining_ms ≤ 1) &&
            decide ((ts.timer_pool x).callback ≠ 0)) ∧
        isTimerSeg ts'.timer_pool ts'.active_timer_list
          (H' ++ (V ++ S.filter (fun x => decide (1 < (ts.timer_pool x).remaining_ms))))
          none ∧
        (∀ y ∈ H', y ∈ H ∨ (y ∈ S ∧ (ts.timer_pool y).type = TIMER_PERIODIC)) ∧
        (∀ x, (ts'.timer_pool x).setNext none =
          (if x ∈ S then timer_tick_record (ts.timer_pool x)
           else ts.timer_pool x).setNext none) ∧
        ts'.timer_pool_init = ts.timer_pool_init
  | [], fuel, k, ts, H, V, cur, prev, hA, hS, _, _ => by
    have hc : cur = none := hS
    subst hc
    refine ⟨k, ts, H, timer_tick_loop_none cb fuel k ts prev,
      timer_tick_calls_none cb fuel k ts prev, ?_, fun y hy => Or.inl hy, ?_, rfl⟩
    · simpa using hA
    · intro x; simp
  | t :: S, 0, _, _, _, _, _, _, _, _, _, hlen => by simp at hlen
  | t :: S, fuel + 1, k, ts, H, V, cur, prev, hA, hS, hprev, hlen => by
    obtain ⟨hc, hS'⟩ := hS
    subst hc
    have hlen' : S.length ≤ fuel := by simpa using hlen
    have hfull : isTimerSeg ts.timer_pool ts.active_timer_list ((H ++ V) ++ (t :: S)) none :=
      (isTimerSeg_append _ _ _ _ _).mpr ⟨some t, hA, rfl, hS'⟩
    have hnd := isTimerSeg_nodup _ _ _ hfull
    have hdisj := (List.nodup_append.mp hnd).2.2
    have htHV : t ∉ H ++ V := fun h => hdisj h (List.mem_cons_self _ _)
    have htS : t ∉ S := (List.nodup_cons.mp (List.nodup_append.mp hnd).2.1).1
    obtain ⟨d1, d2, d3⟩ := timer_count_down_pool ts t
    have dnext : ∀ a, ((timer_count_down ts t).timer_pool a).next = (ts.timer_pool a).next := by
      intro a
      rw [d1]
      by_cases ha : a = t
      · subst ha; rw [updAt_same]; rfl
      · rw [updAt_other _ _ _ _ ha]
    have dother : ∀ a, a ≠ t → (timer_count_down ts t).timer_pool a = ts.timer_pool a := by
      intro a ha
      rw [d1, updAt_other _ _ _ _ ha]
    have dt : (timer_count_down ts t).timer_pool t =
        (ts.timer_pool t).setRemaining ((ts.timer_pool t).remaining_ms - 1) := by
      rw [d1, updAt_same]
    have hA1 : isTimerSeg (timer_count_down ts t).timer_pool
        (timer_count_down ts t).active_timer_list (H ++ V) (some t) := by
      rw [d2]
      exact isTimerSeg_congr _ _ _ _ _ (fun a _ => dnext a) hA
    have hS1 : isTimerSeg (timer_count_down ts t).timer_pool
        ((timer_count_down ts t).timer_pool t).next S none := by
      rw [dnext t]
      exact isTimerSeg_congr _ _ _ _ _ (fun a _ => dnext a) hS'
    have hfS : ∀ (P' : Nat → smart_timer_t), (∀ x ∈ S, P' x = ts.timer_pool x) →
        ∀ (f : smart_timer_t → Bool),
        S.filter (fun x => f (P' x)) = S.filter (fun x => f (ts.timer_pool x)) := by
      intro P' hP f
      apply List.filter_congr
      intro x hx
      rw [hP x hx]
    rw [timer_tick_loop_step, timer_tick_calls_step]
    by_cases hz : ((timer_count_down ts t).timer_pool t).remaining_ms = 0
    · -- the timer expires
      have hr : (ts.timer_pool t).remaining_ms ≤ 1 := by
        rw [dt] at hz
        have : (ts.timer_pool t).remaining_ms - 1 = 0 := hz
        omega
      rw [if_pos hz, if_pos hz]
      rw [← dnext t]
      obtain ⟨H2, c1, c2, c3, c4, c5, c6, c7, c8⟩ :=
        timer_fire_chain cb k (timer_count_down ts t) t prev H V S hcb hA1 hS1 hprev
      obtain ⟨k', ts', H', i1, i2, i3, i4, i5, i6⟩ :=
        timer_tick_loop_spec cb hcb S fuel
          (timer_fire cb k (timer_count_down ts t) t prev
            ((timer_count_down ts t).timer_pool t).next).1
          (timer_fire cb k (timer_count_down ts t) t prev
            ((timer_count_down ts t).timer_pool t).next).2
          H2 V ((timer_count_down ts t).timer_pool t).next prev c1 c2 hprev hlen'
      have hPS : ∀ x ∈ S, (timer_fire cb k (timer_count_down ts t) t prev
            ((timer_count_down ts t).timer_pool t).next).2.timer_pool x = ts.timer_pool x := by
        intro x hx
        rw [c6 x hx]
        exact dother x (fun e : x = t => htS (e ▸ hx))
      refine ⟨k', ts', H', i1, ?_, ?_, ?_, ?_, ?_⟩
      · rw [i2, hfS _ hPS (fun v => decide (v.remaining_ms ≤ 1) && decide (v.callback ≠ 0))]
        rw [c8, dt]
        have hcbk : (((ts.timer_pool t).setRemaining ((ts.timer_pool t).remaining_ms - 1)).setState
            TIMER_EXPIRED).callback = (ts.timer_pool t).callback := rfl
        rw [hcbk]
        by_cases hcall : (ts.timer_pool t).callback ≠ 0
        · rw [if_pos hcall, List.filter_cons_of_pos (by simpa using ⟨hr, hcall⟩)]
          rfl
        · rw [if_neg hcall, List.filter_cons_of_neg (by simpa using fun _ => not_not.mp hcall)]
          rfl
      · rw [hfS _ hPS (fun v => decide (1 < v.remaining_ms))] at i3
        rw [List.filter_cons_of_neg (by simpa using hr)]
        exact i3
      · intro y hy
        rcases i4 y hy with h | ⟨h1, h2⟩
        · rcases c3 y h with ⟨e, hp⟩ | h
          · subst e
            refine Or.inr ⟨List.mem_cons_self _ _, ?_⟩
            rw [dt] at hp
            exact hp
          · exact Or.inl h
        · refine Or.inr ⟨List.mem_cons_of_mem _ h1, ?_⟩
          rw [hPS y h1] at h2
          exact h2
      · intro x
        rw [i5 x]
        by_cases hxt : x = t
        · subst hxt
          rw [if_neg htS, if_pos (List.mem_cons_self _ _), c4, dt]
          unfold timer_tick_record
          rw [if_pos hr]
          have hr0 : (ts.timer_pool x).remaining_ms - 1 = 0 := by omega
          rw [hr0]
          by_cases hper : (ts.timer_pool x).type = TIMER_PERIODIC
          · have hper' : ((ts.timer_pool x).setRemaining 0).type = TIMER_PERIODIC := hper
            rw [if_pos hper, if_pos hper']
            rfl
          · have hper' : ¬ ((ts.timer_pool x).setRemaining 0).type = TIMER_PERIODIC := hper
            rw [if_neg hper, if_neg hper']
        · by_cases hxS : x ∈ S
          · rw [if_pos hxS, if_pos (List.mem_cons_of_mem _ hxS), hPS x hxS]
          · have hxS' : x ∉ t :: S := by
              intro h
              rcases List.mem_cons.mp h with e | h
              · exact hxt e
              · exact hxS h
            rw [if_neg hxS, if_neg hxS', c5 x hxt, dother x hxt]
      · rw [i6, c7, d3]
    · -- the timer stays on the list
      have hr : 1 < (ts.timer_pool t).remaining_ms := by
        rw [dt] at hz
        have : ¬ (ts.timer_pool t).remaining_ms - 1 = 0 := hz
        omega
      rw [if_neg hz, if_neg hz]
      have hA2 : isTimerSeg (timer_count_down ts t).timer_pool
          (timer_count_down ts t).active_timer_list (H ++ (V ++ [t])) (ts.timer_pool t).next := by
        rw [← List.append_assoc]
        exact (isTimerSeg_snoc _ _ _ _ _).mpr ⟨hA1, dnext t⟩
      have hS2 : isTimerSeg (timer_count_down ts t).timer_pool (ts.timer_pool t).next S none := by
        rw [← dnext t]; exact hS1
      obtain ⟨k', ts', H', i1, i2, i3, i4, i5, i6⟩ :=
        timer_tick_loop_spec cb hcb S fuel k (timer_count_down ts t) H (V ++ [t])
          (ts.timer_pool t).next (some t) hA2 hS2 (by simp) hlen'
      have hPS : ∀ x ∈ S, (timer_count_down ts t).timer_pool x = ts.timer_pool x :=
        fun x hx => dother x (fun e : x = t => htS (e ▸ hx))
      refine ⟨k', ts', H', i1, ?_, ?_, ?_, ?_, ?_⟩
      · rw [i2, hfS _ hPS (fun v => decide (v.remaining_ms ≤ 1) && decide (v.callback ≠ 0))]
        rw [List.filter_cons_of_neg (by simp; omega)]
      · rw [hfS _ hPS (fun v => decide (1 < v.remaining_ms))] at i3
        rw [List.filter_cons_of_pos (by simpa using hr)]
        simpa using i3
      · intro y hy
        rcases i4 y hy with h | ⟨h1, h2⟩
        · exact Or.inl h
        · refine Or.inr ⟨List.mem_cons_of_mem _ h1, ?_⟩
          rw [hPS y h1] at h2
          exact h2
      · intro x
        rw [i5 x]
        by_cases hxt : x = t
        · subst hxt
          rw [if_neg htS, if_pos (List.mem_cons_self _ _), dt]
          unfold timer_tick_record
          rw [if_neg (by omega)]
        · by_cases hxS : x ∈ S
          · rw [if_pos hxS, if_pos (List.mem_cons_of_mem _ hxS), hPS x hxS]
          · have hxS' : x ∉ t :: S := by
              intro h
              rcases List.mem_cons.mp h with e | h
              · exact hxt e
              · exact hxS h
            rw [if_neg hxS, if_neg hxS', dother x hxt]
      · rw [i6, d3]

/-- One run of `smart_timer_tick` on a well-formed active list `L`, with
callbacks that leave the timers alone. -/
theorem smart_timer_tick_spec (cb : Callbacks)
    (hcb : ∀ f a k1 ts1, (cb f a (k1, ts1)).2 = ts1) (fuel : Nat) (k : Kernel)
    (ts : Timers) (L : List Nat) (hinit : ts.timer_pool_init ≠ 0)
    (hL : isTimerList ts.timer_pool ts.active_timer_list L) (hlen : L.length ≤ fuel) :
    ∃ k' ts' H',
      smart_timer_tick cb fuel k ts = some (k', ts') ∧
      smart_timer_calls cb fuel k ts =
        L.filter (fun x => decide ((ts.timer_pool x).remaining_ms ≤ 1) &&
          decide ((ts.timer_pool x).callback ≠ 0)) ∧
      isTimerList ts'.timer_pool ts'.active_timer_list
        (H' ++ L.filter (fun x => decide (1 < (ts.timer_pool x).remaining_ms))) ∧
      (∀ y ∈ H', y ∈ L ∧ (ts.timer_pool y).type = TIMER_PERIODIC) ∧
      (∀ x, (ts'.timer_pool x).setNext none =
        (if x ∈ L then timer_tick_record (ts.timer_pool x)
         else ts.timer_pool x).setNext none) ∧
      ts'.timer_pool_init = ts.timer_pool_init := by
  have hS := (isTimerList_iff_seg _ _ _).mp hL
  obtain ⟨k', ts', H', h1, h2, h3, h4, h5, h6⟩ :=
    timer_tick_loop_spec cb hcb L fuel (smart_enter_critical k) ts [] []
      ts.active_timer_list none rfl hS rfl hlen
  refine ⟨smart_exit_critical k', ts', H', ?_, ?_, ?_, ?_, h5, h6⟩
  · unfold smart_timer_tick
    rw [if_neg hinit, h1]
  · unfold smart_timer_calls
    rw [if_neg hinit, h2]
  · rw [isTimerList_iff_seg]
    simpa using h3
  · intro y hy
    rcases h4 y hy with h | h
    · cases h
    · exact h

theorem smart_timer_tick_uninit (cb : Callbacks) (fuel : Nat) (k : Kernel) (ts : Timers)
    (hinit : ts.timer_pool_init = 0) : smart_timer_tick cb fuel k ts = some (k, ts) := by
  unfold smart_timer_tick
  rw [if_pos hinit]

theorem count_filter_nodup (L : List Nat) (hnd : L.Nodup) (x : Nat) (f : Nat → Bool) :
    (L.filter f).count x = if x ∈ L ∧ f x = true then 1 else 0 := by
  by_cases h : x ∈ L ∧ f x = true
  · rw [if_pos h]
    exact List.count_eq_one_of_mem (hnd.filter f) (List.mem_filter.mpr h)
  · rw [if_neg h]
    exact List.count_eq_zero_of_not_mem (fun hm => h (List.mem_filter.mp hm))

theorem timer_tick_record_frame (v : smart_timer_t) :
    (timer_tick_record v).type = v.type ∧ (timer_tick_record v).callback = v.callback ∧
    (timer_tick_record v).id = v.id ∧ (timer_tick_record v).period_ms = v.period_ms ∧
    (timer_tick_record v).callback_arg = v.callback_arg := by
  unfold timer_tick_record
  split_ifs <;> exact ⟨rfl, rfl, rfl, rfl, rfl⟩

theorem isTimerList_nodup (pool : Nat → smart_timer_t) (L : List Nat) (p : Option Nat)
    (h : isTimerList pool p L) : L.Nodup :=
  isTimerSeg_nodup pool L p ((isTimerList_iff_seg pool L p).mp h)

/-- One tick takes `OneShotAfter … n` to `OneShotAfter … (n + 1)`; the callback
of the timer is invoked in that tick exactly when it is the `p`-th, and then
once.  The new active list holds timers of the old one only. -/
theorem one_shot_tick (cb : Callbacks)
    (hcb : ∀ f a k1 ts1, (cb f a (k1, ts1)).2 = ts1) (fuel : Nat) (k : Kernel)
    (ts : Timers) (L : List Nat) (x p n : Nat)
    (hcall : (ts.timer_pool x).callback ≠ 0)
    (hinv : OneShotAfter ts L x p n) (hlen : L.length ≤ fuel) :
    ∃ k' ts' L', smart_timer_tick cb fuel k ts = some (k', ts') ∧
      OneShotAfter ts' L' x p (n + 1) ∧ (∀ y ∈ L', y ∈ L) ∧
      (ts'.timer_pool x).callback ≠ 0 ∧
      (smart_timer_calls cb fuel k ts).count x = (if n + 1 = p then 1 else 0) := by
  obtain ⟨hinit, hL, htype, hlt, hge⟩ := hinv
  obtain ⟨k', ts', H', h1, h2, h3, h4, h5, h6⟩ :=
    smart_timer_tick_spec cb hcb fuel k ts L hinit hL hlen
  have hnd := isTimerList_nodup _ _ _ hL
  have hrec := timer_record_eq_of_next _ _ (h5 x)
  have hxH : x ∉ H' := fun h => htype (h4 x h).2
  refine ⟨k', ts', _, h1, ⟨?_, h3, ?_, ?_, ?_⟩, ?_, ?_, ?_⟩
  · rw [h6]; exact hinit
  · rw [hrec.2.1]
    split
    · rw [(timer_tick_record_frame _).1]; exact htype
    · exact htype
  · intro hn
    obtain ⟨hx, hr, hs⟩ := hlt (by omega)
    have hr1 : ¬ (ts.timer_pool x).remaining_ms ≤ 1 := by omega
    refine ⟨?_, ?_, ?_⟩
    · refine List.mem_append_right _ (List.mem_filter.mpr ⟨hx, ?_⟩)
      simp only [decide_eq_true_eq]; omega
    · rw [hrec.2.2.2.2.1, if_pos hx]
      unfold timer_tick_record
      rw [if_neg hr1]
      show (ts.timer_pool x).remaining_ms - 1 = _
      omega
    · rw [hrec.2.2.1, if_pos hx]
      unfold timer_tick_record
      rw [if_neg hr1]
      exact hs
  · intro hn
    by_cases hlast : n < p
    · obtain ⟨hx, hr, hs⟩ := hlt hlast
      have hr1 : (ts.timer_pool x).remaining_ms ≤ 1 := by omega
      refine ⟨?_, ?_, ?_⟩
      · intro hm
        rcases List.mem_append.mp hm with h | h
        · exact hxH h
        · have := (List.mem_filter.mp h).2
          simp only [decide_eq_true_eq] at this
          omega
      · rw [hrec.2.2.2.2.1, if_pos hx]
        unfold timer_tick_record
        rw [if_pos hr1, if_neg htype]
        rfl
      · rw [hrec.2.2.1, if_pos hx]
        unfold timer_tick_record
        rw [if_pos hr1, if_neg htype]
        rfl
    · obtain ⟨hx, hr, hs⟩ := hge (by omega)
      refine ⟨?_, ?_, ?_⟩
      · intro hm
        rcases List.mem_append.mp hm with h | h
        · exact hxH h
        · exact hx (List.mem_filter.mp h).1
      · rw [hrec.2.2.2.2.1, if_neg hx]; exact hr
      · rw [hrec.2.2.1, if_neg hx]; exact hs
  · intro y hy
    rcases List.mem_append.mp hy with h | h
    · exact (h4 y h).1
    · exact (List.mem_filter.mp h).1
  · rw [hrec.2.2.2.2.2.1]
    split
    · rw [(timer_tick_record_frame _).2.1]; exact hcall
    · exact hcall
  · rw [h2, count_filter_nodup L hnd]
    by_cases hn : n + 1 = p
    · obtain ⟨hx, hr, -⟩ := hlt (by omega)
      rw [if_pos hn, if_pos]
      refine ⟨hx, ?_⟩
      simp only [Bool.and_eq_true, decide_eq_true_eq]
      exact ⟨by omega, hcall⟩
    · rw [if_neg hn, if_neg]
      rintro ⟨hx, hf⟩
      simp only [Bool.and_eq_true, decide_eq_true_eq] at hf
      by_cases hlast : n < p
      · obtain ⟨-, hr, -⟩ := hlt hlast
        omega
      · exact (hge (by omega)).1 hx

/-- Any number of ticks on a started one-shot timer. -/
theorem one_shot_run (cb : Callbacks)
    (hcb : ∀ f a k1 ts1, (cb f a (k1, ts1)).2 = ts1) (fuel : Nat) (k : Kernel)
    (ts : Timers) (L : List Nat) (x p : Nat) (hb : ∀ y ∈ L, y < fuel)
    (hcall : (ts.timer_pool x).callback ≠ 0) (hinv : OneShotAfter ts L x p 0) :
    ∀ n, ∃ s L', timer_ticks cb fuel n (k, ts) = some s ∧ OneShotAfter s.2 L' x p n ∧
      (∀ y ∈ L', y ∈ L) ∧ (s.2.timer_pool x).callback ≠ 0 ∧
      (calls_in_tick cb fuel (k, ts) n).count x = (if n + 1 = p then 1 else 0)
  | 0 => by
    have hlen : L.length ≤ fuel :=
      nodup_bounded_length fuel L (isTimerList_nodup _ _ _ hinv.2.1) hb
    obtain ⟨k', ts', L', -, -, -, -, h5⟩ := one_shot_tick cb hcb fuel k ts L x p 0 hcall hinv hlen
    exact ⟨(k, ts), L, rfl, hinv, fun _ h => h, hcall, h5⟩
  | n + 1 => by
    obtain ⟨s, L', h1, h2, h3, h4, -⟩ := one_shot_run cb hcb fuel k ts L x p hb hcall hinv n
    have hlen : L'.length ≤ fuel :=
      nodup_bounded_length fuel L' (isTimerList_nodup _ _ _ h2.2.1) (fun y hy => hb y (h3 y hy))
    obtain ⟨k', ts', L2, t1, t2, t3, t4, -⟩ :=
      one_shot_tick cb hcb fuel s.1 s.2 L' x p n h4 h2 hlen
    have hlen2 : L2.length ≤ fuel :=
      nodup_bounded_length fuel L2 (isTimerList_nodup _ _ _ t2.2.1)
        (fun y hy => hb y (h3 y (t3 y hy)))
    obtain ⟨-, -, -, -, -, -, -, u5⟩ :=
      one_shot_tick cb hcb fuel k' ts' L2 x p (n + 1) t4 t2 hlen2
    have hrun : timer_ticks cb fuel (n + 1) (k, ts) = some (k', ts') := by
      show (match timer_ticks cb fuel n (k, ts) with
        | none => none
        | some s1 => smart_timer_tick cb fuel s1.1 s1.2) = _
      rw [h1]
      exact t1
    refine ⟨(k', ts'), L2, hrun, t2, fun y hy => h3 y (t3 y hy), t4, ?_⟩
    unfold calls_in_tick
    rw [hrun]
    exact u5

/-- Starting a stopped timer that is not on the active list. -/
theorem smart_timer_start_spec (k : Kernel) (ts : Timers) (x : Nat) (L : List Nat)
    (hid : (ts.timer_pool x).id ≠ 0) (hst : (ts.timer_pool x).state ≠ TIMER_RUNNING)
    (hL : isTimerList ts.timer_pool ts.active_timer_list L) (hx : x ∉ L) :
    (smart_timer_start k ts (some x)).2.2 = 0 ∧
    isTimerList (smart_timer_start k ts (some x)).2.1.timer_pool
      (smart_timer_start k ts (some x)).2.1.active_timer_list (x :: L) ∧
    (smart_timer_start k ts (some x)).2.1.timer_pool_init = ts.timer_pool_init ∧
    ((smart_timer_start k ts (some x)).2.1.timer_pool x).remaining_ms =
      (ts.timer_pool x).period_ms ∧
    ((smart_timer_start k ts (some x)).2.1.timer_pool x).state = TIMER_RUNNING ∧
    ((smart_timer_start k ts (some x)).2.1.timer_pool x).type = (ts.timer_pool x).type ∧
    ((smart_timer_start k ts (some x)).2.1.timer_pool x).callback =
      (ts.timer_pool x).callback := by
  unfold smart_timer_start
  simp only [if_neg hid, if_neg hst]
  refine ⟨trivial, ?_, rfl, ?_, ?_, ?_, ?_⟩
  · rw [isTimerList_iff_seg]
    refine ⟨rfl, ?_⟩
    simp only [setStats_pool, setActive_pool, setTimer_pool_same]
    show isTimerSeg (updAt ts.timer_pool x _) ts.active_timer_list L none
    exact isTimerSeg_updAt_notin _ _ _ _ _ _ hx ((isTimerList_iff_seg _ _ _).mp hL)
  all_goals simp only [setStats_pool, setActive_pool, setTimer_pool_same]
  all_goals rfl

/-! ## The tick handler with its timer service -/

theorem smart_exit_critical_switch (k : Kernel) :
    (smart_exit_critical k).next_task = k.next_task ∧
    (smart_exit_critical k).pendsv_pending = k.pendsv_pending := by
  unfold smart_exit_critical
  split_ifs <;> exact ⟨rfl, rfl⟩

theorem timer_fire_kernel (cb : Callbacks) (k : Kernel) (ts : Timers) (t : Nat)
    (prev next : Option Nat) (hcb : ∀ f a k1 ts1, (cb f a (k1, ts1)).1 = k1) :
    (timer_fire cb k ts t prev next).1.tasks = k.tasks ∧
    (timer_fire cb k ts t prev next).1.task_list = k.task_list ∧
    (timer_fire cb k ts t prev next).1.current_task = k.current_task ∧
    (timer_fire cb k ts t prev next).1.os_tick = k.os_tick ∧
    (timer_fire cb k ts t prev next).1.scheduler_started = k.scheduler_started ∧
    (timer_fire cb k ts t prev next).1.next_task = k.next_task ∧
    (timer_fire cb k ts t prev next).1.pendsv_pending = k.pendsv_pending := by
  unfold timer_fire
  simp only []
  split
  · unfold timer_run_callback
    simp only [hcb, smart_enter_critical_tasks, smart_exit_critical_tasks,
      smart_enter_critical_task_list, smart_exit_critical_task_list,
      smart_enter_critical_current_task, smart_exit_critical_current_task,
      smart_enter_critical_os_tick, smart_exit_critical_os_tick,
      smart_enter_critical_scheduler_started, smart_exit_critical_scheduler_started,
      true_and]
    exact ⟨(smart_exit_critical_switch k).1, (smart_exit_critical_switch k).2⟩
  · exact ⟨rfl, rfl, rfl, rfl, rfl, rfl, rfl⟩

/-- With callbacks that leave the kernel alone the timer loop changes nothing
of the kernel but the critical-section bookkeeping. -/
theorem timer_tick_loop_kernel (cb : Callbacks)
    (hcb : ∀ f a k1 ts1, (cb f a (k1, ts1)).1 = k1) :
    ∀ (fuel : Nat) (k : Kernel) (ts : Timers) (cur prev : Option Nat)
      (r : Kernel × Timers), timer_tick_loop cb fuel k ts cur prev = some r →
      r.1.tasks = k.tasks ∧ r.1.task_list = k.task_list ∧
      r.1.current_task = k.current_task ∧ r.1.os_tick = k.os_tick ∧
      r.1.scheduler_started = k.scheduler_started ∧ r.1.next_task = k.next_task ∧
      r.1.pendsv_pending = k.pendsv_pending
  | fuel, k, ts, none, prev, r, h => by
    rw [timer_tick_loop_none] at h
    rw [← Option.some.inj h]
    exact ⟨rfl, rfl, rfl, rfl, rfl, rfl, rfl⟩
  | 0, k, ts, some t, prev, r, h => by
    simp [timer_tick_loop] at h
  | fuel + 1, k, ts, some t, prev, r, h => by
    rw [timer_tick_loop_step] at h
    split at h
    · obtain ⟨a1, a2, a3, a4, a5, a6, a7⟩ := timer_tick_loop_kernel cb hcb fuel _ _ _ _ r h
      obtain ⟨b1, b2, b3, b4, b5, b6, b7⟩ :=
        timer_fire_kernel cb k (timer_count_down ts t) t prev (ts.timer_pool t).next hcb
      exact ⟨a1.trans b1, a2.trans b2, a3.trans b3, a4.trans b4, a5.trans b5, a6.trans b6,
        a7.trans b7⟩
    · exact timer_tick_loop_kernel cb hcb fuel _ _ _ _ r h

theorem smart_timer_tick_kernel (cb : Callbacks)
    (hcb : ∀ f a k1 ts1, (cb f a (k1, ts1)).1 = k1) (fuel : Nat) (k : Kernel) (ts : Timers)
    (r : Kernel × Timers) (h : smart_timer_tick cb fuel k ts = some r) :
    r.1.tasks = k.tasks ∧ r.1.task_list = k.task_list ∧
    r.1.current_task = k.current_task ∧ r.1.os_tick = k.os_tick ∧
    r.1.scheduler_started = k.scheduler_started ∧ r.1.next_task = k.next_task ∧
    r.1.pendsv_pending = k.pendsv_pending := by
  unfold smart_timer_tick at h
  split at h
  · rw [← Option.some.inj h]
    exact ⟨rfl, rfl, rfl, rfl, rfl, rfl, rfl⟩
  · cases hl : timer_tick_loop cb fuel (smart_enter_critical k) ts ts.active_timer_list none with
    | none => rw [hl] at h; cases h
    | some r1 =>
      rw [hl] at h
      rw [← Option.some.inj h]
      obtain ⟨a1, a2, a3, a4, a5, a6, a7⟩ := timer_tick_loop_kernel cb hcb fuel _ _ _ _ r1 hl
      simp only [smart_exit_critical_tasks, smart_exit_critical_task_list,
        smart_exit_critical_current_task, smart_exit_critical_os_tick,
        smart_exit_critical_scheduler_started]
      exact ⟨a1, a2, a3, a4, a5, (smart_exit_critical_switch r1.1).1.trans a6,
        (smart_exit_critical_switch r1.1).2.trans a7⟩

/-- The timer service returns on a well-formed active list (or before
`smart_timer_init`) when the callbacks leave the timers alone. -/
theorem smart_timer_tick_returns (cb : Callbacks)
    (hcb : ∀ f a k1 ts1, (cb f a (k1, ts1)).2 = ts1) (fuel : Nat) (k : Kernel)
    (ts : Timers) (L : List Nat)
    (hL : isTimerList ts.timer_pool ts.active_timer_list L) (hlen : L.length ≤ fuel) :
    ∃ r, smart_timer_tick cb fuel k ts = some r := by
  by_cases hinit : ts.timer_pool_init = 0
  · exact ⟨_, smart_timer_tick_uninit cb fuel k ts hinit⟩
  · obtain ⟨k', ts', -, h, -⟩ := smart_timer_tick_spec cb hcb fuel k ts L hinit hL hlen
    exact ⟨_, h⟩

/-- One run of the tick handler on a well-formed kernel with task list `l`,
with a well-formed active timer list and callbacks that change neither kernel
nor timers. -/
theorem SysTick_Handler_full_spec (cb : Callbacks) (N fuel : Nat) (k : Kernel)
    (mp : Mempools) (ts : Timers) (l L : List Nat)
    (hcb : ∀ f a k1 ts1, cb f a (k1, ts1) = (k1, ts1))
    (hk : KernelOk N k) (hf : N ≤ fuel) (hl : isChain k.tasks k.task_list l)
    (hL : isTimerList ts.timer_pool ts.active_timer_list L) (hlen : L.length ≤ fuel) :
    ∃ k' mp' ts' mem, SysTick_Handler_full cb fuel k mp ts = some (k', mp', ts') ∧
      KernelOk N k' ∧
      k'.os_tick = wrap32 (k.os_tick + 1) ∧
      (∀ a, a ∈ l → due (wrap32 (k.os_tick + 1)) (k.tasks a) = true →
        mem a = (k.tasks a).setState TASK_STATE_READY) ∧
      (∀ a, ¬ (a ∈ l ∧ due (wrap32 (k.os_tick + 1)) (k.tasks a) = true) →
        mem a = k.tasks a) ∧
      (∀ a, (k'.tasks a).core = (mem a).core) ∧
      k'.task_list = k.task_list ∧
      (l.any (fun a => due (wrap32 (k.os_tick + 1)) (k.tasks a)) = true →
        ∃ km, km.tasks = mem ∧ km.task_list = k.task_list ∧
          km.current_task = k.current_task ∧ km.os_tick = wrap32 (k.os_tick + 1) ∧
          km.scheduler_started = k.scheduler_started ∧
          smart_schedule fuel km = some k') ∧
      (l.any (fun a => due (wrap32 (k.os_tick + 1)) (k.tasks a)) = false →
        k'.tasks = k.tasks ∧ k'.next_task = k.next_task ∧
        k'.current_task = k.current_task ∧ k'.pendsv_pending = k.pendsv_pending) := by
  have hcb1 : ∀ f a k1 ts1, (cb f a (k1, ts1)).1 = k1 := fun f a k1 ts1 => by rw [hcb]
  have hcb2 : ∀ f a k1 ts1, (cb f a (k1, ts1)).2 = ts1 := fun f a k1 ts1 => by rw [hcb]
  obtain ⟨r, hr⟩ := smart_timer_tick_returns cb hcb2 fuel
    { k with os_tick := wrap32 (k.os_tick + 1) } ts L hL hlen
  obtain ⟨a1, a2, a3, a4, a5, a6, a7⟩ := smart_timer_tick_kernel cb hcb1 fuel _ ts r hr
  have hk1 : KernelOk N r.1 := KernelOk_of_eq N k r.1 a1 a3 a2 hk
  have hl1 : isChain r.1.tasks r.1.task_list l := by rw [a1, a2]; exact hl
  obtain ⟨k', mem, w1, w2, w3, w4, w5, w6, w7, w8, w9, w10, w11⟩ :=
    tick_wakeups_spec N fuel r.1 l hk1 hf hl1
  have a4' : r.1.os_tick = wrap32 (k.os_tick + 1) := a4
  have a1' : r.1.tasks = k.tasks := a1
  rw [a4', a1'] at w3 w4 w10 w11
  refine ⟨k', smart_mempool_tick mp, r.2, mem, ?_, w2, w6.trans a4', w3, w4, w5,
    w7.trans a2, ?_, ?_⟩
  · unfold SysTick_Handler_full
    simp only [hr, w1]
  · intro hany
    exact ⟨setTasks r.1 mem, rfl, a2, a3, a4, a5, w10 hany⟩
  · intro hany
    have e := w11 hany
    rw [e]
    exact ⟨a1, a6, a3, a7⟩

/-- Effect of `smart_delay` with a positive argument on a well-formed system
with current task `c`. -/
theorem smart_delay_effect (N fuel : Nat) (k : Kernel) (c n : Nat)
    (hk : KernelOk N k) (hf : N ≤ fuel) (hc : k.current_task = some c) (hn : 0 < n) :
    ∃ k', smart_delay fuel k n = some k' ∧ KernelOk N k' ∧
      (k'.tasks c).state = TASK_STATE_DELAYED ∧
      (k'.tasks c).wakeup_time = wrap32 (k.os_tick + n) ∧
      (k'.tasks c).deadline = (k.tasks c).deadline ∧
      (k'.tasks c).arrival = (k.tasks c).arrival ∧
      (∀ a, a ≠ c → (k'.tasks a).core = (k.tasks a).core) ∧
      (∀ a, (k'.tasks a).next = (k.tasks a).next) ∧
      k'.os_tick = k.os_tick ∧ k'.task_list = k.task_list ∧ k'.current_task = some c := by
  have hk1 : KernelOk N (setTasks (smart_enter_critical k) (upd k.tasks c
      { (k.tasks c) with wakeup_time := wrap32 (k.os_tick + n),
                         state := TASK_STATE_DELAYED })) :=
    KernelOk_upd N (smart_enter_critical k) c _ rfl rfl rfl (KernelOk_enter N k hk)
  obtain ⟨k2, hs, hok, hcore, htl, htick, -, hcur⟩ := smart_schedule_ok N fuel _ hk1 hf
  have hcur2 : k2.current_task = some c := by
    rw [hcur (by simp [hc])]
    simp [hc]
  refine ⟨smart_exit_critical k2, ?_, KernelOk_exit N k2 hok, ?_, ?_, ?_, ?_, ?_, ?_, ?_, ?_, ?_⟩
  · unfold smart_delay
    rw [if_neg (by omega)]
    simp only [smart_enter_critical_current_task, hc, smart_enter_critical_tasks,
      smart_enter_critical_os_tick]
    rw [hs]
  all_goals simp only [smart_exit_critical_tasks, smart_exit_critical_os_tick,
    smart_exit_critical_task_list, smart_exit_critical_current_task]
  · have := (core_fields _ _ (hcore c)).2.2.2.2.1
    rw [this]; simp only [setTasks_tasks, upd_same]
  · have := (core_fields _ _ (hcore c)).2.2.2.1
    rw [this]; simp only [setTasks_tasks, upd_same]
  · have := (core_fields _ _ (hcore c)).1
    rw [this]; simp only [setTasks_tasks, upd_same]
  · have := (core_fields _ _ (hcore c)).2.2.1
    rw [this]; simp only [setTasks_tasks, upd_same]
  · intro a ha
    rw [hcore a]
    simp only [setTasks_tasks, upd_other _ _ _ _ ha]
  · intro a
    rw [(core_fields _ _ (hcore a)).2.2.2.2.2]
    simp only [setTasks_tasks]
    by_cases ha : a = c
    · subst ha; rw [upd_same]
    · rw [upd_other _ _ _ _ ha]
  · rw [htick]; rfl
  · rw [htl]; rfl
  · exact hcur2

theorem smart_delay_zero (fuel : Nat) (k : Kernel) : smart_delay fuel k 0 = some k := by
  unfold smart_delay
  rw [if_pos rfl]

/-- One run of the kernel part of the tick handler on a well-formed kernel with
task list `l`. -/
theorem SysTick_Handler_spec (N fuel : Nat) (k : Kernel) (l : List Nat)
    (hk : KernelOk N k) (hf : N ≤ fuel) (hl : isChain k.tasks k.task_list l) :
    ∃ (k' : Kernel) (mem : Nat → smart_task), SysTick_Handler fuel k = some k' ∧
      KernelOk N k' ∧
      k'.os_tick = wrap32 (k.os_tick + 1) ∧
      (∀ a, a ∈ l → due (wrap32 (k.os_tick + 1)) (k.tasks a) = true →
        mem a = (k.tasks a).setState TASK_STATE_READY) ∧
      (∀ a, ¬ (a ∈ l ∧ due (wrap32 (k.os_tick + 1)) (k.tasks a) = true) →
        mem a = k.tasks a) ∧
      (∀ a, (k'.tasks a).core = (mem a).core) ∧
      k'.task_list = k.task_list ∧ isChain k'.tasks k'.task_list l := by
  have hk1 : KernelOk N { k with os_tick := wrap32 (k.os_tick + 1) } :=
    KernelOk_of_eq N k _ rfl rfl rfl hk
  obtain ⟨k', mem, w1, w2, w3, w4, w5, w6, w7, -⟩ :=
    tick_wakeups_spec N fuel { k with os_tick := wrap32 (k.os_tick + 1) } l hk1 hf hl
  refine ⟨k', mem, ?_, w2, w6, w3, w4, w5, w7, ?_⟩
  · rw [SysTick_Handler_eq]; exact w1
  · rw [w7]
    refine isChain_congr k.tasks k'.tasks ?_ l _ hl
    intro a
    rw [(core_fields _ _ (w5 a)).2.2.2.2.2]
    by_cases hd : a ∈ l ∧ due (wrap32 (k.os_tick + 1)) (k.tasks a) = true
    · have e : mem a = (k.tasks a).setState TASK_STATE_READY := w3 a hd.1 hd.2
      rw [e]; rfl
    · have e : mem a = k.tasks a := w4 a hd
      rw [e]

theorem due_delayed (now : Nat) (t : smart_task) (hs : t.state = TASK_STATE_DELAYED) :
    due now t = decide (t.wakeup_time ≤ now) := by
  unfold due
  rw [hs]
  simp [TASK_STATE_DELAYED, TASK_STATE_WAITING]

/-- What the wake-up scan leaves of a task that is Waiting or Delayed, in terms
of the memory `mem` described by the scan lemmas. -/
theorem woken_fields (now : Nat) (l : List Nat) (mem0 mem : Nat → smart_task) (c : Nat)
    (hc : c ∈ l)
    (h1 : ∀ a, a ∈ l → due now (mem0 a) = true → mem a = (mem0 a).setState TASK_STATE_READY)
    (h2 : ∀ a, ¬ (a ∈ l ∧ due now (mem0 a) = true) → mem a = mem0 a) :
    (mem c).wakeup_time = (mem0 c).wakeup_time ∧ (mem c).arrival = (mem0 c).arrival ∧
    (mem c).period = (mem0 c).period ∧ (mem c).deadline = (mem0 c).deadline ∧
    (due now (mem0 c) = true → (mem c).state = TASK_STATE_READY) ∧
    (due now (mem0 c) = false → (mem c).state = (mem0 c).state) := by
  by_cases hd : due now (mem0 c) = true
  · rw [h1 c hc hd]
    refine ⟨rfl, rfl, rfl, rfl, fun _ => rfl, fun h => ?_⟩
    rw [hd] at h; cases h
  · rw [h2 c (fun h => hd h.2)]
    exact ⟨rfl, rfl, rfl, rfl, fun h => absurd h hd, fun _ => rfl⟩

/-- Runs of the tick handler on a Delayed task of the task list whose wake-up
time `w` lies `j + 1` ticks ahead: the first `j` runs leave it Delayed, run
number `j + 1` makes it Ready. -/
theorem tick_n_delayed (N fuel : Nat) (l : List Nat) (c w : Nat) (hf : N ≤ fuel)
    (hc : c ∈ l) (hw : w < 4294967296) :
    ∀ (j : Nat) (k : Kernel), KernelOk N k → isChain k.tasks k.task_list l →
      (k.tasks c).state = TASK_STATE_DELAYED → (k.tasks c).wakeup_time = w →
      k.os_tick + j + 1 = w →
      (∀ i, i ≤ j → ∃ ki, tick_n fuel i k = some ki ∧ ki.os_tick = k.os_tick + i ∧
        (ki.tasks c).state = TASK_STATE_DELAYED ∧ (ki.tasks c).wakeup_time = w) ∧
      ∃ k', tick_n fuel (j + 1) k = some k' ∧ k'.os_tick = w ∧
        (k'.tasks c).state = TASK_STATE_READY
  | 0, k, hk, hl, hs, hwk, hj => by
    obtain ⟨k', mem, t1, t2, t3, t4, t5, t6, -, -⟩ := SysTick_Handler_spec N fuel k l hk hf hl
    have hwrap : wrap32 (k.os_tick + 1) = w := by
      unfold wrap32
      rw [Nat.mod_eq_of_lt (by omega)]
      omega
    obtain ⟨-, -, -, -, f5, -⟩ := woken_fields _ l k.tasks mem c hc t4 t5
    have hd : due (wrap32 (k.os_tick + 1)) (k.tasks c) = true := by
      rw [due_delayed _ _ hs, hwk, hwrap]
      simp
    refine ⟨?_, k', ?_, t3.trans hwrap, ?_⟩
    · intro i hi
      have hi0 : i = 0 := by omega
      subst hi0
      exact ⟨k, rfl, rfl, hs, hwk⟩
    · show (match SysTick_Handler fuel k with
        | some k' => tick_n fuel 0 k'
        | none => none) = _
      rw [t1]
      rfl
    · rw [(core_fields _ _ (t6 c)).2.2.2.2.1]
      exact f5 hd
  | j + 1, k, hk, hl, hs, hwk, hj => by
    obtain ⟨k1, mem, t1, t2, t3, t4, t5, t6, -, t8⟩ := SysTick_Handler_spec N fuel k l hk hf hl
    have hwrap : wrap32 (k.os_tick + 1) = k.os_tick + 1 := by
      unfold wrap32
      exact Nat.mod_eq_of_lt (by omega)
    obtain ⟨f1, -, -, -, -, f6⟩ := woken_fields _ l k.tasks mem c hc t4 t5
    have hd : due (wrap32 (k.os_tick + 1)) (k.tasks c) = false := by
      rw [due_delayed _ _ hs, hwk, hwrap]
      simp
      omega
    have hs1 : (k1.tasks c).state = TASK_STATE_DELAYED := by
      rw [(core_fields _ _ (t6 c)).2.2.2.2.1, f6 hd]; exact hs
    have hw1 : (k1.tasks c).wakeup_time = w := by
      rw [(core_fields _ _ (t6 c)).2.2.2.1, f1]; exact hwk
    have ht1 : k1.os_tick = k.os_tick + 1 := t3.trans hwrap
    obtain ⟨ih1, k', ih2, ih3, ih4⟩ :=
      tick_n_delayed N fuel l c w hf hc hw j k1 t2 t8 hs1 hw1 (by omega)
    have hstep : ∀ m, tick_n fuel (m + 1) k = tick_n fuel m k1 := by
      intro m
      show (match SysTick_Handler fuel k with
        | some k' => tick_n fuel m k'
        | none => none) = _
      rw [t1]
    refine ⟨?_, k', ?_, ih3, ih4⟩
    · intro i hi
      cases i with
      | zero => exact ⟨k, rfl, rfl, hs, hwk⟩
      | succ i =>
        obtain ⟨ki, a1, a2, a3, a4⟩ := ih1 i (by omega)
        exact ⟨ki, by rw [hstep]; exact a1, by rw [a2, ht1]; omega, a3, a4⟩
    · rw [hstep]; exact ih2

/-- One run of the whole tick handler seen from a Delayed task `c` of the task
list with wake-up time `w`: the task stays Delayed when the new tick is below
`w` and is Ready otherwise. -/
theorem SysTick_Handler_full_delayed (cb : Callbacks) (N fuel : Nat) (k : Kernel)
    (mp : Mempools) (ts : Timers) (l L : List Nat) (c w : Nat)
    (hcb : ∀ f a k1 ts1, cb f a (k1, ts1) = (k1, ts1))
    (hk : KernelOk N k) (hf : N ≤ fuel) (hl : isChain k.tasks k.task_list l)
    (hL : isTimerList ts.timer_pool ts.active_timer_list L) (hlen : L.length ≤ fuel)
    (hc : c ∈ l) (hs : (k.tasks c).state = TASK_STATE_DELAYED)
    (hw : (k.tasks c).wakeup_time = w) :
    ∃ k' mp' ts', SysTick_Handler_full cb fuel k mp ts = some (k', mp', ts') ∧
      k'.os_tick = wrap32 (k.os_tick + 1) ∧ (k'.tasks c).wakeup_time = w ∧
      (k'.os_tick < w → (k'.tasks c).state = TASK_STATE_DELAYED) ∧
      (w ≤ k'.os_tick → (k'.tasks c).state = TASK_STATE_READY) := by
  obtain ⟨k', mp', ts', mem, h1, -, h3, h4, h5, h6, -⟩ :=
    SysTick_Handler_full_spec cb N fuel k mp ts l L hcb hk hf hl hL hlen
  obtain ⟨f1, -, -, -, f5, f6⟩ := woken_fields _ l k.tasks mem c hc h4 h5
  refine ⟨k', mp', ts', h1, h3, ?_, ?_, ?_⟩
  · rw [(core_fields _ _ (h6 c)).2.2.2.1, f1]; exact hw
  · intro hlt
    rw [(core_fields _ _ (h6 c)).2.2.2.2.1, f6, hs]
    rw [due_delayed _ _ hs, hw, ← h3]
    simp only [decide_eq_false_iff_not]
    omega
  · intro hle
    rw [(core_fields _ _ (h6 c)).2.2.2.2.1]
    apply f5
    rw [due_delayed _ _ hs, hw, ← h3]
    simpa using hle

/-- Delay and wake-up of a task that is on the task list.  The current task `c`
of a well-formed system, on the task list, calls `smart_delay(n)` with `n > 0`
at tick `t`, `t + n < 2^32`.  The call returns with the task Delayed and
`wakeup_time = t + n`; the first `i < n` tick-handler runs that follow leave it
Delayed and run number `n`, in which `os_tick` reaches `t + n`, makes it Ready.
In any well-formed system one run of the whole tick handler leaves a Delayed
task of the task list with wake-up time `w` Delayed when the new `os_tick` is
below `w` and makes it Ready otherwise.  `smart_delay(0)` returns the state
unchanged. -/
theorem delay_holds_task_until_wakeup (cb : Callbacks) (N fuel : Nat) (k : Kernel)
    (l : List Nat) (c n : Nat)
    (hcb : ∀ f a k1 ts1, cb f a (k1, ts1) = (k1, ts1))
    (hk : KernelOk N k) (hf : N ≤ fuel) (hl : isChain k.tasks k.task_list l)
    (hcl : c ∈ l) (hc : k.current_task = some c) (hn : 0 < n)
    (hlt : k.os_tick + n < 4294967296) :
    (∃ k1, smart_delay fuel k n = some k1 ∧
      (k1.tasks c).state = TASK_STATE_DELAYED ∧
      (k1.tasks c).wakeup_time = k.os_tick + n ∧ k1.os_tick = k.os_tick ∧
      (∀ i, i < n → ∃ ki, tick_n fuel i k1 = some ki ∧ ki.os_tick = k.os_tick + i ∧
        (ki.tasks c).state = TASK_STATE_DELAYED) ∧
      (∃ k', tick_n fuel n k1 = some k' ∧ k'.os_tick = k.os_tick + n ∧
        (k'.tasks c).state = TASK_STATE_READY)) ∧
    (∀ (k2 : Kernel) (mp : Mempools) (ts : Timers) (l2 L : List Nat) (w : Nat),
      KernelOk N k2 → isChain k2.tasks k2.task_list l2 →
      isTimerList ts.timer_pool ts.active_timer_list L → L.length ≤ fuel →
      c ∈ l2 → (k2.tasks c).state = TASK_STATE_DELAYED → (k2.tasks c).wakeup_time = w →
      ∃ k' mp' ts', SysTick_Handler_full cb fuel k2 mp ts = some (k', mp', ts') ∧
        k'.os_tick = wrap32 (k2.os_tick + 1) ∧
        (k'.os_tick < w → (k'.tasks c).state = TASK_STATE_DELAYED) ∧
        (w ≤ k'.os_tick → (k'.tasks c).state = TASK_STATE_READY)) ∧
    smart_delay fuel k 0 = some k := by
  refine ⟨?_, ?_, smart_delay_zero fuel k⟩
  · obtain ⟨k1, d1, d2, d3, d4, -, -, -, d8, d9, d10, -⟩ :=
      smart_delay_effect N fuel k c n hk hf hc hn
    have hwk : (k1.tasks c).wakeup_time = k.os_tick + n := by
      rw [d4]
      exact Nat.mod_eq_of_lt hlt
    have hl1 : isChain k1.tasks k1.task_list l := by
      rw [d10]
      exact isChain_congr k.tasks k1.tasks d8 l _ hl
    obtain ⟨n', hn'⟩ : ∃ n', n = n' + 1 := ⟨n - 1, by omega⟩
    obtain ⟨r1, k', r2, r3, r4⟩ :=
      tick_n_delayed N fuel l c (k.os_tick + n) hf hcl hlt n' k1 d2 hl1 d3 hwk
        (by rw [d9]; omega)
    refine ⟨k1, d1, d3, hwk, d9, ?_, k', ?_, r3, r4⟩
    · intro i hi
      obtain ⟨ki, a1, a2, a3, -⟩ := r1 i (by omega)
      exact ⟨ki, a1, by rw [a2, d9], a3⟩
    · rw [hn']; exact r2
  · intro k2 mp ts l2 L w hk2 hl2 hL hlen hc2 hs hw
    obtain ⟨k', mp', ts', h1, h2, -, h4, h5⟩ :=
      SysTick_Handler_full_delayed cb N fuel k2 mp ts l2 L c w hcb hk2 hf hl2 hL hlen hc2 hs hw
    exact ⟨k', mp', ts', h1, h2, h4, h5⟩

theorem delay_holds_task_until_wakeup_witness :
    ∃ k1, smart_delay 4 delayKernel 100 = some k1 ∧
      (k1.tasks 2).state = TASK_STATE_DELAYED ∧
      (k1.tasks 2).wakeup_time = delayKernel.os_tick + 100 ∧
      k1.os_tick = delayKernel.os_tick ∧
      (∀ i, i < 100 → ∃ ki, tick_n 4 i k1 = some ki ∧ ki.os_tick = delayKernel.os_tick + i ∧
        (ki.tasks 2).state = TASK_STATE_DELAYED) ∧
      (∃ k', tick_n 4 100 k1 = some k' ∧ k'.os_tick = delayKernel.os_tick + 100 ∧
        (k'.tasks 2).state = TASK_STATE_READY) :=
  (delay_holds_task_until_wakeup quietCallbacks 3 4 delayKernel [2, 1, 0] 2 100
    (fun _ _ _ _ => rfl) (by decide) (by decide) (by decide) (by decide) (by decide)
    (by decide) (by decide)).1

/-! ## Which calls make a Waiting task Ready -/

theorem smart_sem_wait_count (fuel : Nat) (k k' : Kernel) (s s' : smart_semaphore_t)
    (r : smart_sync_status_t) (h : smart_sem_wait fuel k (some s) = some (k', some s', r)) :
    s'.count ≤ s.count ∧ s'.max_count = s.max_count := by
  unfold smart_sem_wait at h
  simp only [] at h
  by_cases hc : s.count > 0
  · rw [if_pos hc] at h
    have e := Option.some.inj h
    simp only [Prod.mk.injEq, Option.some.injEq] at e
    rw [← e.2.1]
    exact ⟨Nat.sub_le _ _, rfl⟩
  · rw [if_neg hc] at h
    have key : ∀ mem2 wl,
        (match smart_task_yield fuel
            (smart_exit_critical (setTasks (smart_enter_critical k) mem2)) with
          | none => none
          | some k3 => some (k3, some { s with wait_list := wl },
              smart_sync_status_t.SMART_SYNC_OK)) = some (k', some s', r) →
        s'.count ≤ s.count ∧ s'.max_count = s.max_count := by
      intro mem2 wl hy
      cases hyy : smart_task_yield fuel
          (smart_exit_critical (setTasks (smart_enter_critical k) mem2)) with
      | none => rw [hyy] at hy; cases hy
      | some k3 =>
        rw [hyy] at hy
        have e := Option.some.inj hy
        simp only [Prod.mk.injEq, Option.some.injEq] at e
        rw [← e.2.1]
        exact ⟨le_refl _, rfl⟩
    unfold smart_get_current_task at h
    simp only [smart_enter_critical_current_task, smart_enter_critical_tasks] at h
    cases hcur : k.current_task with
    | none =>
      rw [hcur] at h
      exact key k.tasks s.wait_list h
    | some c =>
      rw [hcur] at h
      simp only [] at h
      cases happ : wait_list_append fuel
          (upd k.tasks c ((k.tasks c).setState TASK_STATE_WAITING)) s.wait_list c with
      | none => rw [happ] at h; cases h
      | some p =>
        obtain ⟨mem2, wl⟩ := p
        rw [happ] at h
        exact key mem2 wl h

theorem smart_sem_try_wait_count (k k' : Kernel) (s s' : smart_semaphore_t)
    (r : smart_sync_status_t) (h : smart_sem_try_wait k (some s) = (k', some s', r)) :
    s'.count ≤ s.count ∧ s'.max_count = s.max_count := by
  unfold smart_sem_try_wait at h
  simp only [] at h
  by_cases hc : s.count > 0
  · rw [if_pos hc] at h
    simp only [Prod.mk.injEq, Option.some.injEq] at h
    rw [← h.2.1]
    exact ⟨Nat.sub_le _ _, rfl⟩
  · rw [if_neg hc] at h
    simp only [Prod.mk.injEq, Option.some.injEq] at h
    rw [← h.2.1]
    exact ⟨le_refl _, rfl⟩

theorem smart_sem_post_count (fuel : Nat) (k k' : Kernel) (s s' : smart_semaphore_t)
    (r : smart_sync_status_t) (h : smart_sem_post fuel k (some s) = some (k', some s', r))
    (hb : s.count ≤ s.max_count) :
    s'.count ≤ s'.max_count ∧ s'.max_count = s.max_count := by
  unfold smart_sem_post at h
  simp only [] at h
  cases hw : s.wait_list with
  | some task =>
    rw [hw] at h
    simp only [] at h
    cases hs : smart_schedule fuel (smart_exit_critical (setTasks (smart_enter_critical k)
        (upd (smart_enter_critical k).tasks task
          ((((smart_enter_critical k).tasks task).setNext none).setState
            TASK_STATE_READY)))) with
    | none => rw [hs] at h; cases h
    | some k3 =>
      rw [hs] at h
      have e := Option.some.inj h
      simp only [Prod.mk.injEq, Option.some.injEq] at e
      rw [← e.2.1]
      exact ⟨hb, rfl⟩
  | none =>
    rw [hw] at h
    have e := Option.some.inj h
    simp only [Prod.mk.injEq, Option.some.injEq] at e
    rw [← e.2.1]
    by_cases hc : s.count < s.max_count
    · rw [if_pos hc]
      exact ⟨hc, rfl⟩
    · rw [if_neg hc]
      exact ⟨hb, rfl⟩

theorem SemCall_count (fuel : Nat) :
    ∀ (a b : Kernel × smart_semaphore_t), SemCall fuel a b →
      a.2.count ≤ a.2.max_count → b.2.count ≤ b.2.max_count ∧ b.2.max_count = a.2.max_count
  | _, _, .wait k k' s s' r h, hb =>
    ⟨by
      obtain ⟨h1, h2⟩ := smart_sem_wait_count fuel k k' s s' r h
      show s'.count ≤ s'.max_count
      rw [h2]
      exact le_trans h1 hb,
     (smart_sem_wait_count fuel k k' s s' r h).2⟩
  | _, _, .try_wait k k' s s' r h, hb =>
    ⟨by
      obtain ⟨h1, h2⟩ := smart_sem_try_wait_count k k' s s' r h
      show s'.count ≤ s'.max_count
      rw [h2]
      exact le_trans h1 hb,
     (smart_sem_try_wait_count k k' s s' r h).2⟩
  | _, _, .post k k' s s' r h, hb => smart_sem_post_count fuel k k' s s' r h hb
  | _, _, .switch k s c, hb => ⟨hb, rfl⟩

theorem SemCalls_count (fuel : Nat) (a b : Kernel × smart_semaphore_t)
    (h : Relation.ReflTransGen (SemCall fuel) a b) (hb : a.2.count ≤ a.2.max_count) :
    b.2.count ≤ b.2.max_count ∧ b.2.max_count = a.2.max_count := by
  induction h with
  | refl => exact ⟨hb, rfl⟩
  | tail _ hstep ih =>
    obtain ⟨h1, h2⟩ := SemCall_count fuel _ _ hstep ih.1
    exact ⟨h1, h2.trans ih.2⟩

theorem smart_sem_init_spec (k : Kernel) (s0 : smart_semaphore_t) (initial max : Nat)
    (hm : 0 < max) :
    smart_sem_init k (some s0) initial max =
      (smart_exit_critical (smart_enter_critical k),
        some { count := if initial > max then max else initial, max_count := max,
               wait_list := none }) := by
  unfold smart_sem_init
  simp only []
  rw [if_neg (by omega)]

/-- C31: `smart_sem_init` with `max_count >= 1` leaves `max_count` as given and
`count = min(initial_count, max_count)`, so `count <= max_count`; and after
every sequence of `smart_sem_wait`, `smart_sem_try_wait` and `smart_sem_post`
calls on it (by whatever tasks) `count <= max_count` still holds, with
`max_count` unchanged. -/
theorem semaphore_count_within_max (fuel : Nat) (k : Kernel) (s0 : smart_semaphore_t)
    (initial max : Nat) (hm : 0 < max) :
    ∃ k1 s1, smart_sem_init k (some s0) initial max = (k1, some s1) ∧
      s1.max_count = max ∧ s1.count = min initial max ∧ s1.count ≤ s1.max_count ∧
      ∀ k2 s2, Relation.ReflTransGen (SemCall fuel) (k1, s1) (k2, s2) →
        s2.count ≤ s2.max_count ∧ s2.max_count = max := by
  have hc : (if initial > max then max else initial) = min initial max := by
    by_cases h : initial > max
    · rw [if_pos h, Nat.min_eq_right (by omega)]
    · rw [if_neg h, Nat.min_eq_left (by omega)]
  refine ⟨_, _, smart_sem_init_spec k s0 initial max hm, rfl, hc, ?_, ?_⟩
  · show (if initial > max then max else initial) ≤ max
    rw [hc]; exact Nat.min_le_right _ _
  · intro k2 s2 hr
    have hb : (if initial > max then max else initial) ≤ max := by
      rw [hc]; exact Nat.min_le_right _ _
    exact SemCalls_count fuel _ (k2, s2) hr hb

theorem semaphore_count_within_max_witness :
    ∃ k1 s1, smart_sem_init startedKernel (some emptySem) 12 10 = (k1, some s1) ∧
      s1.max_count = 10 ∧ s1.count = min 12 10 ∧ s1.count ≤ s1.max_count ∧
      ∀ k2 s2, Relation.ReflTransGen (SemCall 4) (k1, s1) (k2, s2) →
        s2.count ≤ s2.max_count ∧ s2.max_count = 10 :=
  semaphore_count_within_max 4 startedKernel emptySem 12 10 (by decide)

/-! ## Post followed by wait -/

theorem smart_sem_post_no_waiter (fuel : Nat) (k : Kernel) (s : smart_semaphore_t)
    (hw : s.wait_list = none) :
    smart_sem_post fuel k (some s) =
      some (smart_exit_critical (smart_enter_critical k),
        some (if s.count < s.max_count then { s with count := s.count + 1 } else s),
        smart_sync_status_t.SMART_SYNC_OK) := by
  unfold smart_sem_post
  simp only [hw]

/-- C32 as stated fails: on a semaphore with `count = max_count = 5` and no
waiter the post leaves the count at 5 and the wait that follows takes it to
4. -/
theorem post_then_wait_on_full_semaphore :
    fullSem.count = 5 ∧ fullSem.max_count = 5 ∧ fullSem.wait_list = none ∧
    (smart_sem_post 4 startedKernel (some fullSem)).map (fun r => (r.2.1, r.2.2)) =
      some (some fullSem, smart_sync_status_t.SMART_SYNC_OK) ∧
    ((smart_sem_post 4 startedKernel (some fullSem)).bind
      (fun r => (smart_sem_wait 4 r.1 r.2.1).map
        (fun r2 => (r2.2.1.map (fun s2 => s2.count), r2.2.2)))) =
      some (some 4, smart_sync_status_t.SMART_SYNC_OK) := by
  decide

/-- C32, amended: on a semaphore without waiters whose count is below
`max_count`, `smart_sem_post` returns OK with the count one higher and the
`smart_sem_wait` that follows returns OK and leaves the semaphore as it was
before the post. -/
theorem post_then_wait_restores_count (fuel : Nat) (k : Kernel) (s : smart_semaphore_t)
    (hw : s.wait_list = none) (hc : s.count < s.max_count) :
    ∃ k1 s1 k2, smart_sem_post fuel k (some s) =
        some (k1, some s1, smart_sync_status_t.SMART_SYNC_OK) ∧
      s1.count = s.count + 1 ∧
      smart_sem_wait fuel k1 (some s1) =
        some (k2, some s, smart_sync_status_t.SMART_SYNC_OK) ∧
      k2.tasks = k.tasks := by
  refine ⟨smart_exit_critical (smart_enter_critical k), { s with count := s.count + 1 },
    smart_exit_critical (smart_enter_critical (smart_exit_critical (smart_enter_critical k))),
    ?_, rfl, ?_, ?_⟩
  · rw [smart_sem_post_no_waiter fuel k s hw, if_pos hc]
  · rw [smart_sem_wait_available fuel _ _ (Nat.succ_pos _)]
    rfl
  · simp

theorem post_then_wait_restores_count_witness :
    ∃ k1 s1 k2, smart_sem_post 4 startedKernel (some emptySem) =
        some (k1, some s1, smart_sync_status_t.SMART_SYNC_OK) ∧
      s1.count = emptySem.count + 1 ∧
      smart_sem_wait 4 k1 (some s1) =
        some (k2, some emptySem, smart_sync_status_t.SMART_SYNC_OK) ∧
      k2.tasks = startedKernel.tasks :=
  post_then_wait_restores_count 4 startedKernel emptySem (by decide) (by decide)

/-! ## Recursive locking -/

/-- Further recursive locks by the owner: the depth grows by one each time, in
`uint32_t` arithmetic. -/
theorem mutex_lock_times_owner (fuel t : Nat) :
    ∀ (n : Nat) (k : Kernel) (m : smart_mutex_t), k.current_task = some t → m.locked ≠ 0 →
      m.owner = some t → m.lock_count < 4294967296 →
      ∃ k', mutex_lock_times fuel n k m =
          some (k', ⟨m.locked, m.owner, wrap32 (m.lock_count + n), m.original_deadline,
            m.wait_list⟩) ∧
        k'.current_task = some t ∧ k'.tasks = k.tasks
  | 0, k, m, hc, _, _, hlt => by
    refine ⟨k, ?_, hc, rfl⟩
    have e : wrap32 (m.lock_count + 0) = m.lock_count := by
      unfold wrap32
      omega
    rw [e]
    rfl
  | n + 1, k, m, hc, hl, ho, _ => by
    obtain ⟨k', h, hc', ht'⟩ := mutex_lock_times_owner fuel t n
      (smart_exit_critical (smart_enter_critical k))
      ⟨m.locked, m.owner, wrap32 (m.lock_count + 1), m.original_deadline, m.wait_list⟩
      (by simpa using hc) hl ho (wrap32_lt _)
    refine ⟨k', ?_, hc', by simpa using ht'⟩
    have e : wrap32 (wrap32 (m.lock_count + 1) + n) = wrap32 (m.lock_count + (n + 1)) := by
      unfold wrap32
      omega
    unfold mutex_lock_times
    rw [smart_mutex_lock_recursive_eq fuel k m t hc hl ho]
    simp only [h, e]

/-- After `n + 1` locks of a free mutex by the running task the depth is
`n + 1` in `uint32_t` arithmetic. -/
theorem mutex_lock_times_free (fuel t n : Nat) (k : Kernel) (m : smart_mutex_t)
    (hc : k.current_task = some t) (hfree : m.locked = 0) :
    ∃ k', mutex_lock_times fuel (n + 1) k m =
        some (k', ⟨1, some t, wrap32 (n + 1), (k.tasks t).deadline, m.wait_list⟩) ∧
      k'.current_task = some t ∧ k'.tasks = k.tasks := by
  obtain ⟨k', h, hc', ht'⟩ := mutex_lock_times_owner fuel t n
    (smart_exit_critical (smart_enter_critical k))
    ⟨1, some t, 1, (k.tasks t).deadline, m.wait_list⟩
    (by simpa using hc) Nat.one_ne_zero rfl (show (1 : Nat) < 4294967296 by decide)
  refine ⟨k', ?_, hc', by simpa using ht'⟩
  unfold mutex_lock_times
  rw [smart_mutex_lock_free_ok fuel k m t hc hfree]
  simp only [h, Nat.add_comm 1 n]

/-- The last unlock of a mutex nobody waits for: depth 0, unlocked, no owner,
and the owner gets its saved deadline back. -/
theorem smart_mutex_unlock_last_eq (fuel : Nat) (k : Kernel) (m : smart_mutex_t) (t : Nat)
    (hc : k.current_task = some t) (ho : m.owner = some t)
    (hlc : wrap32 (m.lock_count + 4294967296 - 1) = 0) (hw : m.wait_list = none) :
    smart_mutex_unlock fuel k (some m) =
      some (smart_exit_critical (setTasks (smart_enter_critical k)
          (upd k.tasks t ((k.tasks t).setDeadline m.original_deadline))),
        some ⟨0, none, 0, m.original_deadline, none⟩, SMART_SYNC_OK) := by
  have hOO : ¬ (some t ≠ some t) := fun h => h rfl
  unfold smart_mutex_unlock
  simp only [smart_get_current_task, hc, ho, hOO, if_false, gt_iff_lt, hlc, Nat.lt_irrefl,
    hw, smart_enter_critical_tasks]

/-- While fewer unlocks than the depth `r` have been made, the mutex stays
locked by its owner. -/
theorem mutex_unlock_times_partial (fuel t : Nat) :
    ∀ (j r : Nat) (k : Kernel) (m : smart_mutex_t), k.current_task = some t →
      m.owner = some t → m.lock_count = wrap32 r → j < r → r ≤ 4294967296 →
      ∃ k', mutex_unlock_times fuel j k m =
          some (k', ⟨m.locked, m.owner, wrap32 (r - j), m.original_deadline, m.wait_list⟩) ∧
        k'.current_task = some t
  | 0, r, k, m, hc, _, hr, _, _ => by
    refine ⟨k, ?_, hc⟩
    rw [Nat.sub_zero, ← hr]
    rfl
  | j + 1, r, k, m, hc, ho, hr, hj, hr' => by
    have e : wrap32 (m.lock_count + 4294967296 - 1) = wrap32 (r - 1) := by
      rw [hr]
      unfold wrap32
      omega
    have hne : wrap32 (m.lock_count + 4294967296 - 1) ≠ 0 := by
      rw [e]
      unfold wrap32
      omega
    obtain ⟨k', h, hc'⟩ := mutex_unlock_times_partial fuel t j (r - 1)
      (smart_exit_critical (smart_enter_critical k))
      ⟨m.locked, m.owner, wrap32 (m.lock_count + 4294967296 - 1), m.original_deadline,
        m.wait_list⟩
      (by simpa using hc) (by dsimp only; exact ho) (by dsimp only; exact e) (by omega) (by omega)
    refine ⟨k', ?_, hc'⟩
    unfold mutex_unlock_times
    rw [smart_mutex_unlock_partial_eq fuel k m t hc ho hne]
    simp only [h, Nat.sub_sub, Nat.add_comm 1 j]

/-- As many unlocks as the depth `r` release a mutex nobody waits for. -/
theorem mutex_unlock_times_all (fuel t : Nat) :
    ∀ (r : Nat) (k : Kernel) (m : smart_mutex_t), k.current_task = some t →
      m.owner = some t → m.lock_count = wrap32 (r + 1) → r + 1 ≤ 4294967296 →
      m.wait_list = none →
      ∃ k', mutex_unlock_times fuel (r + 1) k m =
          some (k', ⟨0, none, 0, m.original_deadline, none⟩)
  | 0, k, m, hc, ho, hr, _, hw => by
    have hlc : wrap32 (m.lock_count + 4294967296 - 1) = 0 := by
      rw [hr]
      unfold wrap32
      omega
    refine ⟨smart_exit_critical (setTasks (smart_enter_critical k)
      (upd k.tasks t ((k.tasks t).setDeadline m.original_deadline))), ?_⟩
    unfold mutex_unlock_times
    rw [smart_mutex_unlock_last_eq fuel k m t hc ho hlc hw]
    simp only [mutex_unlock_times]
  | r + 1, k, m, hc, ho, hr, hr', hw => by
    have e : wrap32 (m.lock_count + 4294967296 - 1) = wrap32 (r + 1) := by
      rw [hr]
      unfold wrap32
      omega
    have hne : wrap32 (m.lock_count + 4294967296 - 1) ≠ 0 := by
      rw [e]
      unfold wrap32
      omega
    obtain ⟨k', h⟩ := mutex_unlock_times_all fuel t r
      (smart_exit_critical (smart_enter_critical k))
      ⟨m.locked, m.owner, wrap32 (m.lock_count + 4294967296 - 1), m.original_deadline,
        m.wait_list⟩
      (by simpa using hc) (by dsimp only; exact ho) (by dsimp only; exact e) (by omega)
      (by dsimp only; exact hw)
    refine ⟨k', ?_⟩
    rw [mutex_unlock_times, smart_mutex_unlock_partial_eq fuel k m t hc ho hne]
    simp only [h]

/-- Recursive locking up to depth `2 ^ 32`: released exactly at the last unlock. -/
theorem mutex_recursive_release (fuel t n : Nat) (k : Kernel) (m : smart_mutex_t)
    (hc : k.current_task = some t) (hfree : m.locked = 0) (hw : m.wait_list = none)
    (hn : 1 ≤ n) (hn' : n ≤ 4294967296) :
    ∃ k1 m1, mutex_lock_times fuel n k m = some (k1, m1) ∧
      (∀ j, j < n → ∃ kj mj, mutex_unlock_times fuel j k1 m1 = some (kj, mj) ∧
        mj.locked ≠ 0 ∧ mj.owner = some t) ∧
      ∃ k2 m2, mutex_unlock_times fuel n k1 m1 = some (k2, m2) ∧
        m2.locked = 0 ∧ m2.owner = none := by
  obtain ⟨p, rfl⟩ : ∃ p, n = p + 1 := ⟨n - 1, by omega⟩
  obtain ⟨k1, h1, hc1, -⟩ := mutex_lock_times_free fuel t p k m hc hfree
  refine ⟨k1, _, h1, ?_, ?_⟩
  · intro j hj
    obtain ⟨kj, h, -⟩ := mutex_unlock_times_partial fuel t j (p + 1) k1
      ⟨1, some t, wrap32 (p + 1), (k.tasks t).deadline, m.wait_list⟩ hc1 rfl rfl hj hn'
    exact ⟨kj, _, h, Nat.one_ne_zero, rfl⟩
  · obtain ⟨k2, h⟩ := mutex_unlock_times_all fuel t p k1
      ⟨1, some t, wrap32 (p + 1), (k.tasks t).deadline, m.wait_list⟩ hc1 rfl rfl hn' hw
    exact ⟨k2, _, h, rfl, rfl⟩

/-- At depth `2 ^ 32 + 1` the counter has wrapped to 1: one unlock releases. -/
theorem mutex_recursive_wrap (fuel t : Nat) (k : Kernel) (m : smart_mutex_t)
    (hc : k.current_task = some t) (hfree : m.locked = 0) (hw : m.wait_list = none) :
    ∃ k1 m1, mutex_lock_times fuel 4294967297 k m = some (k1, m1) ∧
      ∃ k2 m2, mutex_unlock_times fuel 1 k1 m1 = some (k2, m2) ∧
        m2.locked = 0 ∧ m2.owner = none := by
  obtain ⟨k1, h1, hc1, -⟩ := mutex_lock_times_free fuel t 4294967296 k m hc hfree
  refine ⟨k1, _, h1, ?_⟩
  obtain ⟨k2, h⟩ := mutex_unlock_times_all fuel t 0 k1
    ⟨1, some t, wrap32 (4294967296 + 1), (k.tasks t).deadline, m.wait_list⟩ hc1 rfl
    (by dsimp only; unfold wrap32; omega) (by decide) hw
  exact ⟨k2, _, h, rfl, rfl⟩

/-- C33, at depth `2 ^ 32 + 1`: task 1 locks the fresh mutex `2 ^ 32 + 1` times,
every call returning OK; the first unlock already leaves it unlocked with no
owner, although `2 ^ 32` unlocks are still due. -/
theorem recursive_lock_depth_wraps :
    ∃ k1 m1, mutex_lock_times 5 4294967297 (setCurrent mutexStarted (some 1)) freshMutex =
        some (k1, m1) ∧
      ∃ k2 m2, mutex_unlock_times 5 1 k1 m1 = some (k2, m2) ∧
        m2.locked = 0 ∧ m2.owner = none :=
  mutex_recursive_wrap 5 1 (setCurrent mutexStarted (some 1)) freshMutex rfl (by decide)
    (by decide)

/-- C33 (amended): for every `n` with `1 ≤ n ≤ 2 ^ 32`, after the running task
has locked an unlocked mutex without waiters `n` times, every lock returning
OK, the mutex stays locked with that task as owner through fewer than `n`
unlocks and is unlocked with no owner after the `n`-th unlock, every unlock
returning OK. -/
theorem recursive_lock_released_at_last_unlock (fuel t n : Nat) (k : Kernel)
    (m : smart_mutex_t) (hc : k.current_task = some t) (hfree : m.locked = 0)
    (hw : m.wait_list = none) (hn : 1 ≤ n) (hn' : n ≤ 4294967296) :
    ∃ k1 m1, mutex_lock_times fuel n k m = some (k1, m1) ∧
      (∀ j, j < n → ∃ kj mj, mutex_unlock_times fuel j k1 m1 = some (kj, mj) ∧
        mj.locked ≠ 0 ∧ mj.owner = some t) ∧
      ∃ k2 m2, mutex_unlock_times fuel n k1 m1 = some (k2, m2) ∧
        m2.locked = 0 ∧ m2.owner = none :=
  mutex_recursive_release fuel t n k m hc hfree hw hn hn'

theorem recursive_lock_released_at_last_unlock_witness :
    (setCurrent mutexStarted (some 1)).current_task = some 1 ∧ freshMutex.locked = 0 ∧
      freshMutex.wait_list = none ∧
      ∃ k1 m1, mutex_lock_times 5 3 (setCurrent mutexStarted (some 1)) freshMutex =
          some (k1, m1) ∧
        (∀ j, j < 3 → ∃ kj mj, mutex_unlock_times 5 j k1 m1 = some (kj, mj) ∧
          mj.locked ≠ 0 ∧ mj.owner = some 1) ∧
        ∃ k2 m2, mutex_unlock_times 5 3 k1 m1 = some (k2, m2) ∧
          m2.locked = 0 ∧ m2.owner = none :=
  ⟨rfl, by decide, by decide,
    recursive_lock_released_at_last_unlock 5 1 3 (setCurrent mutexStarted (some 1)) freshMutex
      rfl (by decide) (by decide) (by decide) (by decide)⟩

/-! ## Unlock by a task that is not the owner -/

/-- A task that does not own the mutex gets an error from `smart_mutex_unlock`;
the mutex and the task table are as before. -/
theorem smart_mutex_unlock_not_owner_spec (fuel : Nat) (k : Kernel) (m : smart_mutex_t)
    (t : Nat) (hc : k.current_task = some t) (ho : m.owner ≠ some t) :
    ∃ k', smart_mutex_unlock fuel k (some m) = some (k', some m, SMART_SYNC_ERROR) ∧
      k'.tasks = k.tasks ∧ k'.current_task = k.current_task ∧ k'.task_list = k.task_list :=
  ⟨smart_exit_critical (smart_enter_critical k),
    smart_mutex_unlock_not_owner_eq fuel k m t hc ho, by simp, by simp, by simp⟩

/-- C34: `smart_mutex_unlock` called by a task `t` that is not the owner of the
mutex (in particular on an unlocked mutex, whose owner is `NULL`) returns
`SMART_SYNC_ERROR`; the mutex comes back with the same `locked`, `owner`,
`lock_count`, `original_deadline` and wait list, and every task has the same
deadline and state as before. -/
theorem unlock_by_non_owner_rejected (fuel : Nat) (k : Kernel) (m : smart_mutex_t)
    (t : Nat) (hc : k.current_task = some t) (ho : m.owner ≠ some t) :
    ∃ k' m', smart_mutex_unlock fuel k (some m) = some (k', some m', SMART_SYNC_ERROR) ∧
      m'.locked = m.locked ∧ m'.owner = m.owner ∧ m'.lock_count = m.lock_count ∧
      m'.original_deadline = m.original_deadline ∧ m'.wait_list = m.wait_list ∧
      (∀ a, (k'.tasks a).deadline = (k.tasks a).deadline ∧
        (k'.tasks a).state = (k.tasks a).state) :=
  match smart_mutex_unlock_not_owner_spec fuel k m t hc ho with
  | ⟨k', h, ht, _, _⟩ =>
    ⟨k', m, h, rfl, rfl, rfl, rfl, rfl, fun a => by rw [ht]; exact ⟨rfl, rfl⟩⟩

theorem unlock_by_non_owner_rejected_witness :
    (setCurrent heldByL.1 (some 2)).current_task = some 2 ∧ heldByL.2.owner ≠ some 2 ∧
    ∃ k' m', smart_mutex_unlock 5 (setCurrent heldByL.1 (some 2)) (some heldByL.2) =
        some (k', some m', SMART_SYNC_ERROR) ∧
      m'.locked = heldByL.2.locked ∧ m'.owner = heldByL.2.owner ∧
      m'.lock_count = heldByL.2.lock_count ∧
      m'.original_deadline = heldByL.2.original_deadline ∧
      m'.wait_list = heldByL.2.wait_list ∧
      (∀ a, (k'.tasks a).deadline = ((setCurrent heldByL.1 (some 2)).tasks a).deadline ∧
        (k'.tasks a).state = ((setCurrent heldByL.1 (some 2)).tasks a).state) :=
  ⟨rfl, by decide,
    unlock_by_non_owner_rejected 5 (setCurrent heldByL.1 (some 2)) heldByL.2 2 rfl (by decide)⟩

/-! ## Registration with the tick service -/

theorem smart_mempool_register_keeps (s : Mempools) (pool : Option Nat) (a : Nat)
    (h : Registered a s) : Registered a (smart_mempool_register s pool).1 := by
  obtain ⟨i, hi, hia⟩ := h
  unfold smart_mempool_register SMART_MEMPOOL_MAX_POOLS
  by_cases hfull : s.pool_registry_count ≥ 4
  · rw [if_pos hfull]
    exact ⟨i, hi, hia⟩
  · rw [if_neg hfull]
    refine ⟨i, ?_, ?_⟩
    · show i < wrap32 (s.pool_registry_count + 1)
      unfold wrap32
      omega
    · show updAt s.pool_registry s.pool_registry_count pool i = some a
      rw [updAt_other _ _ _ _ (by omega)]
      exact hia

theorem smart_mempool_init_keeps (k : Kernel) (s : Mempools) (pool : Option Nat)
    (buffer block_size block_count ops_per_tick a : Nat) (h : Registered a s) :
    Registered a (smart_mempool_init k s pool buffer block_size block_count ops_per_tick).2 := by
  unfold smart_mempool_init
  cases pool with
  | none => exact h
  | some p =>
    by_cases hz : buffer = 0 ∨ block_size = 0 ∨ block_count = 0
    · simp only [hz, if_true]
      exact h
    · simp only [hz, if_false]
      exact smart_mempool_register_keeps _ _ a h

theorem smart_mempool_alloc_try_registry (k : Kernel) (s : Mempools)
    (pool out_block : Option Nat) :
    (smart_mempool_alloc_try k s pool out_block).2.1.pool_registry = s.pool_registry ∧
    (smart_mempool_alloc_try k s pool out_block).2.1.pool_registry_count =
      s.pool_registry_count := by
  unfold smart_mempool_alloc_try
  cases pool <;> cases out_block <;> try exact ⟨rfl, rfl⟩
  dsimp only
  split_ifs <;> exact ⟨rfl, rfl⟩

theorem smart_mempool_free_try_registry (k : Kernel) (s : Mempools) (pool : Option Nat)
    (block : Nat) (r : Kernel × Mempools × smart_mempool_status_t)
    (h : smart_mempool_free_try k s pool block = some r) :
    r.2.1.pool_registry = s.pool_registry ∧
    r.2.1.pool_registry_count = s.pool_registry_count := by
  unfold smart_mempool_free_try at h
  cases pool with
  | none =>
    rw [← Option.some.inj h]
    exact ⟨rfl, rfl⟩
  | some a =>
    dsimp only at h
    by_cases hb : block = 0
    · rw [if_pos hb] at h
      rw [← Option.some.inj h]
      exact ⟨rfl, rfl⟩
    · rw [if_neg hb] at h
      cases hv : smart_mempool_address_valid s (some a) block with
      | none =>
        rw [hv] at h
        cases h
      | some v =>
        rw [hv] at h
        cases v with
        | false =>
          rw [← Option.some.inj h]
          exact ⟨rfl, rfl⟩
        | true =>
          dsimp only at h
          by_cases ho : (s.pools a).ops_left = 0
          · rw [if_pos ho] at h
            rw [← Option.some.inj h]
            exact ⟨rfl, rfl⟩
          · rw [if_neg ho] at h
            rw [← Option.some.inj h]
            exact ⟨rfl, rfl⟩

theorem MempoolCall_keeps (a : Nat) :
    ∀ (x y : Kernel × Mempools), MempoolCall x y → Registered a x.2 → Registered a y.2
  | _, _, .init k s pool buffer block_size block_count ops_per_tick, h =>
    smart_mempool_init_keeps k s pool buffer block_size block_count ops_per_tick a h
  | _, _, .alloc k s pool out_block, h => by
    obtain ⟨i, hi, hia⟩ := h
    obtain ⟨e1, e2⟩ := smart_mempool_alloc_try_registry k s pool out_block
    exact ⟨i, by rw [e2]; exact hi, by rw [e1]; exact hia⟩
  | _, _, .free k s pool block r hr, h => by
    obtain ⟨i, hi, hia⟩ := h
    obtain ⟨e1, e2⟩ := smart_mempool_free_try_registry k s pool block r hr
    exact ⟨i, by rw [e2]; exact hi, by rw [e1]; exact hia⟩
  | _, _, .tick k s, h => by
    obtain ⟨i, hi, hia⟩ := h
    obtain ⟨-, e1, e2, -⟩ := smart_mempool_tick_ok s
    exact ⟨i, by rw [e2]; exact hi, by rw [e1]; exact hia⟩

theorem MempoolCalls_keep (a : Nat) (x y : Kernel × Mempools)
    (h : Relation.ReflTransGen MempoolCall x y) (hx : Registered a x.2) :
    Registered a y.2 := by
  induction h with
  | refl => exact hx
  | tail _ hstep ih => exact MempoolCall_keeps a _ _ hstep ih

/-- A registered pool has its budget refilled by `smart_mempool_tick`. -/
theorem smart_mempool_tick_refills (a : Nat) (s : Mempools) (h : Registered a s) :
    ((smart_mempool_tick s).pools a).ops_left = ((smart_mempool_tick s).pools a).ops_per_tick := by
  rw [((smart_mempool_tick_ok s).2.2.2 a).2 h]

theorem mempool_registered_refilled (k : Kernel) (s : Mempools) (a buffer block_size
    block_count ops_per_tick : Nat) (hb : buffer ≠ 0) (hsz : block_size ≠ 0)
    (hc : block_count ≠ 0) (hr : s.pool_registry_count < 4) (k2 : Kernel) (s2 : Mempools)
    (hrun : Relation.ReflTransGen MempoolCall
      (smart_mempool_init k s (some a) buffer block_size block_count ops_per_tick) (k2, s2)) :
    Registered a s2 ∧
    ((smart_mempool_tick s2).pools a).ops_left =
      ((smart_mempool_tick s2).pools a).ops_per_tick := by
  have h := MempoolCalls_keep a _ _ hrun
    (smart_mempool_init_registered k s a buffer block_size block_count ops_per_tick hb hsz hc hr)
  exact ⟨h, smart_mempool_tick_refills a s2 h⟩

/-- C35 fails for a fifth pool: `pool_registry` has 4 entries, all taken by the
pools 0 to 3; after two allocations from the fifth pool a `smart_mempool_tick`
leaves its `ops_left` at 0 while its `ops_per_tick` is 2. -/
theorem fifth_pool_not_refilled :
    fivePools.2.pool_registry_count = 4 ∧
    (∀ i, i < 4 → fivePools.2.pool_registry i ≠ some 4) ∧
    (fifthPoolDrained.2.pools 4).ops_left = 0 ∧
    ((smart_mempool_tick fifthPoolDrained.2).pools 4).ops_left = 0 ∧
    ((smart_mempool_tick fifthPoolDrained.2).pools 4).ops_per_tick = 2 := by
  decide

/-- C35 (amended): a pool initialised by `smart_mempool_init` with valid
arguments while fewer than 4 pools are registered is registered with the tick
service, and stays so through every later sequence of `smart_mempool_init`,
`smart_mempool_alloc_try`, `smart_mempool_free_try` and `smart_mempool_tick`
calls on any pools: after each `smart_mempool_tick` its `ops_left` equals its
`ops_per_tick`. -/
theorem registered_pool_refilled_each_tick (k : Kernel) (s : Mempools) (a buffer block_size
    block_count ops_per_tick : Nat) (hb : buffer ≠ 0) (hsz : block_size ≠ 0)
    (hc : block_count ≠ 0) (hr : s.pool_registry_count < 4) (k2 : Kernel) (s2 : Mempools)
    (hrun : Relation.ReflTransGen MempoolCall
      (smart_mempool_init k s (some a) buffer block_size block_count ops_per_tick) (k2, s2)) :
    Registered a s2 ∧
    ((smart_mempool_tick s2).pools a).ops_left =
      ((smart_mempool_tick s2).pools a).ops_per_tick :=
  mempool_registered_refilled k s a buffer block_size block_count ops_per_tick hb hsz hc hr
    k2 s2 hrun

theorem registered_pool_refilled_each_tick_witness :
    zeroMempools.pool_registry_count < 4 ∧
    Registered 0 (smart_mempool_alloc_try telemetryPool.1 telemetryPool.2 (some 0) (some 0)).2.1 ∧
    ((smart_mempool_tick
        (smart_mempool_alloc_try telemetryPool.1 telemetryPool.2 (some 0) (some 0)).2.1).pools
      0).ops_left =
    ((smart_mempool_tick
        (smart_mempool_alloc_try telemetryPool.1 telemetryPool.2 (some 0) (some 0)).2.1).pools
      0).ops_per_tick :=
  ⟨by decide,
    registered_pool_refilled_each_tick bootKernel zeroMempools 0 0x20004000 64 8 2 (by decide)
      (by decide) (by decide) (by decide) _ _
      (Relation.ReflTransGen.single (MempoolCall.alloc telemetryPool.1 telemetryPool.2 (some 0)
        (some 0)))⟩

/-! ## The pool right after initialisation -/

theorem poolBlocks_concat (buffer stride i n : Nat) :
    poolBlocks buffer stride i (n + 1) =
      poolBlocks buffer stride i n ++ [buffer + (i + n) * stride] := by
  simp [poolBlocks, List.range'_concat]

/-- One allocation or tick of a client that has given nothing back: the
blocks handed out so far are the first blocks of the pool, in address order. -/
theorem poolStep_allocs (a buffer stride count : Nat) (c : PoolClient) (op : PoolOp)
    (hop : ∀ i, op ≠ PoolOp.free i)
    (hfl : isFreeList c.s.words (c.s.pools a).free_list
      (poolBlocks buffer stride c.outstanding.length (count - c.outstanding.length)))
    (hm : c.outstanding.length ≤ count)
    (hout : c.outstanding.reverse = poolBlocks buffer stride 0 c.outstanding.length) :
    ∃ c1, poolStep a c op = some c1 ∧
      isFreeList c1.s.words (c1.s.pools a).free_list
        (poolBlocks buffer stride c1.outstanding.length (count - c1.outstanding.length)) ∧
      c1.outstanding.length ≤ count ∧
      c1.outstanding.reverse = poolBlocks buffer stride 0 c1.outstanding.length := by
  cases op with
  | free i => exact absurd rfl (hop i)
  | tick =>
    refine ⟨{ c with s := smart_mempool_tick c.s }, rfl, ?_, hm, hout⟩
    obtain ⟨hw, -, -, hp⟩ := smart_mempool_tick_ok c.s
    show isFreeList (smart_mempool_tick c.s).words ((smart_mempool_tick c.s).pools a).free_list _
    rw [hw]
    rcases (hp a).1 with h | h <;> rw [h] <;> exact hfl
  | alloc =>
    by_cases hops : (c.s.pools a).ops_left = 0
    · refine ⟨⟨smart_exit_critical (smart_enter_critical c.k), c.s, c.outstanding⟩, ?_, hfl, hm,
        hout⟩
      simp only [poolStep, smart_mempool_alloc_try_busy c.k c.s a 0 hops]
      rfl
    · by_cases hz : (c.s.pools a).free_list = 0
      · refine ⟨⟨smart_exit_critical (smart_enter_critical c.k), c.s, c.outstanding⟩, ?_, hfl,
          hm, hout⟩
        simp only [poolStep, smart_mempool_alloc_try_empty c.k c.s a 0 hops hz]
        rfl
      · obtain ⟨l1, hl1, hrest⟩ := isFreeList_ne_nil _ _ _ hz hfl
        obtain ⟨n, hn⟩ : ∃ n, count - c.outstanding.length = n + 1 := by
          cases hcm : count - c.outstanding.length with
          | zero =>
            rw [hcm] at hl1
            simp [poolBlocks] at hl1
          | succ n => exact ⟨n, rfl⟩
        rw [hn, poolBlocks_succ] at hl1
        have hhead : (c.s.pools a).free_list = buffer + c.outstanding.length * stride :=
          (List.cons.inj hl1).1.symm
        have htail : l1 = poolBlocks buffer stride (c.outstanding.length + 1) n :=
          (List.cons.inj hl1).2.symm
        refine ⟨⟨smart_exit_critical (smart_enter_critical c.k),
            setPool c.s a
              { (c.s.pools a) with
                free_list := c.s.words (c.s.pools a).free_list,
                free_count := wrap16 ((c.s.pools a).free_count + 65535),
                min_free_count :=
                  if wrap16 ((c.s.pools a).free_count + 65535) < (c.s.pools a).min_free_count
                  then wrap16 ((c.s.pools a).free_count + 65535)
                  else (c.s.pools a).min_free_count,
                ops_left := (c.s.pools a).ops_left - 1 },
            (c.s.pools a).free_list :: c.outstanding⟩, ?_, ?_, ?_, ?_⟩
        · simp only [poolStep, smart_mempool_alloc_try_take c.k c.s a 0 hops hz, if_true,
            Option.getD_some]
        · show isFreeList (setPool c.s a _).words ((setPool c.s a _).pools a).free_list
            (poolBlocks buffer stride (c.outstanding.length + 1)
              (count - (c.outstanding.length + 1)))
          rw [setPool_words, setPool_pools_same]
          have e : count - (c.outstanding.length + 1) = n := by omega
          rw [e, ← htail]
          exact hrest
        · show c.outstanding.length + 1 ≤ count
          omega
        · show ((c.s.pools a).free_list :: c.outstanding).reverse =
            poolBlocks buffer stride 0 (c.outstanding.length + 1)
          rw [List.reverse_cons, hout, poolBlocks_concat, hhead, Nat.zero_add]

theorem poolRun_allocs (a buffer stride count : Nat) :
    ∀ (ops : List PoolOp) (c : PoolClient), (∀ i, PoolOp.free i ∉ ops) →
      isFreeList c.s.words (c.s.pools a).free_list
        (poolBlocks buffer stride c.outstanding.length (count - c.outstanding.length)) →
      c.outstanding.length ≤ count →
      c.outstanding.reverse = poolBlocks buffer stride 0 c.outstanding.length →
      ∃ c1, poolRun a ops c = some c1 ∧ c1.outstanding.length ≤ count ∧
        c1.outstanding.reverse = poolBlocks buffer stride 0 c1.outstanding.length
  | [], c, _, _, hm, hout => ⟨c, rfl, hm, hout⟩
  | op :: ops, c, hops, hfl, hm, hout => by
    obtain ⟨c1, h1, hfl1, hm1, hout1⟩ := poolStep_allocs a buffer stride count c op
      (fun i e => hops i (e ▸ List.mem_cons_self _ _)) hfl hm hout
    obtain ⟨c2, h2, hm2, hout2⟩ := poolRun_allocs a buffer stride count ops c1
      (fun i hi => hops i (List.mem_cons_of_mem _ hi)) hfl1 hm1 hout1
    exact ⟨c2, by simp only [poolRun, h1, h2], hm2, hout2⟩

/-- Invalid arguments: `smart_mempool_init` returns at once. -/
theorem smart_mempool_init_invalid (k : Kernel) (s : Mempools) (pool : Option Nat)
    (buffer block_size block_count ops_per_tick : Nat)
    (h : pool = none ∨ buffer = 0 ∨ block_size = 0 ∨ block_count = 0) :
    smart_mempool_init k s pool buffer block_size block_count ops_per_tick = (k, s) := by
  unfold smart_mempool_init
  cases pool with
  | none => rfl
  | some a =>
    have h' : buffer = 0 ∨ block_size = 0 ∨ block_count = 0 := by
      rcases h with h | h
      · cases h
      · exact h
    simp only [h', if_true]

theorem smart_mempool_init_layout (k : Kernel) (s : Mempools) (a buffer block_size block_count
    ops_per_tick : Nat) (hbuf : buffer ≠ 0) (hsz : 0 < block_size)
    (hsz2 : block_size ≤ 4294967292) (hc : 0 < block_count) (hc2 : block_count ≤ 65535)
    (hfit : buffer + align_up block_size 4 * block_count < 4294967296) :
    ∃ stride,
      ((smart_mempool_init k s (some a) buffer block_size block_count ops_per_tick).2.pools
        a).block_stride = stride ∧
      stride % 4 = 0 ∧ block_size ≤ stride ∧
      (∀ v, v % 4 = 0 → block_size ≤ v → stride ≤ v) ∧
      ((smart_mempool_init k s (some a) buffer block_size block_count ops_per_tick).2.pools
        a).free_count = block_count ∧
      ((smart_mempool_init k s (some a) buffer block_size block_count ops_per_tick).2.pools
        a).min_free_count = block_count ∧
      isFreeList
        (smart_mempool_init k s (some a) buffer block_size block_count ops_per_tick).2.words
        ((smart_mempool_init k s (some a) buffer block_size block_count
          ops_per_tick).2.pools a).free_list
        (poolBlocks buffer stride 0 block_count) ∧
      (poolBlocks buffer stride 0 block_count).length = block_count ∧
      (∀ i j, i < j → buffer + i * stride + block_size ≤ buffer + j * stride) ∧
      (∀ o, (smart_mempool_alloc_try
          (smart_mempool_init k s (some a) buffer block_size block_count ops_per_tick).1
          (smart_mempool_init k s (some a) buffer block_size block_count ops_per_tick).2
          (some a) (some o)).2.2 = (some buffer, SMART_MEMPOOL_OK)) ∧
      ∀ ops, (∀ i, PoolOp.free i ∉ ops) →
        ∃ c1, poolRun a ops (poolStart k s a buffer block_size block_count ops_per_tick) =
            some c1 ∧
          c1.outstanding.length ≤ block_count ∧
          c1.outstanding.reverse = poolBlocks buffer stride 0 c1.outstanding.length := by
  obtain ⟨g1, g2, g3, g4⟩ := align_up_four_ge block_size hsz hsz2
  obtain ⟨hp, -⟩ := smart_mempool_init_eq k s a buffer block_size block_count ops_per_tick
    hbuf (by omega) (by omega)
  have hfl := smart_mempool_init_free_list k s a buffer block_size block_count ops_per_tick
    hbuf (by omega) (by omega) (by omega) hfit
  have hw16 : wrap16 block_count = block_count := Nat.mod_eq_of_lt (by omega)
  refine ⟨align_up block_size 4, by rw [hp], g1, g2, fun v hv hle => by omega,
    by rw [hp]; exact hw16, by rw [hp]; exact hw16, hfl, poolBlocks_length _ _ _ _, ?_, ?_, ?_⟩
  · intro i j hij
    have : (i + 1) * align_up block_size 4 ≤ j * align_up block_size 4 :=
      Nat.mul_le_mul_right _ hij
    have e : (i + 1) * align_up block_size 4 =
        i * align_up block_size 4 + align_up block_size 4 := Nat.succ_mul _ _
    omega
  · intro o
    have hops : ((smart_mempool_init k s (some a) buffer block_size block_count
        ops_per_tick).2.pools a).ops_left ≠ 0 := by
      rw [hp]
      show (if ops_per_tick = 0 then wrap16 block_count else ops_per_tick) ≠ 0
      by_cases h0 : ops_per_tick = 0
      · rw [if_pos h0, hw16]
        omega
      · rw [if_neg h0]
        exact h0
    have hfree : ((smart_mempool_init k s (some a) buffer block_size block_count
        ops_per_tick).2.pools a).free_list ≠ 0 := by
      rw [hp]
      exact hbuf
    rw [smart_mempool_alloc_try_take _ _ a o hops hfree, hp]
  · intro ops hops
    exact poolRun_allocs a buffer (align_up block_size 4) block_count ops
      (poolStart k s a buffer block_size block_count ops_per_tick) hops
      (by
        show isFreeList _ _ (poolBlocks buffer (align_up block_size 4) 0 (block_count - 0))
        exact hfl)
      (Nat.zero_le _) rfl

/-- C36 fails for large arguments: with `block_count = 65537` the counters hold
1 (the count is stored in 16 bits), and with `block_size = 2 ^ 32 - 2` the
stride is 0, below the block size. -/
theorem mempool_init_counters_truncated :
    ((smart_mempool_init bootKernel zeroMempools (some 0) 0x20004000 4 65537 2).2.pools
      0).free_count = 1 ∧
    ((smart_mempool_init bootKernel zeroMempools (some 0) 0x20004000 4 65537 2).2.pools
      0).min_free_count = 1 ∧
    ((smart_mempool_init bootKernel zeroMempools (some 0) 0x20004000 4294967294 8 2).2.pools
      0).block_stride = 0 := by
  have h1 := (smart_mempool_init_eq bootKernel zeroMempools 0 0x20004000 4 65537 2
    (by decide) (by decide) (by decide)).1
  have h2 := (smart_mempool_init_eq bootKernel zeroMempools 0 0x20004000 4294967294 8 2
    (by decide) (by decide) (by decide)).1
  rw [h1, h2]
  exact ⟨by decide, by decide, by decide⟩

/-- C36 (amended): after `smart_mempool_init(pool, buffer, block_size,
block_count, ops)` with non-null pointers, `1 ≤ block_size ≤ 2 ^ 32 - 4`,
`1 ≤ block_count ≤ 65535` and the blocks ending below `2 ^ 32`, `block_stride`
is the least multiple of 4 that is at least `block_size`,
`free_count = min_free_count = block_count`, the free list consists of exactly
the `block_count` addresses `buffer + i * block_stride` in increasing order; the
first allocation returns `buffer`, and the successful allocations of a client
that gives nothing back return `buffer`, `buffer + block_stride`, ... in this
order, blocks that are `block_size` bytes apart at least.  With a null pointer
or a zero size or count the call changes nothing. -/
theorem mempool_init_layout (k : Kernel) (s : Mempools) (a buffer block_size block_count
    ops_per_tick : Nat) (hbuf : buffer ≠ 0) (hsz : 0 < block_size)
    (hsz2 : block_size ≤ 4294967292) (hc : 0 < block_count) (hc2 : block_count ≤ 65535)
    (hfit : buffer + align_up block_size 4 * block_count < 4294967296) :
    (∃ stride,
      ((smart_mempool_init k s (some a) buffer block_size block_count ops_per_tick).2.pools
        a).block_stride = stride ∧
      stride % 4 = 0 ∧ block_size ≤ stride ∧
      (∀ v, v % 4 = 0 → block_size ≤ v → stride ≤ v) ∧
      ((smart_mempool_init k s (some a) buffer block_size block_count ops_per_tick).2.pools
        a).free_count = block_count ∧
      ((smart_mempool_init k s (some a) buffer block_size block_count ops_per_tick).2.pools
        a).min_free_count = block_count ∧
      isFreeList
        (smart_mempool_init k s (some a) buffer block_size block_count ops_per_tick).2.words
        ((smart_mempool_init k s (some a) buffer block_size block_count
          ops_per_tick).2.pools a).free_list
        (poolBlocks buffer stride 0 block_count) ∧
      (poolBlocks buffer stride 0 block_count).length = block_count ∧
      (∀ i j, i < j → buffer + i * stride + block_size ≤ buffer + j * stride) ∧
      (∀ o, (smart_mempool_alloc_try
          (smart_mempool_init k s (some a) buffer block_size block_count ops_per_tick).1
          (smart_mempool_init k s (some a) buffer block_size block_count ops_per_tick).2
          (some a) (some o)).2.2 = (some buffer, SMART_MEMPOOL_OK)) ∧
      ∀ ops, (∀ i, PoolOp.free i ∉ ops) →
        ∃ c1, poolRun a ops (poolStart k s a buffer block_size block_count ops_per_tick) =
            some c1 ∧
          c1.outstanding.length ≤ block_count ∧
          c1.outstanding.reverse = poolBlocks buffer stride 0 c1.outstanding.length) ∧
    ∀ (k0 : Kernel) (s0 : Mempools) (pool : Option Nat) (buf size count ops : Nat),
      pool = none ∨ buf = 0 ∨ size = 0 ∨ count = 0 →
      smart_mempool_init k0 s0 pool buf size count ops = (k0, s0) :=
  ⟨smart_mempool_init_layout k s a buffer block_size block_count ops_per_tick hbuf hsz hsz2 hc
      hc2 hfit,
    smart_mempool_init_invalid⟩

theorem mempool_init_layout_witness :
    (0x20004000 : Nat) ≠ 0 ∧ 0x20004000 + align_up 64 4 * 8 < 4294967296 ∧
    ((telemetryPool.2.pools 0).block_stride = 64 ∧
      (telemetryPool.2.pools 0).free_count = 8 ∧
      (telemetryPool.2.pools 0).min_free_count = 8 ∧
      (smart_mempool_alloc_try telemetryPool.1 telemetryPool.2 (some 0) (some 0)).2.2 =
        (some 0x20004000, SMART_MEMPOOL_OK)) ∧
    smart_mempool_init bootKernel zeroMempools (some 0) 0 64 8 2 = (bootKernel, zeroMempools) := by
  obtain ⟨⟨stride, h1, _, _, _, h5, h6, _, _, _, h10, _⟩, h12⟩ :=
    mempool_init_layout bootKernel zeroMempools 0 0x20004000 64 8 2 (by decide) (by decide)
      (by decide) (by decide) (by decide) (by decide)
  exact ⟨by decide, by decide, ⟨by decide, h5, h6, h10 0⟩,
    h12 bootKernel zeroMempools (some 0) 0 64 8 2 (Or.inr (Or.inl rfl))⟩

/-! ## Reset of a timer -/

theorem smart_timer_reset_live (k : Kernel) (ts : Timers) (t : Nat)
    (hid : (ts.timer_pool t).id ≠ 0) :
    smart_timer_reset k ts (some t) =
      (smart_exit_critical (smart_enter_critical k),
       setTimer ts t
         (((ts.timer_pool t).setRemaining (ts.timer_pool t).period_ms).setState TIMER_STOPPED),
       0) := by
  unfold smart_timer_reset
  simp only [if_neg hid]

theorem smart_timer_reset_invalid (k : Kernel) (ts : Timers) (timer : Option Nat)
    (h : timer = none ∨ ∃ t, timer = some t ∧ (ts.timer_pool t).id = 0) :
    smart_timer_reset k ts timer = (k, ts, -1) := by
  unfold smart_timer_reset
  rcases h with h | ⟨t, h, hid⟩
  · subst h
    rfl
  · subst h
    simp only [if_pos hid]

theorem smart_timer_reset_spec (k : Kernel) (ts : Timers) (t : Nat)
    (hid : (ts.timer_pool t).id ≠ 0) :
    (smart_timer_reset k ts (some t)).2.2 = 0 ∧
    ((smart_timer_reset k ts (some t)).2.1.timer_pool t).remaining_ms =
      (ts.timer_pool t).period_ms ∧
    ((smart_timer_reset k ts (some t)).2.1.timer_pool t).state = TIMER_STOPPED ∧
    ((smart_timer_reset k ts (some t)).2.1.timer_pool t).id = (ts.timer_pool t).id ∧
    ((smart_timer_reset k ts (some t)).2.1.timer_pool t).type = (ts.timer_pool t).type ∧
    ((smart_timer_reset k ts (some t)).2.1.timer_pool t).period_ms =
      (ts.timer_pool t).period_ms ∧
    ((smart_timer_reset k ts (some t)).2.1.timer_pool t).callback =
      (ts.timer_pool t).callback ∧
    ((smart_timer_reset k ts (some t)).2.1.timer_pool t).callback_arg =
      (ts.timer_pool t).callback_arg ∧
    (∀ x, x ≠ t → (smart_timer_reset k ts (some t)).2.1.timer_pool x = ts.timer_pool x) := by
  rw [smart_timer_reset_live k ts t hid]
  refine ⟨rfl, ?_, ?_, ?_, ?_, ?_, ?_, ?_, ?_⟩
  · show (updAt ts.timer_pool t _ t).remaining_ms = _
    rw [updAt_same]
    rfl
  · show (updAt ts.timer_pool t _ t).state = _
    rw [updAt_same]
    rfl
  · show (updAt ts.timer_pool t _ t).id = _
    rw [updAt_same]
    rfl
  · show (updAt ts.timer_pool t _ t).type = _
    rw [updAt_same]
    rfl
  · show (updAt ts.timer_pool t _ t).period_ms = _
    rw [updAt_same]
    rfl
  · show (updAt ts.timer_pool t _ t).callback = _
    rw [updAt_same]
    rfl
  · show (updAt ts.timer_pool t _ t).callback_arg = _
    rw [updAt_same]
    rfl
  · intro x hx
    exact updAt_other _ _ _ _ hx

/-- C39: `smart_timer_reset` on a live timer `t` (its id is non-zero) returns
0, sets `remaining_ms` to `period_ms` and the state to Stopped, and leaves the
id, the kind, the period, the callback and the callback argument of the timer,
and every other timer, unchanged; on a null handle or a deleted timer (id 0)
it returns -1 and changes nothing. -/
theorem timer_reset_rewinds_and_stops (k : Kernel) (ts : Timers) (t : Nat)
    (hid : (ts.timer_pool t).id ≠ 0) :
    ((smart_timer_reset k ts (some t)).2.2 = 0 ∧
      ((smart_timer_reset k ts (some t)).2.1.timer_pool t).remaining_ms =
        (ts.timer_pool t).period_ms ∧
      ((smart_timer_reset k ts (some t)).2.1.timer_pool t).state = TIMER_STOPPED ∧
      ((smart_timer_reset k ts (some t)).2.1.timer_pool t).id = (ts.timer_pool t).id ∧
      ((smart_timer_reset k ts (some t)).2.1.timer_pool t).type = (ts.timer_pool t).type ∧
      ((smart_timer_reset k ts (some t)).2.1.timer_pool t).period_ms =
        (ts.timer_pool t).period_ms ∧
      ((smart_timer_reset k ts (some t)).2.1.timer_pool t).callback =
        (ts.timer_pool t).callback ∧
      ((smart_timer_reset k ts (some t)).2.1.timer_pool t).callback_arg =
        (ts.timer_pool t).callback_arg ∧
      (∀ x, x ≠ t → (smart_timer_reset k ts (some t)).2.1.timer_pool x = ts.timer_pool x)) ∧
    ∀ (k0 : Kernel) (ts0 : Timers) (timer : Option Nat),
      (timer = none ∨ ∃ u, timer = some u ∧ (ts0.timer_pool u).id = 0) →
      smart_timer_reset k0 ts0 timer = (k0, ts0, -1) :=
  ⟨smart_timer_reset_spec k ts t hid, smart_timer_reset_invalid⟩

theorem timer_reset_rewinds_and_stops_witness :
    (loneStarted.2.timer_pool 0).id ≠ 0 ∧
    (smart_timer_reset loneStarted.1 loneStarted.2 (some 0)).2.2 = 0 ∧
    ((smart_timer_reset loneStarted.1 loneStarted.2 (some 0)).2.1.timer_pool 0).remaining_ms =
      (loneStarted.2.timer_pool 0).period_ms ∧
    ((smart_timer_reset loneStarted.1 loneStarted.2 (some 0)).2.1.timer_pool 0).state =
      TIMER_STOPPED ∧
    smart_timer_reset loneStarted.1 loneStarted.2 none = (loneStarted.1, loneStarted.2, -1) := by
  obtain ⟨⟨h1, h2, h3, -⟩, h4⟩ :=
    timer_reset_rewinds_and_stops loneStarted.1 loneStarted.2 0 (by decide)
  exact ⟨by decide, h1, h2, h3, h4 loneStarted.1 loneStarted.2 none (Or.inl rfl)⟩

/-! ## Start of a timer -/

theorem smart_timer_start_running (k : Kernel) (ts : Timers) (t : Nat)
    (hid : (ts.timer_pool t).id ≠ 0) (hst : (ts.timer_pool t).state = TIMER_RUNNING) :
    smart_timer_start k ts (some t) = (smart_exit_critical (smart_enter_critical k), ts, 0) := by
  unfold smart_timer_start
  simp only [if_neg hid, if_pos hst]

theorem smart_timer_start_invalid (k : Kernel) (ts : Timers) (timer : Option Nat)
    (h : timer = none ∨ ∃ t, timer = some t ∧ (ts.timer_pool t).id = 0) :
    smart_timer_start k ts timer = (k, ts, -1) := by
  unfold smart_timer_start
  rcases h with h | ⟨t, h, hid⟩
  · subst h
    rfl
  · subst h
    simp only [if_pos hid]

theorem smart_timer_start_links_once (k : Kernel) (ts : Timers) (t : Nat) (L : List Nat)
    (hid : (ts.timer_pool t).id ≠ 0) (hst : (ts.timer_pool t).state ≠ TIMER_RUNNING)
    (hL : isTimerList ts.timer_pool ts.active_timer_list L) (ht : t ∉ L) :
    (smart_timer_start k ts (some t)).2.2 = 0 ∧
    isTimerList (smart_timer_start k ts (some t)).2.1.timer_pool
      (smart_timer_start k ts (some t)).2.1.active_timer_list (t :: L) ∧
    (t :: L).count t = 1 ∧
    ((smart_timer_start k ts (some t)).2.1.timer_pool t).remaining_ms =
      ((smart_timer_start k ts (some t)).2.1.timer_pool t).period_ms ∧
    ((smart_timer_start k ts (some t)).2.1.timer_pool t).period_ms =
      (ts.timer_pool t).period_ms ∧
    ((smart_timer_start k ts (some t)).2.1.timer_pool t).state = TIMER_RUNNING := by
  obtain ⟨h1, h2, -, h4, h5, -, -⟩ := smart_timer_start_spec k ts t L hid hst hL ht
  have hp : ((smart_timer_start k ts (some t)).2.1.timer_pool t).period_ms =
      (ts.timer_pool t).period_ms := by
    unfold smart_timer_start
    simp only [if_neg hid, if_neg hst]
    show (updAt ts.timer_pool t _ t).period_ms = _
    rw [updAt_same]
    rfl
  refine ⟨h1, h2, ?_, by rw [h4, hp], hp, h5⟩
  rw [List.count_cons_self, List.count_eq_zero_of_not_mem ht]

/-- C38 fails in two cases.  On a Running timer that has counted down one tick
(2 of 3 ticks left) `smart_timer_start` returns 0 and leaves `remaining_ms` at
2.  On a timer that `smart_timer_reset` has set to Stopped, and that is still
on the active list, it returns 0 and links the timer in front of itself: the
`next` pointer of the timer points to the timer, `active_timers` is 2, and
the next `smart_timer_tick` does not come to an end. -/
theorem timer_start_not_restarting :
    (loneTicked.2.timer_pool 0).id ≠ 0 ∧
    (loneTicked.2.timer_pool 0).state = TIMER_RUNNING ∧
    (smart_timer_start loneTicked.1 loneTicked.2 (some 0)).2.2 = 0 ∧
    ((smart_timer_start loneTicked.1 loneTicked.2 (some 0)).2.1.timer_pool 0).remaining_ms = 2 ∧
    ((smart_timer_start loneTicked.1 loneTicked.2 (some 0)).2.1.timer_pool 0).period_ms = 3 ∧
    (loneReset.2.timer_pool 0).id ≠ 0 ∧
    (loneReset.2.timer_pool 0).state = TIMER_STOPPED ∧
    loneReset.2.active_timer_list = some 0 ∧
    (smart_timer_start loneReset.1 loneReset.2 (some 0)).2.2 = 0 ∧
    loneRestarted.2.active_timer_list = some 0 ∧
    (loneRestarted.2.timer_pool 0).next = some 0 ∧
    loneRestarted.2.timer_stats.active_timers = 2 ∧
    (smart_timer_tick quietCallbacks 64 loneRestarted.1 loneRestarted.2).isNone = true := by
  decide

/-- C38 (amended): `smart_timer_start` on a live timer `t` that is not Running
and not on the active list `L` returns 0 and leaves `t` on the active list
exactly once (the list is `t :: L`), with `remaining_ms` equal to `period_ms`
and state Running; on a live timer that is Running it returns 0 and leaves the
timers as they are; on a null handle or a deleted timer (id 0) it returns -1 and
changes nothing. -/
theorem timer_start_links_stopped_timer (k : Kernel) (ts : Timers) (t : Nat) (L : List Nat)
    (hid : (ts.timer_pool t).id ≠ 0) (hst : (ts.timer_pool t).state ≠ TIMER_RUNNING)
    (hL : isTimerList ts.timer_pool ts.active_timer_list L) (ht : t ∉ L) :
    ((smart_timer_start k ts (some t)).2.2 = 0 ∧
      isTimerList (smart_timer_start k ts (some t)).2.1.timer_pool
        (smart_timer_start k ts (some t)).2.1.active_timer_list (t :: L) ∧
      (t :: L).count t = 1 ∧
      ((smart_timer_start k ts (some t)).2.1.timer_pool t).remaining_ms =
        ((smart_timer_start k ts (some t)).2.1.timer_pool t).period_ms ∧
      ((smart_timer_start k ts (some t)).2.1.timer_pool t).period_ms =
        (ts.timer_pool t).period_ms ∧
      ((smart_timer_start k ts (some t)).2.1.timer_pool t).state = TIMER_RUNNING) ∧
    (∀ (k0 : Kernel) (ts0 : Timers) (u : Nat), (ts0.timer_pool u).id ≠ 0 →
      (ts0.timer_pool u).state = TIMER_RUNNING →
      smart_timer_start k0 ts0 (some u) =
        (smart_exit_critical (smart_enter_critical k0), ts0, 0)) ∧
    ∀ (k0 : Kernel) (ts0 : Timers) (timer : Option Nat),
      (timer = none ∨ ∃ u, timer = some u ∧ (ts0.timer_pool u).id = 0) →
      smart_timer_start k0 ts0 timer = (k0, ts0, -1) :=
  ⟨smart_timer_start_links_once k ts t L hid hst hL ht, smart_timer_start_running,
    smart_timer_start_invalid⟩

theorem timer_start_links_stopped_timer_witness :
    (loneCreated.2.1.timer_pool 0).id ≠ 0 ∧
    (loneCreated.2.1.timer_pool 0).state ≠ TIMER_RUNNING ∧
    isTimerList loneCreated.2.1.timer_pool loneCreated.2.1.active_timer_list [] ∧
    (smart_timer_start loneCreated.1 loneCreated.2.1 (some 0)).2.2 = 0 ∧
    isTimerList (smart_timer_start loneCreated.1 loneCreated.2.1 (some 0)).2.1.timer_pool
      (smart_timer_start loneCreated.1 loneCreated.2.1 (some 0)).2.1.active_timer_list [0] ∧
    ((smart_timer_start loneCreated.1 loneCreated.2.1 (some 0)).2.1.timer_pool 0).state =
      TIMER_RUNNING :=
  match timer_start_links_stopped_timer loneCreated.1 loneCreated.2.1 0 [] (by decide)
      (by decide) (by decide) (by decide) with
  | ⟨⟨h1, h2, _, _, _, h6⟩, _, _⟩ => ⟨by decide, by decide, by decide, h1, h2, h6⟩

/-! ## Timer ids -/

/-- No finite list describes an active list whose head links to itself. -/
theorem no_timer_list_of_self_link (pool : Nat → smart_timer_t) (t : Nat)
    (h : (pool t).next = some t) : ¬ ∃ l, isTimerList pool (some t) l := by
  rintro ⟨l, hl⟩
  have hnd := isTimerList_nodup pool l (some t) hl
  cases l with
  | nil => cases hl
  | cons a l1 =>
    obtain ⟨ha, hl1⟩ := hl
    have hat : a = t := (Option.some.inj ha).symm
    subst hat
    rw [h] at hl1
    cases l1 with
    | nil => cases hl1
    | cons b l2 =>
      have hb : b = a := (Option.some.inj hl1.1).symm
      subst hb
      exact (List.nodup_cons.mp hnd).1 (List.mem_cons_self _ _)

/-- C40 fails after a reset.  A periodic timer is created, started and reset:
it is Stopped and still on the active list, and `active_timers` is 1.  A
further start links it in front of itself: the active list is a cycle that no
finite list describes, `active_timers` is 2 with one timer live, and
`smart_timer_tick` does not come to an end. -/
theorem active_list_broken_by_reset :
    (loneReset.2.timer_pool 0).id ≠ 0 ∧
    (loneReset.2.timer_pool 0).state = TIMER_STOPPED ∧
    isTimerList loneReset.2.timer_pool loneReset.2.active_timer_list [0] ∧
    loneReset.2.timer_stats.active_timers = 1 ∧
    (loneRestarted.2.timer_pool 0).state = TIMER_RUNNING ∧
    loneRestarted.2.active_timer_list = some 0 ∧
    (loneRestarted.2.timer_pool 0).next = some 0 ∧
    (¬ ∃ l, isTimerList loneRestarted.2.timer_pool loneRestarted.2.active_timer_list l) ∧
    loneRestarted.2.timer_stats.active_timers = 2 ∧
    (smart_timer_tick quietCallbacks 64 loneRestarted.1 loneRestarted.2).isNone = true := by
  refine ⟨by decide, by decide, by decide, by decide, by decide, by decide, by decide, ?_,
    by decide, by decide⟩
  have h1 : loneRestarted.2.active_timer_list = some 0 := by decide
  rw [h1]
  exact no_timer_list_of_self_link _ 0 (by decide)

/-! ## Pool counters at the limits of their type -/

/-- C11 fails at `free_count = 0`: after `smart_mempool_init` with
`block_count = 65536` the 16-bit `free_count` is 0 while the free list starts
at the buffer; `smart_mempool_alloc_try` returns OK with the first block and
`free_count` is 65535 afterwards, not one less than before. -/
theorem mempool_alloc_at_zero_free_count :
    ((smart_mempool_init bootKernel zeroMempools (some 0) 0x20004000 4 65536 2).2.pools
      0).free_count = 0 ∧
    (smart_mempool_alloc_try
      (smart_mempool_init bootKernel zeroMempools (some 0) 0x20004000 4 65536 2).1
      (smart_mempool_init bootKernel zeroMempools (some 0) 0x20004000 4 65536 2).2
      (some 0) (some 0)).2.2 = (some 0x20004000, SMART_MEMPOOL_OK) ∧
    ((smart_mempool_alloc_try
      (smart_mempool_init bootKernel zeroMempools (some 0) 0x20004000 4 65536 2).1
      (smart_mempool_init bootKernel zeroMempools (some 0) 0x20004000 4 65536 2).2
      (some 0) (some 0)).2.1.pools 0).free_count = 65535 := by
  have hp := (smart_mempool_init_eq bootKernel zeroMempools 0 0x20004000 4 65536 2
    (by decide) (by decide) (by decide)).1
  have hops : ((smart_mempool_init bootKernel zeroMempools (some 0) 0x20004000 4 65536
      2).2.pools 0).ops_left ≠ 0 := by
    rw [hp]
    decide
  have hfl : ((smart_mempool_init bootKernel zeroMempools (some 0) 0x20004000 4 65536
      2).2.pools 0).free_list ≠ 0 := by
    rw [hp]
    decide
  rw [smart_mempool_alloc_try_take _ _ 0 0 hops hfl]
  refine ⟨by rw [hp]; decide, by rw [hp], ?_⟩
  show ((setPool _ 0 _).pools 0).free_count = 65535
  rw [setPool_pools_same, hp]
  decide

/-! ## Release with an address check -/

/-- With stride 0 and `buffer_end = buffer` no address passes the range check,
so the modulo is never reached. -/
theorem smart_mempool_address_valid_empty (s : Mempools) (a block : Nat)
    (he : (s.pools a).buffer_end = (s.pools a).buffer) :
    smart_mempool_address_valid s (some a) block = some false := by
  unfold smart_mempool_address_valid
  show (if block = 0 then some false
      else if block < (s.pools a).buffer ∨ block ≥ (s.pools a).buffer_end then some false
      else if (s.pools a).block_stride = 0 then none
      else if (block - (s.pools a).buffer) % (s.pools a).block_stride ≠ 0 then some false
      else some true) = _
  by_cases h0 : block = 0
  · rw [if_pos h0]
  · rw [if_neg h0, if_pos]
    rw [he]
    omega

/-- All outcomes of `smart_mempool_free_try` on a pool whose `buffer_end` is
`buffer + block_stride * block_count`. -/
theorem smart_mempool_free_try_range (k : Kernel) (s : Mempools) (a block : Nat)
    (hend : (s.pools a).buffer_end =
      (s.pools a).buffer + (s.pools a).block_stride * (s.pools a).block_count) :
    ∃ r, smart_mempool_free_try k s (some a) block = some r ∧
      (r.2.2 = SMART_MEMPOOL_INVALID ↔
        block = 0 ∨ block < (s.pools a).buffer ∨
          (s.pools a).buffer + (s.pools a).block_stride * (s.pools a).block_count ≤ block ∨
          (block - (s.pools a).buffer) % (s.pools a).block_stride ≠ 0) ∧
      (r.2.2 ≠ SMART_MEMPOOL_INVALID →
        (r.2.2 = SMART_MEMPOOL_BUSY ↔ (s.pools a).ops_left = 0)) ∧
      (r.2.2 ≠ SMART_MEMPOOL_INVALID → (s.pools a).ops_left ≠ 0 →
        r.2.2 = SMART_MEMPOOL_OK ∧
        (r.2.1.pools a).free_list = block ∧
        r.2.1.words block = (s.pools a).free_list ∧
        (r.2.1.pools a).free_count = wrap16 ((s.pools a).free_count + 1) ∧
        ((s.pools a).free_count < 65535 →
          (r.2.1.pools a).free_count = (s.pools a).free_count + 1) ∧
        (r.2.1.pools a).ops_left + 1 = (s.pools a).ops_left ∧
        (r.2.1.pools a).min_free_count = (s.pools a).min_free_count ∧
        (r.2.1.pools a).buffer = (s.pools a).buffer ∧
        (r.2.1.pools a).buffer_end = (s.pools a).buffer_end ∧
        (r.2.1.pools a).block_size = (s.pools a).block_size ∧
        (r.2.1.pools a).block_stride = (s.pools a).block_stride ∧
        (r.2.1.pools a).block_count = (s.pools a).block_count ∧
        (r.2.1.pools a).ops_per_tick = (s.pools a).ops_per_tick ∧
        (∀ x, x ≠ block → r.2.1.words x = s.words x) ∧
        (∀ x, x ≠ a → r.2.1.pools x = s.pools x)) ∧
      (r.2.2 = SMART_MEMPOOL_INVALID ∨ r.2.2 = SMART_MEMPOOL_BUSY → r.2.1 = s) := by
  by_cases hs : (s.pools a).block_stride = 0
  · have he : (s.pools a).buffer_end = (s.pools a).buffer := by
      rw [hend, hs, Nat.zero_mul, Nat.add_zero]
    by_cases h0 : block = 0
    · refine ⟨_, smart_mempool_free_try_null k s _ block (Or.inr h0), ?_, ?_, ?_, ?_⟩
      · simp [h0]
      · intro h; exact absurd rfl h
      · intro h; exact absurd rfl h
      · intro _; rfl
    · refine ⟨_, smart_mempool_free_try_invalid k s a block h0
        (smart_mempool_address_valid_empty s a block he), ?_, ?_, ?_, ?_⟩
      · refine ⟨fun _ => ?_, fun _ => rfl⟩
        rw [hs, Nat.zero_mul, Nat.add_zero]
        by_cases hb : block < (s.pools a).buffer
        · exact Or.inr (Or.inl hb)
        · exact Or.inr (Or.inr (Or.inl (by omega)))
      · intro h; exact absurd rfl h
      · intro h; exact absurd rfl h
      · intro _; rfl
  · obtain ⟨r, h1, h2, h3⟩ := smart_mempool_free_try_ok k s a block hs
    rw [hend] at h2
    exact ⟨r, h1, h2, h3⟩

/-- A pool set up by `smart_mempool_init` within the bounds of the counter and
address types has `buffer_end = buffer + block_stride * block_count`. -/
theorem smart_mempool_init_range (k : Kernel) (s : Mempools) (a buffer block_size block_count
    ops_per_tick : Nat) (hbuf : buffer ≠ 0) (hsz : 0 < block_size)
    (hsz2 : block_size ≤ 4294967292) (hc : 0 < block_count) (hc2 : block_count ≤ 65535)
    (hfit : buffer + align_up block_size 4 * block_count < 4294967296) :
    ((smart_mempool_init k s (some a) buffer block_size block_count ops_per_tick).2.pools
      a).buffer_end =
    ((smart_mempool_init k s (some a) buffer block_size block_count ops_per_tick).2.pools
      a).buffer +
    ((smart_mempool_init k s (some a) buffer block_size block_count ops_per_tick).2.pools
      a).block_stride *
    ((smart_mempool_init k s (some a) buffer block_size block_count ops_per_tick).2.pools
      a).block_count := by
  obtain ⟨h1, h2, h3, h4, -⟩ :=
    poolStart_inv k s a buffer block_size block_count ops_per_tick hbuf hsz hsz2 hc hc2 hfit
  have e1 : ((smart_mempool_init k s (some a) buffer block_size block_count
      ops_per_tick).2.pools a).buffer = buffer := h1
  have e2 : ((smart_mempool_init k s (some a) buffer block_size block_count
      ops_per_tick).2.pools a).buffer_end = buffer + align_up block_size 4 * block_count := h2
  have e3 : ((smart_mempool_init k s (some a) buffer block_size block_count
      ops_per_tick).2.pools a).block_stride = align_up block_size 4 := h3
  have e4 : ((smart_mempool_init k s (some a) buffer block_size block_count
      ops_per_tick).2.pools a).block_count = block_count := h4
  rw [e1, e2, e3, e4]

/-- C12 fails at the limits of the counter type.  After `smart_mempool_init`
with `block_count = 65537` the pool has `block_count = 1` and stride 4, and
`smart_mempool_free_try` of `buffer + 4` returns OK although the block lies
outside `[buffer, buffer + block_stride * block_count)`.  After
`smart_mempool_init` with `block_count = 65535` all 65535 blocks are free, and
`smart_mempool_free_try` of the first block returns OK and takes `free_count`
from 65535 to 0. -/
theorem mempool_free_outside_counted_range :
    ((smart_mempool_init bootKernel zeroMempools (some 0) 0x20004000 4 65537 2).2.pools
      0).buffer = 0x20004000 ∧
    ((smart_mempool_init bootKernel zeroMempools (some 0) 0x20004000 4 65537 2).2.pools
      0).block_stride = 4 ∧
    ((smart_mempool_init bootKernel zeroMempools (some 0) 0x20004000 4 65537 2).2.pools
      0).block_count = 1 ∧
    (∃ r, smart_mempool_free_try
        (smart_mempool_init bootKernel zeroMempools (some 0) 0x20004000 4 65537 2).1
        (smart_mempool_init bootKernel zeroMempools (some 0) 0x20004000 4 65537 2).2
        (some 0) 0x20004004 = some r ∧ r.2.2 = SMART_MEMPOOL_OK) ∧
    ((smart_mempool_init bootKernel zeroMempools (some 0) 0x20004000 4 65535 2).2.pools
      0).free_count = 65535 ∧
    (∃ r, smart_mempool_free_try
        (smart_mempool_init bootKernel zeroMempools (some 0) 0x20004000 4 65535 2).1
        (smart_mempool_init bootKernel zeroMempools (some 0) 0x20004000 4 65535 2).2
        (some 0) 0x20004000 = some r ∧ r.2.2 = SMART_MEMPOOL_OK ∧
      (r.2.1.pools 0).free_count = 0) := by
  have hp := (smart_mempool_init_eq bootKernel zeroMempools 0 0x20004000 4 65537 2
    (by decide) (by decide) (by decide)).1
  have hq := (smart_mempool_init_eq bootKernel zeroMempools 0 0x20004000 4 65535 2
    (by decide) (by decide) (by decide)).1
  refine ⟨by rw [hp], by rw [hp]; decide, by rw [hp]; decide, ?_, by rw [hq]; decide, ?_⟩
  · obtain ⟨r, h1, h2, -, h4, -⟩ := smart_mempool_free_try_ok
      (smart_mempool_init bootKernel zeroMempools (some 0) 0x20004000 4 65537 2).1
      (smart_mempool_init bootKernel zeroMempools (some 0) 0x20004000 4 65537 2).2
      0 0x20004004 (by rw [hp]; decide)
    have hne : r.2.2 ≠ SMART_MEMPOOL_INVALID := by
      intro h
      have := h2.mp h
      rw [hp] at this
      revert this
      decide
    exact ⟨r, h1, (h4 hne (by rw [hp]; decide)).1⟩
  · obtain ⟨r, h1, h2, -, h4, -⟩ := smart_mempool_free_try_ok
      (smart_mempool_init bootKernel zeroMempools (some 0) 0x20004000 4 65535 2).1
      (smart_mempool_init bootKernel zeroMempools (some 0) 0x20004000 4 65535 2).2
      0 0x20004000 (by rw [hq]; decide)
    have hne : r.2.2 ≠ SMART_MEMPOOL_INVALID := by
      intro h
      have := h2.mp h
      rw [hq] at this
      revert this
      decide
    obtain ⟨g1, -, -, g4, -⟩ := h4 hne (by rw [hq]; decide)
    refine ⟨r, h1, g1, ?_⟩
    rw [g4, hq]
    decide

/-- C12 (amended): on a pool whose `buffer_end` is
`buffer + block_stride * block_count`, `smart_mempool_free_try` returns Invalid
exactly when the pool or the block pointer is null, the block lies outside
`[buffer, buffer + block_stride * block_count)` or its offset is not a multiple
of `block_stride`, whatever `ops_left` is; for a valid address it returns Busy
iff `ops_left = 0` and otherwise OK, the block becoming the head of the free
list (its first word links to the old head) and the 16-bit `free_count` going
up by one, from 65535 to 0.  Invalid and Busy leave the pools unchanged.
`smart_mempool_init` sets up such a pool when `block_size ≤ 2 ^ 32 - 4`,
`block_count ≤ 65535` and the blocks end below `2 ^ 32`. -/
theorem mempool_free_try_checks_address_first (k : Kernel) (s : Mempools) (a block : Nat)
    (hend : (s.pools a).buffer_end =
      (s.pools a).buffer + (s.pools a).block_stride * (s.pools a).block_count) :
    (∀ b, smart_mempool_free_try k s none b = some (k, s, SMART_MEMPOOL_INVALID)) ∧
    (∃ r, smart_mempool_free_try k s (some a) block = some r ∧
      (r.2.2 = SMART_MEMPOOL_INVALID ↔
        block = 0 ∨ block < (s.pools a).buffer ∨
          (s.pools a).buffer + (s.pools a).block_stride * (s.pools a).block_count ≤ block ∨
          (block - (s.pools a).buffer) % (s.pools a).block_stride ≠ 0) ∧
      (r.2.2 ≠ SMART_MEMPOOL_INVALID →
        (r.2.2 = SMART_MEMPOOL_BUSY ↔ (s.pools a).ops_left = 0)) ∧
      (r.2.2 ≠ SMART_MEMPOOL_INVALID → (s.pools a).ops_left ≠ 0 →
        r.2.2 = SMART_MEMPOOL_OK ∧
        (r.2.1.pools a).free_list = block ∧
        r.2.1.words block = (s.pools a).free_list ∧
        (r.2.1.pools a).free_count = wrap16 ((s.pools a).free_count + 1) ∧
        ((s.pools a).free_count < 65535 →
          (r.2.1.pools a).free_count = (s.pools a).free_count + 1) ∧
        (r.2.1.pools a).ops_left + 1 = (s.pools a).ops_left ∧
        (r.2.1.pools a).min_free_count = (s.pools a).min_free_count ∧
        (r.2.1.pools a).buffer = (s.pools a).buffer ∧
        (r.2.1.pools a).buffer_end = (s.pools a).buffer_end ∧
        (r.2.1.pools a).block_size = (s.pools a).block_size ∧
        (r.2.1.pools a).block_stride = (s.pools a).block_stride ∧
        (r.2.1.pools a).block_count = (s.pools a).block_count ∧
        (r.2.1.pools a).ops_per_tick = (s.pools a).ops_per_tick ∧
        (∀ x, x ≠ block → r.2.1.words x = s.words x) ∧
        (∀ x, x ≠ a → r.2.1.pools x = s.pools x)) ∧
      (r.2.2 = SMART_MEMPOOL_INVALID ∨ r.2.2 = SMART_MEMPOOL_BUSY → r.2.1 = s)) ∧
    ∀ (k0 : Kernel) (s0 : Mempools) (a0 buffer block_size block_count ops_per_tick : Nat),
      buffer ≠ 0 → 0 < block_size → block_size ≤ 4294967292 → 0 < block_count →
      block_count ≤ 65535 → buffer + align_up block_size 4 * block_count < 4294967296 →
      ((smart_mempool_init k0 s0 (some a0) buffer block_size block_count ops_per_tick).2.pools
        a0).buffer_end =
      ((smart_mempool_init k0 s0 (some a0) buffer block_size block_count ops_per_tick).2.pools
        a0).buffer +
      ((smart_mempool_init k0 s0 (some a0) buffer block_size block_count ops_per_tick).2.pools
        a0).block_stride *
      ((smart_mempool_init k0 s0 (some a0) buffer block_size block_count ops_per_tick).2.pools
        a0).block_count :=
  ⟨fun _ => rfl, smart_mempool_free_try_range k s a block hend, smart_mempool_init_range⟩

theorem mempool_free_try_checks_address_first_witness :
    (telemetryAllocated.2.1.pools 0).buffer_end =
      (telemetryAllocated.2.1.pools 0).buffer +
        (telemetryAllocated.2.1.pools 0).block_stride *
          (telemetryAllocated.2.1.pools 0).block_count ∧
    ∃ r, smart_mempool_free_try telemetryAllocated.1 telemetryAllocated.2.1 (some 0)
        0x20004000 = some r ∧
      r.2.2 = SMART_MEMPOOL_OK ∧ (r.2.1.pools 0).free_list = 0x20004000 ∧
      (r.2.1.pools 0).free_count = 8 := by
  obtain ⟨r, h1, h2, -, h4, -⟩ :=
    (mempool_free_try_checks_address_first telemetryAllocated.1 telemetryAllocated.2.1 0 0x20004000
      (by decide)).2.1
  have hne : r.2.2 ≠ SMART_MEMPOOL_INVALID := fun h => absurd (h2.mp h) (by decide)
  obtain ⟨h5, h6, -, -, h7, -⟩ := h4 hne (by decide)
  exact ⟨by decide, r, h1, h5, h6, (h7 (by decide)).trans (by decide)⟩

/-! ## Callback invocations seen through their effect on the kernel -/

theorem updAt_callback (pool : Nat → smart_timer_t) (a : Nat) (v : smart_timer_t)
    (h1 : v.callback = (pool a).callback) (h2 : v.callback_arg = (pool a).callback_arg)
    (x : Nat) :
    (updAt pool a v x).callback = (pool x).callback ∧
    (updAt pool a v x).callback_arg = (pool x).callback_arg := by
  by_cases hx : x = a
  · subst hx
    rw [updAt_same]
    exact ⟨h1, h2⟩
  · rw [updAt_other _ _ _ _ hx]
    exact ⟨rfl, rfl⟩

theorem timer_count_down_callback (ts : Timers) (t x : Nat) :
    ((timer_count_down ts t).timer_pool x).callback = (ts.timer_pool x).callback ∧
    ((timer_count_down ts t).timer_pool x).callback_arg = (ts.timer_pool x).callback_arg := by
  rw [(timer_count_down_pool ts t).1]
  exact updAt_callback _ _ _ (by rfl) (by rfl) x

theorem timer_expire_callback (ts : Timers) (t : Nat) (prev next : Option Nat) (x : Nat) :
    ((timer_expire ts t prev next).timer_pool x).callback = (ts.timer_pool x).callback ∧
    ((timer_expire ts t prev next).timer_pool x).callback_arg =
      (ts.timer_pool x).callback_arg := by
  rw [(timer_expire_fields ts t prev next).1]
  cases prev with
  | none => exact updAt_callback _ _ _ (by rfl) (by rfl) x
  | some p =>
    show (updAt (updAt ts.timer_pool t _) p _ x).callback = _ ∧
      (updAt (updAt ts.timer_pool t _) p _ x).callback_arg = _
    obtain ⟨a1, a2⟩ := updAt_callback (updAt ts.timer_pool t
      ((ts.timer_pool t).setState TIMER_EXPIRED)) p
      ((updAt ts.timer_pool t ((ts.timer_pool t).setState TIMER_EXPIRED) p).setNext next)
      (by rfl) (by rfl) x
    obtain ⟨b1, b2⟩ := updAt_callback ts.timer_pool t
      ((ts.timer_pool t).setState TIMER_EXPIRED) (by rfl) (by rfl) x
    exact ⟨a1.trans b1, a2.trans b2⟩

theorem timer_rearm_callback (ts : Timers) (t x : Nat) :
    ((timer_rearm ts t).timer_pool x).callback = (ts.timer_pool x).callback ∧
    ((timer_rearm ts t).timer_pool x).callback_arg = (ts.timer_pool x).callback_arg := by
  rw [(timer_rearm_fields ts t).1]
  by_cases h : (ts.timer_pool t).type = TIMER_PERIODIC
  · rw [if_pos h]
    exact updAt_callback _ _ _ (by rfl) (by rfl) x
  · rw [if_neg h]
    exact updAt_callback _ _ _ (by rfl) (by rfl) x

theorem timer_fire_callback (cb : Callbacks) (hcb : ∀ f a k1 ts1, (cb f a (k1, ts1)).2 = ts1)
    (k : Kernel) (ts : Timers) (t : Nat) (prev next : Option Nat) (x : Nat) :
    ((timer_fire cb k ts t prev next).2.timer_pool x).callback = (ts.timer_pool x).callback ∧
    ((timer_fire cb k ts t prev next).2.timer_pool x).callback_arg =
      (ts.timer_pool x).callback_arg := by
  rw [(timer_fire_fields cb k ts t prev next hcb).1]
  obtain ⟨a1, a2⟩ := timer_rearm_callback (timer_expire ts t prev next) t x
  obtain ⟨b1, b2⟩ := timer_expire_callback ts t prev next x
  exact ⟨a1.trans b1, a2.trans b2⟩

/-- The kernel after the expiry branch: when the timer has a callback, the
callback has been applied once to the kernel, between leaving and entering the
critical section. -/
theorem timer_fire_obs (cb : Callbacks) (obs : Kernel → Nat) (w : Nat → Nat → Nat)
    (h1 : ∀ k, obs (smart_enter_critical k) = obs k)
    (h2 : ∀ k, obs (smart_exit_critical k) = obs k)
    (h3 : ∀ f a k1 ts1, obs (cb f a (k1, ts1)).1 = obs k1 + w f a)
    (k : Kernel) (ts : Timers) (t : Nat) (prev next : Option Nat) :
    obs (timer_fire cb k ts t prev next).1 =
      obs k + ((if ((timer_expire ts t prev next).timer_pool t).callback ≠ 0 then [t]
        else []).map
          (fun u => w (ts.timer_pool u).callback (ts.timer_pool u).callback_arg)).sum := by
  unfold timer_fire
  obtain ⟨e1, e2⟩ := timer_expire_callback ts t prev next t
  by_cases hc : ((timer_expire ts t prev next).timer_pool t).callback ≠ 0
  · simp only [if_pos hc, List.map_cons, List.map_nil, List.sum_cons, List.sum_nil,
      Nat.add_zero]
    unfold timer_run_callback
    show obs (smart_enter_critical (cb _ _ (smart_exit_critical k, _)).1) = _
    rw [h1, h3, h2, e1, e2]
  · simp only [if_neg hc, List.map_nil, List.sum_nil, Nat.add_zero]

/-- The loop of `smart_timer_tick` applies to the kernel exactly the callbacks
listed by `timer_tick_calls`, each once: an observable `obs` of the kernel that
every call of the callback `f` with argument `a` raises by `w f a`, and that
the critical section leaves alone, has grown by the sum of `w` over the list
when the loop returns. -/
theorem timer_tick_loop_obs (cb : Callbacks) (hcb : ∀ f a k1 ts1, (cb f a (k1, ts1)).2 = ts1)
    (obs : Kernel → Nat) (w : Nat → Nat → Nat)
    (h1 : ∀ k, obs (smart_enter_critical k) = obs k)
    (h2 : ∀ k, obs (smart_exit_critical k) = obs k)
    (h3 : ∀ f a k1 ts1, obs (cb f a (k1, ts1)).1 = obs k1 + w f a) :
    ∀ (fuel : Nat) (k : Kernel) (ts : Timers) (cur prev : Option Nat) (r : Kernel × Timers),
      timer_tick_loop cb fuel k ts cur prev = some r →
      obs r.1 = obs k + ((timer_tick_calls cb fuel k ts cur prev).map
        (fun u => w (ts.timer_pool u).callback (ts.timer_pool u).callback_arg)).sum ∧
      ∀ x, (r.2.timer_pool x).callback = (ts.timer_pool x).callback ∧
        (r.2.timer_pool x).callback_arg = (ts.timer_pool x).callback_arg
  | fuel, k, ts, none, prev, r, h => by
    rw [timer_tick_loop_none] at h
    rw [← Option.some.inj h, timer_tick_calls_none]
    exact ⟨rfl, fun _ => ⟨rfl, rfl⟩⟩
  | 0, k, ts, some t, prev, r, h => by
    cases h
  | fuel + 1, k, ts, some t, prev, r, h => by
    unfold timer_tick_loop at h
    unfold timer_tick_calls
    by_cases he : ((timer_count_down ts t).timer_pool t).remaining_ms = 0
    · rw [if_pos he] at h
      rw [if_pos he]
      obtain ⟨ih1, ih2⟩ := timer_tick_loop_obs cb hcb obs w h1 h2 h3 fuel _ _ _ _ r h
      have hfr : ∀ x,
          ((timer_fire cb k (timer_count_down ts t) t prev
            (ts.timer_pool t).next).2.timer_pool x).callback = (ts.timer_pool x).callback ∧
          ((timer_fire cb k (timer_count_down ts t) t prev
            (ts.timer_pool t).next).2.timer_pool x).callback_arg =
            (ts.timer_pool x).callback_arg := by
        intro x
        obtain ⟨a1, a2⟩ := timer_fire_callback cb hcb k (timer_count_down ts t) t prev
          (ts.timer_pool t).next x
        obtain ⟨b1, b2⟩ := timer_count_down_callback ts t x
        exact ⟨a1.trans b1, a2.trans b2⟩
      refine ⟨?_, fun x => ⟨(ih2 x).1.trans (hfr x).1, (ih2 x).2.trans (hfr x).2⟩⟩
      rw [ih1, timer_fire_obs cb obs w h1 h2 h3, List.map_append, List.sum_append,
        Nat.add_assoc]
      congr 2
      · congr 1
        apply List.map_congr_left
        intro u _
        rw [(timer_count_down_callback ts t u).1, (timer_count_down_callback ts t u).2]
      · congr 1
        apply List.map_congr_left
        intro u _
        rw [(hfr u).1, (hfr u).2]
    · rw [if_neg he] at h
      rw [if_neg he]
      obtain ⟨ih1, ih2⟩ := timer_tick_loop_obs cb hcb obs w h1 h2 h3 fuel _ _ _ _ r h
      refine ⟨?_, fun x => ⟨(ih2 x).1.trans (timer_count_down_callback ts t x).1,
        (ih2 x).2.trans (timer_count_down_callback ts t x).2⟩⟩
      rw [ih1]
      congr 2
      apply List.map_congr_left
      intro u _
      rw [(timer_count_down_callback ts t u).1, (timer_count_down_callback ts t u).2]

/-- One run of `smart_timer_tick` applies to the kernel exactly the callbacks
listed by `smart_timer_calls`. -/
theorem smart_timer_tick_obs (cb : Callbacks) (hcb : ∀ f a k1 ts1, (cb f a (k1, ts1)).2 = ts1)
    (obs : Kernel → Nat) (w : Nat → Nat → Nat)
    (h1 : ∀ k, obs (smart_enter_critical k) = obs k)
    (h2 : ∀ k, obs (smart_exit_critical k) = obs k)
    (h3 : ∀ f a k1 ts1, obs (cb f a (k1, ts1)).1 = obs k1 + w f a)
    (fuel : Nat) (k : Kernel) (ts : Timers) (r : Kernel × Timers)
    (h : smart_timer_tick cb fuel k ts = some r) :
    obs r.1 = obs k + ((smart_timer_calls cb fuel k ts).map
      (fun u => w (ts.timer_pool u).callback (ts.timer_pool u).callback_arg)).sum ∧
    ∀ x, (r.2.timer_pool x).callback = (ts.timer_pool x).callback ∧
      (r.2.timer_pool x).callback_arg = (ts.timer_pool x).callback_arg := by
  unfold smart_timer_tick at h
  unfold smart_timer_calls
  by_cases hi : ts.timer_pool_init = 0
  · rw [if_pos hi] at h
    rw [if_pos hi, ← Option.some.inj h]
    exact ⟨rfl, fun _ => ⟨rfl, rfl⟩⟩
  · rw [if_neg hi] at h
    rw [if_neg hi]
    cases hl : timer_tick_loop cb fuel (smart_enter_critical k) ts ts.active_timer_list none with
    | none =>
      rw [hl] at h
      cases h
    | some r1 =>
      rw [hl] at h
      rw [← Option.some.inj h]
      obtain ⟨g1, g2⟩ := timer_tick_loop_obs cb hcb obs w h1 h2 h3 fuel _ ts _ _ r1 hl
      refine ⟨?_, g2⟩
      show obs (smart_exit_critical r1.1) = _
      rw [h2, g1, h1]

/-- The callback fields of the timers do not change in any number of ticks. -/
theorem timer_ticks_callback (cb : Callbacks) (hcb : ∀ f a k1 ts1, (cb f a (k1, ts1)).2 = ts1)
    (fuel : Nat) (s0 : Kernel × Timers) :
    ∀ (n : Nat) (s : Kernel × Timers), timer_ticks cb fuel n s0 = some s →
      ∀ x, (s.2.timer_pool x).callback = (s0.2.timer_pool x).callback ∧
        (s.2.timer_pool x).callback_arg = (s0.2.timer_pool x).callback_arg
  | 0, s, h, x => by
    have e : s0 = s := Option.some.inj h
    rw [e]
    exact ⟨rfl, rfl⟩
  | n + 1, s, h, x => by
    unfold timer_ticks at h
    cases hn : timer_ticks cb fuel n s0 with
    | none =>
      rw [hn] at h
      cases h
    | some s1 =>
      rw [hn] at h
      obtain ⟨a1, a2⟩ := (smart_timer_tick_obs cb hcb (fun _ => 0) (fun _ _ => 0)
        (fun _ => rfl) (fun _ => rfl) (fun _ _ _ _ => rfl) fuel s1.1 s1.2 s h).2 x
      obtain ⟨b1, b2⟩ := timer_ticks_callback cb hcb fuel s0 n s1 hn x
      exact ⟨a1.trans b1, a2.trans b2⟩

/-- Tick number `n + 1` applies to the kernel exactly the callbacks listed by
`calls_in_tick … n`. -/
theorem calls_in_tick_obs (cb : Callbacks) (hcb : ∀ f a k1 ts1, (cb f a (k1, ts1)).2 = ts1)
    (obs : Kernel → Nat) (w : Nat → Nat → Nat)
    (h1 : ∀ k, obs (smart_enter_critical k) = obs k)
    (h2 : ∀ k, obs (smart_exit_critical k) = obs k)
    (h3 : ∀ f a k1 ts1, obs (cb f a (k1, ts1)).1 = obs k1 + w f a)
    (fuel : Nat) (s0 : Kernel × Timers) (n : Nat) (s s' : Kernel × Timers)
    (hs : timer_ticks cb fuel n s0 = some s) (hs' : timer_ticks cb fuel (n + 1) s0 = some s') :
    obs s'.1 = obs s.1 + ((calls_in_tick cb fuel s0 n).map
      (fun u => w (s0.2.timer_pool u).callback (s0.2.timer_pool u).callback_arg)).sum := by
  have ht : smart_timer_tick cb fuel s.1 s.2 = some s' := by
    have := hs'
    unfold timer_ticks at this
    rw [hs] at this
    exact this
  rw [(smart_timer_tick_obs cb hcb obs w h1 h2 h3 fuel s.1 s.2 s' ht).1]
  unfold calls_in_tick
  rw [hs]
  congr 2
  apply List.map_congr_left
  intro u _
  rw [(timer_ticks_callback cb hcb fuel s0 n s hs u).1,
    (timer_ticks_callback cb hcb fuel s0 n s hs u).2]

theorem smart_timer_start_callback (k : Kernel) (ts : Timers) (timer : Option Nat) (x : Nat) :
    ((smart_timer_start k ts timer).2.1.timer_pool x).callback = (ts.timer_pool x).callback ∧
    ((smart_timer_start k ts timer).2.1.timer_pool x).callback_arg =
      (ts.timer_pool x).callback_arg := by
  unfold smart_timer_start
  cases timer with
  | none => exact ⟨rfl, rfl⟩
  | some t =>
    dsimp only
    by_cases hid : (ts.timer_pool t).id = 0
    · rw [if_pos hid]
      exact ⟨rfl, rfl⟩
    · rw [if_neg hid]
      by_cases hst : (ts.timer_pool t).state = TIMER_RUNNING
      · rw [if_pos hst]
        exact ⟨rfl, rfl⟩
      · rw [if_neg hst]
        show (updAt ts.timer_pool t _ x).callback = _ ∧ (updAt ts.timer_pool t _ x).callback_arg = _
        exact updAt_callback _ _ _ (by rfl) (by rfl) x

theorem countingCallbacks_timers (f a : Nat) (k1 : Kernel) (ts1 : Timers) :
    (countingCallbacks f a (k1, ts1)).2 = ts1 := by
  unfold countingCallbacks
  by_cases hf : f = 0x08004000
  · rw [if_pos hf]
  · rw [if_neg hf]

theorem countingCallbacks_obs (c f a : Nat) (k1 : Kernel) (ts1 : Timers) :
    ((countingCallbacks f a (k1, ts1)).1.tasks c).parameter =
      (k1.tasks c).parameter + (if f = 0x08004000 ∧ a = c then 1 else 0) := by
  unfold countingCallbacks
  by_cases hf : f = 0x08004000
  · rw [if_pos hf]
    by_cases ha : a = c
    · rw [if_pos ⟨hf, ha⟩]
      subst ha
      show (upd k1.tasks a _ a).parameter = _
      rw [upd_same]
    · rw [if_neg (fun h => ha h.2)]
      show (upd k1.tasks a _ c).parameter = _
      rw [upd_other _ _ _ _ (fun e => ha e.symm)]
      rfl
  · rw [if_neg hf, if_neg (fun h => hf h.1)]
    rfl

/-- A started one-shot timer over any number of ticks, with the effect of the
callbacks on the kernel. -/
theorem one_shot_run_obs (cb : Callbacks) (fuel : Nat) (k : Kernel) (ts : Timers)
    (L : List Nat) (x p : Nat)
    (hcb : ∀ f a k1 ts1, (cb f a (k1, ts1)).2 = ts1)
    (hinit : ts.timer_pool_init ≠ 0)
    (hL : isTimerList ts.timer_pool ts.active_timer_list L)
    (hb : ∀ y ∈ L, y < fuel) (hxb : x < fuel) (hx : x ∉ L)
    (hid : (ts.timer_pool x).id ≠ 0) (hst : (ts.timer_pool x).state ≠ TIMER_RUNNING)
    (htype : (ts.timer_pool x).type = TIMER_ONE_SHOT)
    (hper : (ts.timer_pool x).period_ms = p) (hp : 0 < p)
    (hcall : (ts.timer_pool x).callback ≠ 0) :
    (smart_timer_start k ts (some x)).2.2 = 0 ∧
    ∀ n, ∃ s Ln s',
      timer_ticks cb fuel n
        ((smart_timer_start k ts (some x)).1, (smart_timer_start k ts (some x)).2.1) =
        some s ∧
      timer_ticks cb fuel (n + 1)
        ((smart_timer_start k ts (some x)).1, (smart_timer_start k ts (some x)).2.1) =
        some s' ∧
      isTimerList s.2.timer_pool s.2.active_timer_list Ln ∧
      (n < p → x ∈ Ln ∧ (s.2.timer_pool x).remaining_ms = p - n ∧
        (s.2.timer_pool x).state = TIMER_RUNNING) ∧
      (p ≤ n → x ∉ Ln ∧ (s.2.timer_pool x).state = TIMER_EXPIRED) ∧
      (calls_in_tick cb fuel
        ((smart_timer_start k ts (some x)).1, (smart_timer_start k ts (some x)).2.1)
        n).count x = (if n + 1 = p then 1 else 0) ∧
      ∀ (obs : Kernel → Nat) (w : Nat → Nat → Nat),
        (∀ k1, obs (smart_enter_critical k1) = obs k1) →
        (∀ k1, obs (smart_exit_critical k1) = obs k1) →
        (∀ f a k1 ts1, obs (cb f a (k1, ts1)).1 = obs k1 + w f a) →
        obs s'.1 = obs s.1 +
          ((calls_in_tick cb fuel
            ((smart_timer_start k ts (some x)).1, (smart_timer_start k ts (some x)).2.1)
            n).map (fun u => w (ts.timer_pool u).callback (ts.timer_pool u).callback_arg)).sum := by
  obtain ⟨s1, s2, s3, s4, s5, s6, s7⟩ := smart_timer_start_spec k ts x L hid hst hL hx
  refine ⟨s1, ?_⟩
  have hinv : OneShotAfter (smart_timer_start k ts (some x)).2.1 (x :: L) x p 0 := by
    refine ⟨by rw [s3]; exact hinit, s2, ?_, ?_, ?_⟩
    · rw [s6, htype]; decide
    · intro _
      exact ⟨List.mem_cons_self _ _, by rw [s4, hper]; rfl, s5⟩
    · intro h; omega
  have hb2 : ∀ y ∈ x :: L, y < fuel := by
    intro y hy
    rcases List.mem_cons.mp hy with e | h
    · rw [e]; exact hxb
    · exact hb y h
  intro n
  obtain ⟨s, Ln, r1, r2, -, -, r5⟩ :=
    one_shot_run cb hcb fuel (smart_timer_start k ts (some x)).1
      (smart_timer_start k ts (some x)).2.1 (x :: L) x p hb2 (by rw [s7]; exact hcall) hinv n
  obtain ⟨s', -, r1', -⟩ :=
    one_shot_run cb hcb fuel (smart_timer_start k ts (some x)).1
      (smart_timer_start k ts (some x)).2.1 (x :: L) x p hb2 (by rw [s7]; exact hcall) hinv
      (n + 1)
  refine ⟨s, Ln, s', r1, r1', r2.2.1, r2.2.2.2.1, ?_, r5, ?_⟩
  · intro h
    obtain ⟨a, -, b⟩ := r2.2.2.2.2 h
    exact ⟨a, b⟩
  · intro obs w h1 h2 h3
    rw [calls_in_tick_obs cb hcb obs w h1 h2 h3 fuel _ n s s' r1 r1']
    congr 2
    apply List.map_congr_left
    intro u _
    rw [(smart_timer_start_callback k ts (some x) u).1,
      (smart_timer_start_callback k ts (some x) u).2]

/-- C22 fails in these situations.  (1) `smart_timer_start` on a one-shot timer
of period 3 that is Running with 2 ticks left returns 0 and changes nothing:
one tick later 1 tick is left, and the callback runs in the second tick after
that start.  (2) The timer has been reset and is started again: it is linked in
front of itself and its callback runs twice in the first tick and once more in
the second.  (3) The timer is started behind the cyclic list left by a reset and
start of another timer, or another timer is reset and started after the start:
`smart_timer_tick` does not come to an end.  (4) The callback of another timer
stops a third timer during the walk of the list: the timer in slot 0 (period 1)
expires in the first tick, stays on the active list and its callback runs again
in the second tick.  (5) Without `smart_timer_init` the ticks do nothing: after
3 ticks the timer is Running with 3 ticks left and no callback has run. -/
theorem one_shot_timer_not_once :
    ((oneShotRestarted.2.timer_pool 0).state = TIMER_RUNNING ∧
      (oneShotRestarted.2.timer_pool 0).period_ms = 3 ∧
      (oneShotRestarted.2.timer_pool 0).remaining_ms = 2 ∧
      (timer_ticks quietCallbacks 4 1 oneShotRestarted).map
        (fun s => (s.2.timer_pool 0).remaining_ms) = some 1 ∧
      (timer_ticks quietCallbacks 4 2 oneShotRestarted).map
        (fun s => ((s.2.timer_pool 0).state, s.2.timer_stats.callback_count)) =
        some (TIMER_EXPIRED, 1)) ∧
    ((oneShotResetStarted.2.timer_pool 0).period_ms = 3 ∧
      (oneShotResetStarted.2.timer_pool 0).next = some 0 ∧
      (timer_ticks quietCallbacks 64 1 oneShotResetStarted).map
        (fun s => s.2.timer_stats.callback_count) = some 2 ∧
      (timer_ticks quietCallbacks 64 2 oneShotResetStarted).map
        (fun s => s.2.timer_stats.callback_count) = some 3) ∧
    ((smart_timer_tick quietCallbacks 64 oneShotBehindCycle.1
        oneShotBehindCycle.2).isNone = true ∧
      (smart_timer_tick quietCallbacks 64 oneShotThenCycle.1
        oneShotThenCycle.2).isNone = true) ∧
    (isTimerList stopperScene.2.timer_pool stopperScene.2.active_timer_list [2, 1, 0] ∧
      (stopperScene.2.timer_pool 0).period_ms = 1 ∧
      calls_in_tick stopSelfCallbacks 16 stopperScene 0 = [1, 0] ∧
      calls_in_tick stopSelfCallbacks 16 stopperScene 1 = [0] ∧
      (timer_ticks stopSelfCallbacks 16 1 stopperScene).map
        (fun s => ((s.2.timer_pool 0).state,
          decide (isTimerList s.2.timer_pool s.2.active_timer_list [0]),
          s.2.timer_stats.callback_count)) = some (TIMER_EXPIRED, true, 2) ∧
      (timer_ticks stopSelfCallbacks 16 2 stopperScene).map
        (fun s => s.2.timer_stats.callback_count) = some 3) ∧
    (oneShotUninit.2.timer_pool_init = 0 ∧
      (timer_ticks quietCallbacks 4 3 oneShotUninit).map
        (fun s => ((s.2.timer_pool 0).state, (s.2.timer_pool 0).remaining_ms,
          s.2.timer_stats.callback_count)) = some (TIMER_RUNNING, 3, 0)) := by
  decide

/-- C22 (amended): the timer system is initialised, the active list `L` is
well-formed and the callbacks leave the timers alone.  A live one-shot timer `x`
with a callback, which is neither Running nor on the active list, is started
with period `p`, and only ticks follow (no timer call in between).  The start returns 0; every number of
ticks returns; after `n < p` ticks the timer is Running on the active list with
`p - n` ticks remaining; from `n = p` on it is Expired and off the active list;
tick number `n + 1` invokes its callback once when `n + 1 = p` and not at all
otherwise, whatever other timers `L` holds; and the callbacks listed for a tick
are exactly those applied to the kernel in it: an observable of the kernel that
a call of the callback `f` with argument `a` raises by `w f a`, and that the
critical section leaves alone, grows in the tick by the sum of `w` over the
list. -/
theorem one_shot_timer_fires_once (cb : Callbacks) (fuel : Nat) (k : Kernel) (ts : Timers)
    (L : List Nat) (x p : Nat)
    (hcb : ∀ f a k1 ts1, (cb f a (k1, ts1)).2 = ts1)
    (hinit : ts.timer_pool_init ≠ 0)
    (hL : isTimerList ts.timer_pool ts.active_timer_list L)
    (hb : ∀ y ∈ L, y < fuel) (hxb : x < fuel) (hx : x ∉ L)
    (hid : (ts.timer_pool x).id ≠ 0) (hst : (ts.timer_pool x).state ≠ TIMER_RUNNING)
    (htype : (ts.timer_pool x).type = TIMER_ONE_SHOT)
    (hper : (ts.timer_pool x).period_ms = p) (hp : 0 < p)
    (hcall : (ts.timer_pool x).callback ≠ 0) :
    (smart_timer_start k ts (some x)).2.2 = 0 ∧
    ∀ n, ∃ s Ln s',
      timer_ticks cb fuel n
        ((smart_timer_start k ts (some x)).1, (smart_timer_start k ts (some x)).2.1) =
        some s ∧
      timer_ticks cb fuel (n + 1)
        ((smart_timer_start k ts (some x)).1, (smart_timer_start k ts (some x)).2.1) =
        some s' ∧
      isTimerList s.2.timer_pool s.2.active_timer_list Ln ∧
      (n < p → x ∈ Ln ∧ (s.2.timer_pool x).remaining_ms = p - n ∧
        (s.2.timer_pool x).state = TIMER_RUNNING) ∧
      (p ≤ n → x ∉ Ln ∧ (s.2.timer_pool x).state = TIMER_EXPIRED) ∧
      (calls_in_tick cb fuel
        ((smart_timer_start k ts (some x)).1, (smart_timer_start k ts (some x)).2.1)
        n).count x = (if n + 1 = p then 1 else 0) ∧
      ∀ (obs : Kernel → Nat) (w : Nat → Nat → Nat),
        (∀ k1, obs (smart_enter_critical k1) = obs k1) →
        (∀ k1, obs (smart_exit_critical k1) = obs k1) →
        (∀ f a k1 ts1, obs (cb f a (k1, ts1)).1 = obs k1 + w f a) →
        obs s'.1 = obs s.1 +
          ((calls_in_tick cb fuel
            ((smart_timer_start k ts (some x)).1, (smart_timer_start k ts (some x)).2.1)
            n).map (fun u => w (ts.timer_pool u).callback (ts.timer_pool u).callback_arg)).sum :=
  one_shot_run_obs cb fuel k ts L x p hcb hinit hL hb hxb hx hid hst htype hper hp hcall

theorem one_shot_timer_fires_once_witness :
    countedCreated.2.1.timer_pool_init ≠ 0 ∧
    isTimerList countedCreated.2.1.timer_pool countedCreated.2.1.active_timer_list [0] ∧
    (countedCreated.2.1.timer_pool 1).state ≠ TIMER_RUNNING ∧
    ∃ s s', timer_ticks countingCallbacks 16 2 countedStarted = some s ∧
      timer_ticks countingCallbacks 16 3 countedStarted = some s' ∧
      (s.2.timer_pool 1).remaining_ms = 1 ∧
      (s'.1.tasks 7).parameter = (s.1.tasks 7).parameter + 1 := by
  obtain ⟨-, h⟩ := one_shot_timer_fires_once countingCallbacks 16 countedCreated.1
    countedCreated.2.1 [0] 1 3 countingCallbacks_timers (by decide) (by decide) (by decide)
    (by decide) (by decide) (by decide) (by decide) (by decide) (by decide) (by decide)
    (by decide)
  obtain ⟨s, Ln, s', r1, r2, -, r4, -, -, r7⟩ := h 2
  have hobs := r7 (fun k1 => (k1.tasks 7).parameter)
    (fun f a => if f = 0x08004000 ∧ a = 7 then 1 else 0)
    (fun k1 => by
      show ((smart_enter_critical k1).tasks 7).parameter = _
      rw [smart_enter_critical_tasks])
    (fun k1 => by
      show ((smart_exit_critical k1).tasks 7).parameter = _
      rw [smart_exit_critical_tasks])
    (fun f a k1 ts1 => countingCallbacks_obs 7 f a k1 ts1)
  have hsum : ((calls_in_tick countingCallbacks 16
      ((smart_timer_start countedCreated.1 countedCreated.2.1 (some 1)).1,
       (smart_timer_start countedCreated.1 countedCreated.2.1 (some 1)).2.1) 2).map
      (fun u => if (countedCreated.2.1.timer_pool u).callback = 0x08004000 ∧
        (countedCreated.2.1.timer_pool u).callback_arg = 7 then 1 else 0)).sum = 1 := by
    decide
  rw [hsum] at hobs
  exact ⟨by decide, by decide, by decide, s, s', r1, r2, (r4 (by decide)).2.1, hobs⟩

/-! ## Tasks cut off the task list -/

/-- C24: T1 calls `smart_delay(6)` at tick 0 and is Delayed with
`wakeup_time = 6`, on the task list T2, T1, idle; left alone, the sixth run of
the tick handler makes it Ready.  But at tick 4 T2 runs and blocks in
`smart_sem_wait`, which writes `NULL` into the `next` field of T2 and so cuts T1
off the task list: the runs of the tick handler in which `os_tick` reaches 6,
and all runs up to tick 24, leave T1 Delayed. -/
theorem delayed_task_cut_off_not_woken :
    emaFirstYield.current_task = some 1 ∧ emaFirstYield.os_tick = 0 ∧
    (smart_delay 4 emaFirstYield 6).isSome = true ∧
    (t1Delayed.tasks 1).state = TASK_STATE_DELAYED ∧
    (t1Delayed.tasks 1).wakeup_time = 6 ∧
    isChain t1Delayed.tasks t1Delayed.task_list [2, 1, 0] ∧
    (tick_n 4 6 t1Delayed).map (fun k => ((k.tasks 1).state, k.os_tick)) =
      some (TASK_STATE_READY, 6) ∧
    (sem_wait_all 4 [2] ((tick_n 4 4 t1Delayed).getD t1Delayed) emptySem).isSome = true ∧
    t1DelayedCutOff.1.os_tick = 4 ∧
    isChain t1DelayedCutOff.1.tasks t1DelayedCutOff.1.task_list [2] ∧
    (t1DelayedCutOff.1.tasks 1).state = TASK_STATE_DELAYED ∧
    (tick_n 4 2 t1DelayedCutOff.1).map
      (fun k => ((k.tasks 1).state, (k.tasks 1).wakeup_time, k.os_tick)) =
      some (TASK_STATE_DELAYED, 6, 6) ∧
    (tick_n 4 20 t1DelayedCutOff.1).map
      (fun k => ((k.tasks 1).state, (k.tasks 1).wakeup_time, k.os_tick)) =
      some (TASK_STATE_DELAYED, 6, 24) := by
  decide

/-- A Waiting periodic task that is cut off the task list is not released: T1
(period 10) yields at tick 0 and is Waiting for its arrival at tick 10; at tick
4 T2 runs and blocks in `smart_sem_wait`, which cuts T1 off the task list; the
runs of the tick handler up to tick 24 leave T1 Waiting. -/
theorem waiting_task_cut_off_not_released :
    (t1WaitingCutOff.1.tasks 1).state = TASK_STATE_WAITING ∧
    (t1WaitingCutOff.1.tasks 1).period = 10 ∧
    (t1WaitingCutOff.1.tasks 1).arrival = 10 ∧
    t1WaitingCutOff.1.os_tick = 4 ∧
    isChain t1WaitingCutOff.1.tasks t1WaitingCutOff.1.task_list [2] ∧
    (tick_n 4 6 t1WaitingCutOff.1).map (fun k => ((k.tasks 1).state, k.os_tick)) =
      some (TASK_STATE_WAITING, 10) ∧
    (tick_n 4 20 t1WaitingCutOff.1).map (fun k => ((k.tasks 1).state, k.os_tick)) =
      some (TASK_STATE_WAITING, 24) := by
  decide

end SmartOS
